import Mathlib

/-!
# Debug Adapter Protocol type catalogue (go-language-server/dap)

The repository consists of two generated Go files, `protocol/dap.go` and
`adapter/adapter.go`.  Both contain nothing but struct declarations whose fields
carry `json:"name,omitempty"` tags.  The behaviour of the program is therefore
the behaviour of `encoding/json` on these declarations: `json.Marshal` for
serialising a message and `json.Unmarshal` for parsing one.

The development below has four layers.

* `JSON`, `Float64`, `Value`, `GoType`, `StructDecl`: documents, Go values and
  the struct declarations as data.
* `marshal`, `unmarshal`: the rules of `encoding/json` that these declarations
  exercise (`omitempty`, nil pointers, slices, maps, `interface{}` targets,
  member lookup by exact name and then by case folding, type errors).
* `Protocol.*`, `Adapter.*`: the declarations of the two files, field by field
  in source order.
* `SessionEngine`, `CorrelationTable`: the session engine and the correlation
  table that the specification places on top of the catalogue.  The repository
  has no code for them; their definitions follow the specification and say so.

Conventions of the model.

* A JSON document is a tree.  `JSON.num m e` is the number literal whose value is
  `m * 10 ^ e`; an integer literal such as `42` is `JSON.num 42 0`.
* A finite `float64` is `Float64.finite m e`, the number `m * 2 ^ e`, kept in
  lowest terms (`m` odd, or `m = 0` and `e = 0`).  Negative zero is the value
  `Float64.negZero`: it is read from the literal `JSON.negZero`, written as that
  literal, equal to zero under `Float64.eq` (Go's `==`), and empty for `omitempty`.
* Reading a number goes through `Float64.ofDecimal`, round to nearest, ties to
  even, failing above the largest finite value, like `strconv.ParseFloat`.
  Writing a number goes through `Float64.toDecimal`, the literal with the fewest
  digits that reads back as the same float, like `strconv.AppendFloat` with
  precision `-1`: `0.1` is written `JSON.num 1 (-1)`, `100` is written
  `JSON.num 100 0` and `1e+21` is written `JSON.num 1 21`.
* A Go string that is valid UTF-8 is a `String` (`Value.string`); one that is not is
  given by its bytes (`Value.bytes`), and `json.Marshal` writes U+FFFD for each byte
  of it that begins no well-formed encoding, so such a string does not survive a round
  trip.  The strings and member names of documents are `String`s, a parser handing
  out valid UTF-8 only, and so are the keys of maps: a map key that is not valid UTF-8
  has no counterpart here.
* `unmarshal` refuses a document whose arrays and objects nest deeper than
  `maxNestingDepth = 10000`, as the scanner of `encoding/json` does; `marshal` has no
  such limit.
* Pointers are modelled by the value they point to: `Value.ptr v` is a non-nil
  pointer to `v`; sharing between pointers is not represented.  A Go value that
  reaches itself through its pointers is unfolded up to the pointer that leads back
  to a struct already entered, which is `Value.backref`; `json.Marshal` refuses such
  a value.
* A Go map with string keys is an association list sorted by key without
  repeated keys, so two equal maps are the same list.
* An `interface{}` holds nil or a value of one of the dynamic types bool, float64,
  string, `[]interface{}`, `map[string]interface{}` or pointer to a struct of the
  package.
* When a member name occurs twice in an object, the second occurrence is decoded
  into the variable as the first one left it: scalars and interfaces are
  overwritten, pointed-to structs and maps are merged.  The elements of a slice
  are always decoded into fresh elements; Go reuses the elements of the slice left
  by an earlier occurrence, so model and Go may differ on a repeated slice member.
-/

namespace DAP

/-! ## Documents -/

/-- JSON documents as trees; `num m e` is the literal of value `m * 10 ^ e`, and `negZero`
is a literal of value zero with a minus sign, such as `-0`. -/
inductive JSON where
  | null
  | bool (b : Bool)
  | num (m : Int) (e : Int)
  | str (s : String)
  | arr (xs : List JSON)
  | obj (ms : List (String × JSON))
  | negZero
  deriving Repr, Inhabited

mutual
/-- Nesting depth of a document: the number of arrays and objects, one within the other,
that its deepest value lies in. -/
def JSON.depth : JSON → Nat
  | .arr xs => JSON.depthList xs + 1
  | .obj ms => JSON.depthMembers ms + 1
  | _ => 0
/-- Greatest nesting depth among the elements of an array. -/
def JSON.depthList : List JSON → Nat
  | [] => 0
  | x :: xs => max (JSON.depth x) (JSON.depthList xs)
/-- Greatest nesting depth among the members of an object. -/
def JSON.depthMembers : List (String × JSON) → Nat
  | [] => 0
  | (_, x) :: ms => max (JSON.depth x) (JSON.depthMembers ms)
end

/-- The constant `maxNestingDepth` of the scanner of `encoding/json`: a document with
arrays and objects nested deeper than this is refused. -/
def maxNestingDepth : Nat := 10000

/-! ## float64 -/

/-- Go float64 values: `finite m e` is `m * 2 ^ e`. -/
inductive Float64 where
  | finite (m : Int) (e : Int)
  | nan
  | inf (neg : Bool)
  | negZero
  deriving DecidableEq, Repr, Inhabited

/-- Number of binary digits of `n`, computed with `n` itself as the recursion bound. -/
def bitLenAux : Nat → Nat → Nat
  | 0, _ => 0
  | fuel + 1, n => if n = 0 then 0 else bitLenAux fuel (n / 2) + 1

/-- Number of binary digits of `n` (`0` for `0`). -/
def bitLen (n : Nat) : Nat := bitLenAux n n

/-- Remove the factors of two of `m`, moving them into the exponent. -/
def stripTwosAux : Nat → Nat → Int → Nat × Int
  | 0, m, e => (m, e)
  | fuel + 1, m, e => if m % 2 = 0 then stripTwosAux fuel (m / 2) (e + 1) else (m, e)

/-- Lowest-terms form of `m * 2 ^ e`. -/
def stripTwos (m : Nat) (e : Int) : Nat × Int :=
  if m = 0 then (0, 0) else stripTwosAux m m e

/-- Nearest integer to `n / d`, ties to the even one. -/
def roundHalfEven (n d : Nat) : Nat :=
  let q := n / d
  let r := n % d
  if 2 * r > d ∨ (2 * r = d ∧ q % 2 = 1) then q + 1 else q

/-- The fraction `n / (d * 2 ^ s)` as a pair numerator, denominator. -/
def scale (n d : Nat) (s : Int) : Nat × Nat :=
  (n * 2 ^ (-s).toNat, d * 2 ^ s.toNat)

/-- Exponent of the unit in the last place of the float64 nearest to `n / d`:
the one that leaves 53 significant bits, but never below `-1074`. -/
def binExp (n d : Nat) : Int :=
  let s : Int := (bitLen n : Int) - (bitLen d : Int) - 52
  let p := scale n d s
  let s := if p.1 / p.2 < 2 ^ 52 then s - 1 else s
  if s < -1074 then -1074 else s

/-- Round the positive fraction `n / d` to float64: mantissa and exponent in lowest
terms, or `none` when the result exceeds the largest finite float64. -/
def roundPos (n d : Nat) : Option (Nat × Int) :=
  let s := binExp n d
  let p := scale n d s
  let q := roundHalfEven p.1 p.2
  if (bitLen q : Int) + s > 1024 then none else some (stripTwos q s)

/-- Number of decimal digits of `n`, computed with a recursion bound. -/
def decLenAux : Nat → Nat → Nat
  | 0, _ => 0
  | fuel + 1, n => if n = 0 then 0 else decLenAux fuel (n / 10) + 1

/-- Number of decimal digits of `n` (`0` for `0`). -/
def decLen (n : Nat) : Nat := decLenAux n n

/-- The way `encoding/json` lays out the digits `c` with the power of ten `k`: a float64
below `10 ^ 21` in magnitude is written positionally (format `f`), so an integer comes as
the integer literal `c * 10 ^ k`; from `10 ^ 21` on the exponent notation (format `e`)
keeps the digits `c`. -/
def layout (positional : Bool) (c : Nat) (k : Int) : Nat × Int :=
  if positional = true ∧ 0 ≤ k then (c * 10 ^ k.toNat, 0) else (c, k)

/-- Remove the trailing zeros of the digits `c`, moving them into the power of ten. -/
def stripTensAux : Nat → Nat → Int → Nat × Int
  | 0, c, k => (c, k)
  | fuel + 1, c, k => if c % 10 = 0 then stripTensAux fuel (c / 10) (k + 1) else (c, k)

/-- The digits `c` with the power of ten `k`, without trailing zeros, laid out. -/
def candidate (positional : Bool) (c : Nat) (k : Int) : Nat × Int :=
  layout positional (stripTensAux c c k).1 (stripTensAux c c k).2

namespace Float64

/-- The float64 zero value. -/
def zero : Float64 := .finite 0 0

/-- The values a float64 variable can hold: lowest terms, at most 53 significant
bits, exponent at least `-1074`, magnitude below `2 ^ 1024`. -/
def valid : Float64 → Bool
  | .finite m e =>
      if m = 0 then e == 0
      else m % 2 != 0 && decide (m.natAbs < 2 ^ 53) && decide (-1074 ≤ e)
        && decide ((bitLen m.natAbs : Int) + e ≤ 1024)
  | .nan => true
  | .inf _ => true
  | .negZero => true

/-- Finite values: the ones `encoding/json` can write. -/
def isFinite : Float64 → Bool
  | .finite _ _ => true
  | .negZero => true
  | _ => false

/-- Counterpart of `==` on float64: NaN equals nothing, the two zeros are equal. -/
def eq : Float64 → Float64 → Bool
  | .nan, _ => false
  | _, .nan => false
  | .negZero, b => b == .negZero || b == zero
  | a, .negZero => a == zero
  | a, b => a == b

/-- Counterpart of `strconv.ParseFloat(s, 64)` on the literal `m * 10 ^ e`: the nearest
float64, or `none` for a literal out of range.  A negative literal too small for any
float64 other than zero is read as negative zero. -/
def ofDecimal (m : Int) (e : Int) : Option Float64 :=
  if m = 0 then some zero
  else
    match roundPos (m.natAbs * 10 ^ e.toNat) (10 ^ (-e).toNat) with
    | none => none
    | some (q, s) =>
        if m < 0 then some (if q = 0 then .negZero else .finite (-(q : Int)) s)
        else some (.finite (q : Int) s)

/-- The float64 nearest to an integer. -/
def ofInt (n : Int) : Option Float64 := ofDecimal n 0

/-- Exact decimal value of a finite float64 as mantissa and power of ten. -/
def exactDecimal : Float64 → Option (Int × Int)
  | .finite m e => some (m * 2 ^ e.toNat * 5 ^ (-e).toNat, if e < 0 then e else 0)
  | _ => none

/-- Whether the literal `p.1 * 10 ^ p.2`, with a minus sign when `neg`, is read as `f`. -/
def readsAs (f : Float64) (neg : Bool) (p : Nat × Int) : Bool :=
  ofDecimal (if neg then -(p.1 : Int) else (p.1 : Int)) p.2 == some f

/-- Search for the shortest digits that are read back as `f`, whose exact decimal value is
`n * 10 ^ k`.  With `r` digits of `n` dropped the two candidates are `n` cut off and `n`
cut off plus one; the first `r`, counting down, at which a candidate is read as `f` gives
the result, the nearer candidate if both are, the even one on a tie.  When no shorter
literal is read as `f` the result is `n` itself.  (No float64 needs more than 17 digits,
so the search ends within the first 17 steps.) -/
def shortestAux (f : Float64) (neg pos : Bool) (n : Nat) (k : Int) : Nat → Nat → Nat × Int
  | 0, _ => (n, k)
  | fuel + 1, r =>
      if r = 0 then (n, k)
      else
        let lo := candidate pos (n / 10 ^ r) (k + r)
        let hi := candidate pos (n / 10 ^ r + 1) (k + r)
        if readsAs f neg lo && readsAs f neg hi then
          if 2 * (n % 10 ^ r) > 10 ^ r ∨ (2 * (n % 10 ^ r) = 10 ^ r ∧ (n / 10 ^ r) % 2 = 1)
          then hi else lo
        else if readsAs f neg lo then lo
        else if readsAs f neg hi then hi
        else shortestAux f neg pos n k fuel (r - 1)

/-- Counterpart of `strconv.AppendFloat(b, f, fmt, -1, 64)` as `encoding/json` calls it:
the literal with the fewest digits that is read back as `f`, as mantissa and power of
ten, positional below `10 ^ 21` in magnitude and in exponent notation from there on. -/
def toDecimal : Float64 → Option (Int × Int)
  | .finite m e =>
      let n := m.natAbs * 2 ^ e.toNat * 5 ^ (-e).toNat
      let k : Int := if e < 0 then e else 0
      let pos := decide (n < 10 ^ 21 * 10 ^ (-k).toNat)
      let s := shortestAux (.finite m e) (decide (m < 0)) pos n k (decLen n) (decLen n - 1)
      some (if m < 0 then -(s.1 : Int) else (s.1 : Int), s.2)
  | _ => none

end Float64

/-! ## Go values and declarations -/

/-- The field types that occur in the two source files. -/
inductive GoType where
  | bool
  | float64
  | string
  | iface
  | ptr (struct : String)
  | slice (elem : GoType)
  | mapString (elem : GoType)
  deriving DecidableEq, Repr, Inhabited

/-- One struct field with its `json` tag. -/
structure Field where
  name : String
  type : GoType
  tag : String
  omitempty : Bool
  deriving DecidableEq, Repr, Inhabited

/-- One `type T struct` declaration. -/
structure StructDecl where
  name : String
  fields : List Field
  deriving DecidableEq, Repr, Inhabited

/-- The struct declarations of one Go package. -/
abbrev Package := List StructDecl

/-- Go values.  `nil` is the nil pointer, nil interface, nil slice or nil map;
`ptr`, `iface`, `slice` and `map` are the non-nil ones.  `string` is a Go string that is
valid UTF-8, `bytes` one that is not, given by its bytes.  `backref k` is a non-nil
pointer that leads back to a struct that holds it, the `k`-th enclosing one counted
outwards. -/
inductive Value where
  | bool (b : Bool)
  | float64 (f : Float64)
  | string (s : String)
  | nil
  | ptr (v : Value)
  | iface (v : Value)
  | slice (vs : List Value)
  | map (kvs : List (String × Value))
  | struct (name : String) (fields : List Value)
  | bytes (bs : List Nat)
  | backref (k : Nat)
  deriving Repr, Inhabited

/-- Declaration of the struct called `n`. -/
def Package.find (pkg : Package) (n : String) : Option StructDecl :=
  List.find? (fun d => d.name == n) pkg

/-- Zero value of a type. -/
def zeroValue : GoType → Value
  | .bool => .bool false
  | .float64 => .float64 Float64.zero
  | .string => .string ""
  | .iface => .nil
  | .ptr _ => .nil
  | .slice _ => .nil
  | .mapString _ => .nil

/-- Zero value of a struct. -/
def zeroStruct (d : StructDecl) : Value :=
  .struct d.name (d.fields.map (fun f => zeroValue f.type))

/-- Counterpart of `isEmptyValue` in `encoding/json`: false, a number equal to 0 (either
zero), the empty string, a nil pointer or interface, and any slice or map of length
zero. -/
def isEmptyValue : Value → Bool
  | .bool b => !b
  | .float64 f => f.eq Float64.zero
  | .string s => s.data.isEmpty
  | .nil => true
  | .ptr _ => false
  | .iface _ => false
  | .slice vs => vs.isEmpty
  | .map kvs => kvs.isEmpty
  | .struct _ _ => false
  | .bytes bs => bs.isEmpty
  | .backref _ => false

/-! ## Strings: UTF-8, ordering and case folding -/

/-- Whether the byte `b` lies between `lo` and `hi`. -/
def byteIn (lo hi b : Nat) : Bool := decide (lo ≤ b) && decide (b ≤ hi)

/-- Counterpart of `utf8.DecodeRune` at the head of a byte sequence: the code point and the
bytes after it when the sequence begins with a well-formed UTF-8 encoding, `none` when it
does not, where Go yields `RuneError` with width 1. -/
def decodeRune : List Nat → Option (Nat × List Nat)
  | [] => none
  | b0 :: rest =>
      if b0 < 0x80 then some (b0, rest)
      else if byteIn 0xC2 0xDF b0 then
        match rest with
        | b1 :: r =>
            if byteIn 0x80 0xBF b1 then some ((b0 % 32) * 64 + b1 % 64, r) else none
        | _ => none
      else if byteIn 0xE0 0xEF b0 then
        match rest with
        | b1 :: b2 :: r =>
            if byteIn (if b0 = 0xE0 then 0xA0 else 0x80) (if b0 = 0xED then 0x9F else 0xBF) b1
              && byteIn 0x80 0xBF b2
            then some ((b0 % 16) * 4096 + (b1 % 64) * 64 + b2 % 64, r) else none
        | _ => none
      else if byteIn 0xF0 0xF4 b0 then
        match rest with
        | b1 :: b2 :: b3 :: r =>
            if byteIn (if b0 = 0xF0 then 0x90 else 0x80) (if b0 = 0xF4 then 0x8F else 0xBF) b1
              && byteIn 0x80 0xBF b2 && byteIn 0x80 0xBF b3
            then some ((b0 % 8) * 262144 + (b1 % 64) * 4096 + (b2 % 64) * 64 + b3 % 64, r)
            else none
        | _ => none
      else none

/-- Whether a byte sequence is valid UTF-8, with the number of bytes as recursion bound. -/
def validUTF8Aux : Nat → List Nat → Bool
  | _, [] => true
  | 0, _ :: _ => false
  | fuel + 1, b :: rest =>
      match decodeRune (b :: rest) with
      | some (_, r) => validUTF8Aux fuel r
      | none => false

/-- Counterpart of `utf8.Valid`. -/
def validUTF8 (bs : List Nat) : Bool := validUTF8Aux bs.length bs

/-- The code points that `encoding/json` writes for a byte sequence: those of the
well-formed encodings, and U+FFFD for every byte that begins none. -/
def coerceUTF8Aux : Nat → List Nat → List Char
  | _, [] => []
  | 0, _ :: _ => []
  | fuel + 1, b :: rest =>
      match decodeRune (b :: rest) with
      | some (c, r) => Char.ofNat c :: coerceUTF8Aux fuel r
      | none => Char.ofNat 0xFFFD :: coerceUTF8Aux fuel rest

/-- The string that `encoding/json` writes for a Go string with the bytes `bs`. -/
def coerceUTF8 (bs : List Nat) : String := String.mk (coerceUTF8Aux bs.length bs)

/-- Lexicographic order on code points, the order in which Go sorts map keys. -/
def ltChars : List Char → List Char → Bool
  | [], [] => false
  | [], _ :: _ => true
  | _ :: _, [] => false
  | a :: as, b :: bs => a.toNat < b.toNat || (a.toNat == b.toNat && ltChars as bs)

/-- Order on keys. -/
def keyLt (a b : String) : Bool := ltChars a.data b.data

/-- Case folding of one rune as far as it can meet an ASCII letter: ASCII lower case
goes to upper case, the Kelvin sign to `K`, the long s to `S`. -/
def foldRune (c : Char) : Char :=
  if c.toNat = 0x212A then 'K'
  else if c.toNat = 0x17F then 'S'
  else if 97 ≤ c.toNat ∧ c.toNat ≤ 122 then Char.ofNat (c.toNat - 32)
  else c

/-- Folded form of a member name. -/
def foldName (s : String) : List Char := s.data.map foldRune

/-- Index of the first element that satisfies `p`. -/
def indexWhere {α : Type} (p : α → Bool) : List α → Option Nat
  | [] => none
  | a :: as => if p a then some 0 else (indexWhere p as).map (fun i => i + 1)

/-- Index of the field a JSON member named `key` is stored in: the field whose tag is
exactly `key`, otherwise the first field whose tag equals `key` up to case folding. -/
def findField (fields : List Field) (key : String) : Option Nat :=
  match indexWhere (fun f => f.tag == key) fields with
  | some i => some i
  | none => indexWhere (fun f => foldName f.tag == foldName key) fields

/-- Insert or overwrite a key of an association list sorted by key. -/
def insertEntry {α : Type} (k : String) (a : α) : List (String × α) → List (String × α)
  | [] => [(k, a)]
  | (k', a') :: rest =>
      if k == k' then (k, a) :: rest
      else if keyLt k k' then (k, a) :: (k', a') :: rest
      else (k', a') :: insertEntry k a rest

/-- Sort members by name. -/
def sortMembers : List (String × JSON) → List (String × JSON)
  | [] => []
  | (k, j) :: rest => insertEntry k j (sortMembers rest)

/-! ## Serialising: json.Marshal -/

/-- Errors of `json.Marshal`. -/
inductive MarshalError where
  | unsupportedValue
  | illTyped
  deriving DecidableEq, Repr, Inhabited

mutual
/-- Counterpart of `json.Marshal` on a value of package `pkg`.  A number is written by
`Float64.toDecimal`, negative zero as the literal `-0`; `unsupportedValue` is the error
for NaN, the infinities and a pointer that leads back to a struct that holds it; a string
that is not valid UTF-8 is written with U+FFFD in place of the offending bytes; `illTyped`
is returned for a struct value that does not match its declaration, which no Go value
does. -/
def marshal (pkg : Package) : Value → Except MarshalError JSON
  | .bool b => .ok (.bool b)
  | .float64 f =>
      match f.toDecimal with
      | some (m, e) => .ok (.num m e)
      | none => if f = .negZero then .ok .negZero else .error .unsupportedValue
  | .string s => .ok (.str s)
  | .bytes bs => .ok (.str (coerceUTF8 bs))
  | .backref _ => .error .unsupportedValue
  | .nil => .ok .null
  | .ptr v => marshal pkg v
  | .iface v => marshal pkg v
  | .slice vs =>
      match marshalList pkg vs with
      | .ok js => .ok (.arr js)
      | .error err => .error err
  | .map kvs =>
      match marshalEntries pkg kvs with
      | .ok ms => .ok (.obj (sortMembers ms))
      | .error err => .error err
  | .struct n vs =>
      match pkg.find n with
      | none => .error .illTyped
      | some d =>
          match marshalFields pkg d.fields vs with
          | .ok ms => .ok (.obj ms)
          | .error err => .error err
/-- Elements of a slice, in order. -/
def marshalList (pkg : Package) : List Value → Except MarshalError (List JSON)
  | [] => .ok []
  | v :: vs =>
      match marshal pkg v, marshalList pkg vs with
      | .ok j, .ok js => .ok (j :: js)
      | .error err, _ => .error err
      | _, .error err => .error err
/-- Entries of a map. -/
def marshalEntries (pkg : Package) : List (String × Value) → Except MarshalError (List (String × JSON))
  | [] => .ok []
  | (k, v) :: kvs =>
      match marshal pkg v, marshalEntries pkg kvs with
      | .ok j, .ok ms => .ok ((k, j) :: ms)
      | .error err, _ => .error err
      | _, .error err => .error err
/-- Fields of a struct in declaration order; an `omitempty` field holding an empty value
is skipped. -/
def marshalFields (pkg : Package) : List Field → List Value → Except MarshalError (List (String × JSON))
  | [], [] => .ok []
  | f :: fs, v :: vs =>
      if f.omitempty && isEmptyValue v then marshalFields pkg fs vs
      else
        match marshal pkg v, marshalFields pkg fs vs with
        | .ok j, .ok ms => .ok ((f.tag, j) :: ms)
        | .error err, _ => .error err
        | _, .error err => .error err
  | [], _ :: _ => .error .illTyped
  | _ :: _, [] => .error .illTyped
end

/-! ## Parsing: json.Unmarshal -/

/-- Errors of `json.Unmarshal` on a syntactically valid document; `maxDepth` is the error
of a document nested deeper than `maxNestingDepth`. -/
inductive UnmarshalError where
  | typeError
  | illTyped
  | maxDepth
  deriving DecidableEq, Repr, Inhabited

mutual
/-- Decoding into an `interface{}`: nil for `null`, otherwise bool, float64, string,
`[]interface{}` or `map[string]interface{}`.  The nesting depth of the document is checked
beforehand, in `unmarshal`. -/
def decodeIface : JSON → Except UnmarshalError Value
  | .null => .ok .nil
  | .negZero => .ok (.iface (.float64 .negZero))
  | .bool b => .ok (.iface (.bool b))
  | .num m e =>
      match Float64.ofDecimal m e with
      | some f => .ok (.iface (.float64 f))
      | none => .error .typeError
  | .str s => .ok (.iface (.string s))
  | .arr xs =>
      match decodeIfaceList xs with
      | .ok vs => .ok (.iface (.slice vs))
      | .error err => .error err
  | .obj ms =>
      match decodeIfaceMembers ms [] with
      | .ok kvs => .ok (.iface (.map kvs))
      | .error err => .error err
/-- Elements of an array decoded into `[]interface{}`. -/
def decodeIfaceList : List JSON → Except UnmarshalError (List Value)
  | [] => .ok []
  | x :: xs =>
      match decodeIface x, decodeIfaceList xs with
      | .ok v, .ok vs => .ok (v :: vs)
      | .error err, _ => .error err
      | _, .error err => .error err
/-- Members of an object decoded into `map[string]interface{}`; a later member with the
same name overwrites the earlier one. -/
def decodeIfaceMembers : List (String × JSON) → List (String × Value) → Except UnmarshalError (List (String × Value))
  | [], acc => .ok acc
  | (k, x) :: ms, acc =>
      match decodeIface x with
      | .ok v => decodeIfaceMembers ms (insertEntry k v acc)
      | .error err => .error err
end

mutual
/-- Decoding a document into a variable of type `t` that currently holds `cur`.
`null` resets pointers, interfaces, slices and maps to nil and leaves other
variables alone; a document of the wrong kind is a type error. -/
def decode (pkg : Package) : GoType → JSON → Value → Except UnmarshalError Value
  | t, .null, cur =>
      match t with
      | .bool => .ok cur
      | .float64 => .ok cur
      | .string => .ok cur
      | _ => .ok .nil
  | .bool, .bool b, _ => .ok (.bool b)
  | .float64, .negZero, _ => .ok (.float64 .negZero)
  | .iface, .negZero, _ => .ok (.iface (.float64 .negZero))
  | .float64, .num m e, _ =>
      match Float64.ofDecimal m e with
      | some f => .ok (.float64 f)
      | none => .error .typeError
  | .string, .str s, _ => .ok (.string s)
  | .iface, .bool b, _ => .ok (.iface (.bool b))
  | .iface, .num m e, _ =>
      match Float64.ofDecimal m e with
      | some f => .ok (.iface (.float64 f))
      | none => .error .typeError
  | .iface, .str s, _ => .ok (.iface (.string s))
  | .iface, .arr xs, _ =>
      match decodeIfaceList xs with
      | .ok vs => .ok (.iface (.slice vs))
      | .error err => .error err
  | .iface, .obj ms, _ =>
      match decodeIfaceMembers ms [] with
      | .ok kvs => .ok (.iface (.map kvs))
      | .error err => .error err
  | .ptr n, .obj ms, cur =>
      match pkg.find n with
      | none => .error .illTyped
      | some d =>
          let start := match cur with
            | .ptr (.struct _ vs) => vs
            | _ => d.fields.map (fun f => zeroValue f.type)
          match decodeFields pkg d.fields ms start with
          | .ok vs => .ok (.ptr (.struct n vs))
          | .error err => .error err
  | .slice t, .arr xs, _ =>
      match decodeList pkg t xs with
      | .ok vs => .ok (.slice vs)
      | .error err => .error err
  | .mapString t, .obj ms, cur =>
      let start := match cur with
        | .map kvs => kvs
        | _ => []
      match decodeEntries pkg t ms start with
      | .ok kvs => .ok (.map kvs)
      | .error err => .error err
  | _, _, _ => .error .typeError
/-- Elements of an array decoded into a slice of `t`, each into a fresh element. -/
def decodeList (pkg : Package) (t : GoType) : List JSON → Except UnmarshalError (List Value)
  | [] => .ok []
  | x :: xs =>
      match decode pkg t x (zeroValue t), decodeList pkg t xs with
      | .ok v, .ok vs => .ok (v :: vs)
      | .error err, _ => .error err
      | _, .error err => .error err
/-- Members of an object decoded into the fields `cur` of a struct: each member goes to
the field found by `findField`, a member that matches no field is ignored. -/
def decodeFields (pkg : Package) (fields : List Field) : List (String × JSON) → List Value → Except UnmarshalError (List Value)
  | [], cur => .ok cur
  | (k, x) :: ms, cur =>
      match findField fields k with
      | none => decodeFields pkg fields ms cur
      | some i =>
          match fields.get? i, cur.get? i with
          | some f, some c =>
              match decode pkg f.type x c with
              | .ok v => decodeFields pkg fields ms (cur.set i v)
              | .error err => .error err
          | _, _ => .error .illTyped
/-- Members of an object decoded into a map with string keys, each value into a fresh
element. -/
def decodeEntries (pkg : Package) (t : GoType) : List (String × JSON) → List (String × Value) → Except UnmarshalError (List (String × Value))
  | [], acc => .ok acc
  | (k, x) :: ms, acc =>
      match decode pkg t x (zeroValue t) with
      | .ok v => decodeEntries pkg t ms (insertEntry k v acc)
      | .error err => .error err
end

/-- The decoding pass of `json.Unmarshal(data, &v)` for a fresh variable `v` of the struct
type called `n`: members are decoded into the zero value. -/
def decodeDocument (pkg : Package) (n : String) (j : JSON) : Except UnmarshalError Value :=
  match pkg.find n with
  | none => .error .illTyped
  | some d =>
      match decode pkg (.ptr n) j (.ptr (zeroStruct d)) with
      | .ok (.ptr v) => .ok v
      | .ok _ => .ok (zeroStruct d)
      | .error err => .error err

/-- Counterpart of `json.Unmarshal(data, &v)` for a fresh variable `v` of the struct type
called `n`: the document is checked first, and one that nests deeper than
`maxNestingDepth` is refused before anything is decoded; then members are decoded into
the zero value. -/
def unmarshal (pkg : Package) (n : String) (j : JSON) : Except UnmarshalError Value :=
  if maxNestingDepth < j.depth then .error .maxDepth else decodeDocument pkg n j


/-! ## Reading documents and values -/

/-- First member called `k` of a member list. -/
def lookupMember (k : String) : List (String × JSON) → Option JSON
  | [] => none
  | (k', j) :: rest => if k' == k then some j else lookupMember k rest

/-- Member `k` of an object; `none` for a missing member and for a document that is not
an object. -/
def JSON.member (j : JSON) (k : String) : Option JSON :=
  match j with
  | .obj ms => lookupMember k ms
  | _ => none

/-- Value of the Go field called `name` among the field values `vs` of a struct declared
as `d`. -/
def StructDecl.get (d : StructDecl) (vs : List Value) (name : String) : Option Value :=
  match indexWhere (fun f => f.name == name) d.fields with
  | some i => vs.get? i
  | none => none

/-- Value of the Go field called `name` of a struct value of package `pkg`. -/
def Value.field (pkg : Package) (v : Value) (name : String) : Option Value :=
  match v with
  | .struct n vs =>
      match pkg.find n with
      | some d => d.get vs name
      | none => none
  | _ => none

/-- The JSON member names of a declaration, in field order. -/
def StructDecl.tags (d : StructDecl) : List String := d.fields.map (fun f => f.tag)

/-- Keys strictly increasing: every key is below all later ones. -/
def keysSorted {α : Type} : List (String × α) → Bool
  | [] => true
  | (k, _) :: rest => rest.all (fun p => keyLt k p.1) && keysSorted rest

/-- Every key of `acc` is below every key of `kvs`. -/
def keysBelow {α : Type} (acc kvs : List (String × α)) : Prop :=
  ∀ p ∈ acc, ∀ q ∈ kvs, keyLt p.1 q.1 = true


/-! ## Typing of values -/

/-- Dynamic type of a value stored in an `interface{}`.  The model covers the dynamic
types bool, float64, string, `[]interface{}`, `map[string]interface{}` and pointer to
a struct of the package. -/
def dynType : Value → Option GoType
  | .bool _ => some .bool
  | .float64 _ => some .float64
  | .string _ => some .string
  | .slice _ => some (.slice .iface)
  | .map _ => some (.mapString .iface)
  | .ptr (.struct n _) => some (.ptr n)
  | _ => none

mutual
/-- Typing of the values whose strings are valid UTF-8 and whose pointers lead back to no
struct that holds them: `HasType pkg t v` holds when `v` is such a value and a Go variable
of type `t` can hold it. -/
def HasType (pkg : Package) : GoType → Value → Bool
  | .bool, .bool _ => true
  | .float64, .float64 f => f.valid
  | .string, .string _ => true
  | .iface, .nil => true
  | .iface, .iface (.bool _) => true
  | .iface, .iface (.float64 f) => f.valid
  | .iface, .iface (.string _) => true
  | .iface, .iface (.slice vs) => HasTypeList pkg .iface vs
  | .iface, .iface (.map kvs) => keysSorted kvs && HasTypeEntries pkg .iface kvs
  | .iface, .iface (.ptr (.struct n vs)) =>
      match pkg.find n with
      | some d => HasTypeFields pkg d.fields vs
      | none => false
  | .ptr _, .nil => true
  | .ptr n, .ptr (.struct m vs) =>
      n == m &&
      match pkg.find n with
      | some d => HasTypeFields pkg d.fields vs
      | none => false
  | .slice _, .nil => true
  | .slice t, .slice vs => HasTypeList pkg t vs
  | .mapString _, .nil => true
  | .mapString t, .map kvs => keysSorted kvs && HasTypeEntries pkg t kvs
  | _, _ => false
/-- Typing of the elements of a slice. -/
def HasTypeList (pkg : Package) (t : GoType) : List Value → Bool
  | [] => true
  | v :: vs => HasType pkg t v && HasTypeList pkg t vs
/-- Typing of the entries of a map. -/
def HasTypeEntries (pkg : Package) (t : GoType) : List (String × Value) → Bool
  | [] => true
  | (_, v) :: kvs => HasType pkg t v && HasTypeEntries pkg t kvs
/-- Typing of the field values of a struct against its declared fields. -/
def HasTypeFields (pkg : Package) : List Field → List Value → Bool
  | [], [] => true
  | f :: fs, v :: vs => HasType pkg f.type v && HasTypeFields pkg fs vs
  | _, _ => false
end

/-- The values of the struct type declared as `d`, among the values whose strings are valid
UTF-8 and whose pointers lead back to no struct that holds them. -/
def IsStruct (pkg : Package) (d : StructDecl) (v : Value) : Bool :=
  match v with
  | .struct n vs => n == d.name && HasTypeFields pkg d.fields vs
  | _ => false

/-! ## Shape of declarations -/

/-- Whether `s` ends with `suf`. -/
def hasSuffix (s suf : String) : Bool := suf.data.isSuffixOf s.data

/-- Whether `d` has the fields of `g` (same Go names, tags and options, in the same order),
with the same types except possibly for the field tagged `payload`. -/
def sameEnvelope (g d : StructDecl) (payload : String) : Bool :=
  d.fields.length == g.fields.length &&
  (List.zipWith (fun a b => a.name == b.name && a.tag == b.tag && a.omitempty == b.omitempty
    && (a.tag == payload || a.type == b.type)) g.fields d.fields).all id

/-- Consistency of a package: every declaration is found under its own name and no
declaration uses a tag twice. -/
def Package.wellFormed (pkg : Package) : Bool :=
  pkg.all (fun d => pkg.find d.name == some d && decide (d.tags.Nodup))

/-! ## Values and documents that survive a round trip -/

mutual
/-- Dynamic values as `encoding/json` stores them in an `interface{}`: bool, finite float64,
string, `[]interface{}` and `map[string]interface{}` whose elements are nil or again of
this form. -/
def fromJSON : Value → Bool
  | .bool _ => true
  | .float64 f => f.valid && f.isFinite
  | .string _ => true
  | .slice vs => fromJSONList vs
  | .map kvs => keysSorted kvs && fromJSONEntries kvs
  | _ => false
/-- An `interface{}` holding nil or a value of the form `fromJSON`. -/
def fromJSONIface : Value → Bool
  | .nil => true
  | .iface d => fromJSON d
  | _ => false
/-- Elements of a `[]interface{}`. -/
def fromJSONList : List Value → Bool
  | [] => true
  | v :: vs => fromJSONIface v && fromJSONList vs
/-- Entries of a `map[string]interface{}`. -/
def fromJSONEntries : List (String × Value) → Bool
  | [] => true
  | (_, v) :: kvs => fromJSONIface v && fromJSONEntries kvs
end

mutual
/-- The values on which parsing undoes serialising: every string is valid UTF-8, numbers
are finite and not negative zero (which `omitempty` drops, so that it comes back as zero),
every slice and every map is nil or not empty, every `interface{}` is nil or holds a value
of the form `fromJSON`, every pointer is nil or points to a struct of the package whose
fields are again of this kind, and none leads back to a struct that holds it. -/
def Rep (pkg : Package) : GoType → Value → Bool
  | .bool, .bool _ => true
  | .float64, .float64 f => f.valid && f.isFinite && f != .negZero
  | .string, .string _ => true
  | .iface, .nil => true
  | .iface, .iface d => fromJSON d
  | .ptr _, .nil => true
  | .ptr n, .ptr (.struct m vs) =>
      n == m &&
      match pkg.find n with
      | some d => RepFields pkg d.fields vs
      | none => false
  | .slice _, .nil => true
  | .slice t, .slice vs => !vs.isEmpty && RepList pkg t vs
  | .mapString _, .nil => true
  | .mapString t, .map kvs => !kvs.isEmpty && keysSorted kvs && RepEntries pkg t kvs
  | _, _ => false
/-- Elements of a slice. -/
def RepList (pkg : Package) (t : GoType) : List Value → Bool
  | [] => true
  | v :: vs => Rep pkg t v && RepList pkg t vs
/-- Entries of a map. -/
def RepEntries (pkg : Package) (t : GoType) : List (String × Value) → Bool
  | [] => true
  | (_, v) :: kvs => Rep pkg t v && RepEntries pkg t kvs
/-- Field values of a struct against its declared fields. -/
def RepFields (pkg : Package) : List Field → List Value → Bool
  | [], [] => true
  | f :: fs, v :: vs => Rep pkg f.type v && RepFields pkg fs vs
  | _, _ => false
end

/-- The values of the struct type declared as `d` on which parsing undoes serialising. -/
def RepStruct (pkg : Package) (d : StructDecl) (v : Value) : Bool :=
  match v with
  | .struct n vs => n == d.name && RepFields pkg d.fields vs
  | _ => false

mutual
/-- Documents all of whose numbers are integer literals of magnitude at most `2 ^ 53`. -/
def JSON.exactNumbers : JSON → Bool
  | .num m e => e == 0 && decide (m.natAbs ≤ 2 ^ 53)
  | .arr xs => JSON.exactNumbersList xs
  | .obj ms => JSON.exactNumbersMembers ms
  | _ => true
/-- The same for the elements of an array. -/
def JSON.exactNumbersList : List JSON → Bool
  | [] => true
  | x :: xs => JSON.exactNumbers x && JSON.exactNumbersList xs
/-- The same for the members of an object. -/
def JSON.exactNumbersMembers : List (String × JSON) → Bool
  | [] => true
  | (_, x) :: ms => JSON.exactNumbers x && JSON.exactNumbersMembers ms
end

mutual
/-- Normal form of a document as a JSON value: the members of every object sorted by name,
a repeated name keeping its last occurrence.  The normal form denotes the same value,
member order being irrelevant in JSON. -/
def JSON.canon : JSON → JSON
  | .arr xs => .arr (JSON.canonList xs)
  | .obj ms => .obj (JSON.canonMembers ms [])
  | .null => .null
  | .bool b => .bool b
  | .num m e => .num m e
  | .str s => .str s
  | .negZero => .negZero
/-- Normal form of the elements of an array. -/
def JSON.canonList : List JSON → List JSON
  | [] => []
  | x :: xs => JSON.canon x :: JSON.canonList xs
/-- Normal form of the members of an object, added to the sorted members `acc`. -/
def JSON.canonMembers : List (String × JSON) → List (String × JSON) → List (String × JSON)
  | [], acc => acc
  | (k, x) :: ms, acc => JSON.canonMembers ms (insertEntry k (JSON.canon x) acc)
end

/-- The literal that the number literal `m * 10 ^ e` comes back as after it has been kept
in a float64: the literal that `Float64.toDecimal` writes for the float64 that
`Float64.ofDecimal` reads, `-0` when that is negative zero; `none` for a literal beyond
the float64 range. -/
def storedNumber (m e : Int) : Option JSON :=
  match Float64.ofDecimal m e with
  | none => none
  | some f =>
      match f.toDecimal with
      | some (m', e') => some (.num m' e')
      | none => if f = .negZero then some .negZero else none

mutual
/-- The document that a document comes back as after it has been kept in an `interface{}`:
its normal form with every number literal replaced by `storedNumber`; `none` when one of
its numbers is beyond the float64 range. -/
def JSON.stored : JSON → Option JSON
  | .num m e => storedNumber m e
  | .arr xs =>
      match JSON.storedList xs with
      | some ys => some (.arr ys)
      | none => none
  | .obj ms =>
      match JSON.storedMembers ms [] with
      | some ns => some (.obj ns)
      | none => none
  | .null => some .null
  | .bool b => some (.bool b)
  | .str s => some (.str s)
  | .negZero => some .negZero
/-- The same for the elements of an array. -/
def JSON.storedList : List JSON → Option (List JSON)
  | [] => some []
  | x :: xs =>
      match JSON.stored x, JSON.storedList xs with
      | some y, some ys => some (y :: ys)
      | _, _ => none
/-- The same for the members of an object, added to the sorted members `acc`. -/
def JSON.storedMembers : List (String × JSON) → List (String × JSON) →
    Option (List (String × JSON))
  | [], acc => some acc
  | (k, x) :: ms, acc =>
      match JSON.stored x with
      | some y => JSON.storedMembers ms (insertEntry k y acc)
      | none => none
end

/-- Whether the literals `m * 10 ^ e` and `m' * 10 ^ e'` denote the same number. -/
def sameNumber (m e m' e' : Int) : Bool :=
  m * 10 ^ (e - e').toNat == m' * 10 ^ (e' - e).toNat

mutual
/-- Whether two documents are equal as JSON values: the same throughout, numbers being
compared by the number they denote and not by the way they are written (`1e2` and `100`
are the same value, `-0` and `0` are). -/
def JSON.sameValue : JSON → JSON → Bool
  | .null, .null => true
  | .bool a, .bool b => a == b
  | .str a, .str b => a == b
  | .num m e, .num m' e' => sameNumber m e m' e'
  | .negZero, .negZero => true
  | .negZero, .num m _ => m == 0
  | .num m _, .negZero => m == 0
  | .arr xs, .arr ys => JSON.sameValueList xs ys
  | .obj ms, .obj ns => JSON.sameValueMembers ms ns
  | _, _ => false
/-- The same for the elements of two arrays. -/
def JSON.sameValueList : List JSON → List JSON → Bool
  | [], [] => true
  | x :: xs, y :: ys => JSON.sameValue x y && JSON.sameValueList xs ys
  | _, _ => false
/-- The same for the members of two objects, taken in their order. -/
def JSON.sameValueMembers : List (String × JSON) → List (String × JSON) → Bool
  | [], [] => true
  | (k, x) :: ms, (k', y) :: ns =>
      k == k' && JSON.sameValue x y && JSON.sameValueMembers ms ns
  | _, _ => false
end

mutual
/-- Documents all of whose numbers survive being kept in a float64: each number literal
comes back, by `storedNumber`, as a literal that denotes the same number.  Such is every
literal that is the shortest one for the float64 nearest to it, `0.1` and `0.5` among
them, and every integer of magnitude at most `2 ^ 53`. -/
def JSON.keepsNumbers : JSON → Bool
  | .num m e =>
      match storedNumber m e with
      | some y => JSON.sameValue y (.num m e)
      | none => false
  | .arr xs => JSON.keepsNumbersList xs
  | .obj ms => JSON.keepsNumbersMembers ms
  | _ => true
/-- The same for the elements of an array. -/
def JSON.keepsNumbersList : List JSON → Bool
  | [] => true
  | x :: xs => JSON.keepsNumbers x && JSON.keepsNumbersList xs
/-- The same for the members of an object. -/
def JSON.keepsNumbersMembers : List (String × JSON) → Bool
  | [] => true
  | (_, x) :: ms => JSON.keepsNumbers x && JSON.keepsNumbersMembers ms
end

/-! ## Values that hold the same data -/

mutual
/-- Two values hold the same data: they agree throughout, except that the entries of a Go
map, which has no order of its own, may be listed in another order.  The keys of a map are
pairwise distinct. -/
def sameData : Value → Value → Prop
  | .bool a, .bool b => a = b
  | .float64 a, .float64 b => a = b
  | .string a, .string b => a = b
  | .nil, .nil => True
  | .ptr a, .ptr b => sameData a b
  | .iface a, .iface b => sameData a b
  | .slice as, .slice bs => sameDataList as bs
  | .map k1, .map k2 => k1.Perm k2 ∧ (k1.map Prod.fst).Nodup
  | .struct n as, .struct m bs => n = m ∧ sameDataList as bs
  | .bytes a, .bytes b => a = b
  | .backref a, .backref b => a = b
  | _, _ => False
/-- The same for the elements of two slices and for the field values of two structs. -/
def sameDataList : List Value → List Value → Prop
  | [], [] => True
  | a :: as, b :: bs => sameData a b ∧ sameDataList as bs
  | _, _ => False
end

mutual
/-- Counterpart of `reflect.DeepEqual` on two values of one type, Go's structural equality:
booleans and strings are compared as they are, numbers with `==`, so that zero and negative
zero are equal and NaN equals nothing; nil equals nil only; pointers and interfaces are
equal when what they hold is; slices and structs are compared element by element, and maps
entry by entry in the order of their keys, in which the model lists them. -/
def deepEqual : Value → Value → Bool
  | .bool a, .bool b => a == b
  | .float64 a, .float64 b => a.eq b
  | .string a, .string b => a == b
  | .nil, .nil => true
  | .ptr a, .ptr b => deepEqual a b
  | .iface a, .iface b => deepEqual a b
  | .slice as, .slice bs => deepEqualList as bs
  | .map k1, .map k2 => deepEqualEntries k1 k2
  | .struct n as, .struct m bs => n == m && deepEqualList as bs
  | .bytes a, .bytes b => a == b
  | .backref a, .backref b => a == b
  | _, _ => false
/-- The same for the elements of two slices and for the field values of two structs. -/
def deepEqualList : List Value → List Value → Bool
  | [], [] => true
  | a :: as, b :: bs => deepEqual a b && deepEqualList as bs
  | _, _ => false
/-- The same for the entries of two maps. -/
def deepEqualEntries : List (String × Value) → List (String × Value) → Bool
  | [], [] => true
  | (k, a) :: as, (k', b) :: bs => k == k' && deepEqual a b && deepEqualEntries as bs
  | _, _ => false
end

/-! ## The session engine and the correlation table

The repository holds the type catalogue only; the engine that the specification builds on
top of it (§4.3, §4.4, §5) is not among its source files.  The definitions of this section
follow the specification. -/

/-- Modelled from the spec: the six session states of §3 and §4.3; the repository declares
no session state. -/
inductive SessionState where
  | uninitialized
  | initializing
  | configuring
  | running
  | terminating
  | terminated
  deriving DecidableEq, Repr, Inhabited

/-- Modelled from the spec: the errors of §4.3, §4.4 and §7 that the engine and the table
fail with; the repository declares no such errors. -/
inductive EngineError where
  | protocolSequenceError
  | alreadyInitializedError
  | duplicateSeqError
  | unknownRequestSeqError
  deriving DecidableEq, Repr, Inhabited

/-- Modelled from the spec: the pending entry of §3, keyed by `seq`, with the command of
the originating request and the mark set by `CancelPending` (§4.4); the repository types
`_pendingRequests` of `ProtocolServer` as `interface{}` and declares no entry. -/
structure PendingRequestEntry where
  seq : Nat
  command : String
  cancelRequested : Bool
  deriving DecidableEq, Repr, Inhabited

/-- Modelled from the spec: the table of §4.4, the next unused sequence number of this
endpoint's send direction and the pending entries; the counter is the unbounded integer of
§4.4, whereas the repository declares only a field `_sequence float64` of
`ProtocolServer` and no operation on it. -/
structure CorrelationTable where
  next : Nat
  pending : List PendingRequestEntry
  deriving DecidableEq, Repr, Inhabited

/-- Modelled from the spec: the table of a fresh endpoint, whose numbering starts at 1
(§4.4) and which has nothing pending. -/
def CorrelationTable.fresh : CorrelationTable := ⟨1, []⟩

/-- Modelled from the spec: whether `seq` is the key of a pending entry (§3: entries are
keyed by `seq`). -/
def CorrelationTable.isPending (t : CorrelationTable) (seq : Nat) : Bool :=
  t.pending.any (fun e => e.seq == seq)

/-- Modelled from the spec: the entry keyed by `seq`, if one is pending (§3). -/
def CorrelationTable.entry (t : CorrelationTable) (seq : Nat) : Option PendingRequestEntry :=
  t.pending.find? (fun e => e.seq == seq)

/-- Modelled from the spec: `NextSeq()` of §4.4 returns the next unused integer and moves
the counter on by one. -/
def NextSeq (t : CorrelationTable) : Nat × CorrelationTable :=
  (t.next, ⟨t.next + 1, t.pending⟩)

/-- Modelled from the spec: `RegisterPending(seq, command)` of §4.4 records an outstanding
request and fails with `DuplicateSeqError` when `seq` is already registered. -/
def RegisterPending (t : CorrelationTable) (seq : Nat) (command : String) :
    CorrelationTable × Except EngineError Unit :=
  if t.isPending seq then (t, .error .duplicateSeqError)
  else (⟨t.next, t.pending ++ [⟨seq, command, false⟩]⟩, .ok ())

/-- Modelled from the spec: `Resolve(requestSeq)` of §4.4 removes and returns the pending
entry keyed by `requestSeq` and fails with `UnknownRequestSeqError` when there is none. -/
def Resolve (t : CorrelationTable) (requestSeq : Nat) :
    CorrelationTable × Except EngineError PendingRequestEntry :=
  match t.entry requestSeq with
  | some e => (⟨t.next, t.pending.filter (fun e => e.seq != requestSeq)⟩, .ok e)
  | none => (t, .error .unknownRequestSeqError)

/-- Modelled from the spec: `CancelPending(requestId)` of §4.4 marks the pending entry
keyed by `requestId` as cancellation-requested and removes nothing (§5). -/
def CancelPending (t : CorrelationTable) (requestId : Nat) : CorrelationTable :=
  ⟨t.next, t.pending.map
    (fun e => if e.seq == requestId then ⟨e.seq, e.command, true⟩ else e)⟩

/-- Modelled from the spec: what the state machine of §4.3 looks at in a message, its kind
and its command or event name (§3); for a response the command is that of the request it
answers. -/
inductive Traffic where
  | request (command : String)
  | response (command : String)
  | event (name : String)
  deriving DecidableEq, Repr, Inhabited

/-- Modelled from the spec: the transition function of §4.3 under the strict policy, the
default.  An `initialize` request is legal in `Uninitialized` only and fails with
`AlreadyInitializedError` later; before the handshake has completed every other request,
every event (§5: no event is delivered before the initialize response) and every response
other than the initialize response in `Initializing` fails with `ProtocolSequenceError`.
The initialize response leads to `Configuring`, the configurationDone response to
`Running`, a terminate or disconnect request or a terminated or exited event to
`Terminating`, and the response to terminate or disconnect to `Terminated`; all other
traffic leaves the state as it is. -/
def transition : SessionState → Traffic → Except EngineError SessionState
  | s, .request c =>
      if c = "initialize" then
        if s = .uninitialized then .ok .initializing else .error .alreadyInitializedError
      else
        match s with
        | .uninitialized => .error .protocolSequenceError
        | .initializing => .error .protocolSequenceError
        | .running =>
            if c = "terminate" ∨ c = "disconnect" then .ok .terminating else .ok .running
        | s => .ok s
  | s, .response c =>
      match s with
      | .uninitialized => .error .protocolSequenceError
      | .initializing =>
          if c = "initialize" then .ok .configuring else .error .protocolSequenceError
      | .configuring => if c = "configurationDone" then .ok .running else .ok .configuring
      | .terminating =>
          if c = "terminate" ∨ c = "disconnect" then .ok .terminated else .ok .terminating
      | s => .ok s
  | s, .event n =>
      match s with
      | .uninitialized => .error .protocolSequenceError
      | .initializing => .error .protocolSequenceError
      | .running =>
          if n = "terminated" ∨ n = "exited" then .ok .terminating else .ok .running
      | s => .ok s

/-- Modelled from the spec: the engine of one session (§9: an explicit session object, one
per connection), owner of the session state and of the correlation table (§3, §5).
`inbound` holds the requests received and not yet answered, each with the `seq` it
carries and its command: a response is sent to a request that was received (§4.5: the
router wraps the handler's result into the response to the request) and echoes its
command and, as `request_seq`, its `seq` (§3). -/
structure SessionEngine where
  state : SessionState
  table : CorrelationTable
  inbound : List (Nat × String)
  deriving DecidableEq, Repr, Inhabited

/-- Modelled from the spec: the engine of a session that has not started (§4.3, §4.4). -/
def SessionEngine.fresh : SessionEngine := ⟨.uninitialized, CorrelationTable.fresh, []⟩

/-- Modelled from the spec: what an endpoint asks of its engine (§2 data flow): to send a
request, the response to the request received with a given `seq`, or an event, and to
take in a request with the `seq` it carries, the response with a given `request_seq`, or
an event. -/
inductive Action where
  | sendRequest (command : String)
  | sendResponse (requestSeq : Nat)
  | sendEvent (name : String)
  | receiveRequest (seq : Nat) (command : String)
  | receiveResponse (requestSeq : Nat)
  | receiveEvent (name : String)
  deriving DecidableEq, Repr, Inhabited

/-- Modelled from the spec: a message that passed the engine.  `outbound` tells whether
this endpoint sent it or took it in; `seq` is the number `NextSeq` gave it when this
endpoint sent it (§3: the counter is sender-local) and, for a request taken in, the number
it carries, and is absent for a response or event taken in, whose own `seq` the engine
does not look at; `requestSeq` is the `request_seq` of a response (§3), the `seq` of the
request that it answers. -/
structure Delivered where
  outbound : Bool
  seq : Option Nat
  requestSeq : Option Nat
  traffic : Traffic
  deriving DecidableEq, Repr, Inhabited

/-- Modelled from the spec: one step of the engine (§2: validate against the lifecycle
state, update the correlation table).  A message that the transition function rejects, and
a response that `Resolve` does not know, is reported and changes nothing (§4.4, §8); a
message that is sent takes its `seq` from `NextSeq`, a request that is sent is registered,
a request that is taken in is kept until it is answered, and a response that is taken in
is the one of the entry `Resolve` returns.  A response is sent to a request that was
taken in and is not yet answered: it carries the `seq` of that request as `request_seq`
and its command, and the request is answered from then on.  The specification names no
error for an endpoint asking to answer a request that it did not receive; the model
reports `UnknownRequestSeqError`, the error of a `request_seq` without a request, and
changes nothing. -/
def SessionEngine.step (e : SessionEngine) : Action → SessionEngine × Except EngineError Delivered
  | .sendRequest c =>
      match transition e.state (.request c) with
      | .error err => (e, .error err)
      | .ok s =>
          match RegisterPending (NextSeq e.table).2 (NextSeq e.table).1 c with
          | (t, .ok _) =>
              (⟨s, t, e.inbound⟩, .ok ⟨true, some (NextSeq e.table).1, none, .request c⟩)
          | (_, .error err) => (e, .error err)
  | .sendResponse r =>
      match e.inbound.find? (fun q => q.1 == r) with
      | none => (e, .error .unknownRequestSeqError)
      | some q =>
          match transition e.state (.response q.2) with
          | .error err => (e, .error err)
          | .ok s =>
              (⟨s, (NextSeq e.table).2, e.inbound.erase q⟩,
                .ok ⟨true, some (NextSeq e.table).1, some r, .response q.2⟩)
  | .sendEvent n =>
      match transition e.state (.event n) with
      | .error err => (e, .error err)
      | .ok s =>
          (⟨s, (NextSeq e.table).2, e.inbound⟩,
            .ok ⟨true, some (NextSeq e.table).1, none, .event n⟩)
  | .receiveRequest q c =>
      match transition e.state (.request c) with
      | .error err => (e, .error err)
      | .ok s => (⟨s, e.table, e.inbound ++ [(q, c)]⟩, .ok ⟨false, some q, none, .request c⟩)
  | .receiveResponse r =>
      match Resolve e.table r with
      | (_, .error err) => (e, .error err)
      | (t, .ok entry) =>
          match transition e.state (.response entry.command) with
          | .error err => (e, .error err)
          | .ok s => (⟨s, t, e.inbound⟩, .ok ⟨false, none, some r, .response entry.command⟩)
  | .receiveEvent n =>
      match transition e.state (.event n) with
      | .error err => (e, .error err)
      | .ok s => (⟨s, e.table, e.inbound⟩, .ok ⟨false, none, none, .event n⟩)

/-- Modelled from the spec: a session, the engine taken through a list of actions; the
result is the engine at the end and the trace, the messages that passed in their order. -/
def SessionEngine.run (e : SessionEngine) : List Action → SessionEngine × List Delivered
  | [] => (e, [])
  | a :: as =>
      match e.step a with
      | (e', .ok d) => ((e'.run as).1, d :: (e'.run as).2)
      | (e', .error _) => e'.run as

/-- Modelled from the spec: the `seq` values of the messages of a trace that this endpoint
sent, in their order. -/
def sentSeqs (trace : List Delivered) : List Nat :=
  trace.filterMap (fun d => if d.outbound then d.seq else none)

/-! ## The declarations of protocol/dap.go and adapter/adapter.go -/

namespace Protocol

/-- Declaration `type Body struct` of `protocol/dap.go`. -/
def Body : StructDecl :=
  ⟨"Body", [
    ⟨"AllThreadsContinued", .bool, "allThreadsContinued", true⟩,
    ⟨"ThreadId", .float64, "threadId", true⟩]⟩

/-- Declaration `type AttachRequestArguments struct` of `protocol/dap.go`. -/
def AttachRequestArguments : StructDecl :=
  ⟨"AttachRequestArguments", [
    ⟨"Restart", .iface, "__restart", true⟩]⟩

/-- Declaration `type AttachRequest struct` of `protocol/dap.go`. -/
def AttachRequest : StructDecl :=
  ⟨"AttachRequest", [
    ⟨"Arguments", .ptr "AttachRequestArguments", "arguments", true⟩,
    ⟨"Command", .string, "command", true⟩,
    ⟨"Seq", .float64, "seq", true⟩,
    ⟨"Type", .string, "type", true⟩]⟩

/-- Declaration `type AttachResponse struct` of `protocol/dap.go`. -/
def AttachResponse : StructDecl :=
  ⟨"AttachResponse", [
    ⟨"Body", .iface, "body", true⟩,
    ⟨"Command", .string, "command", true⟩,
    ⟨"Message", .string, "message", true⟩,
    ⟨"RequestSeq", .float64, "request_seq", true⟩,
    ⟨"Seq", .float64, "seq", true⟩,
    ⟨"Success", .bool, "success", true⟩,
    ⟨"Type", .string, "type", true⟩]⟩

/-- Declaration `type Breakpoint struct` of `protocol/dap.go`. -/
def Breakpoint : StructDecl :=
  ⟨"Breakpoint", [
    ⟨"Column", .float64, "column", true⟩,
    ⟨"EndColumn", .float64, "endColumn", true⟩,
    ⟨"EndLine", .float64, "endLine", true⟩,
    ⟨"Id", .float64, "id", true⟩,
    ⟨"Line", .float64, "line", true⟩,
    ⟨"Message", .string, "message", true⟩,
    ⟨"Source", .ptr "Source", "source", true⟩,
    ⟨"Verified", .bool, "verified", true⟩]⟩

/-- Declaration `type BreakpointEvent struct` of `protocol/dap.go`. -/
def BreakpointEvent : StructDecl :=
  ⟨"BreakpointEvent", [
    ⟨"Body", .ptr "Body", "body", true⟩,
    ⟨"Event", .string, "event", true⟩,
    ⟨"Seq", .float64, "seq", true⟩,
    ⟨"Type", .string, "type", true⟩]⟩

/-- Declaration `type BreakpointLocation struct` of `protocol/dap.go`. -/
def BreakpointLocation : StructDecl :=
  ⟨"BreakpointLocation", [
    ⟨"Column", .float64, "column", true⟩,
    ⟨"EndColumn", .float64, "endColumn", true⟩,
    ⟨"EndLine", .float64, "endLine", true⟩,
    ⟨"Line", .float64, "line", true⟩]⟩

/-- Declaration `type BreakpointLocationsArguments struct` of `protocol/dap.go`. -/
def BreakpointLocationsArguments : StructDecl :=
  ⟨"BreakpointLocationsArguments", [
    ⟨"Column", .float64, "column", true⟩,
    ⟨"EndColumn", .float64, "endColumn", true⟩,
    ⟨"EndLine", .float64, "endLine", true⟩,
    ⟨"Line", .float64, "line", true⟩,
    ⟨"Source", .ptr "Source", "source", true⟩]⟩

/-- Declaration `type BreakpointLocationsRequest struct` of `protocol/dap.go`. -/
def BreakpointLocationsRequest : StructDecl :=
  ⟨"BreakpointLocationsRequest", [
    ⟨"Arguments", .ptr "BreakpointLocationsArguments", "arguments", true⟩,
    ⟨"Command", .string, "command", true⟩,
    ⟨"Seq", .float64, "seq", true⟩,
    ⟨"Type", .string, "type", true⟩]⟩

/-- Declaration `type BreakpointLocationsResponse struct` of `protocol/dap.go`. -/
def BreakpointLocationsResponse : StructDecl :=
  ⟨"BreakpointLocationsResponse", [
    ⟨"Body", .ptr "Body", "body", true⟩,
    ⟨"Command", .string, "command", true⟩,
    ⟨"Message", .string, "message", true⟩,
    ⟨"RequestSeq", .float64, "request_seq", true⟩,
    ⟨"Seq", .float64, "seq", true⟩,
    ⟨"Success", .bool, "success", true⟩,
    ⟨"Type", .string, "type", true⟩]⟩

/-- Declaration `type CancelArguments struct` of `protocol/dap.go`. -/
def CancelArguments : StructDecl :=
  ⟨"CancelArguments", [
    ⟨"RequestId", .float64, "requestId", true⟩]⟩

/-- Declaration `type CancelRequest struct` of `protocol/dap.go`. -/
def CancelRequest : StructDecl :=
  ⟨"CancelRequest", [
    ⟨"Arguments", .ptr "CancelArguments", "arguments", true⟩,
    ⟨"Command", .string, "command", true⟩,
    ⟨"Seq", .float64, "seq", true⟩,
    ⟨"Type", .string, "type", true⟩]⟩

/-- Declaration `type CancelResponse struct` of `protocol/dap.go`. -/
def CancelResponse : StructDecl :=
  ⟨"CancelResponse", [
    ⟨"Body", .iface, "body", true⟩,
    ⟨"Command", .string, "command", true⟩,
    ⟨"Message", .string, "message", true⟩,
    ⟨"RequestSeq", .float64, "request_seq", true⟩,
    ⟨"Seq", .float64, "seq", true⟩,
    ⟨"Success", .bool, "success", true⟩,
    ⟨"Type", .string, "type", true⟩]⟩

/-- Declaration `type Capabilities struct` of `protocol/dap.go`. -/
def Capabilities : StructDecl :=
  ⟨"Capabilities", [
    ⟨"AdditionalModuleColumns", .slice (.ptr "ColumnDescriptor"), "additionalModuleColumns", true⟩,
    ⟨"CompletionTriggerCharacters", .slice .string, "completionTriggerCharacters", true⟩,
    ⟨"ExceptionBreakpointFilters", .slice (.ptr "ExceptionBreakpointsFilter"), "exceptionBreakpointFilters", true⟩,
    ⟨"SupportTerminateDebuggee", .bool, "supportTerminateDebuggee", true⟩,
    ⟨"SupportedChecksumAlgorithms", .slice .string, "supportedChecksumAlgorithms", true⟩,
    ⟨"SupportsBreakpointLocationsRequest", .bool, "supportsBreakpointLocationsRequest", true⟩,
    ⟨"SupportsCancelRequest", .bool, "supportsCancelRequest", true⟩,
    ⟨"SupportsCompletionsRequest", .bool, "supportsCompletionsRequest", true⟩,
    ⟨"SupportsConditionalBreakpoints", .bool, "supportsConditionalBreakpoints", true⟩,
    ⟨"SupportsConfigurationDoneRequest", .bool, "supportsConfigurationDoneRequest", true⟩,
    ⟨"SupportsDataBreakpoints", .bool, "supportsDataBreakpoints", true⟩,
    ⟨"SupportsDelayedStackTraceLoading", .bool, "supportsDelayedStackTraceLoading", true⟩,
    ⟨"SupportsDisassembleRequest", .bool, "supportsDisassembleRequest", true⟩,
    ⟨"SupportsEvaluateForHovers", .bool, "supportsEvaluateForHovers", true⟩,
    ⟨"SupportsExceptionInfoRequest", .bool, "supportsExceptionInfoRequest", true⟩,
    ⟨"SupportsExceptionOptions", .bool, "supportsExceptionOptions", true⟩,
    ⟨"SupportsFunctionBreakpoints", .bool, "supportsFunctionBreakpoints", true⟩,
    ⟨"SupportsGotoTargetsRequest", .bool, "supportsGotoTargetsRequest", true⟩,
    ⟨"SupportsHitConditionalBreakpoints", .bool, "supportsHitConditionalBreakpoints", true⟩,
    ⟨"SupportsLoadedSourcesRequest", .bool, "supportsLoadedSourcesRequest", true⟩,
    ⟨"SupportsLogPoints", .bool, "supportsLogPoints", true⟩,
    ⟨"SupportsModulesRequest", .bool, "supportsModulesRequest", true⟩,
    ⟨"SupportsReadMemoryRequest", .bool, "supportsReadMemoryRequest", true⟩,
    ⟨"SupportsRestartFrame", .bool, "supportsRestartFrame", true⟩,
    ⟨"SupportsRestartRequest", .bool, "supportsRestartRequest", true⟩,
    ⟨"SupportsSetExpression", .bool, "supportsSetExpression", true⟩,
    ⟨"SupportsSetVariable", .bool, "supportsSetVariable", true⟩,
    ⟨"SupportsStepBack", .bool, "supportsStepBack", true⟩,
    ⟨"SupportsStepInTargetsRequest", .bool, "supportsStepInTargetsRequest", true⟩,
    ⟨"SupportsTerminateRequest", .bool, "supportsTerminateRequest", true⟩,
    ⟨"SupportsTerminateThreadsRequest", .bool, "supportsTerminateThreadsRequest", true⟩,
    ⟨"SupportsValueFormattingOptions", .bool, "supportsValueFormattingOptions", true⟩]⟩

/-- Declaration `type CapabilitiesEvent struct` of `protocol/dap.go`. -/
def CapabilitiesEvent : StructDecl :=
  ⟨"CapabilitiesEvent", [
    ⟨"Body", .ptr "Body", "body", true⟩,
    ⟨"Event", .string, "event", true⟩,
    ⟨"Seq", .float64, "seq", true⟩,
    ⟨"Type", .string, "type", true⟩]⟩

/-- Declaration `type Checksum struct` of `protocol/dap.go`. -/
def Checksum : StructDecl :=
  ⟨"Checksum", [
    ⟨"Algorithm", .string, "algorithm", true⟩,
    ⟨"Checksum", .string, "checksum", true⟩]⟩

/-- Declaration `type ColumnDescriptor struct` of `protocol/dap.go`. -/
def ColumnDescriptor : StructDecl :=
  ⟨"ColumnDescriptor", [
    ⟨"AttributeName", .string, "attributeName", true⟩,
    ⟨"Format", .string, "format", true⟩,
    ⟨"Label", .string, "label", true⟩,
    ⟨"Type", .string, "type", true⟩,
    ⟨"Width", .float64, "width", true⟩]⟩

/-- Declaration `type CompletionItem struct` of `protocol/dap.go`. -/
def CompletionItem : StructDecl :=
  ⟨"CompletionItem", [
    ⟨"Label", .string, "label", true⟩,
    ⟨"Length", .float64, "length", true⟩,
    ⟨"SortText", .string, "sortText", true⟩,
    ⟨"Start", .float64, "start", true⟩,
    ⟨"Text", .string, "text", true⟩,
    ⟨"Type", .string, "type", true⟩]⟩

/-- Declaration `type CompletionsArguments struct` of `protocol/dap.go`. -/
def CompletionsArguments : StructDecl :=
  ⟨"CompletionsArguments", [
    ⟨"Column", .float64, "column", true⟩,
    ⟨"FrameId", .float64, "frameId", true⟩,
    ⟨"Line", .float64, "line", true⟩,
    ⟨"Text", .string, "text", true⟩]⟩

/-- Declaration `type CompletionsRequest struct` of `protocol/dap.go`. -/
def CompletionsRequest : StructDecl :=
  ⟨"CompletionsRequest", [
    ⟨"Arguments", .ptr "CompletionsArguments", "arguments", true⟩,
    ⟨"Command", .string, "command", true⟩,
    ⟨"Seq", .float64, "seq", true⟩,
    ⟨"Type", .string, "type", true⟩]⟩

/-- Declaration `type CompletionsResponse struct` of `protocol/dap.go`. -/
def CompletionsResponse : StructDecl :=
  ⟨"CompletionsResponse", [
    ⟨"Body", .ptr "Body", "body", true⟩,
    ⟨"Command", .string, "command", true⟩,
    ⟨"Message", .string, "message", true⟩,
    ⟨"RequestSeq", .float64, "request_seq", true⟩,
    ⟨"Seq", .float64, "seq", true⟩,
    ⟨"Success", .bool, "success", true⟩,
    ⟨"Type", .string, "type", true⟩]⟩

/-- Declaration `type ConfigurationDoneArguments struct` of `protocol/dap.go`. -/
def ConfigurationDoneArguments : StructDecl := ⟨"ConfigurationDoneArguments", []⟩

/-- Declaration `type ConfigurationDoneRequest struct` of `protocol/dap.go`. -/
def ConfigurationDoneRequest : StructDecl :=
  ⟨"ConfigurationDoneRequest", [
    ⟨"Arguments", .ptr "ConfigurationDoneArguments", "arguments", true⟩,
    ⟨"Command", .string, "command", true⟩,
    ⟨"Seq", .float64, "seq", true⟩,
    ⟨"Type", .string, "type", true⟩]⟩

/-- Declaration `type ConfigurationDoneResponse struct` of `protocol/dap.go`. -/
def ConfigurationDoneResponse : StructDecl :=
  ⟨"ConfigurationDoneResponse", [
    ⟨"Body", .iface, "body", true⟩,
    ⟨"Command", .string, "command", true⟩,
    ⟨"Message", .string, "message", true⟩,
    ⟨"RequestSeq", .float64, "request_seq", true⟩,
    ⟨"Seq", .float64, "seq", true⟩,
    ⟨"Success", .bool, "success", true⟩,
    ⟨"Type", .string, "type", true⟩]⟩

/-- Declaration `type ContinueArguments struct` of `protocol/dap.go`. -/
def ContinueArguments : StructDecl :=
  ⟨"ContinueArguments", [
    ⟨"ThreadId", .float64, "threadId", true⟩]⟩

/-- Declaration `type ContinueRequest struct` of `protocol/dap.go`. -/
def ContinueRequest : StructDecl :=
  ⟨"ContinueRequest", [
    ⟨"Arguments", .ptr "ContinueArguments", "arguments", true⟩,
    ⟨"Command", .string, "command", true⟩,
    ⟨"Seq", .float64, "seq", true⟩,
    ⟨"Type", .string, "type", true⟩]⟩

/-- Declaration `type ContinueResponse struct` of `protocol/dap.go`. -/
def ContinueResponse : StructDecl :=
  ⟨"ContinueResponse", [
    ⟨"Body", .ptr "Body", "body", true⟩,
    ⟨"Command", .string, "command", true⟩,
    ⟨"Message", .string, "message", true⟩,
    ⟨"RequestSeq", .float64, "request_seq", true⟩,
    ⟨"Seq", .float64, "seq", true⟩,
    ⟨"Success", .bool, "success", true⟩,
    ⟨"Type", .string, "type", true⟩]⟩

/-- Declaration `type ContinuedEvent struct` of `protocol/dap.go`. -/
def ContinuedEvent : StructDecl :=
  ⟨"ContinuedEvent", [
    ⟨"Body", .ptr "Body", "body", true⟩,
    ⟨"Event", .string, "event", true⟩,
    ⟨"Seq", .float64, "seq", true⟩,
    ⟨"Type", .string, "type", true⟩]⟩

/-- Declaration `type DataBreakpoint struct` of `protocol/dap.go`. -/
def DataBreakpoint : StructDecl :=
  ⟨"DataBreakpoint", [
    ⟨"AccessType", .string, "accessType", true⟩,
    ⟨"Condition", .string, "condition", true⟩,
    ⟨"DataId", .string, "dataId", true⟩,
    ⟨"HitCondition", .string, "hitCondition", true⟩]⟩

/-- Declaration `type DataBreakpointInfoArguments struct` of `protocol/dap.go`. -/
def DataBreakpointInfoArguments : StructDecl :=
  ⟨"DataBreakpointInfoArguments", [
    ⟨"Name", .string, "name", true⟩,
    ⟨"VariablesReference", .float64, "variablesReference", true⟩]⟩

/-- Declaration `type DataBreakpointInfoRequest struct` of `protocol/dap.go`. -/
def DataBreakpointInfoRequest : StructDecl :=
  ⟨"DataBreakpointInfoRequest", [
    ⟨"Arguments", .ptr "DataBreakpointInfoArguments", "arguments", true⟩,
    ⟨"Command", .string, "command", true⟩,
    ⟨"Seq", .float64, "seq", true⟩,
    ⟨"Type", .string, "type", true⟩]⟩

/-- Declaration `type DataBreakpointInfoResponse struct` of `protocol/dap.go`. -/
def DataBreakpointInfoResponse : StructDecl :=
  ⟨"DataBreakpointInfoResponse", [
    ⟨"Body", .ptr "Body", "body", true⟩,
    ⟨"Command", .string, "command", true⟩,
    ⟨"Message", .string, "message", true⟩,
    ⟨"RequestSeq", .float64, "request_seq", true⟩,
    ⟨"Seq", .float64, "seq", true⟩,
    ⟨"Success", .bool, "success", true⟩,
    ⟨"Type", .string, "type", true⟩]⟩

/-- Declaration `type DisassembleArguments struct` of `protocol/dap.go`. -/
def DisassembleArguments : StructDecl :=
  ⟨"DisassembleArguments", [
    ⟨"InstructionCount", .float64, "instructionCount", true⟩,
    ⟨"InstructionOffset", .float64, "instructionOffset", true⟩,
    ⟨"MemoryReference", .string, "memoryReference", true⟩,
    ⟨"Offset", .float64, "offset", true⟩,
    ⟨"ResolveSymbols", .bool, "resolveSymbols", true⟩]⟩

/-- Declaration `type DisassembleRequest struct` of `protocol/dap.go`. -/
def DisassembleRequest : StructDecl :=
  ⟨"DisassembleRequest", [
    ⟨"Arguments", .ptr "DisassembleArguments", "arguments", true⟩,
    ⟨"Command", .string, "command", true⟩,
    ⟨"Seq", .float64, "seq", true⟩,
    ⟨"Type", .string, "type", true⟩]⟩

/-- Declaration `type DisassembleResponse struct` of `protocol/dap.go`. -/
def DisassembleResponse : StructDecl :=
  ⟨"DisassembleResponse", [
    ⟨"Body", .ptr "Body", "body", true⟩,
    ⟨"Command", .string, "command", true⟩,
    ⟨"Message", .string, "message", true⟩,
    ⟨"RequestSeq", .float64, "request_seq", true⟩,
    ⟨"Seq", .float64, "seq", true⟩,
    ⟨"Success", .bool, "success", true⟩,
    ⟨"Type", .string, "type", true⟩]⟩

/-- Declaration `type DisassembledInstruction struct` of `protocol/dap.go`. -/
def DisassembledInstruction : StructDecl :=
  ⟨"DisassembledInstruction", [
    ⟨"Address", .string, "address", true⟩,
    ⟨"Column", .float64, "column", true⟩,
    ⟨"EndColumn", .float64, "endColumn", true⟩,
    ⟨"EndLine", .float64, "endLine", true⟩,
    ⟨"Instruction", .string, "instruction", true⟩,
    ⟨"InstructionBytes", .string, "instructionBytes", true⟩,
    ⟨"Line", .float64, "line", true⟩,
    ⟨"Location", .ptr "Source", "location", true⟩,
    ⟨"Symbol", .string, "symbol", true⟩]⟩

/-- Declaration `type DisconnectArguments struct` of `protocol/dap.go`. -/
def DisconnectArguments : StructDecl :=
  ⟨"DisconnectArguments", [
    ⟨"Restart", .bool, "restart", true⟩,
    ⟨"TerminateDebuggee", .bool, "terminateDebuggee", true⟩]⟩

/-- Declaration `type DisconnectRequest struct` of `protocol/dap.go`. -/
def DisconnectRequest : StructDecl :=
  ⟨"DisconnectRequest", [
    ⟨"Arguments", .ptr "DisconnectArguments", "arguments", true⟩,
    ⟨"Command", .string, "command", true⟩,
    ⟨"Seq", .float64, "seq", true⟩,
    ⟨"Type", .string, "type", true⟩]⟩

/-- Declaration `type DisconnectResponse struct` of `protocol/dap.go`. -/
def DisconnectResponse : StructDecl :=
  ⟨"DisconnectResponse", [
    ⟨"Body", .iface, "body", true⟩,
    ⟨"Command", .string, "command", true⟩,
    ⟨"Message", .string, "message", true⟩,
    ⟨"RequestSeq", .float64, "request_seq", true⟩,
    ⟨"Seq", .float64, "seq", true⟩,
    ⟨"Success", .bool, "success", true⟩,
    ⟨"Type", .string, "type", true⟩]⟩

/-- Declaration `type ErrorResponse struct` of `protocol/dap.go`. -/
def ErrorResponse : StructDecl :=
  ⟨"ErrorResponse", [
    ⟨"Body", .ptr "Body", "body", true⟩,
    ⟨"Command", .string, "command", true⟩,
    ⟨"Message", .string, "message", true⟩,
    ⟨"RequestSeq", .float64, "request_seq", true⟩,
    ⟨"Seq", .float64, "seq", true⟩,
    ⟨"Success", .bool, "success", true⟩,
    ⟨"Type", .string, "type", true⟩]⟩

/-- Declaration `type EvaluateArguments struct` of `protocol/dap.go`. -/
def EvaluateArguments : StructDecl :=
  ⟨"EvaluateArguments", [
    ⟨"Context", .string, "context", true⟩,
    ⟨"Expression", .string, "expression", true⟩,
    ⟨"Format", .ptr "ValueFormat", "format", true⟩,
    ⟨"FrameId", .float64, "frameId", true⟩]⟩

/-- Declaration `type EvaluateRequest struct` of `protocol/dap.go`. -/
def EvaluateRequest : StructDecl :=
  ⟨"EvaluateRequest", [
    ⟨"Arguments", .ptr "EvaluateArguments", "arguments", true⟩,
    ⟨"Command", .string, "command", true⟩,
    ⟨"Seq", .float64, "seq", true⟩,
    ⟨"Type", .string, "type", true⟩]⟩

/-- Declaration `type EvaluateResponse struct` of `protocol/dap.go`. -/
def EvaluateResponse : StructDecl :=
  ⟨"EvaluateResponse", [
    ⟨"Body", .ptr "Body", "body", true⟩,
    ⟨"Command", .string, "command", true⟩,
    ⟨"Message", .string, "message", true⟩,
    ⟨"RequestSeq", .float64, "request_seq", true⟩,
    ⟨"Seq", .float64, "seq", true⟩,
    ⟨"Success", .bool, "success", true⟩,
    ⟨"Type", .string, "type", true⟩]⟩

/-- Declaration `type Event struct` of `protocol/dap.go`. -/
def Event : StructDecl :=
  ⟨"Event", [
    ⟨"Body", .iface, "body", true⟩,
    ⟨"Event", .string, "event", true⟩,
    ⟨"Seq", .float64, "seq", true⟩,
    ⟨"Type", .string, "type", true⟩]⟩

/-- Declaration `type ExceptionBreakpointsFilter struct` of `protocol/dap.go`. -/
def ExceptionBreakpointsFilter : StructDecl :=
  ⟨"ExceptionBreakpointsFilter", [
    ⟨"Default", .bool, "default", true⟩,
    ⟨"Filter", .string, "filter", true⟩,
    ⟨"Label", .string, "label", true⟩]⟩

/-- Declaration `type ExceptionDetails struct` of `protocol/dap.go`. -/
def ExceptionDetails : StructDecl :=
  ⟨"ExceptionDetails", [
    ⟨"EvaluateName", .string, "evaluateName", true⟩,
    ⟨"FullTypeName", .string, "fullTypeName", true⟩,
    ⟨"InnerException", .slice (.ptr "ExceptionDetails"), "innerException", true⟩,
    ⟨"Message", .string, "message", true⟩,
    ⟨"StackTrace", .string, "stackTrace", true⟩,
    ⟨"TypeName", .string, "typeName", true⟩]⟩

/-- Declaration `type ExceptionInfoArguments struct` of `protocol/dap.go`. -/
def ExceptionInfoArguments : StructDecl :=
  ⟨"ExceptionInfoArguments", [
    ⟨"ThreadId", .float64, "threadId", true⟩]⟩

/-- Declaration `type ExceptionInfoRequest struct` of `protocol/dap.go`. -/
def ExceptionInfoRequest : StructDecl :=
  ⟨"ExceptionInfoRequest", [
    ⟨"Arguments", .ptr "ExceptionInfoArguments", "arguments", true⟩,
    ⟨"Command", .string, "command", true⟩,
    ⟨"Seq", .float64, "seq", true⟩,
    ⟨"Type", .string, "type", true⟩]⟩

/-- Declaration `type ExceptionInfoResponse struct` of `protocol/dap.go`. -/
def ExceptionInfoResponse : StructDecl :=
  ⟨"ExceptionInfoResponse", [
    ⟨"Body", .ptr "Body", "body", true⟩,
    ⟨"Command", .string, "command", true⟩,
    ⟨"Message", .string, "message", true⟩,
    ⟨"RequestSeq", .float64, "request_seq", true⟩,
    ⟨"Seq", .float64, "seq", true⟩,
    ⟨"Success", .bool, "success", true⟩,
    ⟨"Type", .string, "type", true⟩]⟩

/-- Declaration `type ExceptionOptions struct` of `protocol/dap.go`. -/
def ExceptionOptions : StructDecl :=
  ⟨"ExceptionOptions", [
    ⟨"BreakMode", .string, "breakMode", true⟩,
    ⟨"Path", .slice (.ptr "ExceptionPathSegment"), "path", true⟩]⟩

/-- Declaration `type ExceptionPathSegment struct` of `protocol/dap.go`. -/
def ExceptionPathSegment : StructDecl :=
  ⟨"ExceptionPathSegment", [
    ⟨"Names", .slice .string, "names", true⟩,
    ⟨"Negate", .bool, "negate", true⟩]⟩

/-- Declaration `type ExitedEvent struct` of `protocol/dap.go`. -/
def ExitedEvent : StructDecl :=
  ⟨"ExitedEvent", [
    ⟨"Body", .ptr "Body", "body", true⟩,
    ⟨"Event", .string, "event", true⟩,
    ⟨"Seq", .float64, "seq", true⟩,
    ⟨"Type", .string, "type", true⟩]⟩

/-- Declaration `type FunctionBreakpoint struct` of `protocol/dap.go`. -/
def FunctionBreakpoint : StructDecl :=
  ⟨"FunctionBreakpoint", [
    ⟨"Condition", .string, "condition", true⟩,
    ⟨"HitCondition", .string, "hitCondition", true⟩,
    ⟨"Name", .string, "name", true⟩]⟩

/-- Declaration `type GotoArguments struct` of `protocol/dap.go`. -/
def GotoArguments : StructDecl :=
  ⟨"GotoArguments", [
    ⟨"TargetId", .float64, "targetId", true⟩,
    ⟨"ThreadId", .float64, "threadId", true⟩]⟩

/-- Declaration `type GotoRequest struct` of `protocol/dap.go`. -/
def GotoRequest : StructDecl :=
  ⟨"GotoRequest", [
    ⟨"Arguments", .ptr "GotoArguments", "arguments", true⟩,
    ⟨"Command", .string, "command", true⟩,
    ⟨"Seq", .float64, "seq", true⟩,
    ⟨"Type", .string, "type", true⟩]⟩

/-- Declaration `type GotoResponse struct` of `protocol/dap.go`. -/
def GotoResponse : StructDecl :=
  ⟨"GotoResponse", [
    ⟨"Body", .iface, "body", true⟩,
    ⟨"Command", .string, "command", true⟩,
    ⟨"Message", .string, "message", true⟩,
    ⟨"RequestSeq", .float64, "request_seq", true⟩,
    ⟨"Seq", .float64, "seq", true⟩,
    ⟨"Success", .bool, "success", true⟩,
    ⟨"Type", .string, "type", true⟩]⟩

/-- Declaration `type GotoTarget struct` of `protocol/dap.go`. -/
def GotoTarget : StructDecl :=
  ⟨"GotoTarget", [
    ⟨"Column", .float64, "column", true⟩,
    ⟨"EndColumn", .float64, "endColumn", true⟩,
    ⟨"EndLine", .float64, "endLine", true⟩,
    ⟨"Id", .float64, "id", true⟩,
    ⟨"InstructionPointerReference", .string, "instructionPointerReference", true⟩,
    ⟨"Label", .string, "label", true⟩,
    ⟨"Line", .float64, "line", true⟩]⟩

/-- Declaration `type GotoTargetsArguments struct` of `protocol/dap.go`. -/
def GotoTargetsArguments : StructDecl :=
  ⟨"GotoTargetsArguments", [
    ⟨"Column", .float64, "column", true⟩,
    ⟨"Line", .float64, "line", true⟩,
    ⟨"Source", .ptr "Source", "source", true⟩]⟩

/-- Declaration `type GotoTargetsRequest struct` of `protocol/dap.go`. -/
def GotoTargetsRequest : StructDecl :=
  ⟨"GotoTargetsRequest", [
    ⟨"Arguments", .ptr "GotoTargetsArguments", "arguments", true⟩,
    ⟨"Command", .string, "command", true⟩,
    ⟨"Seq", .float64, "seq", true⟩,
    ⟨"Type", .string, "type", true⟩]⟩

/-- Declaration `type GotoTargetsResponse struct` of `protocol/dap.go`. -/
def GotoTargetsResponse : StructDecl :=
  ⟨"GotoTargetsResponse", [
    ⟨"Body", .ptr "Body", "body", true⟩,
    ⟨"Command", .string, "command", true⟩,
    ⟨"Message", .string, "message", true⟩,
    ⟨"RequestSeq", .float64, "request_seq", true⟩,
    ⟨"Seq", .float64, "seq", true⟩,
    ⟨"Success", .bool, "success", true⟩,
    ⟨"Type", .string, "type", true⟩]⟩

/-- Declaration `type InitializeRequestArguments struct` of `protocol/dap.go`. -/
def InitializeRequestArguments : StructDecl :=
  ⟨"InitializeRequestArguments", [
    ⟨"AdapterID", .string, "adapterID", true⟩,
    ⟨"ClientID", .string, "clientID", true⟩,
    ⟨"ClientName", .string, "clientName", true⟩,
    ⟨"ColumnsStartAt1", .bool, "columnsStartAt1", true⟩,
    ⟨"LinesStartAt1", .bool, "linesStartAt1", true⟩,
    ⟨"Locale", .string, "locale", true⟩,
    ⟨"PathFormat", .string, "pathFormat", true⟩,
    ⟨"SupportsMemoryReferences", .bool, "supportsMemoryReferences", true⟩,
    ⟨"SupportsRunInTerminalRequest", .bool, "supportsRunInTerminalRequest", true⟩,
    ⟨"SupportsVariablePaging", .bool, "supportsVariablePaging", true⟩,
    ⟨"SupportsVariableType", .bool, "supportsVariableType", true⟩]⟩

/-- Declaration `type InitializeRequest struct` of `protocol/dap.go`. -/
def InitializeRequest : StructDecl :=
  ⟨"InitializeRequest", [
    ⟨"Arguments", .ptr "InitializeRequestArguments", "arguments", true⟩,
    ⟨"Command", .string, "command", true⟩,
    ⟨"Seq", .float64, "seq", true⟩,
    ⟨"Type", .string, "type", true⟩]⟩

/-- Declaration `type InitializeResponse struct` of `protocol/dap.go`. -/
def InitializeResponse : StructDecl :=
  ⟨"InitializeResponse", [
    ⟨"Body", .ptr "Capabilities", "body", true⟩,
    ⟨"Command", .string, "command", true⟩,
    ⟨"Message", .string, "message", true⟩,
    ⟨"RequestSeq", .float64, "request_seq", true⟩,
    ⟨"Seq", .float64, "seq", true⟩,
    ⟨"Success", .bool, "success", true⟩,
    ⟨"Type", .string, "type", true⟩]⟩

/-- Declaration `type InitializedEvent struct` of `protocol/dap.go`. -/
def InitializedEvent : StructDecl :=
  ⟨"InitializedEvent", [
    ⟨"Body", .iface, "body", true⟩,
    ⟨"Event", .string, "event", true⟩,
    ⟨"Seq", .float64, "seq", true⟩,
    ⟨"Type", .string, "type", true⟩]⟩

/-- Declaration `type LaunchRequest struct` of `protocol/dap.go`. -/
def LaunchRequest : StructDecl :=
  ⟨"LaunchRequest", [
    ⟨"Arguments", .ptr "LaunchRequestArguments", "arguments", true⟩,
    ⟨"Command", .string, "command", true⟩,
    ⟨"Seq", .float64, "seq", true⟩,
    ⟨"Type", .string, "type", true⟩]⟩

/-- Declaration `type LaunchRequestArguments struct` of `protocol/dap.go`. -/
def LaunchRequestArguments : StructDecl :=
  ⟨"LaunchRequestArguments", [
    ⟨"NoDebug", .bool, "noDebug", true⟩,
    ⟨"Restart", .iface, "__restart", true⟩]⟩

/-- Declaration `type LaunchResponse struct` of `protocol/dap.go`. -/
def LaunchResponse : StructDecl :=
  ⟨"LaunchResponse", [
    ⟨"Body", .iface, "body", true⟩,
    ⟨"Command", .string, "command", true⟩,
    ⟨"Message", .string, "message", true⟩,
    ⟨"RequestSeq", .float64, "request_seq", true⟩,
    ⟨"Seq", .float64, "seq", true⟩,
    ⟨"Success", .bool, "success", true⟩,
    ⟨"Type", .string, "type", true⟩]⟩

/-- Declaration `type LoadedSourceEvent struct` of `protocol/dap.go`. -/
def LoadedSourceEvent : StructDecl :=
  ⟨"LoadedSourceEvent", [
    ⟨"Body", .ptr "Body", "body", true⟩,
    ⟨"Event", .string, "event", true⟩,
    ⟨"Seq", .float64, "seq", true⟩,
    ⟨"Type", .string, "type", true⟩]⟩

/-- Declaration `type LoadedSourcesArguments struct` of `protocol/dap.go`. -/
def LoadedSourcesArguments : StructDecl := ⟨"LoadedSourcesArguments", []⟩

/-- Declaration `type LoadedSourcesRequest struct` of `protocol/dap.go`. -/
def LoadedSourcesRequest : StructDecl :=
  ⟨"LoadedSourcesRequest", [
    ⟨"Arguments", .ptr "LoadedSourcesArguments", "arguments", true⟩,
    ⟨"Command", .string, "command", true⟩,
    ⟨"Seq", .float64, "seq", true⟩,
    ⟨"Type", .string, "type", true⟩]⟩

/-- Declaration `type LoadedSourcesResponse struct` of `protocol/dap.go`. -/
def LoadedSourcesResponse : StructDecl :=
  ⟨"LoadedSourcesResponse", [
    ⟨"Body", .ptr "Body", "body", true⟩,
    ⟨"Command", .string, "command", true⟩,
    ⟨"Message", .string, "message", true⟩,
    ⟨"RequestSeq", .float64, "request_seq", true⟩,
    ⟨"Seq", .float64, "seq", true⟩,
    ⟨"Success", .bool, "success", true⟩,
    ⟨"Type", .string, "type", true⟩]⟩

/-- Declaration `type Message struct` of `protocol/dap.go`. -/
def Message : StructDecl :=
  ⟨"Message", [
    ⟨"Format", .string, "format", true⟩,
    ⟨"Id", .float64, "id", true⟩,
    ⟨"SendTelemetry", .bool, "sendTelemetry", true⟩,
    ⟨"ShowUser", .bool, "showUser", true⟩,
    ⟨"Url", .string, "url", true⟩,
    ⟨"UrlLabel", .string, "urlLabel", true⟩,
    ⟨"Variables", .mapString .string, "variables", true⟩]⟩

/-- Declaration `type Module struct` of `protocol/dap.go`. -/
def Module : StructDecl :=
  ⟨"Module", [
    ⟨"AddressRange", .string, "addressRange", true⟩,
    ⟨"DateTimeStamp", .string, "dateTimeStamp", true⟩,
    ⟨"Id", .iface, "id", true⟩,
    ⟨"IsOptimized", .bool, "isOptimized", true⟩,
    ⟨"IsUserCode", .bool, "isUserCode", true⟩,
    ⟨"Name", .string, "name", true⟩,
    ⟨"Path", .string, "path", true⟩,
    ⟨"SymbolFilePath", .string, "symbolFilePath", true⟩,
    ⟨"SymbolStatus", .string, "symbolStatus", true⟩,
    ⟨"Version", .string, "version", true⟩]⟩

/-- Declaration `type ModuleEvent struct` of `protocol/dap.go`. -/
def ModuleEvent : StructDecl :=
  ⟨"ModuleEvent", [
    ⟨"Body", .ptr "Body", "body", true⟩,
    ⟨"Event", .string, "event", true⟩,
    ⟨"Seq", .float64, "seq", true⟩,
    ⟨"Type", .string, "type", true⟩]⟩

/-- Declaration `type ModulesArguments struct` of `protocol/dap.go`. -/
def ModulesArguments : StructDecl :=
  ⟨"ModulesArguments", [
    ⟨"ModuleCount", .float64, "moduleCount", true⟩,
    ⟨"StartModule", .float64, "startModule", true⟩]⟩

/-- Declaration `type ModulesRequest struct` of `protocol/dap.go`. -/
def ModulesRequest : StructDecl :=
  ⟨"ModulesRequest", [
    ⟨"Arguments", .ptr "ModulesArguments", "arguments", true⟩,
    ⟨"Command", .string, "command", true⟩,
    ⟨"Seq", .float64, "seq", true⟩,
    ⟨"Type", .string, "type", true⟩]⟩

/-- Declaration `type ModulesResponse struct` of `protocol/dap.go`. -/
def ModulesResponse : StructDecl :=
  ⟨"ModulesResponse", [
    ⟨"Body", .ptr "Body", "body", true⟩,
    ⟨"Command", .string, "command", true⟩,
    ⟨"Message", .string, "message", true⟩,
    ⟨"RequestSeq", .float64, "request_seq", true⟩,
    ⟨"Seq", .float64, "seq", true⟩,
    ⟨"Success", .bool, "success", true⟩,
    ⟨"Type", .string, "type", true⟩]⟩

/-- Declaration `type ModulesViewDescriptor struct` of `protocol/dap.go`. -/
def ModulesViewDescriptor : StructDecl :=
  ⟨"ModulesViewDescriptor", [
    ⟨"Columns", .slice (.ptr "ColumnDescriptor"), "columns", true⟩]⟩

/-- Declaration `type NextArguments struct` of `protocol/dap.go`. -/
def NextArguments : StructDecl :=
  ⟨"NextArguments", [
    ⟨"ThreadId", .float64, "threadId", true⟩]⟩

/-- Declaration `type NextRequest struct` of `protocol/dap.go`. -/
def NextRequest : StructDecl :=
  ⟨"NextRequest", [
    ⟨"Arguments", .ptr "NextArguments", "arguments", true⟩,
    ⟨"Command", .string, "command", true⟩,
    ⟨"Seq", .float64, "seq", true⟩,
    ⟨"Type", .string, "type", true⟩]⟩

/-- Declaration `type NextResponse struct` of `protocol/dap.go`. -/
def NextResponse : StructDecl :=
  ⟨"NextResponse", [
    ⟨"Body", .iface, "body", true⟩,
    ⟨"Command", .string, "command", true⟩,
    ⟨"Message", .string, "message", true⟩,
    ⟨"RequestSeq", .float64, "request_seq", true⟩,
    ⟨"Seq", .float64, "seq", true⟩,
    ⟨"Success", .bool, "success", true⟩,
    ⟨"Type", .string, "type", true⟩]⟩

/-- Declaration `type OutputEvent struct` of `protocol/dap.go`. -/
def OutputEvent : StructDecl :=
  ⟨"OutputEvent", [
    ⟨"Body", .ptr "Body", "body", true⟩,
    ⟨"Event", .string, "event", true⟩,
    ⟨"Seq", .float64, "seq", true⟩,
    ⟨"Type", .string, "type", true⟩]⟩

/-- Declaration `type PauseArguments struct` of `protocol/dap.go`. -/
def PauseArguments : StructDecl :=
  ⟨"PauseArguments", [
    ⟨"ThreadId", .float64, "threadId", true⟩]⟩

/-- Declaration `type PauseRequest struct` of `protocol/dap.go`. -/
def PauseRequest : StructDecl :=
  ⟨"PauseRequest", [
    ⟨"Arguments", .ptr "PauseArguments", "arguments", true⟩,
    ⟨"Command", .string, "command", true⟩,
    ⟨"Seq", .float64, "seq", true⟩,
    ⟨"Type", .string, "type", true⟩]⟩

/-- Declaration `type PauseResponse struct` of `protocol/dap.go`. -/
def PauseResponse : StructDecl :=
  ⟨"PauseResponse", [
    ⟨"Body", .iface, "body", true⟩,
    ⟨"Command", .string, "command", true⟩,
    ⟨"Message", .string, "message", true⟩,
    ⟨"RequestSeq", .float64, "request_seq", true⟩,
    ⟨"Seq", .float64, "seq", true⟩,
    ⟨"Success", .bool, "success", true⟩,
    ⟨"Type", .string, "type", true⟩]⟩

/-- Declaration `type ProcessEvent struct` of `protocol/dap.go`. -/
def ProcessEvent : StructDecl :=
  ⟨"ProcessEvent", [
    ⟨"Body", .ptr "Body", "body", true⟩,
    ⟨"Event", .string, "event", true⟩,
    ⟨"Seq", .float64, "seq", true⟩,
    ⟨"Type", .string, "type", true⟩]⟩

/-- Declaration `type ProtocolMessage struct` of `protocol/dap.go`. -/
def ProtocolMessage : StructDecl :=
  ⟨"ProtocolMessage", [
    ⟨"Seq", .float64, "seq", true⟩,
    ⟨"Type", .string, "type", true⟩]⟩

/-- Declaration `type ReadMemoryArguments struct` of `protocol/dap.go`. -/
def ReadMemoryArguments : StructDecl :=
  ⟨"ReadMemoryArguments", [
    ⟨"Count", .float64, "count", true⟩,
    ⟨"MemoryReference", .string, "memoryReference", true⟩,
    ⟨"Offset", .float64, "offset", true⟩]⟩

/-- Declaration `type ReadMemoryRequest struct` of `protocol/dap.go`. -/
def ReadMemoryRequest : StructDecl :=
  ⟨"ReadMemoryRequest", [
    ⟨"Arguments", .ptr "ReadMemoryArguments", "arguments", true⟩,
    ⟨"Command", .string, "command", true⟩,
    ⟨"Seq", .float64, "seq", true⟩,
    ⟨"Type", .string, "type", true⟩]⟩

/-- Declaration `type ReadMemoryResponse struct` of `protocol/dap.go`. -/
def ReadMemoryResponse : StructDecl :=
  ⟨"ReadMemoryResponse", [
    ⟨"Body", .ptr "Body", "body", true⟩,
    ⟨"Command", .string, "command", true⟩,
    ⟨"Message", .string, "message", true⟩,
    ⟨"RequestSeq", .float64, "request_seq", true⟩,
    ⟨"Seq", .float64, "seq", true⟩,
    ⟨"Success", .bool, "success", true⟩,
    ⟨"Type", .string, "type", true⟩]⟩

/-- Declaration `type Request struct` of `protocol/dap.go`. -/
def Request : StructDecl :=
  ⟨"Request", [
    ⟨"Arguments", .iface, "arguments", true⟩,
    ⟨"Command", .string, "command", true⟩,
    ⟨"Seq", .float64, "seq", true⟩,
    ⟨"Type", .string, "type", true⟩]⟩

/-- Declaration `type Response struct` of `protocol/dap.go`. -/
def Response : StructDecl :=
  ⟨"Response", [
    ⟨"Body", .iface, "body", true⟩,
    ⟨"Command", .string, "command", true⟩,
    ⟨"Message", .string, "message", true⟩,
    ⟨"RequestSeq", .float64, "request_seq", true⟩,
    ⟨"Seq", .float64, "seq", true⟩,
    ⟨"Success", .bool, "success", true⟩,
    ⟨"Type", .string, "type", true⟩]⟩

/-- Declaration `type RestartArguments struct` of `protocol/dap.go`. -/
def RestartArguments : StructDecl := ⟨"RestartArguments", []⟩

/-- Declaration `type RestartFrameArguments struct` of `protocol/dap.go`. -/
def RestartFrameArguments : StructDecl :=
  ⟨"RestartFrameArguments", [
    ⟨"FrameId", .float64, "frameId", true⟩]⟩

/-- Declaration `type RestartFrameRequest struct` of `protocol/dap.go`. -/
def RestartFrameRequest : StructDecl :=
  ⟨"RestartFrameRequest", [
    ⟨"Arguments", .ptr "RestartFrameArguments", "arguments", true⟩,
    ⟨"Command", .string, "command", true⟩,
    ⟨"Seq", .float64, "seq", true⟩,
    ⟨"Type", .string, "type", true⟩]⟩

/-- Declaration `type RestartFrameResponse struct` of `protocol/dap.go`. -/
def RestartFrameResponse : StructDecl :=
  ⟨"RestartFrameResponse", [
    ⟨"Body", .iface, "body", true⟩,
    ⟨"Command", .string, "command", true⟩,
    ⟨"Message", .string, "message", true⟩,
    ⟨"RequestSeq", .float64, "request_seq", true⟩,
    ⟨"Seq", .float64, "seq", true⟩,
    ⟨"Success", .bool, "success", true⟩,
    ⟨"Type", .string, "type", true⟩]⟩

/-- Declaration `type RestartRequest struct` of `protocol/dap.go`. -/
def RestartRequest : StructDecl :=
  ⟨"RestartRequest", [
    ⟨"Arguments", .ptr "RestartArguments", "arguments", true⟩,
    ⟨"Command", .string, "command", true⟩,
    ⟨"Seq", .float64, "seq", true⟩,
    ⟨"Type", .string, "type", true⟩]⟩

/-- Declaration `type RestartResponse struct` of `protocol/dap.go`. -/
def RestartResponse : StructDecl :=
  ⟨"RestartResponse", [
    ⟨"Body", .iface, "body", true⟩,
    ⟨"Command", .string, "command", true⟩,
    ⟨"Message", .string, "message", true⟩,
    ⟨"RequestSeq", .float64, "request_seq", true⟩,
    ⟨"Seq", .float64, "seq", true⟩,
    ⟨"Success", .bool, "success", true⟩,
    ⟨"Type", .string, "type", true⟩]⟩

/-- Declaration `type ReverseContinueArguments struct` of `protocol/dap.go`. -/
def ReverseContinueArguments : StructDecl :=
  ⟨"ReverseContinueArguments", [
    ⟨"ThreadId", .float64, "threadId", true⟩]⟩

/-- Declaration `type ReverseContinueRequest struct` of `protocol/dap.go`. -/
def ReverseContinueRequest : StructDecl :=
  ⟨"ReverseContinueRequest", [
    ⟨"Arguments", .ptr "ReverseContinueArguments", "arguments", true⟩,
    ⟨"Command", .string, "command", true⟩,
    ⟨"Seq", .float64, "seq", true⟩,
    ⟨"Type", .string, "type", true⟩]⟩

/-- Declaration `type ReverseContinueResponse struct` of `protocol/dap.go`. -/
def ReverseContinueResponse : StructDecl :=
  ⟨"ReverseContinueResponse", [
    ⟨"Body", .iface, "body", true⟩,
    ⟨"Command", .string, "command", true⟩,
    ⟨"Message", .string, "message", true⟩,
    ⟨"RequestSeq", .float64, "request_seq", true⟩,
    ⟨"Seq", .float64, "seq", true⟩,
    ⟨"Success", .bool, "success", true⟩,
    ⟨"Type", .string, "type", true⟩]⟩

/-- Declaration `type RunInTerminalRequestArguments struct` of `protocol/dap.go`. -/
def RunInTerminalRequestArguments : StructDecl :=
  ⟨"RunInTerminalRequestArguments", [
    ⟨"Args", .slice .string, "args", true⟩,
    ⟨"Cwd", .string, "cwd", true⟩,
    ⟨"Env", .mapString .string, "env", true⟩,
    ⟨"Kind", .string, "kind", true⟩,
    ⟨"Title", .string, "title", true⟩]⟩

/-- Declaration `type RunInTerminalRequest struct` of `protocol/dap.go`. -/
def RunInTerminalRequest : StructDecl :=
  ⟨"RunInTerminalRequest", [
    ⟨"Arguments", .ptr "RunInTerminalRequestArguments", "arguments", true⟩,
    ⟨"Command", .string, "command", true⟩,
    ⟨"Seq", .float64, "seq", true⟩,
    ⟨"Type", .string, "type", true⟩]⟩

/-- Declaration `type RunInTerminalResponse struct` of `protocol/dap.go`. -/
def RunInTerminalResponse : StructDecl :=
  ⟨"RunInTerminalResponse", [
    ⟨"Body", .ptr "Body", "body", true⟩,
    ⟨"Command", .string, "command", true⟩,
    ⟨"Message", .string, "message", true⟩,
    ⟨"RequestSeq", .float64, "request_seq", true⟩,
    ⟨"Seq", .float64, "seq", true⟩,
    ⟨"Success", .bool, "success", true⟩,
    ⟨"Type", .string, "type", true⟩]⟩

/-- Declaration `type Scope struct` of `protocol/dap.go`. -/
def Scope : StructDecl :=
  ⟨"Scope", [
    ⟨"Column", .float64, "column", true⟩,
    ⟨"EndColumn", .float64, "endColumn", true⟩,
    ⟨"EndLine", .float64, "endLine", true⟩,
    ⟨"Expensive", .bool, "expensive", true⟩,
    ⟨"IndexedVariables", .float64, "indexedVariables", true⟩,
    ⟨"Line", .float64, "line", true⟩,
    ⟨"Name", .string, "name", true⟩,
    ⟨"NamedVariables", .float64, "namedVariables", true⟩,
    ⟨"PresentationHint", .string, "presentationHint", true⟩,
    ⟨"Source", .ptr "Source", "source", true⟩,
    ⟨"VariablesReference", .float64, "variablesReference", true⟩]⟩

/-- Declaration `type ScopesArguments struct` of `protocol/dap.go`. -/
def ScopesArguments : StructDecl :=
  ⟨"ScopesArguments", [
    ⟨"FrameId", .float64, "frameId", true⟩]⟩

/-- Declaration `type ScopesRequest struct` of `protocol/dap.go`. -/
def ScopesRequest : StructDecl :=
  ⟨"ScopesRequest", [
    ⟨"Arguments", .ptr "ScopesArguments", "arguments", true⟩,
    ⟨"Command", .string, "command", true⟩,
    ⟨"Seq", .float64, "seq", true⟩,
    ⟨"Type", .string, "type", true⟩]⟩

/-- Declaration `type ScopesResponse struct` of `protocol/dap.go`. -/
def ScopesResponse : StructDecl :=
  ⟨"ScopesResponse", [
    ⟨"Body", .ptr "Body", "body", true⟩,
    ⟨"Command", .string, "command", true⟩,
    ⟨"Message", .string, "message", true⟩,
    ⟨"RequestSeq", .float64, "request_seq", true⟩,
    ⟨"Seq", .float64, "seq", true⟩,
    ⟨"Success", .bool, "success", true⟩,
    ⟨"Type", .string, "type", true⟩]⟩

/-- Declaration `type SetBreakpointsArguments struct` of `protocol/dap.go`. -/
def SetBreakpointsArguments : StructDecl :=
  ⟨"SetBreakpointsArguments", [
    ⟨"Breakpoints", .slice (.ptr "SourceBreakpoint"), "breakpoints", true⟩,
    ⟨"Lines", .slice .float64, "lines", true⟩,
    ⟨"Source", .ptr "Source", "source", true⟩,
    ⟨"SourceModified", .bool, "sourceModified", true⟩]⟩

/-- Declaration `type SetBreakpointsRequest struct` of `protocol/dap.go`. -/
def SetBreakpointsRequest : StructDecl :=
  ⟨"SetBreakpointsRequest", [
    ⟨"Arguments", .ptr "SetBreakpointsArguments", "arguments", true⟩,
    ⟨"Command", .string, "command", true⟩,
    ⟨"Seq", .float64, "seq", true⟩,
    ⟨"Type", .string, "type", true⟩]⟩

/-- Declaration `type SetBreakpointsResponse struct` of `protocol/dap.go`. -/
def SetBreakpointsResponse : StructDecl :=
  ⟨"SetBreakpointsResponse", [
    ⟨"Body", .ptr "Body", "body", true⟩,
    ⟨"Command", .string, "command", true⟩,
    ⟨"Message", .string, "message", true⟩,
    ⟨"RequestSeq", .float64, "request_seq", true⟩,
    ⟨"Seq", .float64, "seq", true⟩,
    ⟨"Success", .bool, "success", true⟩,
    ⟨"Type", .string, "type", true⟩]⟩

/-- Declaration `type SetDataBreakpointsArguments struct` of `protocol/dap.go`. -/
def SetDataBreakpointsArguments : StructDecl :=
  ⟨"SetDataBreakpointsArguments", [
    ⟨"Breakpoints", .slice (.ptr "DataBreakpoint"), "breakpoints", true⟩]⟩

/-- Declaration `type SetDataBreakpointsRequest struct` of `protocol/dap.go`. -/
def SetDataBreakpointsRequest : StructDecl :=
  ⟨"SetDataBreakpointsRequest", [
    ⟨"Arguments", .ptr "SetDataBreakpointsArguments", "arguments", true⟩,
    ⟨"Command", .string, "command", true⟩,
    ⟨"Seq", .float64, "seq", true⟩,
    ⟨"Type", .string, "type", true⟩]⟩

/-- Declaration `type SetDataBreakpointsResponse struct` of `protocol/dap.go`. -/
def SetDataBreakpointsResponse : StructDecl :=
  ⟨"SetDataBreakpointsResponse", [
    ⟨"Body", .ptr "Body", "body", true⟩,
    ⟨"Command", .string, "command", true⟩,
    ⟨"Message", .string, "message", true⟩,
    ⟨"RequestSeq", .float64, "request_seq", true⟩,
    ⟨"Seq", .float64, "seq", true⟩,
    ⟨"Success", .bool, "success", true⟩,
    ⟨"Type", .string, "type", true⟩]⟩

/-- Declaration `type SetExceptionBreakpointsArguments struct` of `protocol/dap.go`. -/
def SetExceptionBreakpointsArguments : StructDecl :=
  ⟨"SetExceptionBreakpointsArguments", [
    ⟨"ExceptionOptions", .slice (.ptr "ExceptionOptions"), "exceptionOptions", true⟩,
    ⟨"Filters", .slice .string, "filters", true⟩]⟩

/-- Declaration `type SetExceptionBreakpointsRequest struct` of `protocol/dap.go`. -/
def SetExceptionBreakpointsRequest : StructDecl :=
  ⟨"SetExceptionBreakpointsRequest", [
    ⟨"Arguments", .ptr "SetExceptionBreakpointsArguments", "arguments", true⟩,
    ⟨"Command", .string, "command", true⟩,
    ⟨"Seq", .float64, "seq", true⟩,
    ⟨"Type", .string, "type", true⟩]⟩

/-- Declaration `type SetExceptionBreakpointsResponse struct` of `protocol/dap.go`. -/
def SetExceptionBreakpointsResponse : StructDecl :=
  ⟨"SetExceptionBreakpointsResponse", [
    ⟨"Body", .iface, "body", true⟩,
    ⟨"Command", .string, "command", true⟩,
    ⟨"Message", .string, "message", true⟩,
    ⟨"RequestSeq", .float64, "request_seq", true⟩,
    ⟨"Seq", .float64, "seq", true⟩,
    ⟨"Success", .bool, "success", true⟩,
    ⟨"Type", .string, "type", true⟩]⟩

/-- Declaration `type SetExpressionArguments struct` of `protocol/dap.go`. -/
def SetExpressionArguments : StructDecl :=
  ⟨"SetExpressionArguments", [
    ⟨"Expression", .string, "expression", true⟩,
    ⟨"Format", .ptr "ValueFormat", "format", true⟩,
    ⟨"FrameId", .float64, "frameId", true⟩,
    ⟨"Value", .string, "value", true⟩]⟩

/-- Declaration `type SetExpressionRequest struct` of `protocol/dap.go`. -/
def SetExpressionRequest : StructDecl :=
  ⟨"SetExpressionRequest", [
    ⟨"Arguments", .ptr "SetExpressionArguments", "arguments", true⟩,
    ⟨"Command", .string, "command", true⟩,
    ⟨"Seq", .float64, "seq", true⟩,
    ⟨"Type", .string, "type", true⟩]⟩

/-- Declaration `type SetExpressionResponse struct` of `protocol/dap.go`. -/
def SetExpressionResponse : StructDecl :=
  ⟨"SetExpressionResponse", [
    ⟨"Body", .ptr "Body", "body", true⟩,
    ⟨"Command", .string, "command", true⟩,
    ⟨"Message", .string, "message", true⟩,
    ⟨"RequestSeq", .float64, "request_seq", true⟩,
    ⟨"Seq", .float64, "seq", true⟩,
    ⟨"Success", .bool, "success", true⟩,
    ⟨"Type", .string, "type", true⟩]⟩

/-- Declaration `type SetFunctionBreakpointsArguments struct` of `protocol/dap.go`. -/
def SetFunctionBreakpointsArguments : StructDecl :=
  ⟨"SetFunctionBreakpointsArguments", [
    ⟨"Breakpoints", .slice (.ptr "FunctionBreakpoint"), "breakpoints", true⟩]⟩

/-- Declaration `type SetFunctionBreakpointsRequest struct` of `protocol/dap.go`. -/
def SetFunctionBreakpointsRequest : StructDecl :=
  ⟨"SetFunctionBreakpointsRequest", [
    ⟨"Arguments", .ptr "SetFunctionBreakpointsArguments", "arguments", true⟩,
    ⟨"Command", .string, "command", true⟩,
    ⟨"Seq", .float64, "seq", true⟩,
    ⟨"Type", .string, "type", true⟩]⟩

/-- Declaration `type SetFunctionBreakpointsResponse struct` of `protocol/dap.go`. -/
def SetFunctionBreakpointsResponse : StructDecl :=
  ⟨"SetFunctionBreakpointsResponse", [
    ⟨"Body", .ptr "Body", "body", true⟩,
    ⟨"Command", .string, "command", true⟩,
    ⟨"Message", .string, "message", true⟩,
    ⟨"RequestSeq", .float64, "request_seq", true⟩,
    ⟨"Seq", .float64, "seq", true⟩,
    ⟨"Success", .bool, "success", true⟩,
    ⟨"Type", .string, "type", true⟩]⟩

/-- Declaration `type SetVariableArguments struct` of `protocol/dap.go`. -/
def SetVariableArguments : StructDecl :=
  ⟨"SetVariableArguments", [
    ⟨"Format", .ptr "ValueFormat", "format", true⟩,
    ⟨"Name", .string, "name", true⟩,
    ⟨"Value", .string, "value", true⟩,
    ⟨"VariablesReference", .float64, "variablesReference", true⟩]⟩

/-- Declaration `type SetVariableRequest struct` of `protocol/dap.go`. -/
def SetVariableRequest : StructDecl :=
  ⟨"SetVariableRequest", [
    ⟨"Arguments", .ptr "SetVariableArguments", "arguments", true⟩,
    ⟨"Command", .string, "command", true⟩,
    ⟨"Seq", .float64, "seq", true⟩,
    ⟨"Type", .string, "type", true⟩]⟩

/-- Declaration `type SetVariableResponse struct` of `protocol/dap.go`. -/
def SetVariableResponse : StructDecl :=
  ⟨"SetVariableResponse", [
    ⟨"Body", .ptr "Body", "body", true⟩,
    ⟨"Command", .string, "command", true⟩,
    ⟨"Message", .string, "message", true⟩,
    ⟨"RequestSeq", .float64, "request_seq", true⟩,
    ⟨"Seq", .float64, "seq", true⟩,
    ⟨"Success", .bool, "success", true⟩,
    ⟨"Type", .string, "type", true⟩]⟩

/-- Declaration `type Source struct` of `protocol/dap.go`. -/
def Source : StructDecl :=
  ⟨"Source", [
    ⟨"AdapterData", .iface, "adapterData", true⟩,
    ⟨"Checksums", .slice (.ptr "Checksum"), "checksums", true⟩,
    ⟨"Name", .string, "name", true⟩,
    ⟨"Origin", .string, "origin", true⟩,
    ⟨"Path", .string, "path", true⟩,
    ⟨"PresentationHint", .string, "presentationHint", true⟩,
    ⟨"SourceReference", .float64, "sourceReference", true⟩,
    ⟨"Sources", .slice (.ptr "Source"), "sources", true⟩]⟩

/-- Declaration `type SourceArguments struct` of `protocol/dap.go`. -/
def SourceArguments : StructDecl :=
  ⟨"SourceArguments", [
    ⟨"Source", .ptr "Source", "source", true⟩,
    ⟨"SourceReference", .float64, "sourceReference", true⟩]⟩

/-- Declaration `type SourceBreakpoint struct` of `protocol/dap.go`. -/
def SourceBreakpoint : StructDecl :=
  ⟨"SourceBreakpoint", [
    ⟨"Column", .float64, "column", true⟩,
    ⟨"Condition", .string, "condition", true⟩,
    ⟨"HitCondition", .string, "hitCondition", true⟩,
    ⟨"Line", .float64, "line", true⟩,
    ⟨"LogMessage", .string, "logMessage", true⟩]⟩

/-- Declaration `type SourceRequest struct` of `protocol/dap.go`. -/
def SourceRequest : StructDecl :=
  ⟨"SourceRequest", [
    ⟨"Arguments", .ptr "SourceArguments", "arguments", true⟩,
    ⟨"Command", .string, "command", true⟩,
    ⟨"Seq", .float64, "seq", true⟩,
    ⟨"Type", .string, "type", true⟩]⟩

/-- Declaration `type SourceResponse struct` of `protocol/dap.go`. -/
def SourceResponse : StructDecl :=
  ⟨"SourceResponse", [
    ⟨"Body", .ptr "Body", "body", true⟩,
    ⟨"Command", .string, "command", true⟩,
    ⟨"Message", .string, "message", true⟩,
    ⟨"RequestSeq", .float64, "request_seq", true⟩,
    ⟨"Seq", .float64, "seq", true⟩,
    ⟨"Success", .bool, "success", true⟩,
    ⟨"Type", .string, "type", true⟩]⟩

/-- Declaration `type StackFrame struct` of `protocol/dap.go`. -/
def StackFrame : StructDecl :=
  ⟨"StackFrame", [
    ⟨"Column", .float64, "column", true⟩,
    ⟨"EndColumn", .float64, "endColumn", true⟩,
    ⟨"EndLine", .float64, "endLine", true⟩,
    ⟨"Id", .float64, "id", true⟩,
    ⟨"InstructionPointerReference", .string, "instructionPointerReference", true⟩,
    ⟨"Line", .float64, "line", true⟩,
    ⟨"ModuleId", .iface, "moduleId", true⟩,
    ⟨"Name", .string, "name", true⟩,
    ⟨"PresentationHint", .string, "presentationHint", true⟩,
    ⟨"Source", .ptr "Source", "source", true⟩]⟩

/-- Declaration `type StackFrameFormat struct` of `protocol/dap.go`. -/
def StackFrameFormat : StructDecl :=
  ⟨"StackFrameFormat", [
    ⟨"Hex", .bool, "hex", true⟩,
    ⟨"IncludeAll", .bool, "includeAll", true⟩,
    ⟨"Line", .bool, "line", true⟩,
    ⟨"Module", .bool, "module", true⟩,
    ⟨"ParameterNames", .bool, "parameterNames", true⟩,
    ⟨"ParameterTypes", .bool, "parameterTypes", true⟩,
    ⟨"ParameterValues", .bool, "parameterValues", true⟩,
    ⟨"Parameters", .bool, "parameters", true⟩]⟩

/-- Declaration `type StackTraceArguments struct` of `protocol/dap.go`. -/
def StackTraceArguments : StructDecl :=
  ⟨"StackTraceArguments", [
    ⟨"Format", .ptr "StackFrameFormat", "format", true⟩,
    ⟨"Levels", .float64, "levels", true⟩,
    ⟨"StartFrame", .float64, "startFrame", true⟩,
    ⟨"ThreadId", .float64, "threadId", true⟩]⟩

/-- Declaration `type StackTraceRequest struct` of `protocol/dap.go`. -/
def StackTraceRequest : StructDecl :=
  ⟨"StackTraceRequest", [
    ⟨"Arguments", .ptr "StackTraceArguments", "arguments", true⟩,
    ⟨"Command", .string, "command", true⟩,
    ⟨"Seq", .float64, "seq", true⟩,
    ⟨"Type", .string, "type", true⟩]⟩

/-- Declaration `type StackTraceResponse struct` of `protocol/dap.go`. -/
def StackTraceResponse : StructDecl :=
  ⟨"StackTraceResponse", [
    ⟨"Body", .ptr "Body", "body", true⟩,
    ⟨"Command", .string, "command", true⟩,
    ⟨"Message", .string, "message", true⟩,
    ⟨"RequestSeq", .float64, "request_seq", true⟩,
    ⟨"Seq", .float64, "seq", true⟩,
    ⟨"Success", .bool, "success", true⟩,
    ⟨"Type", .string, "type", true⟩]⟩

/-- Declaration `type StepBackArguments struct` of `protocol/dap.go`. -/
def StepBackArguments : StructDecl :=
  ⟨"StepBackArguments", [
    ⟨"ThreadId", .float64, "threadId", true⟩]⟩

/-- Declaration `type StepBackRequest struct` of `protocol/dap.go`. -/
def StepBackRequest : StructDecl :=
  ⟨"StepBackRequest", [
    ⟨"Arguments", .ptr "StepBackArguments", "arguments", true⟩,
    ⟨"Command", .string, "command", true⟩,
    ⟨"Seq", .float64, "seq", true⟩,
    ⟨"Type", .string, "type", true⟩]⟩

/-- Declaration `type StepBackResponse struct` of `protocol/dap.go`. -/
def StepBackResponse : StructDecl :=
  ⟨"StepBackResponse", [
    ⟨"Body", .iface, "body", true⟩,
    ⟨"Command", .string, "command", true⟩,
    ⟨"Message", .string, "message", true⟩,
    ⟨"RequestSeq", .float64, "request_seq", true⟩,
    ⟨"Seq", .float64, "seq", true⟩,
    ⟨"Success", .bool, "success", true⟩,
    ⟨"Type", .string, "type", true⟩]⟩

/-- Declaration `type StepInArguments struct` of `protocol/dap.go`. -/
def StepInArguments : StructDecl :=
  ⟨"StepInArguments", [
    ⟨"TargetId", .float64, "targetId", true⟩,
    ⟨"ThreadId", .float64, "threadId", true⟩]⟩

/-- Declaration `type StepInRequest struct` of `protocol/dap.go`. -/
def StepInRequest : StructDecl :=
  ⟨"StepInRequest", [
    ⟨"Arguments", .ptr "StepInArguments", "arguments", true⟩,
    ⟨"Command", .string, "command", true⟩,
    ⟨"Seq", .float64, "seq", true⟩,
    ⟨"Type", .string, "type", true⟩]⟩

/-- Declaration `type StepInResponse struct` of `protocol/dap.go`. -/
def StepInResponse : StructDecl :=
  ⟨"StepInResponse", [
    ⟨"Body", .iface, "body", true⟩,
    ⟨"Command", .string, "command", true⟩,
    ⟨"Message", .string, "message", true⟩,
    ⟨"RequestSeq", .float64, "request_seq", true⟩,
    ⟨"Seq", .float64, "seq", true⟩,
    ⟨"Success", .bool, "success", true⟩,
    ⟨"Type", .string, "type", true⟩]⟩

/-- Declaration `type StepInTarget struct` of `protocol/dap.go`. -/
def StepInTarget : StructDecl :=
  ⟨"StepInTarget", [
    ⟨"Id", .float64, "id", true⟩,
    ⟨"Label", .string, "label", true⟩]⟩

/-- Declaration `type StepInTargetsArguments struct` of `protocol/dap.go`. -/
def StepInTargetsArguments : StructDecl :=
  ⟨"StepInTargetsArguments", [
    ⟨"FrameId", .float64, "frameId", true⟩]⟩

/-- Declaration `type StepInTargetsRequest struct` of `protocol/dap.go`. -/
def StepInTargetsRequest : StructDecl :=
  ⟨"StepInTargetsRequest", [
    ⟨"Arguments", .ptr "StepInTargetsArguments", "arguments", true⟩,
    ⟨"Command", .string, "command", true⟩,
    ⟨"Seq", .float64, "seq", true⟩,
    ⟨"Type", .string, "type", true⟩]⟩

/-- Declaration `type StepInTargetsResponse struct` of `protocol/dap.go`. -/
def StepInTargetsResponse : StructDecl :=
  ⟨"StepInTargetsResponse", [
    ⟨"Body", .ptr "Body", "body", true⟩,
    ⟨"Command", .string, "command", true⟩,
    ⟨"Message", .string, "message", true⟩,
    ⟨"RequestSeq", .float64, "request_seq", true⟩,
    ⟨"Seq", .float64, "seq", true⟩,
    ⟨"Success", .bool, "success", true⟩,
    ⟨"Type", .string, "type", true⟩]⟩

/-- Declaration `type StepOutArguments struct` of `protocol/dap.go`. -/
def StepOutArguments : StructDecl :=
  ⟨"StepOutArguments", [
    ⟨"ThreadId", .float64, "threadId", true⟩]⟩

/-- Declaration `type StepOutRequest struct` of `protocol/dap.go`. -/
def StepOutRequest : StructDecl :=
  ⟨"StepOutRequest", [
    ⟨"Arguments", .ptr "StepOutArguments", "arguments", true⟩,
    ⟨"Command", .string, "command", true⟩,
    ⟨"Seq", .float64, "seq", true⟩,
    ⟨"Type", .string, "type", true⟩]⟩

/-- Declaration `type StepOutResponse struct` of `protocol/dap.go`. -/
def StepOutResponse : StructDecl :=
  ⟨"StepOutResponse", [
    ⟨"Body", .iface, "body", true⟩,
    ⟨"Command", .string, "command", true⟩,
    ⟨"Message", .string, "message", true⟩,
    ⟨"RequestSeq", .float64, "request_seq", true⟩,
    ⟨"Seq", .float64, "seq", true⟩,
    ⟨"Success", .bool, "success", true⟩,
    ⟨"Type", .string, "type", true⟩]⟩

/-- Declaration `type StoppedEvent struct` of `protocol/dap.go`. -/
def StoppedEvent : StructDecl :=
  ⟨"StoppedEvent", [
    ⟨"Body", .ptr "Body", "body", true⟩,
    ⟨"Event", .string, "event", true⟩,
    ⟨"Seq", .float64, "seq", true⟩,
    ⟨"Type", .string, "type", true⟩]⟩

/-- Declaration `type TerminateArguments struct` of `protocol/dap.go`. -/
def TerminateArguments : StructDecl :=
  ⟨"TerminateArguments", [
    ⟨"Restart", .bool, "restart", true⟩]⟩

/-- Declaration `type TerminateRequest struct` of `protocol/dap.go`. -/
def TerminateRequest : StructDecl :=
  ⟨"TerminateRequest", [
    ⟨"Arguments", .ptr "TerminateArguments", "arguments", true⟩,
    ⟨"Command", .string, "command", true⟩,
    ⟨"Seq", .float64, "seq", true⟩,
    ⟨"Type", .string, "type", true⟩]⟩

/-- Declaration `type TerminateResponse struct` of `protocol/dap.go`. -/
def TerminateResponse : StructDecl :=
  ⟨"TerminateResponse", [
    ⟨"Body", .iface, "body", true⟩,
    ⟨"Command", .string, "command", true⟩,
    ⟨"Message", .string, "message", true⟩,
    ⟨"RequestSeq", .float64, "request_seq", true⟩,
    ⟨"Seq", .float64, "seq", true⟩,
    ⟨"Success", .bool, "success", true⟩,
    ⟨"Type", .string, "type", true⟩]⟩

/-- Declaration `type TerminateThreadsArguments struct` of `protocol/dap.go`. -/
def TerminateThreadsArguments : StructDecl :=
  ⟨"TerminateThreadsArguments", [
    ⟨"ThreadIds", .slice .float64, "threadIds", true⟩]⟩

/-- Declaration `type TerminateThreadsRequest struct` of `protocol/dap.go`. -/
def TerminateThreadsRequest : StructDecl :=
  ⟨"TerminateThreadsRequest", [
    ⟨"Arguments", .ptr "TerminateThreadsArguments", "arguments", true⟩,
    ⟨"Command", .string, "command", true⟩,
    ⟨"Seq", .float64, "seq", true⟩,
    ⟨"Type", .string, "type", true⟩]⟩

/-- Declaration `type TerminateThreadsResponse struct` of `protocol/dap.go`. -/
def TerminateThreadsResponse : StructDecl :=
  ⟨"TerminateThreadsResponse", [
    ⟨"Body", .iface, "body", true⟩,
    ⟨"Command", .string, "command", true⟩,
    ⟨"Message", .string, "message", true⟩,
    ⟨"RequestSeq", .float64, "request_seq", true⟩,
    ⟨"Seq", .float64, "seq", true⟩,
    ⟨"Success", .bool, "success", true⟩,
    ⟨"Type", .string, "type", true⟩]⟩

/-- Declaration `type TerminatedEvent struct` of `protocol/dap.go`. -/
def TerminatedEvent : StructDecl :=
  ⟨"TerminatedEvent", [
    ⟨"Body", .ptr "Body", "body", true⟩,
    ⟨"Event", .string, "event", true⟩,
    ⟨"Seq", .float64, "seq", true⟩,
    ⟨"Type", .string, "type", true⟩]⟩

/-- Declaration `type Thread struct` of `protocol/dap.go`. -/
def Thread : StructDecl :=
  ⟨"Thread", [
    ⟨"Id", .float64, "id", true⟩,
    ⟨"Name", .string, "name", true⟩]⟩

/-- Declaration `type ThreadEvent struct` of `protocol/dap.go`. -/
def ThreadEvent : StructDecl :=
  ⟨"ThreadEvent", [
    ⟨"Body", .ptr "Body", "body", true⟩,
    ⟨"Event", .string, "event", true⟩,
    ⟨"Seq", .float64, "seq", true⟩,
    ⟨"Type", .string, "type", true⟩]⟩

/-- Declaration `type ThreadsRequest struct` of `protocol/dap.go`. -/
def ThreadsRequest : StructDecl :=
  ⟨"ThreadsRequest", [
    ⟨"Arguments", .iface, "arguments", true⟩,
    ⟨"Command", .string, "command", true⟩,
    ⟨"Seq", .float64, "seq", true⟩,
    ⟨"Type", .string, "type", true⟩]⟩

/-- Declaration `type ThreadsResponse struct` of `protocol/dap.go`. -/
def ThreadsResponse : StructDecl :=
  ⟨"ThreadsResponse", [
    ⟨"Body", .ptr "Body", "body", true⟩,
    ⟨"Command", .string, "command", true⟩,
    ⟨"Message", .string, "message", true⟩,
    ⟨"RequestSeq", .float64, "request_seq", true⟩,
    ⟨"Seq", .float64, "seq", true⟩,
    ⟨"Success", .bool, "success", true⟩,
    ⟨"Type", .string, "type", true⟩]⟩

/-- Declaration `type ValueFormat struct` of `protocol/dap.go`. -/
def ValueFormat : StructDecl :=
  ⟨"ValueFormat", [
    ⟨"Hex", .bool, "hex", true⟩]⟩

/-- Declaration `type Variable struct` of `protocol/dap.go`. -/
def Variable : StructDecl :=
  ⟨"Variable", [
    ⟨"EvaluateName", .string, "evaluateName", true⟩,
    ⟨"IndexedVariables", .float64, "indexedVariables", true⟩,
    ⟨"MemoryReference", .string, "memoryReference", true⟩,
    ⟨"Name", .string, "name", true⟩,
    ⟨"NamedVariables", .float64, "namedVariables", true⟩,
    ⟨"PresentationHint", .ptr "VariablePresentationHint", "presentationHint", true⟩,
    ⟨"Type", .string, "type", true⟩,
    ⟨"Value", .string, "value", true⟩,
    ⟨"VariablesReference", .float64, "variablesReference", true⟩]⟩

/-- Declaration `type VariablePresentationHint struct` of `protocol/dap.go`. -/
def VariablePresentationHint : StructDecl :=
  ⟨"VariablePresentationHint", [
    ⟨"Attributes", .slice .string, "attributes", true⟩,
    ⟨"Kind", .string, "kind", true⟩,
    ⟨"Visibility", .string, "visibility", true⟩]⟩

/-- Declaration `type VariablesArguments struct` of `protocol/dap.go`. -/
def VariablesArguments : StructDecl :=
  ⟨"VariablesArguments", [
    ⟨"Count", .float64, "count", true⟩,
    ⟨"Filter", .string, "filter", true⟩,
    ⟨"Format", .ptr "ValueFormat", "format", true⟩,
    ⟨"Start", .float64, "start", true⟩,
    ⟨"VariablesReference", .float64, "variablesReference", true⟩]⟩

/-- Declaration `type VariablesRequest struct` of `protocol/dap.go`. -/
def VariablesRequest : StructDecl :=
  ⟨"VariablesRequest", [
    ⟨"Arguments", .ptr "VariablesArguments", "arguments", true⟩,
    ⟨"Command", .string, "command", true⟩,
    ⟨"Seq", .float64, "seq", true⟩,
    ⟨"Type", .string, "type", true⟩]⟩

/-- Declaration `type VariablesResponse struct` of `protocol/dap.go`. -/
def VariablesResponse : StructDecl :=
  ⟨"VariablesResponse", [
    ⟨"Body", .ptr "Body", "body", true⟩,
    ⟨"Command", .string, "command", true⟩,
    ⟨"Message", .string, "message", true⟩,
    ⟨"RequestSeq", .float64, "request_seq", true⟩,
    ⟨"Seq", .float64, "seq", true⟩,
    ⟨"Success", .bool, "success", true⟩,
    ⟨"Type", .string, "type", true⟩]⟩

/-- All struct declarations of `protocol/dap.go`, in source order. -/
def package : Package :=
  [Body, AttachRequestArguments, AttachRequest, AttachResponse, Breakpoint, BreakpointEvent,
   BreakpointLocation, BreakpointLocationsArguments, BreakpointLocationsRequest,
   BreakpointLocationsResponse, CancelArguments, CancelRequest, CancelResponse, Capabilities,
   CapabilitiesEvent, Checksum, ColumnDescriptor, CompletionItem, CompletionsArguments,
   CompletionsRequest, CompletionsResponse, ConfigurationDoneArguments, ConfigurationDoneRequest,
   ConfigurationDoneResponse, ContinueArguments, ContinueRequest, ContinueResponse,
   ContinuedEvent, DataBreakpoint, DataBreakpointInfoArguments, DataBreakpointInfoRequest,
   DataBreakpointInfoResponse, DisassembleArguments, DisassembleRequest, DisassembleResponse,
   DisassembledInstruction, DisconnectArguments, DisconnectRequest, DisconnectResponse,
   ErrorResponse, EvaluateArguments, EvaluateRequest, EvaluateResponse, Event,
   ExceptionBreakpointsFilter, ExceptionDetails, ExceptionInfoArguments, ExceptionInfoRequest,
   ExceptionInfoResponse, ExceptionOptions, ExceptionPathSegment, ExitedEvent,
   FunctionBreakpoint, GotoArguments, GotoRequest, GotoResponse, GotoTarget,
   GotoTargetsArguments, GotoTargetsRequest, GotoTargetsResponse, InitializeRequestArguments,
   InitializeRequest, InitializeResponse, InitializedEvent, LaunchRequest,
   LaunchRequestArguments, LaunchResponse, LoadedSourceEvent, LoadedSourcesArguments,
   LoadedSourcesRequest, LoadedSourcesResponse, Message, Module, ModuleEvent, ModulesArguments,
   ModulesRequest, ModulesResponse, ModulesViewDescriptor, NextArguments, NextRequest,
   NextResponse, OutputEvent, PauseArguments, PauseRequest, PauseResponse, ProcessEvent,
   ProtocolMessage, ReadMemoryArguments, ReadMemoryRequest, ReadMemoryResponse, Request,
   Response, RestartArguments, RestartFrameArguments, RestartFrameRequest, RestartFrameResponse,
   RestartRequest, RestartResponse, ReverseContinueArguments, ReverseContinueRequest,
   ReverseContinueResponse, RunInTerminalRequestArguments, RunInTerminalRequest,
   RunInTerminalResponse, Scope, ScopesArguments, ScopesRequest, ScopesResponse,
   SetBreakpointsArguments, SetBreakpointsRequest, SetBreakpointsResponse,
   SetDataBreakpointsArguments, SetDataBreakpointsRequest, SetDataBreakpointsResponse,
   SetExceptionBreakpointsArguments, SetExceptionBreakpointsRequest,
   SetExceptionBreakpointsResponse, SetExpressionArguments, SetExpressionRequest,
   SetExpressionResponse, SetFunctionBreakpointsArguments, SetFunctionBreakpointsRequest,
   SetFunctionBreakpointsResponse, SetVariableArguments, SetVariableRequest, SetVariableResponse,
   Source, SourceArguments, SourceBreakpoint, SourceRequest, SourceResponse, StackFrame,
   StackFrameFormat, StackTraceArguments, StackTraceRequest, StackTraceResponse,
   StepBackArguments, StepBackRequest, StepBackResponse, StepInArguments, StepInRequest,
   StepInResponse, StepInTarget, StepInTargetsArguments, StepInTargetsRequest,
   StepInTargetsResponse, StepOutArguments, StepOutRequest, StepOutResponse, StoppedEvent,
   TerminateArguments, TerminateRequest, TerminateResponse, TerminateThreadsArguments,
   TerminateThreadsRequest, TerminateThreadsResponse, TerminatedEvent, Thread, ThreadEvent,
   ThreadsRequest, ThreadsResponse, ValueFormat, Variable, VariablePresentationHint,
   VariablesArguments, VariablesRequest, VariablesResponse]

/-- The command named in the doc comment of each request type (`value of command field is ...`). -/
def documentedCommands : List (String × String) :=
  [("AttachRequest", "attach"), ("BreakpointLocationsRequest", "breakpointLocations"),
   ("CancelRequest", "cancel"), ("CompletionsRequest", "completions"),
   ("ConfigurationDoneRequest", "configurationDone"), ("ContinueRequest", "continue"),
   ("DataBreakpointInfoRequest", "dataBreakpointInfo"), ("DisassembleRequest", "disassemble"),
   ("DisconnectRequest", "disconnect"), ("EvaluateRequest", "evaluate"),
   ("ExceptionInfoRequest", "exceptionInfo"), ("GotoRequest", "goto"),
   ("GotoTargetsRequest", "gotoTargets"), ("InitializeRequest", "initialize"),
   ("LaunchRequest", "launch"), ("LoadedSourcesRequest", "loadedSources"),
   ("ModulesRequest", "modules"), ("NextRequest", "next"), ("PauseRequest", "pause"),
   ("ReadMemoryRequest", "readMemory"), ("RestartFrameRequest", "restartFrame"),
   ("RestartRequest", "restart"), ("ReverseContinueRequest", "reverseContinue"),
   ("RunInTerminalRequest", "runInTerminal"), ("ScopesRequest", "scopes"),
   ("SetBreakpointsRequest", "setBreakpoints"),
   ("SetDataBreakpointsRequest", "setDataBreakpoints"),
   ("SetExceptionBreakpointsRequest", "setExceptionBreakpoints"),
   ("SetExpressionRequest", "setExpression"),
   ("SetFunctionBreakpointsRequest", "setFunctionBreakpoints"),
   ("SetVariableRequest", "setVariable"), ("SourceRequest", "source"),
   ("StackTraceRequest", "stackTrace"), ("StepBackRequest", "stepBack"),
   ("StepInRequest", "stepIn"), ("StepInTargetsRequest", "stepInTargets"),
   ("StepOutRequest", "stepOut"), ("TerminateRequest", "terminate"),
   ("TerminateThreadsRequest", "terminateThreads"), ("ThreadsRequest", "threads"),
   ("VariablesRequest", "variables")]

/-- The response types whose doc comment reads `This is just an acknowledgement, so no body
field is required.` -/
def acknowledgements : List String :=
  ["AttachResponse", "CancelResponse", "ConfigurationDoneResponse", "DisconnectResponse",
   "GotoResponse", "LaunchResponse", "NextResponse", "PauseResponse", "RestartFrameResponse",
   "RestartResponse", "ReverseContinueResponse", "SetExceptionBreakpointsResponse",
   "StepBackResponse", "StepInResponse", "StepOutResponse", "TerminateResponse",
   "TerminateThreadsResponse"]

end Protocol

namespace Adapter

/-- Declaration `type BeforeExitCallback struct` of `adapter/adapter.go`. -/
def BeforeExitCallback : StructDecl := ⟨"BeforeExitCallback", []⟩

/-- Declaration `type Body struct` of `adapter/adapter.go`. -/
def Body : StructDecl :=
  ⟨"Body", [
    ⟨"Reason", .string, "reason", true⟩,
    ⟨"ThreadId", .float64, "threadId", true⟩]⟩

/-- Declaration `type Breakpoint struct` of `adapter/adapter.go`. -/
def Breakpoint : StructDecl :=
  ⟨"Breakpoint", [
    ⟨"Verified", .bool, "verified", true⟩]⟩

/-- Declaration `type BreakpointEvent struct` of `adapter/adapter.go`. -/
def BreakpointEvent : StructDecl :=
  ⟨"BreakpointEvent", [
    ⟨"Body", .ptr "Body", "body", true⟩,
    ⟨"Event", .string, "event", true⟩,
    ⟨"Seq", .float64, "seq", true⟩,
    ⟨"Type", .string, "type", true⟩]⟩

/-- Declaration `type CapabilitiesEvent struct` of `adapter/adapter.go`. -/
def CapabilitiesEvent : StructDecl :=
  ⟨"CapabilitiesEvent", [
    ⟨"Body", .ptr "Body", "body", true⟩,
    ⟨"Event", .string, "event", true⟩,
    ⟨"Seq", .float64, "seq", true⟩,
    ⟨"Type", .string, "type", true⟩]⟩

/-- Declaration `type CompletionItem struct` of `adapter/adapter.go`. -/
def CompletionItem : StructDecl :=
  ⟨"CompletionItem", [
    ⟨"Label", .string, "label", true⟩,
    ⟨"Length", .float64, "length", true⟩,
    ⟨"Start", .float64, "start", true⟩]⟩

/-- Declaration `type ContinuedEvent struct` of `adapter/adapter.go`. -/
def ContinuedEvent : StructDecl :=
  ⟨"ContinuedEvent", [
    ⟨"Body", .ptr "Body", "body", true⟩,
    ⟨"Event", .string, "event", true⟩,
    ⟨"Seq", .float64, "seq", true⟩,
    ⟨"Type", .string, "type", true⟩]⟩

/-- Declaration `type DebugProtocolCapabilities struct` of `adapter/adapter.go`. -/
def DebugProtocolCapabilities : StructDecl :=
  ⟨"DebugProtocolCapabilities", [
    ⟨"AdditionalModuleColumns", .slice (.ptr "DebugProtocolColumnDescriptor"), "additionalModuleColumns", true⟩,
    ⟨"CompletionTriggerCharacters", .slice .string, "completionTriggerCharacters", true⟩,
    ⟨"ExceptionBreakpointFilters", .slice (.ptr "DebugProtocolExceptionBreakpointsFilter"), "exceptionBreakpointFilters", true⟩,
    ⟨"SupportTerminateDebuggee", .bool, "supportTerminateDebuggee", true⟩,
    ⟨"SupportedChecksumAlgorithms", .slice .string, "supportedChecksumAlgorithms", true⟩,
    ⟨"SupportsBreakpointLocationsRequest", .bool, "supportsBreakpointLocationsRequest", true⟩,
    ⟨"SupportsCancelRequest", .bool, "supportsCancelRequest", true⟩,
    ⟨"SupportsCompletionsRequest", .bool, "supportsCompletionsRequest", true⟩,
    ⟨"SupportsConditionalBreakpoints", .bool, "supportsConditionalBreakpoints", true⟩,
    ⟨"SupportsConfigurationDoneRequest", .bool, "supportsConfigurationDoneRequest", true⟩,
    ⟨"SupportsDataBreakpoints", .bool, "supportsDataBreakpoints", true⟩,
    ⟨"SupportsDelayedStackTraceLoading", .bool, "supportsDelayedStackTraceLoading", true⟩,
    ⟨"SupportsDisassembleRequest", .bool, "supportsDisassembleRequest", true⟩,
    ⟨"SupportsEvaluateForHovers", .bool, "supportsEvaluateForHovers", true⟩,
    ⟨"SupportsExceptionInfoRequest", .bool, "supportsExceptionInfoRequest", true⟩,
    ⟨"SupportsExceptionOptions", .bool, "supportsExceptionOptions", true⟩,
    ⟨"SupportsFunctionBreakpoints", .bool, "supportsFunctionBreakpoints", true⟩,
    ⟨"SupportsGotoTargetsRequest", .bool, "supportsGotoTargetsRequest", true⟩,
    ⟨"SupportsHitConditionalBreakpoints", .bool, "supportsHitConditionalBreakpoints", true⟩,
    ⟨"SupportsLoadedSourcesRequest", .bool, "supportsLoadedSourcesRequest", true⟩,
    ⟨"SupportsLogPoints", .bool, "supportsLogPoints", true⟩,
    ⟨"SupportsModulesRequest", .bool, "supportsModulesRequest", true⟩,
    ⟨"SupportsReadMemoryRequest", .bool, "supportsReadMemoryRequest", true⟩,
    ⟨"SupportsRestartFrame", .bool, "supportsRestartFrame", true⟩,
    ⟨"SupportsRestartRequest", .bool, "supportsRestartRequest", true⟩,
    ⟨"SupportsSetExpression", .bool, "supportsSetExpression", true⟩,
    ⟨"SupportsSetVariable", .bool, "supportsSetVariable", true⟩,
    ⟨"SupportsStepBack", .bool, "supportsStepBack", true⟩,
    ⟨"SupportsStepInTargetsRequest", .bool, "supportsStepInTargetsRequest", true⟩,
    ⟨"SupportsTerminateRequest", .bool, "supportsTerminateRequest", true⟩,
    ⟨"SupportsTerminateThreadsRequest", .bool, "supportsTerminateThreadsRequest", true⟩,
    ⟨"SupportsValueFormattingOptions", .bool, "supportsValueFormattingOptions", true⟩]⟩

/-- Declaration `type DebugProtocolColumnDescriptor struct` of `adapter/adapter.go`. -/
def DebugProtocolColumnDescriptor : StructDecl :=
  ⟨"DebugProtocolColumnDescriptor", [
    ⟨"AttributeName", .string, "attributeName", true⟩,
    ⟨"Format", .string, "format", true⟩,
    ⟨"Label", .string, "label", true⟩,
    ⟨"Type", .string, "type", true⟩,
    ⟨"Width", .float64, "width", true⟩]⟩

/-- Declaration `type DebugProtocolExceptionBreakpointsFilter struct` of `adapter/adapter.go`. -/
def DebugProtocolExceptionBreakpointsFilter : StructDecl :=
  ⟨"DebugProtocolExceptionBreakpointsFilter", [
    ⟨"Default", .bool, "default", true⟩,
    ⟨"Filter", .string, "filter", true⟩,
    ⟨"Label", .string, "label", true⟩]⟩

/-- Declaration `type DebugProtocolMessage struct` of `adapter/adapter.go`. -/
def DebugProtocolMessage : StructDecl := ⟨"DebugProtocolMessage", []⟩

/-- Declaration `type DebugSession struct` of `adapter/adapter.go`. -/
def DebugSession : StructDecl :=
  ⟨"DebugSession", [
    ⟨"ClientColumnsStartAt1", .bool, "_clientColumnsStartAt1", true⟩,
    ⟨"ClientLinesStartAt1", .bool, "_clientLinesStartAt1", true⟩,
    ⟨"ClientPathsAreURIs", .bool, "_clientPathsAreURIs", true⟩,
    ⟨"ContentLength", .float64, "_contentLength", true⟩,
    ⟨"DebuggerColumnsStartAt1", .bool, "_debuggerColumnsStartAt1", true⟩,
    ⟨"DebuggerLinesStartAt1", .bool, "_debuggerLinesStartAt1", true⟩,
    ⟨"DebuggerPathsAreURIs", .bool, "_debuggerPathsAreURIs", true⟩,
    ⟨"Error", .ptr "EmitterError", "error", true⟩,
    ⟨"IsServer", .bool, "_isServer", true⟩,
    ⟨"OnError", .ptr "Event0Error", "onError", true⟩,
    ⟨"OnSendMessage", .ptr "Event0DebugProtocolMessage", "onSendMessage", true⟩,
    ⟨"PendingRequests", .iface, "_pendingRequests", true⟩,
    ⟨"RawData", .slice .float64, "_rawData", true⟩,
    ⟨"SendMessage", .ptr "EmitterDebugProtocolMessage", "sendMessage", true⟩,
    ⟨"Sequence", .float64, "_sequence", true⟩,
    ⟨"WritableStream", .ptr "NodeJSWritableStream", "_writableStream", true⟩]⟩

/-- Declaration `type Disposable0 struct` of `adapter/adapter.go`. -/
def Disposable0 : StructDecl := ⟨"Disposable0", []⟩

/-- Declaration `type Emitter struct` of `adapter/adapter.go`. -/
def Emitter : StructDecl :=
  ⟨"Emitter", [
    ⟨"Event", .ptr "Event0T", "_event", true⟩,
    ⟨"Listener", .ptr "Listener", "_listener", true⟩,
    ⟨"This", .iface, "_this", true⟩]⟩

/-- Declaration `type EmitterDebugProtocolMessage struct` of `adapter/adapter.go`. -/
def EmitterDebugProtocolMessage : StructDecl :=
  ⟨"EmitterDebugProtocolMessage", [
    ⟨"Event", .ptr "Event0DebugProtocolMessage", "_event", true⟩,
    ⟨"Listener", .ptr "Listener", "_listener", true⟩,
    ⟨"This", .iface, "_this", true⟩]⟩

/-- Declaration `type EmitterError struct` of `adapter/adapter.go`. -/
def EmitterError : StructDecl :=
  ⟨"EmitterError", [
    ⟨"Event", .ptr "Event0Error", "event", true⟩,
    ⟨"Listener", .ptr "Listener", "_listener", true⟩,
    ⟨"This", .iface, "_this", true⟩]⟩

/-- Declaration `type Event struct` of `adapter/adapter.go`. -/
def Event : StructDecl :=
  ⟨"Event", [
    ⟨"Event", .string, "event", true⟩,
    ⟨"Seq", .float64, "seq", true⟩,
    ⟨"Type", .string, "type", true⟩]⟩

/-- Declaration `type Event0 struct` of `adapter/adapter.go`. -/
def Event0 : StructDecl := ⟨"Event0", []⟩

/-- Declaration `type Event0DebugProtocolMessage struct` of `adapter/adapter.go`. -/
def Event0DebugProtocolMessage : StructDecl := ⟨"Event0DebugProtocolMessage", []⟩

/-- Declaration `type Event0Error struct` of `adapter/adapter.go`. -/
def Event0Error : StructDecl := ⟨"Event0Error", []⟩

/-- Declaration `type Event0T struct` of `adapter/adapter.go`. -/
def Event0T : StructDecl := ⟨"Event0T", []⟩

/-- Declaration `type Handles struct` of `adapter/adapter.go`. -/
def Handles : StructDecl :=
  ⟨"Handles", [
    ⟨"HandleMap", .iface, "_handleMap", true⟩,
    ⟨"NextHandle", .float64, "_nextHandle", true⟩,
    ⟨"STARTHANDLE", .float64, "START_HANDLE", true⟩]⟩

/-- Declaration `type IDisposable struct` of `adapter/adapter.go`. -/
def IDisposable : StructDecl := ⟨"IDisposable", []⟩

/-- Declaration `type IInternalLoggerOptions struct` of `adapter/adapter.go`. -/
def IInternalLoggerOptions : StructDecl :=
  ⟨"IInternalLoggerOptions", [
    ⟨"ConsoleMinLogLevel", .float64, "consoleMinLogLevel", true⟩,
    ⟨"LogFilePath", .string, "logFilePath", true⟩,
    ⟨"PrependTimestamp", .bool, "prependTimestamp", true⟩]⟩

/-- Declaration `type ILogCallback struct` of `adapter/adapter.go`. -/
def ILogCallback : StructDecl := ⟨"ILogCallback", []⟩

/-- Declaration `type ILogItem struct` of `adapter/adapter.go`. -/
def ILogItem : StructDecl :=
  ⟨"ILogItem", [
    ⟨"Level", .float64, "level", true⟩,
    ⟨"Msg", .string, "msg", true⟩]⟩

/-- Declaration `type ILogger struct` of `adapter/adapter.go`. -/
def ILogger : StructDecl := ⟨"ILogger", []⟩

/-- Declaration `type InitializedEvent struct` of `adapter/adapter.go`. -/
def InitializedEvent : StructDecl :=
  ⟨"InitializedEvent", [
    ⟨"Event", .string, "event", true⟩,
    ⟨"Seq", .float64, "seq", true⟩,
    ⟨"Type", .string, "type", true⟩]⟩

/-- Declaration `type InternalLogger struct` of `adapter/adapter.go`. -/
def InternalLogger : StructDecl :=
  ⟨"InternalLogger", [
    ⟨"BeforeExitCallback", .ptr "BeforeExitCallback", "beforeExitCallback", true⟩,
    ⟨"DisposeCallback", .iface, "disposeCallback", true⟩,
    ⟨"LogCallback", .ptr "LogCallback", "_logCallback", true⟩,
    ⟨"LogFileStream", .ptr "WriteStream", "_logFileStream", true⟩,
    ⟨"LogToConsole", .bool, "_logToConsole", true⟩,
    ⟨"MinLogLevel", .float64, "_minLogLevel", true⟩,
    ⟨"PrependTimestamp", .bool, "_prependTimestamp", true⟩]⟩

/-- Declaration `type Listener struct` of `adapter/adapter.go`. -/
def Listener : StructDecl := ⟨"Listener", []⟩

/-- Declaration `type LoadedSourceEvent struct` of `adapter/adapter.go`. -/
def LoadedSourceEvent : StructDecl :=
  ⟨"LoadedSourceEvent", [
    ⟨"Body", .ptr "Body", "body", true⟩,
    ⟨"Event", .string, "event", true⟩,
    ⟨"Seq", .float64, "seq", true⟩,
    ⟨"Type", .string, "type", true⟩]⟩

/-- Declaration `type LogCallback struct` of `adapter/adapter.go`. -/
def LogCallback : StructDecl := ⟨"LogCallback", []⟩

/-- Declaration `type LogOutputEvent struct` of `adapter/adapter.go`. -/
def LogOutputEvent : StructDecl :=
  ⟨"LogOutputEvent", [
    ⟨"Body", .ptr "Body", "body", true⟩,
    ⟨"Event", .string, "event", true⟩,
    ⟨"Seq", .float64, "seq", true⟩,
    ⟨"Type", .string, "type", true⟩]⟩

/-- Declaration `type Logger struct` of `adapter/adapter.go`. -/
def Logger : StructDecl :=
  ⟨"Logger", [
    ⟨"CurrentLogger", .ptr "InternalLogger", "_currentLogger", true⟩,
    ⟨"LogFilePathFromInit", .string, "_logFilePathFromInit", true⟩,
    ⟨"PendingLogQ", .slice (.ptr "ILogItem"), "_pendingLogQ", true⟩]⟩

/-- Declaration `type LoggingDebugSession struct` of `adapter/adapter.go`. -/
def LoggingDebugSession : StructDecl :=
  ⟨"LoggingDebugSession", [
    ⟨"ClientColumnsStartAt1", .bool, "_clientColumnsStartAt1", true⟩,
    ⟨"ClientLinesStartAt1", .bool, "_clientLinesStartAt1", true⟩,
    ⟨"ClientPathsAreURIs", .bool, "_clientPathsAreURIs", true⟩,
    ⟨"ContentLength", .float64, "_contentLength", true⟩,
    ⟨"DebuggerColumnsStartAt1", .bool, "_debuggerColumnsStartAt1", true⟩,
    ⟨"DebuggerLinesStartAt1", .bool, "_debuggerLinesStartAt1", true⟩,
    ⟨"DebuggerPathsAreURIs", .bool, "_debuggerPathsAreURIs", true⟩,
    ⟨"Error", .ptr "EmitterError", "error", true⟩,
    ⟨"IsServer", .bool, "_isServer", true⟩,
    ⟨"ObsoleteLogFilePath", .string, "obsolete_logFilePath", true⟩,
    ⟨"OnError", .ptr "Event0Error", "onError", true⟩,
    ⟨"OnSendMessage", .ptr "Event0DebugProtocolMessage", "onSendMessage", true⟩,
    ⟨"PendingRequests", .iface, "_pendingRequests", true⟩,
    ⟨"RawData", .slice .float64, "_rawData", true⟩,
    ⟨"SendMessage", .ptr "EmitterDebugProtocolMessage", "sendMessage", true⟩,
    ⟨"Sequence", .float64, "_sequence", true⟩,
    ⟨"WritableStream", .ptr "NodeJSWritableStream", "_writableStream", true⟩]⟩

/-- Declaration `type Message struct` of `adapter/adapter.go`. -/
def Message : StructDecl :=
  ⟨"Message", [
    ⟨"Seq", .float64, "seq", true⟩,
    ⟨"Type", .string, "type", true⟩]⟩

/-- Declaration `type Module struct` of `adapter/adapter.go`. -/
def Module : StructDecl :=
  ⟨"Module", [
    ⟨"Id", .iface, "id", true⟩,
    ⟨"Name", .string, "name", true⟩]⟩

/-- Declaration `type ModuleEvent struct` of `adapter/adapter.go`. -/
def ModuleEvent : StructDecl :=
  ⟨"ModuleEvent", [
    ⟨"Body", .ptr "Body", "body", true⟩,
    ⟨"Event", .string, "event", true⟩,
    ⟨"Seq", .float64, "seq", true⟩,
    ⟨"Type", .string, "type", true⟩]⟩

/-- Declaration `type NodeJSWritableStream struct` of `adapter/adapter.go`. -/
def NodeJSWritableStream : StructDecl :=
  ⟨"NodeJSWritableStream", [
    ⟨"Writable", .bool, "writable", true⟩]⟩

/-- Declaration `type OutputEvent struct` of `adapter/adapter.go`. -/
def OutputEvent : StructDecl :=
  ⟨"OutputEvent", [
    ⟨"Body", .ptr "Body", "body", true⟩,
    ⟨"Event", .string, "event", true⟩,
    ⟨"Seq", .float64, "seq", true⟩,
    ⟨"Type", .string, "type", true⟩]⟩

/-- Declaration `type ProtocolServer struct` of `adapter/adapter.go`. -/
def ProtocolServer : StructDecl :=
  ⟨"ProtocolServer", [
    ⟨"ContentLength", .float64, "_contentLength", true⟩,
    ⟨"Error", .ptr "EmitterError", "error", true⟩,
    ⟨"OnError", .ptr "Event0Error", "onError", true⟩,
    ⟨"OnSendMessage", .ptr "Event0DebugProtocolMessage", "onSendMessage", true⟩,
    ⟨"PendingRequests", .iface, "_pendingRequests", true⟩,
    ⟨"RawData", .slice .float64, "_rawData", true⟩,
    ⟨"SendMessage", .ptr "EmitterDebugProtocolMessage", "sendMessage", true⟩,
    ⟨"Sequence", .float64, "_sequence", true⟩,
    ⟨"WritableStream", .ptr "NodeJSWritableStream", "_writableStream", true⟩]⟩

/-- Declaration `type Response struct` of `adapter/adapter.go`. -/
def Response : StructDecl :=
  ⟨"Response", [
    ⟨"Command", .string, "command", true⟩,
    ⟨"RequestSeq", .float64, "request_seq", true⟩,
    ⟨"Seq", .float64, "seq", true⟩,
    ⟨"Success", .bool, "success", true⟩,
    ⟨"Type", .string, "type", true⟩]⟩

/-- Declaration `type Scope struct` of `adapter/adapter.go`. -/
def Scope : StructDecl :=
  ⟨"Scope", [
    ⟨"Expensive", .bool, "expensive", true⟩,
    ⟨"Name", .string, "name", true⟩,
    ⟨"VariablesReference", .float64, "variablesReference", true⟩]⟩

/-- Declaration `type Source struct` of `adapter/adapter.go`. -/
def Source : StructDecl :=
  ⟨"Source", [
    ⟨"Name", .string, "name", true⟩,
    ⟨"Path", .string, "path", true⟩,
    ⟨"SourceReference", .float64, "sourceReference", true⟩]⟩

/-- Declaration `type StackFrame struct` of `adapter/adapter.go`. -/
def StackFrame : StructDecl :=
  ⟨"StackFrame", [
    ⟨"Column", .float64, "column", true⟩,
    ⟨"Id", .float64, "id", true⟩,
    ⟨"Line", .float64, "line", true⟩,
    ⟨"Name", .string, "name", true⟩,
    ⟨"Source", .ptr "Source", "source", true⟩]⟩

/-- Declaration `type StoppedEvent struct` of `adapter/adapter.go`. -/
def StoppedEvent : StructDecl :=
  ⟨"StoppedEvent", [
    ⟨"Body", .ptr "Body", "body", true⟩,
    ⟨"Event", .string, "event", true⟩,
    ⟨"Seq", .float64, "seq", true⟩,
    ⟨"Type", .string, "type", true⟩]⟩

/-- Declaration `type TerminatedEvent struct` of `adapter/adapter.go`. -/
def TerminatedEvent : StructDecl :=
  ⟨"TerminatedEvent", [
    ⟨"Event", .string, "event", true⟩,
    ⟨"Seq", .float64, "seq", true⟩,
    ⟨"Type", .string, "type", true⟩]⟩

/-- Declaration `type Thread struct` of `adapter/adapter.go`. -/
def Thread : StructDecl :=
  ⟨"Thread", [
    ⟨"Id", .float64, "id", true⟩,
    ⟨"Name", .string, "name", true⟩]⟩

/-- Declaration `type ThreadEvent struct` of `adapter/adapter.go`. -/
def ThreadEvent : StructDecl :=
  ⟨"ThreadEvent", [
    ⟨"Body", .ptr "Body", "body", true⟩,
    ⟨"Event", .string, "event", true⟩,
    ⟨"Seq", .float64, "seq", true⟩,
    ⟨"Type", .string, "type", true⟩]⟩

/-- Declaration `type VSCodeDebugAdapter struct` of `adapter/adapter.go`. -/
def VSCodeDebugAdapter : StructDecl :=
  ⟨"VSCodeDebugAdapter", [
    ⟨"OnError", .ptr "Event0Error", "onError", true⟩,
    ⟨"OnSendMessage", .ptr "Event0DebugProtocolMessage", "onSendMessage", true⟩]⟩

/-- Declaration `type Variable struct` of `adapter/adapter.go`. -/
def Variable : StructDecl :=
  ⟨"Variable", [
    ⟨"Name", .string, "name", true⟩,
    ⟨"Value", .string, "value", true⟩,
    ⟨"VariablesReference", .float64, "variablesReference", true⟩]⟩

/-- Declaration `type WriteStream struct` of `adapter/adapter.go`. -/
def WriteStream : StructDecl :=
  ⟨"WriteStream", [
    ⟨"BytesWritten", .float64, "bytesWritten", true⟩,
    ⟨"Path", .iface, "path", true⟩,
    ⟨"Writable", .bool, "writable", true⟩]⟩

/-- All struct declarations of `adapter/adapter.go`, in source order. -/
def package : Package :=
  [BeforeExitCallback, Body, Breakpoint, BreakpointEvent, CapabilitiesEvent, CompletionItem,
   ContinuedEvent, DebugProtocolCapabilities, DebugProtocolColumnDescriptor,
   DebugProtocolExceptionBreakpointsFilter, DebugProtocolMessage, DebugSession, Disposable0,
   Emitter, EmitterDebugProtocolMessage, EmitterError, Event, Event0, Event0DebugProtocolMessage,
   Event0Error, Event0T, Handles, IDisposable, IInternalLoggerOptions, ILogCallback, ILogItem,
   ILogger, InitializedEvent, InternalLogger, Listener, LoadedSourceEvent, LogCallback,
   LogOutputEvent, Logger, LoggingDebugSession, Message, Module, ModuleEvent,
   NodeJSWritableStream, OutputEvent, ProtocolServer, Response, Scope, Source, StackFrame,
   StoppedEvent, TerminatedEvent, Thread, ThreadEvent, VSCodeDebugAdapter, Variable, WriteStream]

end Adapter

/-! ## Decidable equality of documents and values -/

mutual
/-- Boolean equality of documents. -/
def JSON.beq : JSON → JSON → Bool
  | .null, .null => true
  | .negZero, .negZero => true
  | .bool a, .bool b => a == b
  | .num a e, .num b f => a == b && e == f
  | .str a, .str b => a == b
  | .arr a, .arr b => JSON.beqList a b
  | .obj a, .obj b => JSON.beqMembers a b
  | _, _ => false
/-- Boolean equality of lists of documents. -/
def JSON.beqList : List JSON → List JSON → Bool
  | [], [] => true
  | x :: xs, y :: ys => JSON.beq x y && JSON.beqList xs ys
  | _, _ => false
/-- Boolean equality of member lists. -/
def JSON.beqMembers : List (String × JSON) → List (String × JSON) → Bool
  | [], [] => true
  | (k, x) :: xs, (l, y) :: ys => k == l && JSON.beq x y && JSON.beqMembers xs ys
  | _, _ => false
end

mutual
theorem json_eq_of_beq : ∀ (a b : JSON), JSON.beq a b = true → a = b
  | .null, b, h => by cases b <;> simp_all [JSON.beq]
  | .negZero, b, h => by cases b <;> simp_all [JSON.beq]
  | .bool _, b, h => by cases b <;> simp_all [JSON.beq]
  | .num _ _, b, h => by cases b <;> simp_all [JSON.beq]
  | .str _, b, h => by cases b <;> simp_all [JSON.beq]
  | .arr xs, b, h => by
      cases b <;> simp [JSON.beq] at h
      rw [json_eq_of_beqList xs _ h]
  | .obj xs, b, h => by
      cases b <;> simp [JSON.beq] at h
      rw [json_eq_of_beqMembers xs _ h]
theorem json_eq_of_beqList : ∀ (a b : List JSON), JSON.beqList a b = true → a = b
  | [], b, h => by cases b <;> simp_all [JSON.beqList]
  | x :: xs, b, h => by
      cases b with
      | nil => simp [JSON.beqList] at h
      | cons y ys =>
        simp [JSON.beqList] at h
        rw [json_eq_of_beq x y h.1, json_eq_of_beqList xs ys h.2]
theorem json_eq_of_beqMembers : ∀ (a b : List (String × JSON)), JSON.beqMembers a b = true → a = b
  | [], b, h => by cases b <;> simp_all [JSON.beqMembers]
  | (k, x) :: xs, b, h => by
      cases b with
      | nil => simp [JSON.beqMembers] at h
      | cons y ys =>
        obtain ⟨l, y⟩ := y
        simp [JSON.beqMembers] at h
        rw [h.1.1, json_eq_of_beq x y h.1.2, json_eq_of_beqMembers xs ys h.2]
end

mutual
theorem json_beq_self : ∀ (a : JSON), JSON.beq a a = true
  | .null => by simp [JSON.beq]
  | .negZero => by simp [JSON.beq]
  | .bool _ => by simp [JSON.beq]
  | .num _ _ => by simp [JSON.beq]
  | .str _ => by simp [JSON.beq]
  | .arr xs => by simp [JSON.beq, json_beqList_self xs]
  | .obj xs => by simp [JSON.beq, json_beqMembers_self xs]
theorem json_beqList_self : ∀ (a : List JSON), JSON.beqList a a = true
  | [] => by simp [JSON.beqList]
  | x :: xs => by simp [JSON.beqList, json_beq_self x, json_beqList_self xs]
theorem json_beqMembers_self : ∀ (a : List (String × JSON)), JSON.beqMembers a a = true
  | [] => by simp [JSON.beqMembers]
  | (k, x) :: xs => by simp [JSON.beqMembers, json_beq_self x, json_beqMembers_self xs]
end

instance : DecidableEq JSON := fun a b =>
  if h : JSON.beq a b = true then isTrue (json_eq_of_beq a b h)
  else isFalse (fun e => h (e ▸ json_beq_self a))

mutual
/-- Boolean equality of values. -/
def Value.beq : Value → Value → Bool
  | .bool a, .bool b => a == b
  | .float64 a, .float64 b => a == b
  | .string a, .string b => a == b
  | .nil, .nil => true
  | .ptr a, .ptr b => Value.beq a b
  | .iface a, .iface b => Value.beq a b
  | .slice a, .slice b => Value.beqList a b
  | .map a, .map b => Value.beqEntries a b
  | .struct n a, .struct m b => n == m && Value.beqList a b
  | .bytes a, .bytes b => a == b
  | .backref a, .backref b => a == b
  | _, _ => false
/-- Boolean equality of lists of values. -/
def Value.beqList : List Value → List Value → Bool
  | [], [] => true
  | x :: xs, y :: ys => Value.beq x y && Value.beqList xs ys
  | _, _ => false
/-- Boolean equality of map entries. -/
def Value.beqEntries : List (String × Value) → List (String × Value) → Bool
  | [], [] => true
  | (k, x) :: xs, (l, y) :: ys => k == l && Value.beq x y && Value.beqEntries xs ys
  | _, _ => false
end

mutual
theorem value_eq_of_beq : ∀ (a b : Value), Value.beq a b = true → a = b
  | .bool _, b, h => by cases b <;> simp_all [Value.beq]
  | .float64 _, b, h => by cases b <;> simp_all [Value.beq]
  | .string _, b, h => by cases b <;> simp_all [Value.beq]
  | .nil, b, h => by cases b <;> simp_all [Value.beq]
  | .bytes _, b, h => by cases b <;> simp_all [Value.beq]
  | .backref _, b, h => by cases b <;> simp_all [Value.beq]
  | .ptr x, b, h => by
      cases b <;> simp [Value.beq] at h
      rw [value_eq_of_beq x _ h]
  | .iface x, b, h => by
      cases b <;> simp [Value.beq] at h
      rw [value_eq_of_beq x _ h]
  | .slice xs, b, h => by
      cases b <;> simp [Value.beq] at h
      rw [value_eq_of_beqList xs _ h]
  | .map xs, b, h => by
      cases b <;> simp [Value.beq] at h
      rw [value_eq_of_beqEntries xs _ h]
  | .struct n xs, b, h => by
      cases b <;> simp [Value.beq] at h
      rw [h.1, value_eq_of_beqList xs _ h.2]
theorem value_eq_of_beqList : ∀ (a b : List Value), Value.beqList a b = true → a = b
  | [], b, h => by cases b <;> simp_all [Value.beqList]
  | x :: xs, b, h => by
      cases b with
      | nil => simp [Value.beqList] at h
      | cons y ys =>
        simp [Value.beqList] at h
        rw [value_eq_of_beq x y h.1, value_eq_of_beqList xs ys h.2]
theorem value_eq_of_beqEntries : ∀ (a b : List (String × Value)), Value.beqEntries a b = true → a = b
  | [], b, h => by cases b <;> simp_all [Value.beqEntries]
  | (k, x) :: xs, b, h => by
      cases b with
      | nil => simp [Value.beqEntries] at h
      | cons y ys =>
        obtain ⟨l, y⟩ := y
        simp [Value.beqEntries] at h
        rw [h.1.1, value_eq_of_beq x y h.1.2, value_eq_of_beqEntries xs ys h.2]
end

mutual
theorem value_beq_self : ∀ (a : Value), Value.beq a a = true
  | .bool _ => by simp [Value.beq]
  | .float64 _ => by simp [Value.beq]
  | .string _ => by simp [Value.beq]
  | .nil => by simp [Value.beq]
  | .bytes _ => by simp [Value.beq]
  | .backref _ => by simp [Value.beq]
  | .ptr x => by simp [Value.beq, value_beq_self x]
  | .iface x => by simp [Value.beq, value_beq_self x]
  | .slice xs => by simp [Value.beq, value_beqList_self xs]
  | .map xs => by simp [Value.beq, value_beqEntries_self xs]
  | .struct _ xs => by simp [Value.beq, value_beqList_self xs]
theorem value_beqList_self : ∀ (a : List Value), Value.beqList a a = true
  | [] => by simp [Value.beqList]
  | x :: xs => by simp [Value.beqList, value_beq_self x, value_beqList_self xs]
theorem value_beqEntries_self : ∀ (a : List (String × Value)), Value.beqEntries a a = true
  | [] => by simp [Value.beqEntries]
  | (k, x) :: xs => by simp [Value.beqEntries, value_beq_self x, value_beqEntries_self xs]
end

instance : DecidableEq Value := fun a b =>
  if h : Value.beq a b = true then isTrue (value_eq_of_beq a b h)
  else isFalse (fun e => h (e ▸ value_beq_self a))

instance : DecidableEq (Except MarshalError JSON) := fun a b =>
  match a, b with
  | .ok x, .ok y => if h : x = y then isTrue (by rw [h]) else isFalse (fun e => h (Except.ok.inj e))
  | .error x, .error y =>
      if h : x = y then isTrue (by rw [h]) else isFalse (fun e => h (Except.error.inj e))
  | .ok _, .error _ => isFalse (fun e => by cases e)
  | .error _, .ok _ => isFalse (fun e => by cases e)

instance : DecidableEq (Except UnmarshalError Value) := fun a b =>
  match a, b with
  | .ok x, .ok y => if h : x = y then isTrue (by rw [h]) else isFalse (fun e => h (Except.ok.inj e))
  | .error x, .error y =>
      if h : x = y then isTrue (by rw [h]) else isFalse (fun e => h (Except.error.inj e))
  | .ok _, .error _ => isFalse (fun e => by cases e)
  | .error _, .ok _ => isFalse (fun e => by cases e)


/-! ## Lemmas on serialised structs -/

/-- A member of a serialised struct carries the tag of one of its fields. -/
theorem marshalFields_absent (pkg : Package) (k : String) :
    ∀ (fs : List Field) (vs : List Value) (ms : List (String × JSON)),
      marshalFields pkg fs vs = .ok ms → k ∉ fs.map (fun f => f.tag) → lookupMember k ms = none
  | [], [], ms, h, _ => by
      rw [marshalFields] at h
      cases h
      rfl
  | [], _ :: _, ms, h, _ => by rw [marshalFields] at h; cases h
  | _ :: _, [], ms, h, _ => by rw [marshalFields] at h; cases h
  | f :: fs, v :: vs, ms, h, hk => by
      rw [marshalFields] at h
      have hk' : k ∉ fs.map (fun f => f.tag) := fun hmem => hk (List.mem_cons_of_mem _ hmem)
      have hne : (f.tag == k) = false := by
        apply beq_false_of_ne
        intro e
        exact hk (by simp [e])
      split at h
      · exact marshalFields_absent pkg k fs vs ms h hk'
      · split at h
        · cases h
          simp only [lookupMember, hne]
          exact marshalFields_absent pkg k fs vs _ (by assumption) hk'
        · cases h
        · cases h

/-- Member lookup in a serialised struct: the member tagged like field `i` is missing when
the field is `omitempty` and empty, and is the serialised field value otherwise. -/
theorem marshalFields_lookup (pkg : Package) :
    ∀ (fs : List Field) (vs : List Value) (ms : List (String × JSON)) (i : Nat) (f : Field) (v : Value),
      (fs.map (fun f => f.tag)).Nodup → marshalFields pkg fs vs = .ok ms →
      fs[i]? = some f → vs[i]? = some v →
      if (f.omitempty && isEmptyValue v) = true then lookupMember f.tag ms = none
      else ∃ j, marshal pkg v = .ok j ∧ lookupMember f.tag ms = some j
  | [], _, _, i, f, v, _, _, hf, _ => by simp at hf
  | _ :: _, [], _, i, f, v, _, _, _, hv => by simp at hv
  | g :: fs, w :: vs, ms, 0, f, v, hnd, h, hf, hv => by
      simp at hf hv
      subst hf; subst hv
      rw [marshalFields] at h
      have hnot : g.tag ∉ fs.map (fun f => f.tag) := (List.nodup_cons.mp hnd).1
      split at h
      · rename_i hom
        rw [if_pos hom]
        exact marshalFields_absent pkg g.tag fs vs ms h hnot
      · rename_i hom
        rw [if_neg hom]
        split at h
        · rename_i j ms' hj _
          cases h
          exact ⟨j, hj, by simp [lookupMember]⟩
        · cases h
        · cases h
  | g :: fs, w :: vs, ms, i + 1, f, v, hnd, h, hf, hv => by
      simp at hf hv
      rw [marshalFields] at h
      have hnd' := (List.nodup_cons.mp hnd)
      have hne : (g.tag == f.tag) = false := by
        apply beq_false_of_ne
        intro e
        apply hnd'.1
        show g.tag ∈ List.map (fun f => f.tag) fs
        rw [e]
        exact List.mem_map.mpr ⟨f, List.getElem?_mem hf, rfl⟩
      split at h
      · exact marshalFields_lookup pkg fs vs ms i f v hnd'.2 h hf hv
      · split at h
        · cases h
          have ih := marshalFields_lookup pkg fs vs _ i f v hnd'.2 (by assumption) hf hv
          simp only [lookupMember, hne]
          exact ih
        · cases h
        · cases h

set_option maxRecDepth 100000 in
theorem protocol_wellFormed : Protocol.package.wellFormed = true := by decide

theorem wellFormed_find {pkg : Package} (h : pkg.wellFormed = true) {d : StructDecl} (hd : d ∈ pkg) :
    pkg.find d.name = some d := by
  have := List.all_eq_true.mp h d hd
  simp only [Bool.and_eq_true, beq_iff_eq] at this
  exact this.1

theorem wellFormed_nodup {pkg : Package} (h : pkg.wellFormed = true) {d : StructDecl} (hd : d ∈ pkg) :
    (d.fields.map (fun f => f.tag)).Nodup := by
  have := List.all_eq_true.mp h d hd
  simp only [Bool.and_eq_true, decide_eq_true_eq] at this
  exact this.2

set_option maxRecDepth 100000 in
theorem response_fields : ∀ d ∈ Protocol.package, hasSuffix d.name "Response" = true →
    ∃ t, d.fields = ⟨"Body", t, "body", true⟩ :: Protocol.Response.fields.tail := by
  intro d hd hs
  have key : ∀ d ∈ Protocol.package, hasSuffix d.name "Response" = true →
      d.fields.length = 7 ∧ d.fields.tail = Protocol.Response.fields.tail ∧
      (d.fields.map (fun f => (f.name, f.tag, f.omitempty))).head? = some ("Body", "body", true) := by
    decide
  obtain ⟨h1, h2, h3⟩ := key d hd hs
  cases hf : d.fields with
  | nil => rw [hf] at h1; simp at h1
  | cons f fs =>
    rw [hf] at h2 h3
    simp at h2 h3
    obtain ⟨n, t, tag, o⟩ := f
    simp at h3
    refine ⟨t, ?_⟩
    rw [h2, h3.1, h3.2.1, h3.2.2]


theorem hasType_bool {pkg : Package} {v : Value} (h : HasType pkg .bool v = true) :
    ∃ b, v = .bool b := by
  cases v <;> simp [HasType] at h
  exact ⟨_, rfl⟩

theorem hasType_string {pkg : Package} {v : Value} (h : HasType pkg .string v = true) :
    ∃ s, v = .string s := by
  cases v <;> simp [HasType] at h
  exact ⟨_, rfl⟩

theorem hasType_float64 {pkg : Package} {v : Value} (h : HasType pkg .float64 v = true) :
    ∃ f, v = .float64 f ∧ f.valid = true := by
  cases v <;> simp [HasType] at h
  exact ⟨_, rfl, h⟩

theorem hasTypeFields_cons {pkg : Package} {f : Field} {fs : List Field} {vs : List Value}
    (h : HasTypeFields pkg (f :: fs) vs = true) :
    ∃ v vs', vs = v :: vs' ∧ HasType pkg f.type v = true ∧ HasTypeFields pkg fs vs' = true := by
  cases vs with
  | nil => simp [HasTypeFields] at h
  | cons v vs' =>
    simp only [HasTypeFields, Bool.and_eq_true] at h
    exact ⟨v, vs', rfl, h.1, h.2⟩

theorem hasTypeFields_nil {pkg : Package} {vs : List Value}
    (h : HasTypeFields pkg [] vs = true) : vs = [] := by
  cases vs with
  | nil => rfl
  | cons v vs' => simp [HasTypeFields] at h


/-! ## Lemmas on parsing into structs -/

theorem decodeFields_length (pkg : Package) (fields : List Field) :
    ∀ (ms : List (String × JSON)) (cur res : List Value),
      decodeFields pkg fields ms cur = .ok res → res.length = cur.length
  | [], cur, res, h => by
      rw [decodeFields] at h
      cases h
      rfl
  | (k, x) :: ms, cur, res, h => by
      rw [decodeFields] at h
      split at h
      · exact decodeFields_length pkg fields ms cur res h
      · split at h
        · split at h
          · have := decodeFields_length pkg fields ms _ res h
            simpa using this
          · cases h
        · cases h

theorem decodeFields_append (pkg : Package) (fields : List Field) (ms' : List (String × JSON)) :
    ∀ (ms : List (String × JSON)) (cur : List Value),
      decodeFields pkg fields (ms ++ ms') cur =
        match decodeFields pkg fields ms cur with
        | .ok mid => decodeFields pkg fields ms' mid
        | .error err => .error err
  | [], cur => by
      simp [decodeFields]
  | (k, x) :: ms, cur => by
      rw [List.cons_append, decodeFields, decodeFields]
      split
      · exact decodeFields_append pkg fields ms' ms cur
      · split
        · split
          · exact decodeFields_append pkg fields ms' ms _
          · rfl
        · rfl

/-- Decoding an object into the struct called `n` decodes its members into the zero
fields. -/
theorem decodeDocument_obj (pkg : Package) (d : StructDecl)
    (hfind : pkg.find d.name = some d) (ms : List (String × JSON)) :
    decodeDocument pkg d.name (.obj ms) =
      match decodeFields pkg d.fields ms (d.fields.map (fun f => zeroValue f.type)) with
      | .ok vs => .ok (.struct d.name vs)
      | .error err => .error err := by
  simp only [decodeDocument, hfind, decode, zeroStruct]
  cases decodeFields pkg d.fields ms (d.fields.map (fun f => zeroValue f.type)) <;> rfl

/-! ## Lemmas on the nesting depth of documents -/

/-- A document within the depth limit is parsed by the decoding pass. -/
theorem unmarshal_of_depth {pkg : Package} {n : String} {j : JSON}
    (h : j.depth ≤ maxNestingDepth) : unmarshal pkg n j = decodeDocument pkg n j := by
  simp [unmarshal, Nat.not_lt.mpr h]

/-- A document beyond the depth limit is refused. -/
theorem unmarshal_too_deep {pkg : Package} {n : String} {j : JSON}
    (h : maxNestingDepth < j.depth) : unmarshal pkg n j = .error .maxDepth := by
  simp [unmarshal, h]

/-- A document that parses is within the depth limit, and the decoding pass gives the
result. -/
theorem depth_of_unmarshal {pkg : Package} {n : String} {j : JSON} {v : Value}
    (h : unmarshal pkg n j = .ok v) :
    j.depth ≤ maxNestingDepth ∧ decodeDocument pkg n j = .ok v := by
  unfold unmarshal at h
  split_ifs at h with hd
  exact ⟨Nat.not_lt.mp hd, h⟩

/-- Two documents of the same depth that decode alike parse alike. -/
theorem unmarshal_congr {pkg : Package} {n : String} {j1 j2 : JSON}
    (hd : j1.depth = j2.depth) (h : decodeDocument pkg n j1 = decodeDocument pkg n j2) :
    unmarshal pkg n j1 = unmarshal pkg n j2 := by
  simp [unmarshal, hd, h]

theorem depthMembers_append (a b : List (String × JSON)) :
    JSON.depthMembers (a ++ b) = max (JSON.depthMembers a) (JSON.depthMembers b) := by
  induction a with
  | nil => simp [JSON.depthMembers]
  | cons x a ih =>
    obtain ⟨k, v⟩ := x
    show max v.depth (JSON.depthMembers (a ++ b)) = max (max v.depth _) _
    rw [ih, Nat.max_assoc]

/-- Adding a member that is not an array or object leaves the depth of an object as it
was. -/
theorem depth_obj_insert (ms1 ms2 : List (String × JSON)) (k : String) (z : JSON)
    (hz : z.depth = 0) :
    (JSON.obj (ms1 ++ (k, z) :: ms2)).depth = (JSON.obj (ms1 ++ ms2)).depth := by
  simp [JSON.depth, depthMembers_append, JSON.depthMembers, hz]

theorem depth_obj_snoc (ms : List (String × JSON)) (k : String) (z : JSON)
    (hz : z.depth = 0) : (JSON.obj (ms ++ [(k, z)])).depth = (JSON.obj ms).depth := by
  simp [JSON.depth, depthMembers_append, JSON.depthMembers, hz]

/-- Parsing an object within the depth limit into the struct called `n` decodes its
members into the zero fields. -/
theorem unmarshal_obj (pkg : Package) (d : StructDecl) (hfind : pkg.find d.name = some d)
    (ms : List (String × JSON)) (hdepth : (JSON.obj ms).depth ≤ maxNestingDepth) :
    unmarshal pkg d.name (.obj ms) =
      match decodeFields pkg d.fields ms (d.fields.map (fun f => zeroValue f.type)) with
      | .ok vs => .ok (.struct d.name vs)
      | .error err => .error err := by
  rw [unmarshal_of_depth hdepth, decodeDocument_obj pkg d hfind]



set_option maxRecDepth 100000 in
theorem request_fields : ∀ d ∈ Protocol.package, hasSuffix d.name "Request" = true →
    ∃ t, d.fields = ⟨"Arguments", t, "arguments", true⟩ :: Protocol.Request.fields.tail := by
  intro d hd hs
  have key : ∀ d ∈ Protocol.package, hasSuffix d.name "Request" = true →
      d.fields.length = 4 ∧ d.fields.tail = Protocol.Request.fields.tail ∧
      (d.fields.map (fun f => (f.name, f.tag, f.omitempty))).head?
        = some ("Arguments", "arguments", true) := by
    decide
  obtain ⟨h1, h2, h3⟩ := key d hd hs
  cases hf : d.fields with
  | nil => rw [hf] at h1; simp at h1
  | cons f fs =>
    rw [hf] at h2 h3
    simp at h2 h3
    obtain ⟨n, t, tag, o⟩ := f
    simp at h3
    refine ⟨t, ?_⟩
    rw [h2, h3.1, h3.2.1, h3.2.2]

theorem mem_of_lookup {k v : String} :
    ∀ {l : List (String × String)}, List.lookup k l = some v → (k, v) ∈ l
  | [], h => by simp [List.lookup] at h
  | (k', v') :: rest, h => by
      rw [List.lookup_cons] at h
      split at h
      · rename_i hk
        have hk' : k = k' := by simpa using hk
        cases h
        simp [hk']
      · exact List.mem_cons_of_mem _ (mem_of_lookup h)


/-! ## Lemmas on the order of keys -/

theorem char_toNat_inj {a b : Char} (h : a.toNat = b.toNat) : a = b := by
  apply Char.ext
  apply UInt32.ext
  simpa [Char.toNat, UInt32.toNat] using h

theorem ltChars_irrefl : ∀ (a : List Char), ltChars a a = false
  | [] => by simp [ltChars]
  | c :: cs => by simp [ltChars, ltChars_irrefl cs]

theorem ltChars_asymm : ∀ (a b : List Char), ltChars a b = true → ltChars b a = false
  | [], [], h => by simp [ltChars] at h
  | [], _ :: _, _ => by simp [ltChars]
  | _ :: _, [], h => by simp [ltChars] at h
  | a :: as, b :: bs, h => by
      simp only [ltChars, Bool.or_eq_true, decide_eq_true_eq, Bool.and_eq_true, beq_iff_eq] at h
      simp only [ltChars, Bool.or_eq_false_iff, decide_eq_false_iff_not, Bool.and_eq_false_imp,
        beq_iff_eq]
      rcases h with h | ⟨h1, h2⟩
      · exact ⟨by omega, fun e => by omega⟩
      · exact ⟨by omega, fun _ => ltChars_asymm as bs h2⟩

theorem ltChars_trans : ∀ (a b c : List Char), ltChars a b = true → ltChars b c = true →
    ltChars a c = true
  | [], [], _, h, _ => by simp [ltChars] at h
  | [], _ :: _, [], _, h => by simp [ltChars] at h
  | [], _ :: _, _ :: _, _, _ => by simp [ltChars]
  | _ :: _, [], _, h, _ => by simp [ltChars] at h
  | _ :: _, _ :: _, [], _, h => by simp [ltChars] at h
  | a :: as, b :: bs, c :: cs, h1, h2 => by
      simp only [ltChars, Bool.or_eq_true, decide_eq_true_eq, Bool.and_eq_true, beq_iff_eq]
        at h1 h2 ⊢
      rcases h1 with h1 | ⟨e1, h1⟩ <;> rcases h2 with h2 | ⟨e2, h2⟩
      · left; omega
      · left; omega
      · left; omega
      · right; exact ⟨by omega, ltChars_trans as bs cs h1 h2⟩

theorem ltChars_total : ∀ (a b : List Char), ltChars a b = false → ltChars b a = false → a = b
  | [], [], _, _ => rfl
  | [], _ :: _, h, _ => by simp [ltChars] at h
  | _ :: _, [], _, h => by simp [ltChars] at h
  | a :: as, b :: bs, h1, h2 => by
      simp only [ltChars, Bool.or_eq_false_iff, decide_eq_false_iff_not, Bool.and_eq_false_imp,
        beq_iff_eq] at h1 h2
      have e : a.toNat = b.toNat := by omega
      rw [char_toNat_inj e, ltChars_total as bs (h1.2 e) (h2.2 e.symm)]

theorem keyLt_irrefl (a : String) : keyLt a a = false := ltChars_irrefl _

theorem keyLt_asymm {a b : String} (h : keyLt a b = true) : keyLt b a = false :=
  ltChars_asymm _ _ h

theorem keyLt_trans {a b c : String} (h1 : keyLt a b = true) (h2 : keyLt b c = true) :
    keyLt a c = true := ltChars_trans _ _ _ h1 h2

theorem keyLt_total {a b : String} (h1 : keyLt a b = false) (h2 : keyLt b a = false) : a = b :=
  String.ext (ltChars_total _ _ h1 h2)

theorem keyLt_ne {a b : String} (h : keyLt a b = true) : (a == b) = false := by
  apply beq_false_of_ne
  intro e
  rw [e, keyLt_irrefl] at h
  cases h

/-! ## Lemmas on float64 rounding -/

theorem bitLenAux_zero (fuel : Nat) : bitLenAux fuel 0 = 0 := by
  cases fuel <;> simp [bitLenAux]

theorem bitLenAux_spec : ∀ (fuel n : Nat), n ≤ fuel →
    n < 2 ^ bitLenAux fuel n ∧ (n ≠ 0 → 1 ≤ bitLenAux fuel n ∧ 2 ^ (bitLenAux fuel n - 1) ≤ n)
  | 0, n, h => by
      have : n = 0 := by omega
      subst this
      simp [bitLenAux]
  | fuel + 1, n, h => by
      by_cases hn : n = 0
      · subst hn
        simp [bitLenAux]
      · have ih := bitLenAux_spec fuel (n / 2) (by omega)
        simp only [bitLenAux, hn, if_false, ne_eq, not_false_eq_true, true_implies]
        rw [Nat.add_sub_cancel, pow_succ]
        refine ⟨by omega, by omega, ?_⟩
        by_cases h2 : n / 2 = 0
        · rw [h2, bitLenAux_zero]
          simp
          omega
        · obtain ⟨h1, h3⟩ := ih.2 h2
          have : 2 ^ bitLenAux fuel (n / 2) = 2 ^ (bitLenAux fuel (n / 2) - 1) * 2 := by
            rw [← pow_succ]
            congr 1
            omega
          omega

theorem bitLen_lt (n : Nat) : n < 2 ^ bitLen n := (bitLenAux_spec n n (Nat.le_refl _)).1

theorem bitLen_le {n : Nat} (hn : n ≠ 0) : 2 ^ (bitLen n - 1) ≤ n :=
  ((bitLenAux_spec n n (Nat.le_refl _)).2 hn).2

theorem bitLen_pos {n : Nat} (hn : n ≠ 0) : 1 ≤ bitLen n :=
  ((bitLenAux_spec n n (Nat.le_refl _)).2 hn).1

/-- The number of binary digits is determined by the two powers of two around `n`. -/
theorem bitLen_unique {n b : Nat} (h1 : 2 ^ b ≤ n) (h2 : n < 2 ^ (b + 1)) : bitLen n = b + 1 := by
  have hn : n ≠ 0 := by
    have : 0 < 2 ^ b := Nat.pow_pos (by norm_num)
    omega
  have l1 := bitLen_lt n
  have l2 := bitLen_le hn
  have l3 := bitLen_pos hn
  have a1 : b < bitLen n := by
    by_contra hc
    have : 2 ^ bitLen n ≤ 2 ^ b := Nat.pow_le_pow_right (by norm_num) (by omega)
    omega
  have a2 : bitLen n - 1 < b + 1 := by
    by_contra hc
    have : 2 ^ (b + 1) ≤ 2 ^ (bitLen n - 1) := Nat.pow_le_pow_right (by norm_num) (by omega)
    omega
  omega

theorem bitLen_mul_pow {a : Nat} (ha : a ≠ 0) (k : Nat) : bitLen (a * 2 ^ k) = bitLen a + k := by
  have l1 := bitLen_lt a
  have l2 := bitLen_le ha
  have l3 := bitLen_pos ha
  have : bitLen (a * 2 ^ k) = (bitLen a - 1 + k) + 1 := by
    apply bitLen_unique
    · rw [pow_add]
      exact Nat.mul_le_mul_right _ l2
    · have : bitLen a - 1 + k + 1 = bitLen a + k := by omega
      rw [this, pow_add]
      exact Nat.mul_lt_mul_of_pos_right l1 (Nat.pow_pos (by norm_num))
  omega

theorem stripTwosAux_pow {a : Nat} (ha : a % 2 = 1) :
    ∀ (k fuel : Nat) (e : Int), k < fuel → stripTwosAux fuel (a * 2 ^ k) e = (a, e + k)
  | 0, fuel + 1, e, _ => by
      simp [stripTwosAux, ha]
  | k + 1, fuel + 1, e, h => by
      have h0 : (a * 2 ^ (k + 1)) % 2 = 0 := by
        rw [pow_succ, ← Nat.mul_assoc]
        exact Nat.mul_mod_left _ _
      have h1 : a * 2 ^ (k + 1) / 2 = a * 2 ^ k := by
        rw [pow_succ, ← Nat.mul_assoc]
        exact Nat.mul_div_cancel _ (by norm_num)
      rw [stripTwosAux, if_pos h0, h1, stripTwosAux_pow ha k fuel (e + 1) (by omega)]
      simp
      omega

theorem stripTwos_pow {a : Nat} (ha : a % 2 = 1) (k : Nat) (e : Int) :
    stripTwos (a * 2 ^ k) e = (a, e + k) := by
  have hpos : 0 < 2 ^ k := Nat.pow_pos (by norm_num)
  have ha1 : 1 ≤ a := by omega
  have hk : k < 2 ^ k := Nat.lt_two_pow k
  have hge : 2 ^ k ≤ a * 2 ^ k := Nat.le_mul_of_pos_left _ (by omega)
  have hne : a * 2 ^ k ≠ 0 := by omega
  rw [stripTwos, if_neg hne]
  exact stripTwosAux_pow ha k _ e (by omega)

theorem roundHalfEven_exact (q d : Nat) (hd : 0 < d) : roundHalfEven (q * d) d = q := by
  simp [roundHalfEven, Nat.mul_div_cancel _ hd, Nat.mul_mod_left]
  omega


theorem two_pow_mono {a b : Nat} (h : a ≤ b) : 2 ^ a ≤ 2 ^ b :=
  Nat.pow_le_pow_right (by norm_num) h

/-- The exponent chosen by `binExp` is at most the exponent of an exactly representable
value. -/
theorem binExp_le {n d a u w : Nat} (hd : 0 < d) (ha : a % 2 = 1) (ha53 : a < 2 ^ 53)
    (ht : -1074 ≤ (u : Int) - w) (hx : n * 2 ^ w = a * 2 ^ u * d) :
    -1074 ≤ binExp n d ∧ binExp n d ≤ (u : Int) - w := by
  have hu : 0 < 2 ^ u := Nat.pow_pos (by norm_num)
  have hw : 0 < 2 ^ w := Nat.pow_pos (by norm_num)
  have hn : n ≠ 0 := by
    intro h0
    rw [h0, Nat.zero_mul] at hx
    have : 0 < a * 2 ^ u * d := Nat.mul_pos (Nat.mul_pos (by omega) hu) hd
    omega
  have key : (if (scale n d ((bitLen n : Int) - (bitLen d : Int) - 52)).1
        / (scale n d ((bitLen n : Int) - (bitLen d : Int) - 52)).2 < 2 ^ 52
      then (bitLen n : Int) - (bitLen d : Int) - 52 - 1
      else (bitLen n : Int) - (bitLen d : Int) - 52) ≤ (u : Int) - w := by
    generalize hs0 : (bitLen n : Int) - (bitLen d : Int) - 52 = s0
    split
    · -- the estimate was one too high
      by_contra hc
      have l1 := bitLen_lt d
      have l2 := bitLen_le hn
      have l3 := bitLen_pos hn
      have hb : bitLen d + u + 54 ≤ bitLen n + w := by omega
      have c1 : 2 ^ (bitLen d) * 2 ^ u * 2 ^ 53 ≤ n * 2 ^ w := by
        calc 2 ^ (bitLen d) * 2 ^ u * 2 ^ 53 = 2 ^ (bitLen d + u + 53) := by ring
          _ ≤ 2 ^ (bitLen n - 1 + w) := two_pow_mono (by omega)
          _ = 2 ^ (bitLen n - 1) * 2 ^ w := by ring
          _ ≤ n * 2 ^ w := Nat.mul_le_mul_right _ l2
      have c2 : a * 2 ^ u * d < 2 ^ (bitLen d) * 2 ^ u * 2 ^ 53 := by
        calc a * 2 ^ u * d ≤ 2 ^ 53 * 2 ^ u * d :=
              Nat.mul_le_mul_right _ (Nat.mul_le_mul_right _ (by omega))
          _ < 2 ^ 53 * 2 ^ u * 2 ^ (bitLen d) :=
              Nat.mul_lt_mul_of_pos_left l1 (Nat.mul_pos (by norm_num) hu)
          _ = 2 ^ (bitLen d) * 2 ^ u * 2 ^ 53 := by ring
      omega
    · rename_i htest
      by_contra hc
      simp only [scale, not_lt] at htest
      have h := (Nat.le_div_iff_mul_le (Nat.mul_pos hd (Nat.pow_pos (by norm_num)))).mp htest
      have hf : u + (-s0).toNat + 1 ≤ s0.toNat + w := by omega
      have c1 : 2 ^ 53 * (d * 2 ^ (u + (-s0).toNat)) ≤ a * (d * 2 ^ (u + (-s0).toNat)) := by
        calc 2 ^ 53 * (d * 2 ^ (u + (-s0).toNat))
              = 2 ^ 52 * d * 2 ^ (u + (-s0).toNat + 1) := by ring
          _ ≤ 2 ^ 52 * d * 2 ^ (s0.toNat + w) := Nat.mul_le_mul_left _ (two_pow_mono hf)
          _ = (2 ^ 52 * (d * 2 ^ s0.toNat)) * 2 ^ w := by ring
          _ ≤ (n * 2 ^ (-s0).toNat) * 2 ^ w := Nat.mul_le_mul_right _ h
          _ = (n * 2 ^ w) * 2 ^ (-s0).toNat := by ring
          _ = a * 2 ^ u * d * 2 ^ (-s0).toNat := by rw [hx]
          _ = a * (d * 2 ^ (u + (-s0).toNat)) := by ring
      have := Nat.le_of_mul_le_mul_right c1 (Nat.mul_pos hd (Nat.pow_pos (by norm_num)))
      omega
  simp only [binExp]
  split <;> omega

/-- A fraction whose value is a float64 is rounded to itself. -/
theorem roundPos_exact {n d a u w : Nat} (hd : 0 < d) (ha : a % 2 = 1) (ha53 : a < 2 ^ 53)
    (ht : -1074 ≤ (u : Int) - w) (hmax : (bitLen a : Int) + ((u : Int) - w) ≤ 1024)
    (hx : n * 2 ^ w = a * 2 ^ u * d) :
    roundPos n d = some (a, (u : Int) - w) := by
  obtain ⟨hlo, hhi⟩ := binExp_le hd ha ha53 ht hx
  generalize hs : binExp n d = s at hlo hhi
  have ha0 : a ≠ 0 := by omega
  obtain ⟨j, hj⟩ : ∃ j : Nat, (j : Int) = (u : Int) - w - s := ⟨((u : Int) - w - s).toNat, by omega⟩
  have hp : n * 2 ^ (-s).toNat = a * 2 ^ j * (d * 2 ^ s.toNat) := by
    have e : u + (-s).toNat = j + s.toNat + w := by omega
    have : (n * 2 ^ (-s).toNat) * 2 ^ w = (a * 2 ^ j * (d * 2 ^ s.toNat)) * 2 ^ w := by
      calc (n * 2 ^ (-s).toNat) * 2 ^ w = (n * 2 ^ w) * 2 ^ (-s).toNat := by ring
        _ = a * 2 ^ u * d * 2 ^ (-s).toNat := by rw [hx]
        _ = a * d * 2 ^ (u + (-s).toNat) := by ring
        _ = a * d * 2 ^ (j + s.toNat + w) := by rw [e]
        _ = (a * 2 ^ j * (d * 2 ^ s.toNat)) * 2 ^ w := by ring
    exact Nat.eq_of_mul_eq_mul_right (Nat.pow_pos (by norm_num)) this
  simp only [roundPos, hs, scale]
  rw [hp, roundHalfEven_exact _ _ (Nat.mul_pos hd (Nat.pow_pos (by norm_num))),
    bitLen_mul_pow ha0, stripTwos_pow ha]
  have : ¬ ((((bitLen a + j : Nat) : Int)) + s > 1024) := by
    push_cast
    omega
  rw [if_neg this]
  congr 2
  omega


/-- The exact decimal value of a finite float64 is read back as the same float64. -/
theorem ofDecimal_exactDecimal {f : Float64} (hv : f.valid = true) (hf : f.isFinite = true)
    (hz : f ≠ .negZero) :
    ∃ m e, f.exactDecimal = some (m, e) ∧ Float64.ofDecimal m e = some f := by
  cases f with
  | nan => simp [Float64.isFinite] at hf
  | inf _ => simp [Float64.isFinite] at hf
  | negZero => exact absurd rfl hz
  | finite m e =>
    by_cases hm : m = 0
    · subst hm
      simp only [Float64.valid, if_true, beq_iff_eq] at hv
      subst hv
      exact ⟨0, 0, by simp [Float64.exactDecimal], by simp [Float64.ofDecimal, Float64.zero]⟩
    · simp only [Float64.valid, hm, if_false, Bool.and_eq_true, bne_iff_ne, ne_eq,
        decide_eq_true_eq] at hv
      obtain ⟨⟨⟨hodd, h53⟩, hlo⟩, hmax⟩ := hv
      refine ⟨_, _, rfl, ?_⟩
      have hM : m * 2 ^ e.toNat * 5 ^ (-e).toNat ≠ 0 := by
        apply mul_ne_zero (mul_ne_zero hm _) _ <;> positivity
      have hE1 : (if e < 0 then e else 0).toNat = 0 := by split <;> omega
      have hE2 : (-(if e < 0 then e else 0)).toNat = (-e).toNat := by split <;> omega
      have habs : (m * 2 ^ e.toNat * 5 ^ (-e).toNat).natAbs
          = m.natAbs * 2 ^ e.toNat * 5 ^ (-e).toNat := by
        simp [Int.natAbs_mul, Int.natAbs_pow]
      have hx : (m.natAbs * 2 ^ e.toNat * 5 ^ (-e).toNat * 10 ^ 0) * 2 ^ (-e).toNat
          = m.natAbs * 2 ^ e.toNat * 10 ^ (-e).toNat := by
        have : (10 : Nat) ^ (-e).toNat = 5 ^ (-e).toNat * 2 ^ (-e).toNat := by
          rw [← Nat.mul_pow]
        rw [this]
        ring
      have hte : ((e.toNat : Int) - ((-e).toNat : Int)) = e := by omega
      have hr := roundPos_exact (n := m.natAbs * 2 ^ e.toNat * 5 ^ (-e).toNat * 10 ^ 0)
        (d := 10 ^ (-e).toNat) (a := m.natAbs) (u := e.toNat) (w := (-e).toNat)
        (by positivity) (by omega) h53 (by omega) (by omega) hx
      simp only [Float64.ofDecimal, hM, if_false, hE1, hE2, habs, hr, hte]
      have hsign : (m * 2 ^ e.toNat * 5 ^ (-e).toNat < 0) ↔ m < 0 := by
        have hp : (0 : Int) < 2 ^ e.toNat * 5 ^ (-e).toNat := by positivity
        rw [mul_assoc]
        constructor
        · intro h
          by_contra hc
          have : 0 ≤ m * (2 ^ e.toNat * 5 ^ (-e).toNat) :=
            mul_nonneg (by omega) (le_of_lt hp)
          omega
        · intro h
          exact mul_neg_of_neg_of_pos h hp
      by_cases hneg : m < 0
      · rw [if_pos (hsign.mpr hneg), if_neg (by omega)]
        congr 2
        omega
      · rw [if_neg (fun h => hneg (hsign.mp h))]
        congr 2
        omega

theorem bitLen_le_of_lt {n b : Nat} (h : n < 2 ^ b) : bitLen n ≤ b := by
  by_cases hn : n = 0
  · subst hn
    simp [bitLen, bitLenAux]
  · have l2 := bitLen_le hn
    by_contra hc
    have : 2 ^ b ≤ 2 ^ (bitLen n - 1) := two_pow_mono (by omega)
    omega

/-- An integer literal of magnitude at most `2 ^ 53`, or even and of magnitude at most
`2 ^ 54`, is read as the float64 whose exact value is that integer. -/
theorem exactDecimal_ofInt {n : Int}
    (hn : n.natAbs ≤ 2 ^ 53 ∨ (n.natAbs % 2 = 0 ∧ n.natAbs ≤ 2 ^ 54)) :
    ∃ f, Float64.ofDecimal n 0 = some f ∧ f.exactDecimal = some (n, 0)
      ∧ f.valid = true ∧ f.isFinite = true := by
  by_cases h0 : n = 0
  · subst h0
    exact ⟨Float64.zero, by simp [Float64.ofDecimal],
      by simp [Float64.exactDecimal, Float64.zero],
      by simp [Float64.valid, Float64.zero], by simp [Float64.isFinite, Float64.zero]⟩
  · have hN : n.natAbs ≠ 0 := by omega
    obtain ⟨k, a, hodd, hdec⟩ := Nat.exists_eq_two_pow_mul_odd hN
    have ha : a % 2 = 1 := Nat.odd_iff.mp hodd
    have hpos : 0 < 2 ^ k := Nat.pow_pos (by norm_num)
    have hle : a ≤ n.natAbs := by
      rw [hdec]
      exact Nat.le_mul_of_pos_left _ hpos
    have h53 : a < 2 ^ 53 := by
      have : a ≠ 2 ^ 53 := by
        intro e
        rw [e] at ha
        norm_num at ha
      rcases hn with hn | ⟨hev, hn⟩
      · omega
      · have hk : k ≠ 0 := by
          intro hk0
          rw [hk0, pow_zero, one_mul] at hdec
          omega
        have h2 : 2 * a ≤ n.natAbs := by
          rw [hdec]
          have : 2 ≤ 2 ^ k := by
            calc 2 = 2 ^ 1 := by norm_num
              _ ≤ 2 ^ k := two_pow_mono (by omega)
          exact Nat.mul_le_mul_right _ this
        omega
    have hbl : bitLen a + k ≤ 55 := by
      rw [← bitLen_mul_pow (by omega) k, Nat.mul_comm, ← hdec]
      exact bitLen_le_of_lt (by
        have : (2 : Nat) ^ 54 < 2 ^ 55 := by norm_num
        have : (2 : Nat) ^ 53 < 2 ^ 55 := by norm_num
        rcases hn with hn | ⟨-, hn⟩ <;> omega)
    have hr := roundPos_exact (n := n.natAbs * 10 ^ 0) (d := 10 ^ 0) (a := a) (u := k) (w := 0)
      (by norm_num) ha h53 (by omega) (by omega) (by rw [hdec]; ring)
    refine ⟨.finite (if n < 0 then -(a : Int) else (a : Int)) k, ?_, ?_, ?_, rfl⟩
    · simp only [Float64.ofDecimal, h0, if_false]
      have e1 : (0 : Int).toNat = 0 := rfl
      have e2 : (-(0 : Int)).toNat = 0 := rfl
      rw [e1, e2, hr]
      have ha0 : a ≠ 0 := by omega
      by_cases hneg : n < 0 <;> simp [hneg, ha0]
    · simp only [Float64.exactDecimal]
      have e1 : (-(k : Int)).toNat = 0 := by omega
      have e2 : ((k : Int)).toNat = k := by omega
      have e3 : ¬ ((k : Int) < 0) := by omega
      rw [e1, e2, if_neg e3]
      congr 2
      have habs : (n.natAbs : Int) = (a : Int) * 2 ^ k := by
        rw [hdec]
        push_cast
        ring
      by_cases hneg : n < 0
      · rw [if_pos hneg]
        have : n = -(n.natAbs : Int) := by omega
        rw [this, habs]
        simp
      · rw [if_neg hneg]
        have : n = (n.natAbs : Int) := by omega
        rw [this, habs]
        simp
    · have hne : (if n < 0 then -(a : Int) else (a : Int)) ≠ 0 := by split <;> omega
      have hab : (if n < 0 then -(a : Int) else (a : Int)).natAbs = a := by split <;> omega
      simp only [Float64.valid, hne, if_false, hab, Bool.and_eq_true, bne_iff_ne, ne_eq,
        decide_eq_true_eq]
      refine ⟨⟨⟨?_, h53⟩, by omega⟩, by omega⟩
      split <;> omega

/-! ## Lemmas on the shortest decimal of a float64 -/

theorem decLenAux_le : ∀ (fuel n : Nat), n ≤ fuel → n ≠ 0 →
    1 ≤ decLenAux fuel n ∧ 10 ^ (decLenAux fuel n - 1) ≤ n
  | 0, n, h, hn => absurd (Nat.le_zero.mp h) hn
  | fuel + 1, n, h, hn => by
      simp only [decLenAux, hn, if_false, Nat.add_sub_cancel]
      refine ⟨by omega, ?_⟩
      by_cases h10 : n / 10 = 0
      · rw [h10]
        cases fuel <;> simp [decLenAux] <;> omega
      · obtain ⟨h1, h2⟩ := decLenAux_le fuel (n / 10) (by omega) h10
        have : 10 ^ decLenAux fuel (n / 10) = 10 ^ (decLenAux fuel (n / 10) - 1) * 10 := by
          rw [← pow_succ]
          congr 1
          omega
        omega

theorem decLen_le {n : Nat} (hn : n ≠ 0) : 1 ≤ decLen n ∧ 10 ^ (decLen n - 1) ≤ n :=
  decLenAux_le n n (le_refl _) hn

theorem stripTensAux_spec : ∀ (fuel c : Nat) (k : Int),
    ∃ j : Nat, (stripTensAux fuel c k).1 * 10 ^ j = c ∧ (stripTensAux fuel c k).2 = k + j
  | 0, c, k => ⟨0, by simp [stripTensAux], by simp [stripTensAux]⟩
  | fuel + 1, c, k => by
      simp only [stripTensAux]
      split
      · rename_i h
        obtain ⟨j, h1, h2⟩ := stripTensAux_spec fuel (c / 10) (k + 1)
        refine ⟨j + 1, ?_, ?_⟩
        · rw [pow_succ, ← Nat.mul_assoc, h1]
          omega
        · rw [h2]
          push_cast
          omega
      · exact ⟨0, by simp, by simp⟩

theorem candidate_pos (c : Nat) {k : Int} (hk : 0 ≤ k) :
    candidate true c k = (c * 10 ^ k.toNat, 0) := by
  obtain ⟨j, h1, h2⟩ := stripTensAux_spec c c k
  simp only [candidate, layout, h2]
  have h0 : (0 : Int) ≤ k + j := by omega
  rw [if_pos ⟨trivial, h0⟩]
  have e : (k + (j : Int)).toNat = j + k.toNat := by omega
  rw [e, pow_add, ← Nat.mul_assoc, h1]

theorem readsAs_shortestAux (f : Float64) (neg pos : Bool) (n : Nat) (k : Int)
    (h : Float64.readsAs f neg (n, k) = true) :
    ∀ (fuel r : Nat), Float64.readsAs f neg (Float64.shortestAux f neg pos n k fuel r) = true
  | 0, r => by simpa [Float64.shortestAux] using h
  | fuel + 1, r => by
      simp only [Float64.shortestAux]
      split
      · exact h
      · split
        · rename_i hb
          simp only [Bool.and_eq_true] at hb
          split
          · exact hb.2
          · exact hb.1
        · split
          · assumption
          · split
            · assumption
            · exact readsAs_shortestAux f neg pos n k h fuel (r - 1)

theorem natAbs_sign (m : Int) : (if m < 0 then -((m.natAbs : Nat) : Int) else (m.natAbs : Int)) = m := by
  split <;> omega

/-- Writing a finite float64 and reading the literal back gives the same float64. -/
theorem ofDecimal_toDecimal {f : Float64} (hv : f.valid = true) (hf : f.isFinite = true)
    (hz : f ≠ .negZero) :
    ∃ m e, f.toDecimal = some (m, e) ∧ Float64.ofDecimal m e = some f := by
  obtain ⟨x, y, hx, hxy⟩ := ofDecimal_exactDecimal hv hf hz
  cases f with
  | nan => simp [Float64.isFinite] at hf
  | inf _ => simp [Float64.isFinite] at hf
  | negZero => exact absurd rfl hz
  | finite m e =>
    simp only [Float64.exactDecimal, Option.some.injEq, Prod.mk.injEq] at hx
    obtain ⟨rfl, rfl⟩ := hx
    have habs : (m * 2 ^ e.toNat * 5 ^ (-e).toNat).natAbs
        = m.natAbs * 2 ^ e.toNat * 5 ^ (-e).toNat := by
      simp [Int.natAbs_mul, Int.natAbs_pow]
    have hsign : (m * 2 ^ e.toNat * 5 ^ (-e).toNat < 0) ↔ m < 0 := by
      have hp : (0 : Int) < 2 ^ e.toNat * 5 ^ (-e).toNat := by positivity
      rw [mul_assoc]
      constructor
      · intro h
        by_contra hc
        have : 0 ≤ m * (2 ^ e.toNat * 5 ^ (-e).toNat) := mul_nonneg (by omega) (le_of_lt hp)
        omega
      · intro h
        exact mul_neg_of_neg_of_pos h hp
    have hexact : Float64.readsAs (.finite m e) (decide (m < 0))
        (m.natAbs * 2 ^ e.toNat * 5 ^ (-e).toNat, if e < 0 then e else 0) = true := by
      simp only [Float64.readsAs, beq_iff_eq, decide_eq_true_eq]
      rw [← hxy]
      congr 1
      have := natAbs_sign (m * 2 ^ e.toNat * 5 ^ (-e).toNat)
      rw [habs] at this
      rw [← this]
      by_cases hneg : m < 0
      · rw [if_pos hneg, if_pos (hsign.mpr hneg)]
      · rw [if_neg hneg, if_neg (fun h => hneg (hsign.mp h))]
    have hs := readsAs_shortestAux (.finite m e) (decide (m < 0))
      (decide (m.natAbs * 2 ^ e.toNat * 5 ^ (-e).toNat
        < 10 ^ 21 * 10 ^ (-(if e < 0 then e else 0)).toNat))
      _ _ hexact (decLen (m.natAbs * 2 ^ e.toNat * 5 ^ (-e).toNat))
      (decLen (m.natAbs * 2 ^ e.toNat * 5 ^ (-e).toNat) - 1)
    refine ⟨_, _, rfl, ?_⟩
    simp only [Float64.readsAs, beq_iff_eq, decide_eq_true_eq] at hs
    exact hs

theorem int_reads_unique {n : Int} (hn : n.natAbs ≤ 2 ^ 53) {f : Float64}
    (hf : Float64.ofDecimal n 0 = some f) (v : Nat)
    (hv : v ≤ 2 ^ 53 ∨ (v % 2 = 0 ∧ v ≤ 2 ^ 54))
    (h : Float64.readsAs f (decide (n < 0)) (v, 0) = true) : v = n.natAbs := by
  simp only [Float64.readsAs, beq_iff_eq, decide_eq_true_eq] at h
  obtain ⟨g, hg1, hg2, -, -⟩ := exactDecimal_ofInt
    (n := if n < 0 then -(v : Int) else (v : Int)) (by
      have : (if n < 0 then -(v : Int) else (v : Int)).natAbs = v := by split <;> omega
      rw [this]
      exact hv)
  obtain ⟨f', hf1, hf2, -, -⟩ := exactDecimal_ofInt (n := n) (Or.inl hn)
  rw [hg1] at h
  rw [hf1] at hf
  cases h
  cases hf
  rw [hg2] at hf2
  simp only [Option.some.injEq, Prod.mk.injEq, and_true] at hf2
  split at hf2 <;> omega

theorem shortestAux_int {n : Int} (hn : n.natAbs ≤ 2 ^ 53) {f : Float64}
    (hf : Float64.ofDecimal n 0 = some f) :
    ∀ (fuel r : Nat), (r ≠ 0 → 10 ^ r ≤ n.natAbs) →
      Float64.shortestAux f (decide (n < 0)) true n.natAbs 0 fuel r = (n.natAbs, 0)
  | 0, r, _ => by simp [Float64.shortestAux]
  | fuel + 1, r, hr => by
      simp only [Float64.shortestAux]
      split
      · rfl
      · rename_i hr0
        have hle := hr hr0
        have h0 : (0 : Int) ≤ 0 + (r : Int) := by omega
        have ht : (0 + (r : Int)).toNat = r := by omega
        rw [candidate_pos _ h0, candidate_pos _ h0, ht]
        have hpos : 0 < 10 ^ r := Nat.pow_pos (by norm_num)
        have hlo : n.natAbs / 10 ^ r * 10 ^ r ≤ n.natAbs := Nat.div_mul_le_self _ _
        have heven : (10 : Nat) ^ r % 2 = 0 := by
          obtain ⟨j, rfl⟩ : ∃ j, r = j + 1 := ⟨r - 1, by omega⟩
          rw [pow_succ]
          omega
        have hhi1 : (n.natAbs / 10 ^ r + 1) * 10 ^ r ≤ 2 ^ 54 := by
          have : (n.natAbs / 10 ^ r + 1) * 10 ^ r = n.natAbs / 10 ^ r * 10 ^ r + 10 ^ r := by
            ring
          have h54 : (2 : Nat) ^ 54 = 2 ^ 53 + 2 ^ 53 := by norm_num
          omega
        have hhi2 : (n.natAbs / 10 ^ r + 1) * 10 ^ r % 2 = 0 := by
          rw [Nat.mul_mod, heven]
          simp
        have ulo := int_reads_unique hn hf (n.natAbs / 10 ^ r * 10 ^ r) (Or.inl (by omega))
        have uhi := int_reads_unique hn hf ((n.natAbs / 10 ^ r + 1) * 10 ^ r)
          (Or.inr ⟨hhi2, hhi1⟩)
        have hrec := shortestAux_int hn hf fuel (r - 1) (by
          intro hne
          have : (10 : Nat) ^ (r - 1) ≤ 10 ^ r := Nat.pow_le_pow_right (by norm_num) (by omega)
          omega)
        split
        · rename_i hb
          simp only [Bool.and_eq_true] at hb
          split
          · rw [uhi hb.2]
          · rw [ulo hb.1]
        · split
          · rename_i hb
            rw [ulo hb]
          · split
            · rename_i hb
              rw [uhi hb]
            · exact hrec

/-- An integer literal of magnitude at most `2 ^ 53` is read as a float64 that is written
as the same integer. -/
theorem toDecimal_ofInt {n : Int} (hn : n.natAbs ≤ 2 ^ 53) :
    ∃ f, Float64.ofDecimal n 0 = some f ∧ f.toDecimal = some (n, 0)
      ∧ f.valid = true ∧ f.isFinite = true := by
  obtain ⟨f, hf1, hf2, hv, hfin⟩ := exactDecimal_ofInt (n := n) (Or.inl hn)
  refine ⟨f, hf1, ?_, hv, hfin⟩
  cases f with
  | nan => simp [Float64.isFinite] at hfin
  | inf _ => simp [Float64.isFinite] at hfin
  | negZero => simp [Float64.exactDecimal] at hf2
  | finite m e =>
    simp only [Float64.exactDecimal, Option.some.injEq, Prod.mk.injEq] at hf2
    obtain ⟨hval, hk⟩ := hf2
    have habs : m.natAbs * 2 ^ e.toNat * 5 ^ (-e).toNat = n.natAbs := by
      rw [← hval]
      simp [Int.natAbs_mul, Int.natAbs_pow]
    have hsign : (m < 0) ↔ (n < 0) := by
      have hp : (0 : Int) < 2 ^ e.toNat * 5 ^ (-e).toNat := by positivity
      rw [← hval, mul_assoc]
      constructor
      · intro h
        exact mul_neg_of_neg_of_pos h hp
      · intro h
        by_contra hc
        have : 0 ≤ m * (2 ^ e.toNat * 5 ^ (-e).toNat) := mul_nonneg (by omega) (le_of_lt hp)
        omega
    have hdec : decide (m < 0) = decide (n < 0) := by
      by_cases h : n < 0
      · simp [h, hsign.mpr h]
      · have hm : ¬ m < 0 := fun hm => h (hsign.mp hm)
        simp only [h, hm]
    have hpos : decide (n.natAbs < 10 ^ 21 * 10 ^ (-(0 : Int)).toNat) = true := by
      have : (2 : Nat) ^ 53 < 10 ^ 21 := by norm_num
      simp only [neg_zero, Int.toNat_zero, pow_zero, mul_one, decide_eq_true_eq]
      omega
    have hs := shortestAux_int hn hf1 (decLen n.natAbs) (decLen n.natAbs - 1) (by
      intro hne
      have h0 : n.natAbs ≠ 0 := by
        intro h0
        rw [h0] at hne
        simp [decLen, decLenAux] at hne
      exact (decLen_le h0).2)
    simp only [Float64.toDecimal, habs, hk, hdec, hpos, hs]
    congr 2
    by_cases h : n < 0
    · rw [if_pos (hsign.mpr h)]
      omega
    · rw [if_neg (fun hm => h (hsign.mp hm))]
      omega

/-! ## Lemmas on sorted entries and on documents decoded into an interface -/

theorem insertEntry_append {α : Type} (k : String) (a : α) :
    ∀ (l : List (String × α)), l.all (fun p => keyLt p.1 k) = true →
      insertEntry k a l = l ++ [(k, a)]
  | [], _ => rfl
  | (k', a') :: rest, h => by
      simp only [List.all_cons, Bool.and_eq_true] at h
      have h1 : (k == k') = false := by
        have := keyLt_ne h.1
        rw [beq_eq_false_iff_ne] at this ⊢
        exact fun e => this e.symm
      have h2 : keyLt k k' = false := keyLt_asymm h.1
      simp [insertEntry, h1, h2, insertEntry_append k a rest h.2]

theorem sortMembers_sorted : ∀ (l : List (String × JSON)), keysSorted l = true → sortMembers l = l
  | [], _ => rfl
  | (k, j) :: rest, h => by
      simp only [keysSorted, Bool.and_eq_true] at h
      rw [sortMembers, sortMembers_sorted rest h.2]
      cases rest with
      | nil => rfl
      | cons p r =>
        obtain ⟨k', j'⟩ := p
        simp only [List.all_cons, Bool.and_eq_true] at h
        simp [insertEntry, keyLt_ne h.1.1, h.1.1]

theorem all_insertEntry {α : Type} (x k : String) (a : α) :
    ∀ (l : List (String × α)), keyLt x k = true → l.all (fun p => keyLt x p.1) = true →
      (insertEntry k a l).all (fun p => keyLt x p.1) = true
  | [], hk, _ => by simp [insertEntry, hk]
  | (k', a') :: rest, hk, h => by
      simp only [List.all_cons, Bool.and_eq_true] at h
      simp only [insertEntry]
      split
      · simp [hk, h.2]
      · split
        · simp [hk, h.1, h.2]
        · simp [h.1, all_insertEntry x k a rest hk h.2]

theorem keysSorted_insertEntry {α : Type} (k : String) (a : α) :
    ∀ (l : List (String × α)), keysSorted l = true → keysSorted (insertEntry k a l) = true
  | [], _ => by simp [insertEntry, keysSorted]
  | (k', a') :: rest, h => by
      simp only [keysSorted, Bool.and_eq_true] at h
      simp only [insertEntry]
      split
      · rename_i hk
        have e : k = k' := by simpa using hk
        subst e
        simp [keysSorted, h.1, h.2]
      · rename_i hk
        split
        · rename_i hlt
          simp only [keysSorted, List.all_cons, Bool.and_eq_true]
          refine ⟨⟨hlt, ?_⟩, h.1, h.2⟩
          rw [List.all_eq_true] at h ⊢
          intro p hp
          exact keyLt_trans hlt (h.1 p hp)
        · rename_i hlt
          have hgt : keyLt k' k = true := by
            by_contra hc
            have := keyLt_total (Bool.eq_false_iff.mpr hlt) (Bool.eq_false_iff.mpr hc)
            simp [this] at hk
          simp only [keysSorted, Bool.and_eq_true]
          exact ⟨all_insertEntry k' k a rest hgt h.1, keysSorted_insertEntry k a rest h.2⟩

theorem marshalEntries_insert (pkg : Package) (k : String) (v : Value) (j : JSON)
    (hv : marshal pkg v = .ok j) :
    ∀ (acc : List (String × Value)) (accJ : List (String × JSON)),
      marshalEntries pkg acc = .ok accJ →
      marshalEntries pkg (insertEntry k v acc) = .ok (insertEntry k j accJ)
  | [], accJ, h => by
      rw [marshalEntries] at h
      cases h
      simp [insertEntry, marshalEntries, hv]
  | (k', v') :: rest, accJ, h => by
      rw [marshalEntries] at h
      split at h
      · rename_i j' ms hj' hms
        cases h
        simp only [insertEntry]
        split
        · simp [marshalEntries, hv, hms]
        · split
          · simp [marshalEntries, hv, hms, hj']
          · simp [marshalEntries, hj', marshalEntries_insert pkg k v j hv rest ms hms]
      · cases h
      · cases h

theorem keysSorted_canonMembers :
    ∀ (ms acc : List (String × JSON)), keysSorted acc = true →
      keysSorted (JSON.canonMembers ms acc) = true
  | [], acc, h => by simpa [JSON.canonMembers] using h
  | (k, x) :: ms, acc, h => by
      rw [JSON.canonMembers]
      exact keysSorted_canonMembers ms _ (keysSorted_insertEntry k _ acc h)

mutual
/-- Decoding a document with exact numbers into an `interface{}` and serialising the result
gives the normal form of the document. -/
theorem iface_canon (pkg : Package) : ∀ (x : JSON), x.exactNumbers = true →
    ∃ v, decodeIface x = .ok v ∧ marshal pkg v = .ok x.canon
  | .null, _ => ⟨.nil, by simp [decodeIface], by simp [marshal, JSON.canon]⟩
  | .negZero, _ =>
      ⟨.iface (.float64 .negZero), by simp [decodeIface],
        by simp [marshal, Float64.toDecimal, JSON.canon]⟩
  | .bool b, _ => ⟨.iface (.bool b), by simp [decodeIface], by simp [marshal, JSON.canon]⟩
  | .str s, _ => ⟨.iface (.string s), by simp [decodeIface], by simp [marshal, JSON.canon]⟩
  | .num m e, h => by
      simp only [JSON.exactNumbers, Bool.and_eq_true, beq_iff_eq, decide_eq_true_eq] at h
      obtain ⟨he, hm⟩ := h
      subst he
      obtain ⟨f, h1, h2, -, -⟩ := toDecimal_ofInt hm
      exact ⟨.iface (.float64 f), by simp [decodeIface, h1], by simp [marshal, h2, JSON.canon]⟩
  | .arr xs, h => by
      simp only [JSON.exactNumbers] at h
      obtain ⟨vs, h1, h2⟩ := iface_canonList pkg xs h
      exact ⟨.iface (.slice vs), by simp [decodeIface, h1], by simp [marshal, h2, JSON.canon]⟩
  | .obj ms, h => by
      simp only [JSON.exactNumbers] at h
      obtain ⟨kvs, h1, h2⟩ := iface_canonMembers pkg ms [] [] h (by simp [marshalEntries])
      refine ⟨.iface (.map kvs), by simp [decodeIface, h1], ?_⟩
      simp only [marshal, h2, JSON.canon]
      rw [sortMembers_sorted _ (keysSorted_canonMembers ms [] (by simp [keysSorted]))]
theorem iface_canonList (pkg : Package) : ∀ (xs : List JSON), JSON.exactNumbersList xs = true →
    ∃ vs, decodeIfaceList xs = .ok vs ∧ marshalList pkg vs = .ok (JSON.canonList xs)
  | [], _ => ⟨[], by simp [decodeIfaceList], by simp [marshalList, JSON.canonList]⟩
  | x :: xs, h => by
      simp only [JSON.exactNumbersList, Bool.and_eq_true] at h
      obtain ⟨v, h1, h2⟩ := iface_canon pkg x h.1
      obtain ⟨vs, h3, h4⟩ := iface_canonList pkg xs h.2
      exact ⟨v :: vs, by simp [decodeIfaceList, h1, h3], by simp [marshalList, h2, h4, JSON.canonList]⟩
theorem iface_canonMembers (pkg : Package) :
    ∀ (ms : List (String × JSON)) (acc : List (String × Value)) (accJ : List (String × JSON)),
      JSON.exactNumbersMembers ms = true → marshalEntries pkg acc = .ok accJ →
      ∃ kvs, decodeIfaceMembers ms acc = .ok kvs
        ∧ marshalEntries pkg kvs = .ok (JSON.canonMembers ms accJ)
  | [], acc, accJ, _, hacc => ⟨acc, by simp [decodeIfaceMembers], by simpa [JSON.canonMembers] using hacc⟩
  | (k, x) :: ms, acc, accJ, h, hacc => by
      simp only [JSON.exactNumbersMembers, Bool.and_eq_true] at h
      obtain ⟨v, h1, h2⟩ := iface_canon pkg x h.1
      obtain ⟨kvs, h3, h4⟩ := iface_canonMembers pkg ms (insertEntry k v acc)
        (insertEntry k x.canon accJ) h.2 (marshalEntries_insert pkg k v _ h2 acc accJ hacc)
      exact ⟨kvs, by simp [decodeIfaceMembers, h1, h3], by simpa [JSON.canonMembers] using h4⟩
end

theorem decodeFields_cons_at (pkg : Package) (fields : List Field) (k : String) (x : JSON)
    (ms : List (String × JSON)) (cur : List Value) (i : Nat) (f : Field) (c v : Value)
    (h1 : findField fields k = some i) (h2 : fields.get? i = some f) (h3 : cur.get? i = some c)
    (h4 : decode pkg f.type x c = .ok v) :
    decodeFields pkg fields ((k, x) :: ms) cur = decodeFields pkg fields ms (cur.set i v) := by
  simp only [decodeFields, h1, h2, h3, h4]

theorem decode_iface (pkg : Package) (p : JSON) (cur : Value) :
    decode pkg .iface p cur = decodeIface p := by
  cases p <;> simp [decode, decodeIface]


/-! ## Round trip of values -/

theorem indexWhere_append {α : Type} (p : α → Bool) (a : α) (suf : List α) (ha : p a = true) :
    ∀ (pre : List α), (∀ x ∈ pre, p x = false) → indexWhere p (pre ++ a :: suf) = some pre.length
  | [], _ => by simp [indexWhere, ha]
  | x :: pre, h => by
      have hx : p x = false := h x (List.mem_cons_self _ _)
      have ih := indexWhere_append p a suf ha pre (fun y hy => h y (List.mem_cons_of_mem _ hy))
      simp [indexWhere, hx, ih]

theorem findField_own (pre suf : List Field) (f : Field)
    (hnd : ((pre ++ f :: suf).map (fun f => f.tag)).Nodup) :
    findField (pre ++ f :: suf) f.tag = some pre.length := by
  have h : indexWhere (fun g => g.tag == f.tag) (pre ++ f :: suf) = some pre.length := by
    apply indexWhere_append
    · simp
    · intro x hx
      apply beq_false_of_ne
      intro e
      rw [List.map_append, List.map_cons, List.nodup_append] at hnd
      exact hnd.2.2 (List.mem_map.mpr ⟨x, hx, rfl⟩) (by rw [e]; exact List.mem_cons_self _ _)
  simp [findField, h]

theorem find_name {pkg : Package} {n : String} {d : StructDecl} (h : pkg.find n = some d) :
    d.name = n := by
  have := List.find?_some h
  simpa using this

theorem float_eq_zero {f : Float64} (h : f.eq Float64.zero = true) :
    f = Float64.zero ∨ f = .negZero := by
  cases f with
  | nan => simp [Float64.eq] at h
  | inf _ => simp [Float64.eq, Float64.zero] at h
  | negZero => exact Or.inr rfl
  | finite m e =>
    simp only [Float64.eq, Float64.zero, beq_iff_eq] at h
    exact Or.inl h

theorem rep_empty_zero (pkg : Package) : ∀ (t : GoType) (v : Value), Rep pkg t v = true →
    isEmptyValue v = true → v = zeroValue t := by
  intro t v hr he
  cases t <;> cases v <;> simp_all [Rep, isEmptyValue, zeroValue]
  · rename_i f
    rcases float_eq_zero he with h | h
    · exact h
    · exact absurd h hr.2
  · exact String.ext (by simpa using he)


theorem all_fst {α : Type} (f : String → Bool) :
    ∀ (l : List (String × α)), l.all (fun p => f p.1) = (l.map Prod.fst).all f
  | [] => rfl
  | p :: l => by simp [all_fst f l]

theorem keysSorted_congr {α β : Type} :
    ∀ (l : List (String × α)) (l' : List (String × β)),
      l.map Prod.fst = l'.map Prod.fst → keysSorted l = keysSorted l'
  | [], [], _ => rfl
  | [], _ :: _, h => by simp at h
  | _ :: _, [], h => by simp at h
  | (k, a) :: l, (k', b) :: l', h => by
      simp only [List.map_cons, List.cons.injEq] at h
      obtain ⟨hk, hl⟩ := h
      subst hk
      have ih := keysSorted_congr l l' hl
      have hall : l.all (fun p => keyLt k p.1) = l'.all (fun p => keyLt k p.1) := by
        rw [all_fst, all_fst, hl]
      simp [keysSorted, ih, hall]

theorem marshalEntries_keys (pkg : Package) :
    ∀ (kvs : List (String × Value)) (ms : List (String × JSON)),
      marshalEntries pkg kvs = .ok ms → kvs.map Prod.fst = ms.map Prod.fst
  | [], ms, h => by
      rw [marshalEntries] at h
      cases h
      rfl
  | (k, v) :: kvs, ms, h => by
      rw [marshalEntries] at h
      split at h
      · rename_i j ms' hj hms
        cases h
        simp [marshalEntries_keys pkg kvs ms' hms]
      · cases h
      · cases h

theorem keysBelow_step {α : Type} {acc : List (String × α)} {k : String} {a : α}
    {rest : List (String × α)} (hb : keysBelow acc ((k, a) :: rest))
    (hs : keysSorted ((k, a) :: rest) = true) :
    acc.all (fun p => keyLt p.1 k) = true ∧ keysBelow (acc ++ [(k, a)]) rest := by
  constructor
  · rw [List.all_eq_true]
    intro p hp
    exact hb p hp (k, a) (List.mem_cons_self _ _)
  · intro p hp q hq
    rw [List.mem_append] at hp
    rcases hp with hp | hp
    · exact hb p hp q (List.mem_cons_of_mem _ hq)
    · simp only [List.mem_singleton] at hp
      subst hp
      simp only [keysSorted, Bool.and_eq_true, List.all_eq_true] at hs
      exact hs.1 q hq

mutual
/-- Serialising a value that came out of an `interface{}` decode and decoding it again
gives the value back. -/
theorem dyn_roundtrip (pkg : Package) : ∀ (d : Value), fromJSON d = true →
    ∃ j, marshal pkg d = .ok j ∧ decodeIface j = .ok (.iface d)
  | .bool b, _ => ⟨.bool b, by simp [marshal], by simp [decodeIface]⟩
  | .string s, _ => ⟨.str s, by simp [marshal], by simp [decodeIface]⟩
  | .float64 f, h => by
      simp only [fromJSON, Bool.and_eq_true] at h
      by_cases hz : f = .negZero
      · subst hz
        exact ⟨.negZero, by simp [marshal, Float64.toDecimal], by simp [decodeIface]⟩
      · obtain ⟨m, e, h1, h2⟩ := ofDecimal_toDecimal h.1 h.2 hz
        exact ⟨.num m e, by simp [marshal, h1], by simp [decodeIface, h2]⟩
  | .slice vs, h => by
      simp only [fromJSON] at h
      obtain ⟨js, h1, h2⟩ := dynList_roundtrip pkg vs h
      exact ⟨.arr js, by simp [marshal, h1], by simp [decodeIface, h2]⟩
  | .map kvs, h => by
      simp only [fromJSON, Bool.and_eq_true] at h
      obtain ⟨ms, h1, h2⟩ := dynEntries_roundtrip pkg kvs h.2
      have hs : keysSorted ms = true := by
        rw [← keysSorted_congr kvs ms (marshalEntries_keys pkg kvs ms h1)]
        exact h.1
      refine ⟨.obj ms, by simp [marshal, h1, sortMembers_sorted ms hs], ?_⟩
      have := h2 [] h.1 (by intro p hp; simp at hp)
      simp [decodeIface, this]
  | .nil, h => by simp [fromJSON] at h
  | .ptr _, h => by simp [fromJSON] at h
  | .iface _, h => by simp [fromJSON] at h
  | .struct _ _, h => by simp [fromJSON] at h
theorem dynIface_roundtrip (pkg : Package) : ∀ (v : Value), fromJSONIface v = true →
    ∃ j, marshal pkg v = .ok j ∧ decodeIface j = .ok v
  | .nil, _ => ⟨.null, by simp [marshal], by simp [decodeIface]⟩
  | .iface d, h => by
      simp only [fromJSONIface] at h
      obtain ⟨j, h1, h2⟩ := dyn_roundtrip pkg d h
      exact ⟨j, by simp [marshal, h1], h2⟩
  | .bool _, h => by simp [fromJSONIface] at h
  | .float64 _, h => by simp [fromJSONIface] at h
  | .string _, h => by simp [fromJSONIface] at h
  | .ptr _, h => by simp [fromJSONIface] at h
  | .slice _, h => by simp [fromJSONIface] at h
  | .map _, h => by simp [fromJSONIface] at h
  | .struct _ _, h => by simp [fromJSONIface] at h
theorem dynList_roundtrip (pkg : Package) : ∀ (vs : List Value), fromJSONList vs = true →
    ∃ js, marshalList pkg vs = .ok js ∧ decodeIfaceList js = .ok vs
  | [], _ => ⟨[], by simp [marshalList], by simp [decodeIfaceList]⟩
  | v :: vs, h => by
      simp only [fromJSONList, Bool.and_eq_true] at h
      obtain ⟨j, h1, h2⟩ := dynIface_roundtrip pkg v h.1
      obtain ⟨js, h3, h4⟩ := dynList_roundtrip pkg vs h.2
      exact ⟨j :: js, by simp [marshalList, h1, h3], by simp [decodeIfaceList, h2, h4]⟩
theorem dynEntries_roundtrip (pkg : Package) : ∀ (kvs : List (String × Value)),
    fromJSONEntries kvs = true →
    ∃ ms, marshalEntries pkg kvs = .ok ms ∧
      ∀ acc, keysSorted kvs = true → keysBelow acc kvs →
        decodeIfaceMembers ms acc = .ok (acc ++ kvs)
  | [], _ => ⟨[], by simp [marshalEntries], by intro acc _ _; simp [decodeIfaceMembers]⟩
  | (k, v) :: kvs, h => by
      simp only [fromJSONEntries, Bool.and_eq_true] at h
      obtain ⟨j, h1, h2⟩ := dynIface_roundtrip pkg v h.1
      obtain ⟨ms, h3, h4⟩ := dynEntries_roundtrip pkg kvs h.2
      refine ⟨(k, j) :: ms, by simp [marshalEntries, h1, h3], ?_⟩
      intro acc hs hb
      obtain ⟨hall, hb'⟩ := keysBelow_step hb hs
      have hs' : keysSorted kvs = true := by
        simp only [keysSorted, Bool.and_eq_true] at hs
        exact hs.2
      simp only [decodeIfaceMembers, h2]
      rw [insertEntry_append k v acc hall, h4 _ hs' hb']
      simp
end

theorem get?_append_length {α : Type} (a : α) (suf : List α) :
    ∀ (pre : List α), (pre ++ a :: suf).get? pre.length = some a
  | [] => rfl
  | _ :: pre => by simpa using get?_append_length a suf pre

theorem set_append_length {α : Type} (a b : α) (suf : List α) :
    ∀ (pre : List α), (pre ++ a :: suf).set pre.length b = pre ++ b :: suf
  | [] => rfl
  | _ :: pre => by simp [set_append_length a b suf pre]

theorem decode_null_nil (pkg : Package) (t : GoType) (h : zeroValue t = .nil) (cur : Value) :
    decode pkg t .null cur = .ok .nil := by
  cases t <;> simp_all [decode, zeroValue]

mutual
/-- Serialising a value of the kind `Rep` and decoding the document into a fresh variable
of the same type gives the value back. -/
theorem rep_roundtrip (pkg : Package) (hwf : pkg.wellFormed = true) :
    ∀ (v : Value) (t : GoType), Rep pkg t v = true →
      ∃ j, marshal pkg v = .ok j ∧ decode pkg t j (zeroValue t) = .ok v
  | .bool b, t, h => by
      cases t <;> simp [Rep] at h
      exact ⟨.bool b, by simp [marshal], by simp [decode]⟩
  | .string s, t, h => by
      cases t <;> simp [Rep] at h
      exact ⟨.str s, by simp [marshal], by simp [decode]⟩
  | .float64 f, t, h => by
      cases t <;> simp [Rep] at h
      obtain ⟨m, e, h1, h2⟩ := ofDecimal_toDecimal h.1.1 h.1.2 h.2
      exact ⟨.num m e, by simp [marshal, h1], by simp [decode, h2]⟩
  | .nil, t, h => by
      refine ⟨.null, by simp [marshal], ?_⟩
      cases t <;> simp [Rep] at h <;> simp [decode, zeroValue]
  | .iface d, t, h => by
      cases t <;> simp [Rep] at h
      obtain ⟨j, h1, h2⟩ := dyn_roundtrip pkg d h
      exact ⟨j, by simp [marshal, h1], by rw [decode_iface]; exact h2⟩
  | .slice vs, t, h => by
      cases t <;> simp [Rep] at h
      rename_i elem
      obtain ⟨js, h1, h2⟩ := repList_roundtrip pkg hwf vs elem h.2
      exact ⟨.arr js, by simp [marshal, h1], by simp [decode, h2]⟩
  | .map kvs, t, h => by
      cases t <;> simp [Rep] at h
      rename_i elem
      obtain ⟨ms, h1, h2⟩ := repEntries_roundtrip pkg hwf kvs elem h.2
      have hs : keysSorted ms = true := by
        rw [← keysSorted_congr kvs ms (marshalEntries_keys pkg kvs ms h1)]
        exact h.1.2
      refine ⟨.obj ms, by simp [marshal, h1, sortMembers_sorted ms hs], ?_⟩
      have := h2 [] h.1.2 (by intro p hp; simp at hp)
      simp [decode, zeroValue, this]
  | .ptr (.struct m vs), t, h => by
      cases t <;> simp [Rep] at h
      rename_i n
      obtain ⟨hn, hr⟩ := h
      subst hn
      cases hfind : pkg.find n with
      | none => simp [hfind] at hr
      | some d =>
        rw [hfind] at hr
        simp only at hr
        obtain ⟨ms, h1, h2⟩ := repFields_roundtrip pkg hwf vs d.fields hr
        have hmem : d ∈ pkg := List.mem_of_find?_eq_some hfind
        have hnd := wellFormed_nodup hwf hmem
        have := h2 d.fields [] [] rfl rfl hnd
        simp only [List.nil_append] at this
        have hz : zeroValue (.ptr n) = .nil := rfl
        refine ⟨.obj ms, by simp [marshal, hfind, h1], ?_⟩
        rw [hz]
        simp only [decode, hfind]
        rw [this]
  | .ptr (.bool _), t, h => by cases t <;> simp [Rep] at h
  | .ptr (.float64 _), t, h => by cases t <;> simp [Rep] at h
  | .ptr (.string _), t, h => by cases t <;> simp [Rep] at h
  | .ptr .nil, t, h => by cases t <;> simp [Rep] at h
  | .ptr (.ptr _), t, h => by cases t <;> simp [Rep] at h
  | .ptr (.iface _), t, h => by cases t <;> simp [Rep] at h
  | .ptr (.slice _), t, h => by cases t <;> simp [Rep] at h
  | .ptr (.map _), t, h => by cases t <;> simp [Rep] at h
  | .ptr (.bytes _), t, h => by cases t <;> simp [Rep] at h
  | .ptr (.backref _), t, h => by cases t <;> simp [Rep] at h
  | .struct _ _, t, h => by cases t <;> simp [Rep] at h
  | .bytes _, t, h => by cases t <;> simp [Rep] at h
  | .backref _, t, h => by cases t <;> simp [Rep] at h
theorem repList_roundtrip (pkg : Package) (hwf : pkg.wellFormed = true) :
    ∀ (vs : List Value) (t : GoType), RepList pkg t vs = true →
      ∃ js, marshalList pkg vs = .ok js ∧ decodeList pkg t js = .ok vs
  | [], _, _ => ⟨[], by simp [marshalList], by simp [decodeList]⟩
  | v :: vs, t, h => by
      simp only [RepList, Bool.and_eq_true] at h
      obtain ⟨j, h1, h2⟩ := rep_roundtrip pkg hwf v t h.1
      obtain ⟨js, h3, h4⟩ := repList_roundtrip pkg hwf vs t h.2
      exact ⟨j :: js, by simp [marshalList, h1, h3], by simp [decodeList, h2, h4]⟩
theorem repEntries_roundtrip (pkg : Package) (hwf : pkg.wellFormed = true) :
    ∀ (kvs : List (String × Value)) (t : GoType), RepEntries pkg t kvs = true →
      ∃ ms, marshalEntries pkg kvs = .ok ms ∧
        ∀ acc, keysSorted kvs = true → keysBelow acc kvs →
          decodeEntries pkg t ms acc = .ok (acc ++ kvs)
  | [], _, _ => ⟨[], by simp [marshalEntries], by intro acc _ _; simp [decodeEntries]⟩
  | (k, v) :: kvs, t, h => by
      simp only [RepEntries, Bool.and_eq_true] at h
      obtain ⟨j, h1, h2⟩ := rep_roundtrip pkg hwf v t h.1
      obtain ⟨ms, h3, h4⟩ := repEntries_roundtrip pkg hwf kvs t h.2
      refine ⟨(k, j) :: ms, by simp [marshalEntries, h1, h3], ?_⟩
      intro acc hs hb
      obtain ⟨hall, hb'⟩ := keysBelow_step hb hs
      have hs' : keysSorted kvs = true := by
        simp only [keysSorted, Bool.and_eq_true] at hs
        exact hs.2
      simp only [decodeEntries, h2]
      rw [insertEntry_append k v acc hall, h4 _ hs' hb']
      simp
theorem repFields_roundtrip (pkg : Package) (hwf : pkg.wellFormed = true) :
    ∀ (vsuf : List Value) (suf : List Field), RepFields pkg suf vsuf = true →
      ∃ ms, marshalFields pkg suf vsuf = .ok ms ∧
        ∀ (allf pre : List Field) (vpre : List Value), allf = pre ++ suf →
          vpre.length = pre.length → (allf.map (fun f => f.tag)).Nodup →
          decodeFields pkg allf ms (vpre ++ suf.map (fun f => zeroValue f.type))
            = .ok (vpre ++ vsuf)
  | [], [], _ => ⟨[], by simp [marshalFields], by
      intro allf pre vpre _ _ _
      simp [decodeFields]⟩
  | [], _ :: _, h => by simp [RepFields] at h
  | _ :: _, [], h => by simp [RepFields] at h
  | v :: vsuf, f :: suf, h => by
      simp only [RepFields, Bool.and_eq_true] at h
      obtain ⟨j, h1, h2⟩ := rep_roundtrip pkg hwf v f.type h.1
      obtain ⟨ms, h3, h4⟩ := repFields_roundtrip pkg hwf vsuf suf h.2
      by_cases hom : (f.omitempty && isEmptyValue v) = true
      · refine ⟨ms, by simp [marshalFields, hom, h3], ?_⟩
        intro allf pre vpre hall hlen hnd
        have hz : v = zeroValue f.type := by
          simp only [Bool.and_eq_true] at hom
          exact rep_empty_zero pkg f.type v h.1 hom.2
        have := h4 allf (pre ++ [f]) (vpre ++ [v]) (by simp [hall]) (by simp [hlen]) hnd
        simp only [List.append_assoc, List.singleton_append] at this
        rw [List.map_cons, ← hz]
        exact this
      · refine ⟨(f.tag, j) :: ms, by simp [marshalFields, hom, h1, h3], ?_⟩
        intro allf pre vpre hall hlen hnd
        subst hall
        have hfi := findField_own pre suf f hnd
        have hget : (pre ++ f :: suf).get? pre.length = some f := get?_append_length f suf pre
        have hcur : (vpre ++ (f :: suf).map (fun f => zeroValue f.type)).get? pre.length
            = some (zeroValue f.type) := by
          rw [← hlen, List.map_cons]
          exact get?_append_length _ _ vpre
        have hset : (vpre ++ (f :: suf).map (fun f => zeroValue f.type)).set pre.length v
            = (vpre ++ [v]) ++ suf.map (fun f => zeroValue f.type) := by
          rw [← hlen, List.map_cons, set_append_length]
          simp
        rw [decodeFields_cons_at pkg _ _ _ _ _ _ f _ v hfi hget hcur h2, hset]
        have := h4 (pre ++ f :: suf) (pre ++ [f]) (vpre ++ [v]) (by simp) (by simp [hlen]) hnd
        simp only [List.append_assoc, List.singleton_append] at this ⊢
        exact this
end

/-- Serialising a struct value of the kind `RepStruct` and decoding the document as the
same struct type gives the value back. -/
theorem struct_roundtrip (pkg : Package) (hwf : pkg.wellFormed = true) (d : StructDecl)
    (hd : d ∈ pkg) (v : Value) (hv : RepStruct pkg d v = true) :
    ∃ j, marshal pkg v = .ok j ∧ decodeDocument pkg d.name j = .ok v := by
  cases v with
  | struct n vs =>
    simp only [RepStruct, Bool.and_eq_true, beq_iff_eq] at hv
    obtain ⟨hn, hr⟩ := hv
    subst hn
    have hfind := wellFormed_find hwf hd
    obtain ⟨ms, h1, h2⟩ := repFields_roundtrip pkg hwf vs d.fields hr
    have := h2 d.fields [] [] rfl rfl (wellFormed_nodup hwf hd)
    simp only [List.nil_append] at this
    refine ⟨.obj ms, by simp [marshal, hfind, h1], ?_⟩
    rw [decodeDocument_obj pkg d hfind, this]
  | _ => simp [RepStruct] at hv


/-! ## Lemmas on numbers read into float64 fields -/

theorem unmarshal_number (pkg : Package) (d : StructDecl) (hfind : pkg.find d.name = some d)
    (k : String) (i : Nat) (f : Field) (h1 : findField d.fields k = some i)
    (h2 : d.fields.get? i = some f) (hty : f.type = .float64) (a : Int) (fa : Float64)
    (hfa : Float64.ofDecimal a 0 = some fa) :
    unmarshal pkg d.name (.obj [(k, .num a 0)])
      = .ok (.struct d.name ((d.fields.map (fun f => zeroValue f.type)).set i (.float64 fa))) := by
  rw [unmarshal_obj pkg d hfind _ (by simp [JSON.depth, JSON.depthMembers, maxNestingDepth])]
  have h3 : (d.fields.map (fun f => zeroValue f.type)).get? i = some (zeroValue f.type) := by
    simp [List.getElem?_map, List.get?_eq_getElem?] at h2 ⊢
    exact ⟨f, h2, rfl⟩
  have h4 : decode pkg f.type (.num a 0) (zeroValue f.type) = .ok (.float64 fa) := by
    rw [hty]
    simp [decode, hfa]
  rw [decodeFields_cons_at pkg d.fields k (.num a 0) [] _ i f _ _ h1 h2 h3 h4]
  simp [decodeFields]

theorem ofInt_injOn {a b : Int} (ha : a.natAbs ≤ 2 ^ 53) (hb : b.natAbs ≤ 2 ^ 53) (hab : a ≠ b) :
    ∃ fa fb, Float64.ofDecimal a 0 = some fa ∧ Float64.ofDecimal b 0 = some fb ∧ fa ≠ fb
      ∧ fa.toDecimal = some (a, 0) ∧ fb.toDecimal = some (b, 0) := by
  obtain ⟨fa, h1, h2, -, -⟩ := toDecimal_ofInt ha
  obtain ⟨fb, h3, h4, -, -⟩ := toDecimal_ofInt hb
  refine ⟨fa, fb, h1, h3, ?_, h2, h4⟩
  intro h
  rw [h, h4] at h2
  simp at h2
  exact hab h2.symm


/-! ## Lemmas on members that are absent from a parsed object -/

theorem indexWhere_some {α : Type} (p : α → Bool) :
    ∀ (l : List α) (i : Nat), indexWhere p l = some i → ∃ a, l.get? i = some a ∧ p a = true
  | [], i, h => by simp [indexWhere] at h
  | a :: as, i, h => by
      rw [indexWhere] at h
      split at h
      · cases h
        exact ⟨a, rfl, by assumption⟩
      · cases hr : indexWhere p as with
        | none => simp [hr] at h
        | some j =>
          simp [hr] at h
          subst h
          obtain ⟨b, hb, hp⟩ := indexWhere_some p as j hr
          exact ⟨b, by simpa using hb, hp⟩

theorem findField_fold (fields : List Field) (k : String) (i : Nat)
    (h : findField fields k = some i) :
    ∃ f, fields.get? i = some f ∧ foldName f.tag = foldName k := by
  unfold findField at h
  split at h
  · rename_i j hj
    cases h
    obtain ⟨f, hf, hp⟩ := indexWhere_some _ _ _ hj
    refine ⟨f, hf, ?_⟩
    have : f.tag = k := by simpa using hp
    rw [this]
  · obtain ⟨f, hf, hp⟩ := indexWhere_some _ _ _ h
    exact ⟨f, hf, by simpa using hp⟩

theorem decodeFields_untouched (pkg : Package) (fields : List Field) (i : Nat) :
    ∀ (ms : List (String × JSON)) (cur res : List Value),
      (∀ m ∈ ms, findField fields m.1 ≠ some i) →
      decodeFields pkg fields ms cur = .ok res → res.get? i = cur.get? i
  | [], cur, res, _, h => by
      rw [decodeFields] at h
      cases h
      rfl
  | (k, x) :: ms, cur, res, hno, h => by
      have hk : findField fields k ≠ some i := hno (k, x) (List.mem_cons_self _ _)
      have hrest : ∀ m ∈ ms, findField fields m.1 ≠ some i :=
        fun m hm => hno m (List.mem_cons_of_mem _ hm)
      rw [decodeFields] at h
      split at h
      · exact decodeFields_untouched pkg fields i ms cur res hrest h
      · rename_i j hj
        split at h
        · split at h
          · have := decodeFields_untouched pkg fields i ms _ res hrest h
            rw [this]
            have hne : j ≠ i := fun e => hk (by rw [hj, e])
            simp [List.get?_eq_getElem?, List.getElem?_set, hne]
          · cases h
        · cases h

theorem decodeFields_default (pkg : Package) (fields : List Field) (i : Nat) (f : Field)
    (z : JSON) (h2 : fields.get? i = some f) (hk : findField fields f.tag = some i)
    (hz : ∀ c, decode pkg f.type z c = .ok (zeroValue f.type))
    (ms1 ms2 : List (String × JSON)) (cur : List Value)
    (hc : cur.get? i = some (zeroValue f.type))
    (hno : ∀ m ∈ ms1 ++ ms2, foldName m.1 ≠ foldName f.tag) :
    decodeFields pkg fields (ms1 ++ (f.tag, z) :: ms2) cur
        = decodeFields pkg fields (ms1 ++ ms2) cur ∧
      ∀ res, decodeFields pkg fields (ms1 ++ ms2) cur = .ok res →
        res.get? i = some (zeroValue f.type) := by
  have hno' : ∀ m ∈ ms1 ++ ms2, findField fields m.1 ≠ some i := by
    intro m hm e
    obtain ⟨g, hg, hfold⟩ := findField_fold fields m.1 i e
    rw [h2] at hg
    cases hg
    exact hno m hm hfold.symm
  constructor
  · rw [decodeFields_append, decodeFields_append]
    cases hmid : decodeFields pkg fields ms1 cur with
    | error err => rfl
    | ok mid =>
      have hm : mid.get? i = some (zeroValue f.type) := by
        rw [decodeFields_untouched pkg fields i ms1 cur mid
          (fun m hm => hno' m (List.mem_append_left _ hm)) hmid, hc]
      dsimp only
      rw [decodeFields_cons_at pkg fields f.tag z ms2 mid i f _ _ hk h2 hm (hz _)]
      congr 1
      apply List.ext_get?
      intro n
      by_cases hn : n = i
      · subst hn
        simp only [List.get?_eq_getElem?] at hm ⊢
        rw [List.getElem?_set]
        have hlt : n < mid.length := by
          by_contra hge
          rw [List.getElem?_eq_none (by omega)] at hm
          cases hm
        simp [hlt, hm]
      · simp only [List.get?_eq_getElem?]
        rw [List.getElem?_set]
        simp [Ne.symm hn]
  · intro res hres
    rw [decodeFields_untouched pkg fields i _ cur res hno' hres, hc]

theorem unmarshal_default (pkg : Package) (d : StructDecl) (hfind : pkg.find d.name = some d)
    (i : Nat) (f : Field) (z : JSON) (h2 : d.fields.get? i = some f)
    (hk : findField d.fields f.tag = some i)
    (hn : indexWhere (fun g => g.name == f.name) d.fields = some i)
    (hz : ∀ c, decode pkg f.type z c = .ok (zeroValue f.type)) (hzd : z.depth = 0)
    (ms1 ms2 : List (String × JSON))
    (hno : ∀ m ∈ ms1 ++ ms2, foldName m.1 ≠ foldName f.tag) :
    unmarshal pkg d.name (.obj (ms1 ++ (f.tag, z) :: ms2))
        = unmarshal pkg d.name (.obj (ms1 ++ ms2)) ∧
      ∀ v, unmarshal pkg d.name (.obj (ms1 ++ ms2)) = .ok v →
        Value.field pkg v f.name = some (zeroValue f.type) := by
  have hc : (d.fields.map (fun f => zeroValue f.type)).get? i = some (zeroValue f.type) := by
    simp [List.getElem?_map, List.get?_eq_getElem?] at h2 ⊢
    exact ⟨f, h2, rfl⟩
  obtain ⟨e1, e2⟩ := decodeFields_default pkg d.fields i f z h2 hk hz ms1 ms2 _ hc hno
  refine ⟨unmarshal_congr (depth_obj_insert ms1 ms2 f.tag z hzd)
    (by rw [decodeDocument_obj pkg d hfind, decodeDocument_obj pkg d hfind, e1]), ?_⟩
  intro v hv
  have hv := (depth_of_unmarshal hv).2
  rw [decodeDocument_obj pkg d hfind] at hv
  cases hres : decodeFields pkg d.fields (ms1 ++ ms2)
      (d.fields.map (fun f => zeroValue f.type)) with
  | error err => rw [hres] at hv; cases hv
  | ok res =>
    rw [hres] at hv
    cases hv
    simp only [Value.field, hfind, StructDecl.get, hn]
    exact e2 res hres


/-! ## Lemmas on the session engine -/

theorem transition_ne_uninitialized {s s' : SessionState} {m : Traffic}
    (h : transition s m = .ok s') : s' ≠ .uninitialized := by
  cases m <;> cases s <;> simp only [transition] at h <;> (try split_ifs at h) <;>
    cases h <;> simp

theorem transition_handshake {s s' : SessionState} {m : Traffic}
    (hs : s = .uninitialized ∨ s = .initializing) (h : transition s m = .ok s') :
    m = .response "initialize" ∨
      ((s' = .uninitialized ∨ s' = .initializing) ∧ ∀ n, m ≠ .event n) := by
  rcases hs with rfl | rfl <;> cases m <;> simp only [transition] at h <;>
    (try split_ifs at h) <;> cases h <;> simp_all

theorem step_error {e e' : SessionEngine} {a : Action} {err : EngineError}
    (h : e.step a = (e', .error err)) : e' = e := by
  cases a with
  | sendRequest c =>
    simp only [SessionEngine.step] at h
    cases ht : transition e.state (.request c) with
    | error x => rw [ht] at h; cases h; rfl
    | ok s =>
      rw [ht] at h
      simp only [RegisterPending] at h
      split_ifs at h <;> cases h
      rfl
  | sendResponse r =>
    simp only [SessionEngine.step] at h
    cases hf : e.inbound.find? (fun q => q.1 == r) with
    | none => rw [hf] at h; cases h; rfl
    | some q =>
      rw [hf] at h
      simp only at h
      cases ht : transition e.state (.response q.2) <;> rw [ht] at h <;> cases h
      rfl
  | sendEvent n =>
    simp only [SessionEngine.step] at h
    cases ht : transition e.state (.event n) <;> rw [ht] at h <;> cases h
    rfl
  | receiveRequest q c =>
    simp only [SessionEngine.step] at h
    cases ht : transition e.state (.request c) <;> rw [ht] at h <;> cases h
    rfl
  | receiveResponse r =>
    simp only [SessionEngine.step, Resolve] at h
    cases hr : e.table.entry r with
    | none => rw [hr] at h; cases h; rfl
    | some x =>
      rw [hr] at h
      simp only at h
      cases ht : transition e.state (.response x.command) <;> rw [ht] at h <;> cases h
      rfl
  | receiveEvent n =>
    simp only [SessionEngine.step] at h
    cases ht : transition e.state (.event n) <;> rw [ht] at h <;> cases h
    rfl

theorem step_ok {e e' : SessionEngine} {a : Action} {d : Delivered}
    (h : e.step a = (e', .ok d)) :
    transition e.state d.traffic = .ok e'.state ∧
      ((d.outbound = false ∧ e'.table.next = e.table.next) ∨
       (d.outbound = true ∧ d.seq = some e.table.next ∧
        e'.table.next = e.table.next + 1)) := by
  cases a with
  | sendRequest c =>
    simp only [SessionEngine.step] at h
    cases ht : transition e.state (.request c) with
    | error x => rw [ht] at h; cases h
    | ok s =>
      rw [ht] at h
      simp only [RegisterPending] at h
      split_ifs at h <;> cases h
      exact ⟨ht, Or.inr ⟨rfl, rfl, rfl⟩⟩
  | sendResponse r =>
    simp only [SessionEngine.step] at h
    cases hf : e.inbound.find? (fun q => q.1 == r) with
    | none => rw [hf] at h; cases h
    | some q =>
      rw [hf] at h
      simp only at h
      cases ht : transition e.state (.response q.2) <;> rw [ht] at h <;> cases h
      exact ⟨ht, Or.inr ⟨rfl, rfl, rfl⟩⟩
  | sendEvent n =>
    simp only [SessionEngine.step] at h
    cases ht : transition e.state (.event n) <;> rw [ht] at h <;> cases h
    exact ⟨ht, Or.inr ⟨rfl, rfl, rfl⟩⟩
  | receiveRequest q c =>
    simp only [SessionEngine.step] at h
    cases ht : transition e.state (.request c) <;> rw [ht] at h <;> cases h
    exact ⟨ht, Or.inl ⟨rfl, rfl⟩⟩
  | receiveResponse r =>
    simp only [SessionEngine.step, Resolve] at h
    cases hr : e.table.entry r with
    | none => rw [hr] at h; cases h
    | some x =>
      rw [hr] at h
      simp only at h
      cases ht : transition e.state (.response x.command) <;> rw [ht] at h <;> cases h
      exact ⟨ht, Or.inl ⟨rfl, rfl⟩⟩
  | receiveEvent n =>
    simp only [SessionEngine.step] at h
    cases ht : transition e.state (.event n) <;> rw [ht] at h <;> cases h
    exact ⟨ht, Or.inl ⟨rfl, rfl⟩⟩

theorem run_cons_ok {e e' : SessionEngine} {a : Action} {d : Delivered} (as : List Action)
    (h : e.step a = (e', .ok d)) :
    e.run (a :: as) = ((e'.run as).1, d :: (e'.run as).2) := by
  simp only [SessionEngine.run, h]

theorem run_cons_error {e e' : SessionEngine} {a : Action} {err : EngineError}
    (as : List Action) (h : e.step a = (e', .error err)) :
    e.run (a :: as) = e.run as := by
  have := step_error h
  subst this
  simp only [SessionEngine.run, h]

theorem run_cases (e : SessionEngine) (a : Action) (as : List Action) :
    e.run (a :: as) = e.run as ∨
      ∃ e' d, e.step a = (e', .ok d) ∧ e.run (a :: as) = ((e'.run as).1, d :: (e'.run as).2) := by
  rcases hs : e.step a with ⟨e', r⟩
  cases r with
  | error err => exact Or.inl (run_cons_error as hs)
  | ok d => exact Or.inr ⟨e', d, rfl, run_cons_ok as hs⟩

theorem run_sent : ∀ (as : List Action) (e : SessionEngine),
    (∀ s ∈ sentSeqs (e.run as).2, e.table.next ≤ s) ∧
      List.Pairwise (fun a b => a < b) (sentSeqs (e.run as).2) ∧
      (sentSeqs (e.run as).2).head?.getD e.table.next = e.table.next
  | [], e => by simp [SessionEngine.run, sentSeqs]
  | a :: as, e => by
      rcases run_cases e a as with h | ⟨e', d, hs, h⟩
      · rw [h]
        exact run_sent as e
      · rw [h]
        obtain ⟨ih1, ih2, -⟩ := run_sent as e'
        obtain ⟨-, hn⟩ := step_ok hs
        rcases hn with ⟨hd, hn⟩ | ⟨hd, hq, hn⟩
        · rw [hn] at ih1
          have e1 : sentSeqs (d :: (e'.run as).2) = sentSeqs (e'.run as).2 := by
            simp [sentSeqs, List.filterMap_cons, hd]
          have := (run_sent as e').2.2
          rw [hn] at this
          simp only [e1]
          exact ⟨ih1, ih2, this⟩
        · have e1 : sentSeqs (d :: (e'.run as).2) = e.table.next :: sentSeqs (e'.run as).2 := by
            simp [sentSeqs, List.filterMap_cons, hd, hq]
          simp only [e1]
          rw [hn] at ih1
          refine ⟨?_, ?_, by simp⟩
          · intro s hs'
            rcases List.mem_cons.mp hs' with rfl | hm
            · exact le_refl _
            · exact Nat.le_of_succ_le (ih1 s hm)
          · exact List.pairwise_cons.mpr ⟨fun s hm => ih1 s hm, ih2⟩

theorem run_initialized_once : ∀ (as : List Action) (e : SessionEngine),
    (e.state ≠ .uninitialized →
      ∀ d ∈ (e.run as).2, d.traffic ≠ .request "initialize") ∧
    ((∃ d ∈ (e.run as).2, d.traffic = .request "initialize") →
      (e.run as).1.state ≠ .uninitialized) ∧
    (e.run as).2.countP (fun d => decide (d.traffic = .request "initialize")) ≤ 1
  | [], e => by simp [SessionEngine.run]
  | a :: as, e => by
      rcases run_cases e a as with h | ⟨e', d, hs, h⟩
      · rw [h]
        exact run_initialized_once as e
      · rw [h]
        obtain ⟨ih1, ih2, ih3⟩ := run_initialized_once as e'
        obtain ⟨ht, -⟩ := step_ok hs
        have hne := transition_ne_uninitialized ht
        have hlater : (e'.run as).1.state ≠ .uninitialized := by
          have : ∀ (bs : List Action) (x : SessionEngine), x.state ≠ .uninitialized →
              (x.run bs).1.state ≠ .uninitialized := by
            intro bs
            induction bs with
            | nil => intro x hx; simpa [SessionEngine.run] using hx
            | cons b bs ihb =>
              intro x hx
              rcases run_cases x b bs with h | ⟨x', d', hs', h⟩
              · rw [h]; exact ihb x hx
              · rw [h]; exact ihb x' (transition_ne_uninitialized (step_ok hs').1)
          exact this as e' hne
        have hdreq : e.state ≠ .uninitialized → d.traffic ≠ .request "initialize" := by
          intro hst hd
          rw [hd] at ht
          simp [transition, hst] at ht
        refine ⟨?_, fun _ => hlater, ?_⟩
        · intro hst x hx
          rcases List.mem_cons.mp hx with rfl | hm
          · exact hdreq hst
          · exact ih1 hne x hm
        · have h0 : (e'.run as).2.countP
              (fun d => decide (d.traffic = .request "initialize")) = 0 := by
            rw [List.countP_eq_zero]
            intro x hx
            simpa using ih1 hne x hx
          rw [List.countP_cons, h0]
          split <;> omega

/-- Before any message has passed, nothing is pending and no request awaits its response;
the only message that passes then is an `initialize` request, which is the one pending or
the one awaiting its response afterwards. -/
theorem step_first {e e' : SessionEngine} {a : Action} {d : Delivered}
    (h0 : e.state = .uninitialized ∧ e.table.pending = [] ∧ e.inbound = [])
    (h : e.step a = (e', .ok d)) :
    d.traffic = .request "initialize" ∧ e'.state = .initializing ∧
      ((d.outbound = true ∧ ∃ s, d.seq = some s ∧
          e'.table.pending = [⟨s, "initialize", false⟩] ∧ e'.inbound = []) ∨
       (d.outbound = false ∧ ∃ s, d.seq = some s ∧
          e'.table.pending = [] ∧ e'.inbound = [(s, "initialize")])) := by
  obtain ⟨hs, hp, hi⟩ := h0
  cases a with
  | sendRequest c =>
    simp only [SessionEngine.step, hs, transition] at h
    split_ifs at h with hc
    · subst hc
      simp only [RegisterPending, NextSeq, CorrelationTable.isPending, hp, List.any_nil,
        Bool.false_eq_true, if_false, List.nil_append] at h
      cases h
      exact ⟨rfl, rfl, Or.inl ⟨rfl, _, rfl, rfl, hi⟩⟩
    · cases h
  | sendResponse r =>
    simp only [SessionEngine.step, hi, List.find?_nil] at h
    cases h
  | sendEvent n =>
    simp only [SessionEngine.step, hs, transition] at h
    cases h
  | receiveRequest q c =>
    simp only [SessionEngine.step, hs, transition] at h
    split_ifs at h with hc
    · subst hc
      cases h
      exact ⟨rfl, rfl, Or.inr ⟨rfl, _, rfl, hp, by simp [hi]⟩⟩
    · cases h
  | receiveResponse r =>
    simp only [SessionEngine.step, Resolve, CorrelationTable.entry, hp, List.find?_nil] at h
    cases h
  | receiveEvent n =>
    simp only [SessionEngine.step, hs, transition] at h
    cases h

theorem transition_initializing_request (c : String) :
    ∃ err, transition .initializing (.request c) = .error err := by
  by_cases hc : c = "initialize"
  · exact ⟨.alreadyInitializedError, by simp [transition, hc]⟩
  · exact ⟨.protocolSequenceError, by simp [transition, hc]⟩

/-- While the `initialize` request awaits its response, the only message that passes is
the response to it, in the direction opposite to the request and carrying its `seq` as
`request_seq`. -/
theorem step_second {e e' : SessionEngine} {a : Action} {d : Delivered} {out : Bool} {s : Nat}
    (hs : e.state = .initializing)
    (h1 : (out = true ∧ e.table.pending = [⟨s, "initialize", false⟩] ∧ e.inbound = []) ∨
      (out = false ∧ e.table.pending = [] ∧ e.inbound = [(s, "initialize")]))
    (h : e.step a = (e', .ok d)) :
    d.traffic = .response "initialize" ∧ d.requestSeq = some s ∧ d.outbound = !out := by
  cases a with
  | sendRequest c =>
    obtain ⟨err, ht⟩ := transition_initializing_request c
    simp only [SessionEngine.step, hs, ht] at h
    cases h
  | sendResponse r =>
    rcases h1 with ⟨-, -, hi⟩ | ⟨ho, -, hi⟩
    · simp only [SessionEngine.step, hi, List.find?_nil] at h
      cases h
    · simp only [SessionEngine.step, hi, List.find?_cons, List.find?_nil] at h
      by_cases hr : s = r
      · subst hr
        simp only [beq_self_eq_true, hs, transition, if_true] at h
        cases h
        exact ⟨rfl, rfl, by simp [ho]⟩
      · have : (s == r) = false := by simpa using hr
        simp only [this] at h
        cases h
  | sendEvent n =>
    simp only [SessionEngine.step, hs, transition] at h
    cases h
  | receiveRequest q c =>
    obtain ⟨err, ht⟩ := transition_initializing_request c
    simp only [SessionEngine.step, hs, ht] at h
    cases h
  | receiveResponse r =>
    rcases h1 with ⟨ho, hp, -⟩ | ⟨-, hp, -⟩
    · simp only [SessionEngine.step, Resolve, CorrelationTable.entry, hp, List.find?_cons,
        List.find?_nil] at h
      by_cases hr : s = r
      · subst hr
        simp only [beq_self_eq_true, hs, transition, if_true] at h
        cases h
        exact ⟨rfl, rfl, by simp [ho]⟩
      · have : (s == r) = false := by simpa using hr
        simp only [this] at h
        cases h
    · simp only [SessionEngine.step, Resolve, CorrelationTable.entry, hp, List.find?_nil] at h
      cases h
  | receiveEvent n =>
    simp only [SessionEngine.step, hs, transition] at h
    cases h

theorem run_second : ∀ (as : List Action) (e : SessionEngine) (out : Bool) (s : Nat),
    e.state = .initializing →
    ((out = true ∧ e.table.pending = [⟨s, "initialize", false⟩] ∧ e.inbound = []) ∨
      (out = false ∧ e.table.pending = [] ∧ e.inbound = [(s, "initialize")])) →
    (e.run as).2 = [] ∨
      ∃ r rest, (e.run as).2 = r :: rest ∧ r.traffic = .response "initialize" ∧
        r.requestSeq = some s ∧ r.outbound = !out
  | [], _, _, _, _, _ => Or.inl rfl
  | a :: as, e, out, s, hs, h1 => by
      rcases run_cases e a as with hr | ⟨e', d, hst, hr⟩
      · rw [hr]
        exact run_second as e out s hs h1
      · rw [hr]
        exact Or.inr ⟨d, _, rfl, step_second hs h1 hst⟩

/-- The trace of an engine that starts before any message has passed is empty, or the
`initialize` request alone, or the `initialize` request, then the response that answers
it, then the rest. -/
theorem run_handshake : ∀ (as : List Action) (e : SessionEngine),
    (e.state = .uninitialized ∧ e.table.pending = [] ∧ e.inbound = []) →
    (e.run as).2 = [] ∨
      ∃ q s, q.traffic = .request "initialize" ∧ q.seq = some s ∧
        ((e.run as).2 = [q] ∨
          ∃ r rest, (e.run as).2 = q :: r :: rest ∧ r.traffic = .response "initialize" ∧
            r.requestSeq = some s ∧ r.outbound = !q.outbound)
  | [], _, _ => Or.inl rfl
  | a :: as, e, h0 => by
      rcases run_cases e a as with hr | ⟨e', d, hst, hr⟩
      · rw [hr]
        exact run_handshake as e h0
      · rw [hr]
        obtain ⟨ht, hs', hcase⟩ := step_first h0 hst
        have key : ∀ s, d.seq = some s →
            ((d.outbound = true ∧ e'.table.pending = [⟨s, "initialize", false⟩] ∧
                e'.inbound = []) ∨
              (d.outbound = false ∧ e'.table.pending = [] ∧
                e'.inbound = [(s, "initialize")])) →
            ∃ q s, q.traffic = .request "initialize" ∧ q.seq = some s ∧
              (d :: (e'.run as).2 = [q] ∨
                ∃ r rest, d :: (e'.run as).2 = q :: r :: rest ∧
                  r.traffic = .response "initialize" ∧
                  r.requestSeq = some s ∧ r.outbound = !q.outbound) := by
          intro s hseq h1
          refine ⟨d, s, ht, hseq, ?_⟩
          rcases run_second as e' d.outbound s hs' h1 with hn | ⟨r, rest, h2, h3⟩
          · left; rw [hn]
          · right; exact ⟨r, rest, by rw [h2], h3⟩
        right
        rcases hcase with ⟨ho, s, hseq, hp, hi⟩ | ⟨ho, s, hseq, hp, hi⟩
        · exact key s hseq (Or.inl ⟨ho, hp, hi⟩)
        · exact key s hseq (Or.inr ⟨ho, hp, hi⟩)


/-! ## Lemmas on the correlation table -/

theorem entry_some {t : CorrelationTable} {r : Nat} {e : PendingRequestEntry}
    (h : t.entry r = some e) : e ∈ t.pending ∧ e.seq = r := by
  unfold CorrelationTable.entry at h
  exact ⟨List.mem_of_find?_eq_some h, by simpa using List.find?_some h⟩

theorem entry_none_iff (t : CorrelationTable) (r : Nat) :
    t.entry r = none ↔ ∀ x ∈ t.pending, x.seq ≠ r := by
  unfold CorrelationTable.entry
  simp [List.find?_eq_none]

theorem isPending_iff (t : CorrelationTable) (r : Nat) :
    t.isPending r = true ↔ ∃ x ∈ t.pending, x.seq = r := by
  unfold CorrelationTable.isPending
  simp [List.any_eq_true]

theorem find_filter_ne (r s : Nat) (hs : s ≠ r) : ∀ l : List PendingRequestEntry,
    (l.filter (fun x => x.seq != r)).find? (fun x => x.seq == s)
      = l.find? (fun x => x.seq == s)
  | [] => rfl
  | x :: l => by
      by_cases hx : x.seq = r
      · have h1 : (x.seq != r) = false := by simp [hx]
        have h2 : (x.seq == s) = false := by simp [hx, Ne.symm hs]
        rw [List.filter_cons, h1, List.find?_cons, h2]
        exact find_filter_ne r s hs l
      · have h1 : (x.seq != r) = true := by simp [hx]
        rw [List.filter_cons, h1]
        simp only [if_true, List.find?_cons]
        rw [find_filter_ne r s hs l]

theorem cancel_find (s s' : Nat) : ∀ l : List PendingRequestEntry,
    (l.map (fun e => if e.seq == s then (⟨e.seq, e.command, true⟩ : PendingRequestEntry)
        else e)).find? (fun x => x.seq == s')
      = (l.find? (fun x => x.seq == s')).map
          (fun e => if e.seq == s then (⟨e.seq, e.command, true⟩ : PendingRequestEntry) else e)
  | [] => rfl
  | x :: l => by
      have hseq : (if x.seq == s then (⟨x.seq, x.command, true⟩ : PendingRequestEntry)
          else x).seq = x.seq := by
        split <;> rfl
      rw [List.map_cons, List.find?_cons, List.find?_cons, hseq]
      cases hx : (x.seq == s')
      · exact cancel_find s s' l
      · rfl

theorem cancel_filter (s : Nat) : ∀ l : List PendingRequestEntry,
    (l.map (fun e => if e.seq == s then (⟨e.seq, e.command, true⟩ : PendingRequestEntry)
        else e)).filter (fun x => x.seq != s)
      = l.filter (fun x => x.seq != s)
  | [] => rfl
  | x :: l => by
      rw [List.map_cons, List.filter_cons, List.filter_cons, cancel_filter s l]
      by_cases hx : x.seq = s
      · simp [hx]
      · simp [hx]

theorem cancel_any (s s' : Nat) : ∀ l : List PendingRequestEntry,
    (l.map (fun e => if e.seq == s then (⟨e.seq, e.command, true⟩ : PendingRequestEntry)
        else e)).any (fun x => x.seq == s')
      = l.any (fun x => x.seq == s')
  | [] => rfl
  | x :: l => by
      have hseq : (if x.seq == s then (⟨x.seq, x.command, true⟩ : PendingRequestEntry)
          else x).seq = x.seq := by
        split <;> rfl
      rw [List.map_cons, List.any_cons, List.any_cons, hseq, cancel_any s s' l]


/-! ## Lemmas on the lookup of fields by member name -/

set_option maxRecDepth 100000 in
theorem adapter_wellFormed : Adapter.package.wellFormed = true := by decide

set_option maxRecDepth 100000 in
theorem protocol_foldNodup : ∀ d ∈ Protocol.package, (d.tags.map foldName).Nodup := by decide

set_option maxRecDepth 100000 in
theorem adapter_foldNodup : ∀ d ∈ Adapter.package, (d.tags.map foldName).Nodup := by decide

theorem indexWhere_none {α : Type} (p : α → Bool) :
    ∀ (l : List α), indexWhere p l = none → ∀ a ∈ l, p a = false
  | [], _, a, ha => by cases ha
  | b :: bs, h, a, ha => by
      rw [indexWhere] at h
      split at h
      · cases h
      · rename_i hb
        have hrest : indexWhere p bs = none := by
          cases hr : indexWhere p bs with
          | none => rfl
          | some j => simp [hr] at h
        rcases List.mem_cons.mp ha with rfl | hm
        · simpa using hb
        · exact indexWhere_none p bs hrest a hm

theorem nodup_map_index {α β : Type} (g : α → β) :
    ∀ (l : List α) (i j : Nat) (a b : α), (l.map g).Nodup → l.get? i = some a →
      l.get? j = some b → g a = g b → i = j
  | [], i, _, _, _, _, hi, _, _ => by simp at hi
  | x :: xs, i, j, a, b, hnd, hi, hj, hg => by
      rw [List.map_cons, List.nodup_cons] at hnd
      cases i with
      | zero =>
        cases j with
        | zero => rfl
        | succ j =>
          simp only [List.get?_cons_zero, Option.some.injEq] at hi
          simp only [List.get?_cons_succ] at hj
          subst hi
          exact absurd (List.mem_map.mpr ⟨b, List.get?_mem hj, hg.symm⟩) hnd.1
      | succ i =>
        cases j with
        | zero =>
          simp only [List.get?_cons_zero, Option.some.injEq] at hj
          simp only [List.get?_cons_succ] at hi
          subst hj
          exact absurd (List.mem_map.mpr ⟨a, List.get?_mem hi, hg⟩) hnd.1
        | succ j =>
          simp only [List.get?_cons_succ] at hi hj
          rw [nodup_map_index g xs i j a b hnd.2 hi hj hg]

theorem findField_of_fold (fields : List Field)
    (hnd : ((fields.map (fun f => f.tag)).map foldName).Nodup) (i : Nat) (f : Field)
    (hf : fields.get? i = some f) (k : String) (hk : foldName k = foldName f.tag) :
    findField fields k = some i := by
  have hnd' : (fields.map (fun f => foldName f.tag)).Nodup := by
    simpa [List.map_map, Function.comp] using hnd
  unfold findField
  cases h1 : indexWhere (fun f => f.tag == k) fields with
  | some j =>
    obtain ⟨g, hg, hp⟩ := indexWhere_some _ _ _ h1
    have hgk : g.tag = k := by simpa using hp
    have := nodup_map_index (fun f => foldName f.tag) fields j i g f hnd' hg hf
      (by simp only [hgk, hk])
    simp [this]
  | none =>
    simp only
    cases h2 : indexWhere (fun f => foldName f.tag == foldName k) fields with
    | some j =>
      obtain ⟨g, hg, hp⟩ := indexWhere_some _ _ _ h2
      have hgk : foldName g.tag = foldName k := by simpa using hp
      have := nodup_map_index (fun f => foldName f.tag) fields j i g f hnd' hg hf
        (by simp only [hgk, hk])
      simp [this]
    | none =>
      have := indexWhere_none _ _ h2 f (List.get?_mem hf)
      simp [hk] at this


/-! ## Lemmas on fields that are left out of a serialised struct -/

set_option maxRecDepth 100000 in
theorem protocol_omitempty : ∀ d ∈ Protocol.package, ∀ f ∈ d.fields, f.omitempty = true := by
  decide

set_option maxRecDepth 100000 in
theorem adapter_omitempty : ∀ d ∈ Adapter.package, ∀ f ∈ d.fields, f.omitempty = true := by
  decide

set_option maxRecDepth 100000 in
theorem protocol_zero : ∀ d ∈ Protocol.package,
    marshal Protocol.package (zeroStruct d) = .ok (.obj []) := by
  decide

set_option maxRecDepth 100000 in
theorem adapter_zero : ∀ d ∈ Adapter.package,
    marshal Adapter.package (zeroStruct d) = .ok (.obj []) := by
  decide

theorem marshalFields_empty_congr (pkg : Package) :
    ∀ (fs : List Field) (vs ws : List Value), (∀ f ∈ fs, f.omitempty = true) →
      List.Forall₂ (fun v w => v = w ∨ (isEmptyValue v = true ∧ isEmptyValue w = true)) vs ws →
      marshalFields pkg fs vs = marshalFields pkg fs ws
  | [], _, _, _, h => by
      cases h with
      | nil => rfl
      | cons _ _ => simp only [marshalFields]
  | f :: fs, _, _, hom, h => by
      cases h with
      | nil => rfl
      | cons hvw hrest =>
        have ih := marshalFields_empty_congr pkg fs _ _
          (fun g hg => hom g (List.mem_cons_of_mem _ hg)) hrest
        have hf := hom f (List.mem_cons_self _ _)
        rcases hvw with rfl | ⟨hv, hw⟩
        · simp only [marshalFields, ih]
        · simp only [marshalFields, hf, hv, hw, Bool.and_self, if_true, ih]


/-! ## Lemmas on acknowledgement responses -/

set_option maxRecDepth 100000 in
theorem acknowledgement_fields : ∀ d ∈ Protocol.package, d.name ∈ Protocol.acknowledgements →
    d.fields = ⟨"Body", .iface, "body", true⟩ :: Protocol.Response.fields.tail := by
  decide

/-- A field of type string, float64 or bool is written as a document that is neither an
array nor an object. -/
theorem rep_scalar_depth (pkg : Package) (t : GoType) (v : Value) (j : JSON)
    (ht : t = .string ∨ t = .float64 ∨ t = .bool) (hr : Rep pkg t v = true)
    (hj : marshal pkg v = .ok j) : j.depth = 0 := by
  rcases ht with rfl | rfl | rfl
  · cases v <;> simp [Rep] at hr
    simp [marshal] at hj
    subst hj
    rfl
  · cases v <;> simp [Rep] at hr
    rename_i f
    simp only [marshal] at hj
    cases hd : f.toDecimal with
    | none =>
      rw [hd] at hj
      simp only at hj
      split_ifs at hj
      cases hj
      rfl
    | some p =>
      rw [hd] at hj
      cases hj
      rfl
  · cases v <;> simp [Rep] at hr
    simp [marshal] at hj
    subst hj
    rfl

/-- A struct whose fields are all of type string, float64 or bool is written with members
that are neither arrays nor objects. -/
theorem repFields_flat (pkg : Package) :
    ∀ (fs : List Field) (vs : List Value) (ms : List (String × JSON)),
      (∀ f ∈ fs, f.type = .string ∨ f.type = .float64 ∨ f.type = .bool) →
      RepFields pkg fs vs = true → marshalFields pkg fs vs = .ok ms →
      JSON.depthMembers ms = 0 := by
  intro fs
  induction fs with
  | nil =>
    intro vs ms _ hr hm
    cases vs with
    | nil => simp [marshalFields] at hm; subst hm; rfl
    | cons v vs => simp [RepFields] at hr
  | cons f fs ih =>
    intro vs ms ht hr hm
    cases vs with
    | nil => simp [RepFields] at hr
    | cons v vs =>
      simp only [RepFields, Bool.and_eq_true] at hr
      simp only [marshalFields] at hm
      split_ifs at hm with he
      · exact ih vs ms (fun g hg => ht g (List.mem_cons_of_mem _ hg)) hr.2 hm
      · cases hv : marshal pkg v with
        | error err => rw [hv] at hm; simp at hm
        | ok j =>
          cases hrest : marshalFields pkg fs vs with
          | error err => rw [hv, hrest] at hm; simp at hm
          | ok rest =>
            rw [hv, hrest] at hm
            simp only [Except.ok.injEq] at hm
            subst hm
            have h1 := rep_scalar_depth pkg f.type v j (ht f (List.mem_cons_self _ _)) hr.1 hv
            have h2 := ih vs rest (fun g hg => ht g (List.mem_cons_of_mem _ hg)) hr.2 hrest
            simp [JSON.depthMembers, h1, h2]


/-! ## Lemmas on the float64 values that parsing produces -/

theorem scale_lt {n d : Nat} (hd : 0 < d) (s : Int)
    (hs : (bitLen n : Int) - (bitLen d : Int) - 52 ≤ s) :
    (scale n d s).1 < 2 ^ 53 * (scale n d s).2 := by
  have hd0 : d ≠ 0 := by omega
  have l1 := bitLen_lt n
  have l2 := bitLen_le hd0
  have l3 := bitLen_pos hd0
  simp only [scale]
  have e : bitLen n + (-s).toNat ≤ 53 + (bitLen d - 1) + s.toNat := by omega
  calc n * 2 ^ (-s).toNat < 2 ^ bitLen n * 2 ^ (-s).toNat :=
        Nat.mul_lt_mul_of_pos_right l1 (Nat.pow_pos (by norm_num))
    _ = 2 ^ (bitLen n + (-s).toNat) := by ring
    _ ≤ 2 ^ (53 + (bitLen d - 1) + s.toNat) := two_pow_mono e
    _ = 2 ^ 53 * (2 ^ (bitLen d - 1) * 2 ^ s.toNat) := by ring
    _ ≤ 2 ^ 53 * (d * 2 ^ s.toNat) :=
        Nat.mul_le_mul_left _ (Nat.mul_le_mul_right _ l2)

theorem scale_pred_lt {n d : Nat} (hd : 0 < d) (s : Int)
    (h : (scale n d s).1 / (scale n d s).2 < 2 ^ 52) :
    (scale n d (s - 1)).1 < 2 ^ 53 * (scale n d (s - 1)).2 := by
  simp only [scale] at h ⊢
  have hpos : 0 < d * 2 ^ s.toNat := Nat.mul_pos hd (Nat.pow_pos (by norm_num))
  have h' : n * 2 ^ (-s).toNat < 2 ^ 52 * (d * 2 ^ s.toNat) := by
    rw [Nat.div_lt_iff_lt_mul hpos] at h
    exact h
  by_cases hs : 1 ≤ s
  · have e1 : (-s).toNat = 0 := by omega
    have e2 : (-(s - 1)).toNat = 0 := by omega
    have e3 : s.toNat = (s - 1).toNat + 1 := by omega
    rw [e1] at h'
    rw [e2]
    rw [e3] at h'
    calc n * 2 ^ 0 < 2 ^ 52 * (d * 2 ^ ((s - 1).toNat + 1)) := h'
      _ = 2 ^ 53 * (d * 2 ^ (s - 1).toNat) := by ring
  · have e1 : s.toNat = 0 := by omega
    have e2 : (s - 1).toNat = 0 := by omega
    have e3 : (-(s - 1)).toNat = (-s).toNat + 1 := by omega
    rw [e1] at h'
    rw [e2, e3]
    calc n * 2 ^ ((-s).toNat + 1) = (n * 2 ^ (-s).toNat) * 2 := by ring
      _ < (2 ^ 52 * (d * 2 ^ 0)) * 2 := Nat.mul_lt_mul_of_pos_right h' (by norm_num)
      _ = 2 ^ 53 * (d * 2 ^ 0) := by ring

theorem binExp_lt {n d : Nat} (hd : 0 < d) :
    -1074 ≤ binExp n d ∧
      (scale n d (binExp n d)).1 < 2 ^ 53 * (scale n d (binExp n d)).2 := by
  simp only [binExp]
  generalize hs0 : (bitLen n : Int) - (bitLen d : Int) - 52 = s0
  have base : ∀ s, s0 ≤ s → (scale n d s).1 < 2 ^ 53 * (scale n d s).2 :=
    fun s hs => scale_lt hd s (by omega)
  by_cases htest : (scale n d s0).1 / (scale n d s0).2 < 2 ^ 52
  · rw [if_pos htest]
    by_cases hc : s0 - 1 < -1074
    · rw [if_pos hc]
      exact ⟨le_refl _, base _ (by omega)⟩
    · rw [if_neg hc]
      exact ⟨by omega, scale_pred_lt hd s0 htest⟩
  · rw [if_neg htest]
    by_cases hc : s0 < -1074
    · rw [if_pos hc]
      exact ⟨le_refl _, base _ (by omega)⟩
    · rw [if_neg hc]
      exact ⟨by omega, base _ (le_refl _)⟩

theorem roundHalfEven_le {n d b : Nat} (hd : 0 < d) (h : n < b * d) :
    roundHalfEven n d ≤ b := by
  have hq : n / d < b := (Nat.div_lt_iff_lt_mul hd).mpr h
  simp only [roundHalfEven]
  split <;> omega

theorem exists_odd_mul_pow : ∀ (fuel q : Nat), q ≤ fuel → q ≠ 0 →
    ∃ a k, a % 2 = 1 ∧ q = a * 2 ^ k
  | 0, q, h, hq => absurd (Nat.le_zero.mp h) hq
  | fuel + 1, q, h, hq => by
      by_cases hodd : q % 2 = 1
      · exact ⟨q, 0, hodd, by simp⟩
      · obtain ⟨a, k, ha, hk⟩ := exists_odd_mul_pow fuel (q / 2) (by omega) (by omega)
        refine ⟨a, k + 1, ha, ?_⟩
        have : q = 2 * (q / 2) := by omega
        rw [this, hk, pow_succ]
        ring

theorem roundPos_valid {n d q : Nat} {s : Int} (hd : 0 < d)
    (h : roundPos n d = some (q, s)) :
    (q = 0 ∧ s = 0) ∨
      (q % 2 = 1 ∧ q < 2 ^ 53 ∧ -1074 ≤ s ∧ (bitLen q : Int) + s ≤ 1024) := by
  obtain ⟨hlo, hlt⟩ := binExp_lt (n := n) hd
  simp only [roundPos] at h
  generalize hb : binExp n d = b at h hlo hlt
  have hpos : 0 < (scale n d b).2 := by
    simp only [scale]
    exact Nat.mul_pos hd (Nat.pow_pos (by norm_num))
  have hr := roundHalfEven_le hpos hlt
  generalize hq : roundHalfEven (scale n d b).1 (scale n d b).2 = r at h hr
  split at h
  · cases h
  · rename_i hmax
    simp only [Option.some.injEq] at h
    by_cases hr0 : r = 0
    · subst hr0
      simp only [stripTwos, if_true, Prod.mk.injEq] at h
      exact Or.inl ⟨h.1.symm, h.2.symm⟩
    · obtain ⟨a, k, ha, hk⟩ := exists_odd_mul_pow r r (le_refl _) hr0
      rw [hk, stripTwos_pow ha] at h
      simp only [Prod.mk.injEq] at h
      obtain ⟨rfl, rfl⟩ := h
      have ha0 : a ≠ 0 := by omega
      have hbl : bitLen r = bitLen a + k := by rw [hk]; exact bitLen_mul_pow ha0 k
      have hle : a ≤ r := by
        rw [hk]
        exact Nat.le_mul_of_pos_right _ (Nat.pow_pos (by norm_num))
      refine Or.inr ⟨ha, ?_, by omega, ?_⟩
      · have : a ≠ 2 ^ 53 := by
          intro e
          rw [e] at ha
          norm_num at ha
        omega
      · rw [hbl] at hmax
        push_cast at hmax
        omega

theorem ofDecimal_valid {m e : Int} {f : Float64} (h : Float64.ofDecimal m e = some f) :
    f.valid = true ∧ f.isFinite = true := by
  simp only [Float64.ofDecimal] at h
  split at h
  · cases h
    exact ⟨by decide, by decide⟩
  · rename_i hm
    have hd : 0 < 10 ^ (-e).toNat := Nat.pow_pos (by norm_num)
    cases hr : roundPos (m.natAbs * 10 ^ e.toNat) (10 ^ (-e).toNat) with
    | none => rw [hr] at h; cases h
    | some p =>
      obtain ⟨q, s⟩ := p
      rw [hr] at h
      simp only at h
      by_cases hneg : m < 0
      · simp only [hneg, if_true, Option.some.injEq] at h
        subst h
        by_cases hq : q = 0
        · simp [hq, Float64.valid, Float64.isFinite]
        · simp only [hq, if_false]
          refine ⟨?_, rfl⟩
          rcases roundPos_valid hd hr with ⟨h0, -⟩ | ⟨h1, h2, h3, h4⟩
          · exact absurd h0 hq
          · have : -(q : Int) ≠ 0 := by omega
            simp only [Float64.valid, this, if_false, Int.natAbs_neg, Int.natAbs_ofNat,
              Bool.and_eq_true, bne_iff_ne, ne_eq, decide_eq_true_eq]
            exact ⟨⟨⟨by omega, h2⟩, h3⟩, h4⟩
      · simp only [hneg, if_false, Option.some.injEq] at h
        subst h
        refine ⟨?_, rfl⟩
        rcases roundPos_valid hd hr with ⟨rfl, rfl⟩ | ⟨h1, h2, h3, h4⟩
        · simp [Float64.valid]
        · have hq0 : (q : Int) ≠ 0 := by omega
          simp only [Float64.valid, hq0, if_false, Int.natAbs_ofNat, Bool.and_eq_true,
            bne_iff_ne, ne_eq, decide_eq_true_eq]
          exact ⟨⟨⟨by omega, h2⟩, h3⟩, h4⟩

theorem fromJSONEntries_insertEntry (k : String) (v : Value) (hv : fromJSONIface v = true) :
    ∀ (acc : List (String × Value)), fromJSONEntries acc = true →
      fromJSONEntries (insertEntry k v acc) = true
  | [], _ => by simp [insertEntry, fromJSONEntries, hv]
  | (k', v') :: rest, h => by
      simp only [fromJSONEntries, Bool.and_eq_true] at h
      simp only [insertEntry]
      split
      · simp [fromJSONEntries, hv, h.2]
      · split
        · simp [fromJSONEntries, hv, h.1, h.2]
        · simp [fromJSONEntries, h.1, fromJSONEntries_insertEntry k v hv rest h.2]

mutual
/-- Every value that parsing stores in an `interface{}` is nil or of the form
`fromJSON`. -/
theorem decodeIface_fromJSON : ∀ (x : JSON) (v : Value), decodeIface x = .ok v →
    fromJSONIface v = true
  | .null, v, h => by
      simp only [decodeIface, Except.ok.injEq] at h
      subst h
      rfl
  | .negZero, v, h => by
      simp only [decodeIface, Except.ok.injEq] at h
      subst h
      rfl
  | .bool b, v, h => by
      simp only [decodeIface, Except.ok.injEq] at h
      subst h
      rfl
  | .str s, v, h => by
      simp only [decodeIface, Except.ok.injEq] at h
      subst h
      rfl
  | .num m e, v, h => by
      simp only [decodeIface] at h
      cases hf : Float64.ofDecimal m e with
      | none => rw [hf] at h; cases h
      | some f =>
        rw [hf] at h
        simp only [Except.ok.injEq] at h
        subst h
        obtain ⟨h1, h2⟩ := ofDecimal_valid hf
        simp [fromJSONIface, fromJSON, h1, h2]
  | .arr xs, v, h => by
      simp only [decodeIface] at h
      cases hl : decodeIfaceList xs with
      | error err => rw [hl] at h; cases h
      | ok vs =>
        rw [hl] at h
        simp only [Except.ok.injEq] at h
        subst h
        simpa [fromJSONIface, fromJSON] using decodeIfaceList_fromJSON xs vs hl
  | .obj ms, v, h => by
      simp only [decodeIface] at h
      cases hl : decodeIfaceMembers ms [] with
      | error err => rw [hl] at h; cases h
      | ok kvs =>
        rw [hl] at h
        simp only [Except.ok.injEq] at h
        subst h
        have := decodeIfaceMembers_fromJSON ms [] kvs (by simp [keysSorted])
          (by simp [fromJSONEntries]) hl
        simpa [fromJSONIface, fromJSON] using this
theorem decodeIfaceList_fromJSON : ∀ (xs : List JSON) (vs : List Value),
    decodeIfaceList xs = .ok vs → fromJSONList vs = true
  | [], vs, h => by
      simp only [decodeIfaceList, Except.ok.injEq] at h
      subst h
      rfl
  | x :: xs, vs, h => by
      simp only [decodeIfaceList] at h
      cases h1 : decodeIface x with
      | error err => rw [h1] at h; simp at h
      | ok v =>
        cases h2 : decodeIfaceList xs with
        | error err => rw [h1, h2] at h; simp at h
        | ok ws =>
          rw [h1, h2] at h
          simp only [Except.ok.injEq] at h
          subst h
          simp [fromJSONList, decodeIface_fromJSON x v h1, decodeIfaceList_fromJSON xs ws h2]
theorem decodeIfaceMembers_fromJSON : ∀ (ms : List (String × JSON))
    (acc kvs : List (String × Value)), keysSorted acc = true → fromJSONEntries acc = true →
    decodeIfaceMembers ms acc = .ok kvs → keysSorted kvs = true ∧ fromJSONEntries kvs = true
  | [], acc, kvs, hs, hf, h => by
      simp only [decodeIfaceMembers, Except.ok.injEq] at h
      subst h
      exact ⟨hs, hf⟩
  | (k, x) :: ms, acc, kvs, hs, hf, h => by
      simp only [decodeIfaceMembers] at h
      cases h1 : decodeIface x with
      | error err => rw [h1] at h; cases h
      | ok v =>
        rw [h1] at h
        exact decodeIfaceMembers_fromJSON ms (insertEntry k v acc) kvs
          (keysSorted_insertEntry k v acc hs)
          (fromJSONEntries_insertEntry k v (decodeIface_fromJSON x v h1) acc hf) h
end


/-! ## Lemmas on the order of serialised members -/

theorem marshalFields_sublist (pkg : Package) :
    ∀ (fs : List Field) (vs : List Value) (ms : List (String × JSON)),
      marshalFields pkg fs vs = .ok ms →
      (ms.map Prod.fst).Sublist (fs.map (fun f => f.tag))
  | [], [], ms, h => by
      simp only [marshalFields, Except.ok.injEq] at h
      subst h
      exact List.Sublist.slnil
  | [], _ :: _, ms, h => by simp [marshalFields] at h
  | _ :: _, [], ms, h => by simp [marshalFields] at h
  | f :: fs, v :: vs, ms, h => by
      simp only [marshalFields] at h
      split at h
      · exact (marshalFields_sublist pkg fs vs ms h).cons _
      · cases h1 : marshal pkg v with
        | error err => rw [h1] at h; simp at h
        | ok j =>
          cases h2 : marshalFields pkg fs vs with
          | error err => rw [h1, h2] at h; simp at h
          | ok rest =>
            rw [h1, h2] at h
            simp only [Except.ok.injEq] at h
            subst h
            exact (marshalFields_sublist pkg fs vs rest h2).cons₂ _

theorem keysSorted_sortMembers : ∀ (l : List (String × JSON)), keysSorted (sortMembers l) = true
  | [] => rfl
  | (k, j) :: rest => by
      rw [sortMembers]
      exact keysSorted_insertEntry k j _ (keysSorted_sortMembers rest)

theorem insertEntry_perm {α : Type} (k : String) (a : α) :
    ∀ (l : List (String × α)), k ∉ l.map Prod.fst → (insertEntry k a l).Perm ((k, a) :: l)
  | [], _ => by simp [insertEntry]
  | (k', a') :: rest, h => by
      have hne : k ≠ k' := fun e => h (by simp [e])
      have hrest : k ∉ rest.map Prod.fst := fun hm => h (by simp [hm])
      simp only [insertEntry]
      have hb : (k == k') = false := by simpa using hne
      rw [hb]
      simp only [Bool.false_eq_true, if_false]
      split
      · exact List.Perm.refl _
      · exact ((insertEntry_perm k a rest hrest).cons _).trans (List.Perm.swap _ _ _)

theorem sortMembers_perm : ∀ (l : List (String × JSON)), (l.map Prod.fst).Nodup →
    (sortMembers l).Perm l
  | [], _ => List.Perm.refl _
  | (k, j) :: rest, h => by
      rw [List.map_cons, List.nodup_cons] at h
      have ih := sortMembers_perm rest h.2
      rw [sortMembers]
      have hk : k ∉ (sortMembers rest).map Prod.fst := by
        intro hm
        exact h.1 ((ih.map Prod.fst).subset hm)
      exact (insertEntry_perm k j _ hk).trans (ih.cons _)

theorem keysSorted_pairwise {α : Type} : ∀ (l : List (String × α)), keysSorted l = true →
    l.Pairwise (fun p q => keyLt p.1 q.1 = true)
  | [], _ => List.Pairwise.nil
  | (k, a) :: rest, h => by
      simp only [keysSorted, Bool.and_eq_true, List.all_eq_true] at h
      exact List.Pairwise.cons (fun q hq => h.1 q hq) (keysSorted_pairwise rest h.2)

theorem keysSorted_unique {α : Type} {l1 l2 : List (String × α)} (hp : l1.Perm l2)
    (h1 : keysSorted l1 = true) (h2 : keysSorted l2 = true) : l1 = l2 := by
  have anti : IsAntisymm (String × α) (fun p q => keyLt p.1 q.1 = true) :=
    ⟨fun p q hpq hqp => by rw [keyLt_asymm hpq] at hqp; cases hqp⟩
  exact List.eq_of_perm_of_sorted hp (keysSorted_pairwise l1 h1) (keysSorted_pairwise l2 h2)

theorem sortMembers_congr {l1 l2 : List (String × JSON)} (hp : l1.Perm l2)
    (hnd : (l1.map Prod.fst).Nodup) : sortMembers l1 = sortMembers l2 := by
  have hnd2 : (l2.map Prod.fst).Nodup := (hp.map Prod.fst).nodup_iff.mp hnd
  exact keysSorted_unique
    (((sortMembers_perm l1 hnd).trans hp).trans (sortMembers_perm l2 hnd2).symm)
    (keysSorted_sortMembers l1) (keysSorted_sortMembers l2)

theorem marshalEntries_forall2 (pkg : Package) :
    ∀ (kvs : List (String × Value)) (ms : List (String × JSON)),
      marshalEntries pkg kvs = .ok ms ↔
        List.Forall₂ (fun p q => q.1 = p.1 ∧ marshal pkg p.2 = .ok q.2) kvs ms
  | [], ms => by
      simp only [marshalEntries, Except.ok.injEq]
      constructor
      · rintro rfl
        exact List.Forall₂.nil
      · intro h
        cases h
        rfl
  | (k, v) :: kvs, ms => by
      simp only [marshalEntries]
      constructor
      · intro h
        cases h1 : marshal pkg v with
        | error err => rw [h1] at h; simp at h
        | ok j =>
          cases h2 : marshalEntries pkg kvs with
          | error err => rw [h1, h2] at h; simp at h
          | ok rest =>
            rw [h1, h2] at h
            simp only [Except.ok.injEq] at h
            subst h
            exact List.Forall₂.cons ⟨rfl, h1⟩ ((marshalEntries_forall2 pkg kvs rest).mp h2)
      · intro h
        cases h with
        | cons hhead htail =>
          rename_i q rest
          obtain ⟨k', j⟩ := q
          obtain ⟨hk, hj⟩ := hhead
          simp only at hk hj
          subst hk
          rw [hj, (marshalEntries_forall2 pkg kvs rest).mpr htail]

theorem marshal_map_perm (pkg : Package) {k1 k2 : List (String × Value)} (hp : k1.Perm k2)
    (hnd : (k1.map Prod.fst).Nodup) (j : JSON) (h : marshal pkg (.map k1) = .ok j) :
    marshal pkg (.map k2) = .ok j := by
  simp only [marshal] at h ⊢
  cases h1 : marshalEntries pkg k1 with
  | error err => rw [h1] at h; cases h
  | ok ms1 =>
    rw [h1] at h
    simp only [Except.ok.injEq] at h
    subst h
    have f1 := (marshalEntries_forall2 pkg k1 ms1).mp h1
    obtain ⟨ms2, f2, hperm⟩ := List.perm_comp_forall₂ hp.symm f1
    rw [(marshalEntries_forall2 pkg k2 ms2).mpr f2]
    have hkeys : (ms2.map Prod.fst).Nodup := by
      have e1 := marshalEntries_keys pkg k1 ms1 h1
      have : (ms1.map Prod.fst).Nodup := by rw [← e1]; exact hnd
      exact ((hperm.map Prod.fst).nodup_iff).mpr this
    simp only [Except.ok.injEq, JSON.obj.injEq]
    exact sortMembers_congr hperm hkeys

theorem sameData_isEmpty : ∀ (v w : Value), sameData v w → isEmptyValue v = isEmptyValue w := by
  intro v w h
  cases v <;> cases w <;> simp only [sameData] at h <;> try (exact absurd h id)
  · subst h; rfl
  · subst h; rfl
  · subst h; rfl
  · rfl
  · rfl
  · rfl
  · rename_i as bs
    cases as <;> cases bs <;> simp_all [sameDataList, isEmptyValue]
  · rename_i k1 k2
    have := h.1.length_eq
    cases k1 <;> cases k2 <;> simp_all [isEmptyValue]
  · rfl
  · subst h; rfl
  · subst h; rfl

mutual
theorem sameData_marshal (pkg : Package) : ∀ (v w : Value), sameData v w →
    ∀ j, marshal pkg v = .ok j → marshal pkg w = .ok j
  | .bool a, w, h, j, hj => by
      cases w <;> simp only [sameData] at h
      subst h; exact hj
  | .float64 a, w, h, j, hj => by
      cases w <;> simp only [sameData] at h
      subst h; exact hj
  | .string a, w, h, j, hj => by
      cases w <;> simp only [sameData] at h
      subst h; exact hj
  | .nil, w, h, j, hj => by
      cases w <;> simp only [sameData] at h
      exact hj
  | .bytes a, w, h, j, hj => by
      cases w <;> simp only [sameData] at h
      subst h; exact hj
  | .backref a, w, h, j, hj => by
      cases w <;> simp only [sameData] at h
      subst h; exact hj
  | .ptr a, w, h, j, hj => by
      cases w <;> simp only [sameData] at h
      simp only [marshal] at hj ⊢
      exact sameData_marshal pkg a _ h j hj
  | .iface a, w, h, j, hj => by
      cases w <;> simp only [sameData] at h
      simp only [marshal] at hj ⊢
      exact sameData_marshal pkg a _ h j hj
  | .slice as, w, h, j, hj => by
      cases w <;> simp only [sameData] at h
      simp only [marshal] at hj ⊢
      cases h1 : marshalList pkg as with
      | error err => rw [h1] at hj; cases hj
      | ok js =>
        rw [h1] at hj
        rw [sameDataList_marshal pkg as _ h js h1]
        exact hj
  | .map k1, w, h, j, hj => by
      cases w <;> simp only [sameData] at h
      exact marshal_map_perm pkg h.1 h.2 j hj
  | .struct n as, w, h, j, hj => by
      cases w <;> simp only [sameData] at h
      obtain ⟨rfl, hl⟩ := h
      simp only [marshal] at hj ⊢
      cases hf : pkg.find n with
      | none => rw [hf] at hj; cases hj
      | some d =>
        rw [hf] at hj
        simp only at hj ⊢
        cases h1 : marshalFields pkg d.fields as with
        | error err => rw [h1] at hj; cases hj
        | ok ms =>
          rw [h1] at hj
          rw [sameDataFields_marshal pkg as _ hl d.fields ms h1]
          exact hj
theorem sameDataList_marshal (pkg : Package) : ∀ (vs ws : List Value), sameDataList vs ws →
    ∀ js, marshalList pkg vs = .ok js → marshalList pkg ws = .ok js
  | [], ws, h, js, hj => by
      cases ws <;> simp only [sameDataList] at h
      exact hj
  | v :: vs, ws, h, js, hj => by
      cases ws with
      | nil => simp only [sameDataList] at h
      | cons w ws =>
        simp only [sameDataList] at h
        simp only [marshalList] at hj ⊢
        cases h1 : marshal pkg v with
        | error err => rw [h1] at hj; simp at hj
        | ok j =>
          cases h2 : marshalList pkg vs with
          | error err => rw [h1, h2] at hj; simp at hj
          | ok rest =>
            rw [h1, h2] at hj
            rw [sameData_marshal pkg v w h.1 j h1, sameDataList_marshal pkg vs ws h.2 rest h2]
            exact hj
theorem sameDataFields_marshal (pkg : Package) : ∀ (vs ws : List Value), sameDataList vs ws →
    ∀ (fs : List Field) (ms : List (String × JSON)),
      marshalFields pkg fs vs = .ok ms → marshalFields pkg fs ws = .ok ms
  | [], ws, h, fs, ms, hj => by
      cases ws <;> simp only [sameDataList] at h
      exact hj
  | v :: vs, ws, h, fs, ms, hj => by
      cases ws with
      | nil => simp only [sameDataList] at h
      | cons w ws =>
        simp only [sameDataList] at h
        cases fs with
        | nil => simp [marshalFields] at hj
        | cons f fs =>
          have he := sameData_isEmpty v w h.1
          simp only [marshalFields] at hj ⊢
          rw [← he]
          split
          · rename_i hc
            rw [if_pos hc] at hj
            exact sameDataFields_marshal pkg vs ws h.2 fs ms hj
          · rename_i hc
            rw [if_neg hc] at hj
            cases h1 : marshal pkg v with
            | error err => rw [h1] at hj; simp at hj
            | ok j =>
              cases h2 : marshalFields pkg fs vs with
              | error err => rw [h1, h2] at hj; simp at hj
              | ok rest =>
                rw [h1, h2] at hj
                rw [sameData_marshal pkg v w h.1 j h1,
                  sameDataFields_marshal pkg vs ws h.2 fs rest h2]
                exact hj
end

/-! ## Lemmas on documents kept in an interface -/

theorem storedNumber_marshal (pkg : Package) {m e : Int} {q : JSON}
    (h : storedNumber m e = some q) :
    ∃ f, Float64.ofDecimal m e = some f ∧ marshal pkg (.iface (.float64 f)) = .ok q := by
  simp only [storedNumber] at h
  cases hf : Float64.ofDecimal m e with
  | none => rw [hf] at h; cases h
  | some f =>
    rw [hf] at h
    simp only at h
    refine ⟨f, rfl, ?_⟩
    simp only [marshal]
    cases hd : f.toDecimal with
    | some p =>
      obtain ⟨m', e'⟩ := p
      rw [hd] at h
      simp only [Option.some.injEq] at h
      simp [h]
    | none =>
      rw [hd] at h
      simp only at h ⊢
      split_ifs at h ⊢ with hz
      simp only [Option.some.injEq] at h
      simp [h]

theorem keysSorted_storedMembers :
    ∀ (ms acc res : List (String × JSON)), keysSorted acc = true →
      JSON.storedMembers ms acc = some res → keysSorted res = true
  | [], acc, res, h, hr => by
      simp only [JSON.storedMembers, Option.some.injEq] at hr
      subst hr
      exact h
  | (k, x) :: ms, acc, res, h, hr => by
      rw [JSON.storedMembers] at hr
      cases hx : JSON.stored x with
      | none => rw [hx] at hr; cases hr
      | some y =>
        rw [hx] at hr
        exact keysSorted_storedMembers ms _ res (keysSorted_insertEntry k _ acc h) hr

mutual
/-- Decoding a document into an `interface{}` and serialising the result gives the document
that `JSON.stored` describes. -/
theorem iface_stored (pkg : Package) : ∀ (x q : JSON), x.stored = some q →
    ∃ v, decodeIface x = .ok v ∧ marshal pkg v = .ok q
  | .null, q, h => by
      simp only [JSON.stored, Option.some.injEq] at h
      subst h
      exact ⟨.nil, by simp [decodeIface], by simp [marshal]⟩
  | .negZero, q, h => by
      simp only [JSON.stored, Option.some.injEq] at h
      subst h
      exact ⟨.iface (.float64 .negZero), by simp [decodeIface],
        by simp [marshal, Float64.toDecimal]⟩
  | .bool b, q, h => by
      simp only [JSON.stored, Option.some.injEq] at h
      subst h
      exact ⟨.iface (.bool b), by simp [decodeIface], by simp [marshal]⟩
  | .str s, q, h => by
      simp only [JSON.stored, Option.some.injEq] at h
      subst h
      exact ⟨.iface (.string s), by simp [decodeIface], by simp [marshal]⟩
  | .num m e, q, h => by
      simp only [JSON.stored] at h
      obtain ⟨f, h1, h2⟩ := storedNumber_marshal pkg h
      exact ⟨.iface (.float64 f), by simp [decodeIface, h1], h2⟩
  | .arr xs, q, h => by
      simp only [JSON.stored] at h
      cases hl : JSON.storedList xs with
      | none => rw [hl] at h; cases h
      | some ys =>
        rw [hl] at h
        simp only [Option.some.injEq] at h
        subst h
        obtain ⟨vs, h1, h2⟩ := iface_storedList pkg xs ys hl
        exact ⟨.iface (.slice vs), by simp [decodeIface, h1], by simp [marshal, h2]⟩
  | .obj ms, q, h => by
      simp only [JSON.stored] at h
      cases hl : JSON.storedMembers ms [] with
      | none => rw [hl] at h; cases h
      | some ns =>
        rw [hl] at h
        simp only [Option.some.injEq] at h
        subst h
        obtain ⟨kvs, h1, h2⟩ := iface_storedMembers pkg ms [] [] ns hl (by simp [marshalEntries])
        refine ⟨.iface (.map kvs), by simp [decodeIface, h1], ?_⟩
        simp only [marshal, h2]
        rw [sortMembers_sorted _ (keysSorted_storedMembers ms [] ns (by simp [keysSorted]) hl)]
theorem iface_storedList (pkg : Package) : ∀ (xs ys : List JSON),
    JSON.storedList xs = some ys →
    ∃ vs, decodeIfaceList xs = .ok vs ∧ marshalList pkg vs = .ok ys
  | [], ys, h => by
      simp only [JSON.storedList, Option.some.injEq] at h
      subst h
      exact ⟨[], by simp [decodeIfaceList], by simp [marshalList]⟩
  | x :: xs, ys, h => by
      rw [JSON.storedList] at h
      cases hx : JSON.stored x with
      | none => rw [hx] at h; simp at h
      | some y =>
        cases hl : JSON.storedList xs with
        | none => rw [hx, hl] at h; simp at h
        | some rest =>
          rw [hx, hl] at h
          simp only [Option.some.injEq] at h
          subst h
          obtain ⟨v, h1, h2⟩ := iface_stored pkg x y hx
          obtain ⟨vs, h3, h4⟩ := iface_storedList pkg xs rest hl
          exact ⟨v :: vs, by simp [decodeIfaceList, h1, h3], by simp [marshalList, h2, h4]⟩
theorem iface_storedMembers (pkg : Package) :
    ∀ (ms : List (String × JSON)) (acc : List (String × Value))
      (accJ res : List (String × JSON)),
      JSON.storedMembers ms accJ = some res → marshalEntries pkg acc = .ok accJ →
      ∃ kvs, decodeIfaceMembers ms acc = .ok kvs ∧ marshalEntries pkg kvs = .ok res
  | [], acc, accJ, res, h, hacc => by
      simp only [JSON.storedMembers, Option.some.injEq] at h
      subst h
      exact ⟨acc, by simp [decodeIfaceMembers], hacc⟩
  | (k, x) :: ms, acc, accJ, res, h, hacc => by
      rw [JSON.storedMembers] at h
      cases hx : JSON.stored x with
      | none => rw [hx] at h; cases h
      | some y =>
        rw [hx] at h
        obtain ⟨v, h1, h2⟩ := iface_stored pkg x y hx
        obtain ⟨kvs, h3, h4⟩ := iface_storedMembers pkg ms (insertEntry k v acc)
          (insertEntry k y accJ) res h (marshalEntries_insert pkg k v _ h2 acc accJ hacc)
        exact ⟨kvs, by simp [decodeIfaceMembers, h1, h3], h4⟩
end

mutual
/-- A document with a number beyond the float64 range is not decoded into an
`interface{}`. -/
theorem iface_range : ∀ (x : JSON), x.stored = none → decodeIface x = .error .typeError
  | .null, h => by simp [JSON.stored] at h
  | .negZero, h => by simp [JSON.stored] at h
  | .bool b, h => by simp [JSON.stored] at h
  | .str s, h => by simp [JSON.stored] at h
  | .num m e, h => by
      simp only [JSON.stored, storedNumber] at h
      cases hf : Float64.ofDecimal m e with
      | none => simp [decodeIface, hf]
      | some f =>
        rw [hf] at h
        have hv := ofDecimal_valid hf
        cases f with
        | finite a b => simp [Float64.toDecimal] at h
        | negZero => simp [Float64.toDecimal] at h
        | nan => simp [Float64.isFinite] at hv
        | inf s => simp [Float64.isFinite] at hv
  | .arr xs, h => by
      simp only [JSON.stored] at h
      cases hl : JSON.storedList xs with
      | some ys => rw [hl] at h; cases h
      | none => simp [decodeIface, iface_rangeList xs hl]
  | .obj ms, h => by
      simp only [JSON.stored] at h
      cases hl : JSON.storedMembers ms [] with
      | some ns => rw [hl] at h; cases h
      | none => simp [decodeIface, iface_rangeMembers ms [] [] hl]
theorem iface_rangeList : ∀ (xs : List JSON), JSON.storedList xs = none →
    decodeIfaceList xs = .error .typeError
  | [], h => by simp [JSON.storedList] at h
  | x :: xs, h => by
      rw [JSON.storedList] at h
      cases hx : JSON.stored x with
      | none => simp [decodeIfaceList, iface_range x hx]
      | some y =>
        cases hl : JSON.storedList xs with
        | some rest => rw [hx, hl] at h; simp at h
        | none =>
          obtain ⟨v, h1, -⟩ := iface_stored Protocol.package x y hx
          simp [decodeIfaceList, h1, iface_rangeList xs hl]
theorem iface_rangeMembers :
    ∀ (ms : List (String × JSON)) (acc : List (String × Value)) (accJ : List (String × JSON)),
      JSON.storedMembers ms accJ = none → decodeIfaceMembers ms acc = .error .typeError
  | [], acc, accJ, h => by simp [JSON.storedMembers] at h
  | (k, x) :: ms, acc, accJ, h => by
      rw [JSON.storedMembers] at h
      cases hx : JSON.stored x with
      | none => simp [decodeIfaceMembers, iface_range x hx]
      | some y =>
        rw [hx] at h
        obtain ⟨v, h1, -⟩ := iface_stored Protocol.package x y hx
        have := iface_rangeMembers ms (insertEntry k v acc) (insertEntry k y accJ) h
        simp [decodeIfaceMembers, h1, this]
end

theorem sameValueMembers_insertEntry (k : String) (y x : JSON) (h : y.sameValue x = true) :
    ∀ (acc acc' : List (String × JSON)), JSON.sameValueMembers acc acc' = true →
      JSON.sameValueMembers (insertEntry k y acc) (insertEntry k x acc') = true
  | [], [], _ => by simp [insertEntry, JSON.sameValueMembers, h]
  | [], _ :: _, hs => by simp [JSON.sameValueMembers] at hs
  | _ :: _, [], hs => by simp [JSON.sameValueMembers] at hs
  | (k1, a1) :: rest, (k2, a2) :: rest', hs => by
      simp only [JSON.sameValueMembers, Bool.and_eq_true, beq_iff_eq] at hs
      obtain ⟨⟨hk, ha⟩, hr⟩ := hs
      subst hk
      simp only [insertEntry]
      split
      · simp [JSON.sameValueMembers, h, hr]
      · split
        · simp [JSON.sameValueMembers, h, ha, hr]
        · simp only [JSON.sameValueMembers, Bool.and_eq_true, beq_iff_eq]
          exact ⟨⟨trivial, ha⟩, sameValueMembers_insertEntry k y x h rest rest' hr⟩

mutual
/-- A document all of whose numbers survive being kept in a float64 comes back from an
`interface{}` equal, as a JSON value, to its normal form. -/
theorem stored_sameValue : ∀ (x : JSON), x.keepsNumbers = true →
    ∃ q, x.stored = some q ∧ q.sameValue x.canon = true
  | .null, _ => ⟨.null, rfl, rfl⟩
  | .negZero, _ => ⟨.negZero, rfl, rfl⟩
  | .bool b, _ => ⟨.bool b, rfl, by simp [JSON.canon, JSON.sameValue]⟩
  | .str s, _ => ⟨.str s, rfl, by simp [JSON.canon, JSON.sameValue]⟩
  | .num m e, h => by
      simp only [JSON.keepsNumbers] at h
      cases hs : storedNumber m e with
      | none => rw [hs] at h; cases h
      | some y =>
        rw [hs] at h
        exact ⟨y, by simp [JSON.stored, hs], by simpa [JSON.canon] using h⟩
  | .arr xs, h => by
      simp only [JSON.keepsNumbers] at h
      obtain ⟨ys, h1, h2⟩ := stored_sameValueList xs h
      exact ⟨.arr ys, by simp [JSON.stored, h1], by simpa [JSON.canon, JSON.sameValue] using h2⟩
  | .obj ms, h => by
      simp only [JSON.keepsNumbers] at h
      obtain ⟨ns, h1, h2⟩ := stored_sameValueMembers ms [] [] h rfl
      exact ⟨.obj ns, by simp [JSON.stored, h1], by simpa [JSON.canon, JSON.sameValue] using h2⟩
theorem stored_sameValueList : ∀ (xs : List JSON), JSON.keepsNumbersList xs = true →
    ∃ ys, JSON.storedList xs = some ys ∧ JSON.sameValueList ys (JSON.canonList xs) = true
  | [], _ => ⟨[], rfl, rfl⟩
  | x :: xs, h => by
      simp only [JSON.keepsNumbersList, Bool.and_eq_true] at h
      obtain ⟨y, h1, h2⟩ := stored_sameValue x h.1
      obtain ⟨ys, h3, h4⟩ := stored_sameValueList xs h.2
      exact ⟨y :: ys, by simp [JSON.storedList, h1, h3],
        by simp [JSON.canonList, JSON.sameValueList, h2, h4]⟩
theorem stored_sameValueMembers :
    ∀ (ms acc acc' : List (String × JSON)), JSON.keepsNumbersMembers ms = true →
      JSON.sameValueMembers acc acc' = true →
      ∃ res, JSON.storedMembers ms acc = some res
        ∧ JSON.sameValueMembers res (JSON.canonMembers ms acc') = true
  | [], acc, acc', _, ha => ⟨acc, rfl, by simpa [JSON.canonMembers] using ha⟩
  | (k, x) :: ms, acc, acc', h, ha => by
      simp only [JSON.keepsNumbersMembers, Bool.and_eq_true] at h
      obtain ⟨y, h1, h2⟩ := stored_sameValue x h.1
      obtain ⟨res, h3, h4⟩ := stored_sameValueMembers ms (insertEntry k y acc)
        (insertEntry k x.canon acc') h.2 (sameValueMembers_insertEntry k y x.canon h2 acc acc' ha)
      exact ⟨res, by simp [JSON.storedMembers, h1, h3], by simpa [JSON.canonMembers] using h4⟩
end

mutual
/-- Integers of magnitude at most `2 ^ 53` survive being kept in a float64. -/
theorem exactNumbers_keeps : ∀ (x : JSON), x.exactNumbers = true → x.keepsNumbers = true
  | .null, _ => rfl
  | .negZero, _ => rfl
  | .bool _, _ => rfl
  | .str _, _ => rfl
  | .num m e, h => by
      simp only [JSON.exactNumbers, Bool.and_eq_true, beq_iff_eq, decide_eq_true_eq] at h
      obtain ⟨he, hm⟩ := h
      subst he
      obtain ⟨f, h1, h2, -, -⟩ := toDecimal_ofInt hm
      simp [JSON.keepsNumbers, storedNumber, h1, h2, JSON.sameValue, sameNumber]
  | .arr xs, h => by
      simp only [JSON.exactNumbers] at h
      simpa [JSON.keepsNumbers] using exactNumbers_keepsList xs h
  | .obj ms, h => by
      simp only [JSON.exactNumbers] at h
      simpa [JSON.keepsNumbers] using exactNumbers_keepsMembers ms h
theorem exactNumbers_keepsList : ∀ (xs : List JSON), JSON.exactNumbersList xs = true →
    JSON.keepsNumbersList xs = true
  | [], _ => rfl
  | x :: xs, h => by
      simp only [JSON.exactNumbersList, Bool.and_eq_true] at h
      simp [JSON.keepsNumbersList, exactNumbers_keeps x h.1, exactNumbers_keepsList xs h.2]
theorem exactNumbers_keepsMembers : ∀ (ms : List (String × JSON)),
    JSON.exactNumbersMembers ms = true → JSON.keepsNumbersMembers ms = true
  | [], _ => rfl
  | (k, x) :: ms, h => by
      simp only [JSON.exactNumbersMembers, Bool.and_eq_true] at h
      simp [JSON.keepsNumbersMembers, exactNumbers_keeps x h.1, exactNumbers_keepsMembers ms h.2]
end

/-- A member that fails to decode makes the decoding of the fields fail. -/
theorem decodeFields_cons_error (pkg : Package) (fields : List Field) (k : String) (x : JSON)
    (ms : List (String × JSON)) (cur : List Value) (i : Nat) (f : Field) (c : Value)
    (err : UnmarshalError)
    (h1 : findField fields k = some i) (h2 : fields.get? i = some f) (h3 : cur.get? i = some c)
    (h4 : decode pkg f.type x c = .error err) :
    decodeFields pkg fields ((k, x) :: ms) cur = .error err := by
  simp only [decodeFields, h1, h2, h3, h4]

/-- Depth of an object to which a command and a payload are added. -/
theorem depth_obj_payload (ms : List (String × JSON)) (k1 k2 c : String) (p : JSON) :
    (JSON.obj (ms ++ [(k1, .str c), (k2, p)])).depth
      = max (JSON.obj ms).depth (p.depth + 1) := by
  simp only [JSON.depth, depthMembers_append, JSON.depthMembers]
  omega

/-- Parsing a message to which a name and a payload are added at the end: the name is
stored in the string field, the payload is decoded into the `interface{}` field, and the
other fields are as without them. -/
theorem payload_decode (pkg : Package) (d : StructDecl) (hfind : pkg.find d.name = some d)
    (f0 f1 : Field) (h0 : d.fields.get? 0 = some f0) (h1 : d.fields.get? 1 = some f1)
    (t0 : f0.type = .iface) (t1 : f1.type = .string)
    (hk0 : findField d.fields f0.tag = some 0) (hk1 : findField d.fields f1.tag = some 1)
    (ms : List (String × JSON)) (vs : List Value) (c : String) (p : JSON)
    (h : decodeDocument pkg d.name (.obj ms) = .ok (.struct d.name vs)) :
    decodeDocument pkg d.name (.obj (ms ++ [(f1.tag, .str c), (f0.tag, p)]))
      = match decodeIface p with
        | .ok a => .ok (.struct d.name ((vs.set 1 (.string c)).set 0 a))
        | .error err => .error err := by
  rw [decodeDocument_obj _ _ hfind] at h ⊢
  rw [decodeFields_append]
  cases hd : decodeFields pkg d.fields ms (d.fields.map (fun f => zeroValue f.type)) with
  | error err => rw [hd] at h; cases h
  | ok mid =>
    rw [hd] at h
    simp only [Except.ok.injEq, Value.struct.injEq, true_and] at h
    subst h
    have hlen := decodeFields_length _ _ _ _ _ hd
    simp only [List.length_map] at hlen
    have hl1 : 1 < d.fields.length := by
      rw [List.get?_eq_getElem?] at h1
      exact (List.getElem?_eq_some_iff.mp h1).1
    obtain ⟨c1, hc1⟩ : ∃ c1, mid.get? 1 = some c1 :=
      ⟨mid.get ⟨1, by omega⟩, by simp [List.get?_eq_getElem?]⟩
    obtain ⟨c0, hc0⟩ : ∃ c0, (mid.set 1 (.string c)).get? 0 = some c0 :=
      ⟨(mid.set 1 (.string c)).get ⟨0, by simp; omega⟩, by simp [List.get?_eq_getElem?]⟩
    have d1 : decode pkg f1.type (.str c) c1 = .ok (.string c) := by
      rw [t1]
      simp [decode]
    dsimp only
    rw [decodeFields_cons_at pkg d.fields f1.tag (.str c) [(f0.tag, p)] mid 1 f1 c1 (.string c)
      hk1 h1 hc1 d1]
    cases hp : decodeIface p with
    | ok a =>
      have d0 : decode pkg f0.type p c0 = .ok a := by
        rw [t0, decode_iface]
        exact hp
      rw [decodeFields_cons_at pkg d.fields f0.tag p [] _ 0 f0 c0 a hk0 h0 hc0 d0]
      simp only [decodeFields]
    | error err =>
      have d0 : decode pkg f0.type p c0 = .error err := by
        rw [t0, decode_iface]
        exact hp
      rw [decodeFields_cons_error pkg d.fields f0.tag p [] _ 0 f0 c0 err hk0 h0 hc0 d0]

/-! ## C1: round trip of messages -/

/-- C1, counterexample.  The generic `Request` keeps its arguments in an `interface{}`.  A
`Request` whose `Arguments` holds a pointer to a `ContinueArguments` with `ThreadId = 3` is
a value of the type; it serialises with `"arguments": {"threadId": 3}`, and parsing that
document as a `Request` yields arguments that hold a `map[string]interface{}`, a different
value.  A `Request` whose `Command` is the single byte `0xFF`, which is not valid UTF-8,
serialises with `"command": "\uFFFD"` and is parsed back with that `Command`. -/
theorem typed_arguments_not_restored :
    IsStruct Protocol.package Protocol.Request
      (.struct "Request"
        [.iface (.ptr (.struct "ContinueArguments" [.float64 (.finite 3 0)])),
         .string "continue", .float64 (.finite 1 0), .string "request"]) = true ∧
    marshal Protocol.package
      (.struct "Request"
        [.iface (.ptr (.struct "ContinueArguments" [.float64 (.finite 3 0)])),
         .string "continue", .float64 (.finite 1 0), .string "request"])
      = .ok (.obj [("arguments", .obj [("threadId", .num 3 0)]), ("command", .str "continue"),
          ("seq", .num 1 0), ("type", .str "request")]) ∧
    unmarshal Protocol.package "Request"
      (.obj [("arguments", .obj [("threadId", .num 3 0)]), ("command", .str "continue"),
          ("seq", .num 1 0), ("type", .str "request")])
      = .ok (.struct "Request"
        [.iface (.map [("threadId", .iface (.float64 (.finite 3 0)))]),
         .string "continue", .float64 (.finite 1 0), .string "request"]) ∧
    Value.struct "Request"
        [.iface (.map [("threadId", .iface (.float64 (.finite 3 0)))]),
         .string "continue", .float64 (.finite 1 0), .string "request"]
      ≠ .struct "Request"
        [.iface (.ptr (.struct "ContinueArguments" [.float64 (.finite 3 0)])),
         .string "continue", .float64 (.finite 1 0), .string "request"] ∧
    validUTF8 [0xFF] = false ∧
    marshal Protocol.package
      (.struct "Request" [.nil, .bytes [0xFF], .float64 (.finite 1 0), .string "request"])
      = .ok (.obj [("command", .str "\uFFFD"), ("seq", .num 1 0), ("type", .str "request")]) ∧
    unmarshal Protocol.package "Request"
      (.obj [("command", .str "\uFFFD"), ("seq", .num 1 0), ("type", .str "request")])
      = .ok (.struct "Request"
        [.nil, .string "\uFFFD", .float64 (.finite 1 0), .string "request"]) ∧
    Value.struct "Request" [.nil, .string "\uFFFD", .float64 (.finite 1 0), .string "request"]
      ≠ .struct "Request" [.nil, .bytes [0xFF], .float64 (.finite 1 0), .string "request"] := by
  decide

/-- C1, amended.  For `Request`, `Response`, `Event` and every typed `*Request`,
`*Response` and `*Event` struct of `protocol/dap.go`, and every message `m` of that type in
which every string is valid UTF-8, no pointer leads back to a struct that holds it, every
number is finite and not negative zero, every slice and map is nil or not empty, and every
`interface{}` is nil or holds a value of the form produced by parsing JSON (these are the
conditions of `RepStruct`): `m` serialises; when the document nests at most
`maxNestingDepth` deep, parsing it as the same type yields `m`, and when it nests deeper,
parsing refuses it. -/
theorem message_roundtrip (d : StructDecl) (hd : d ∈ Protocol.package)
    (_hm : hasSuffix d.name "Request" = true ∨ hasSuffix d.name "Response" = true
      ∨ hasSuffix d.name "Event" = true)
    (m : Value) (hr : RepStruct Protocol.package d m = true) :
    ∃ j, marshal Protocol.package m = .ok j ∧
      (j.depth ≤ maxNestingDepth → unmarshal Protocol.package d.name j = .ok m) ∧
      (maxNestingDepth < j.depth →
        unmarshal Protocol.package d.name j = .error .maxDepth) := by
  obtain ⟨j, h1, h2⟩ := struct_roundtrip Protocol.package protocol_wellFormed d hd m hr
  exact ⟨j, h1, fun h => by rw [unmarshal_of_depth h, h2], fun h => unmarshal_too_deep h⟩

/-- Instance of `message_roundtrip` at a `SetBreakpointsRequest` with one breakpoint. -/
theorem message_roundtrip_witness :
    marshal Protocol.package
        (.struct "SetBreakpointsRequest"
          [.ptr (.struct "SetBreakpointsArguments"
            [.slice [.ptr (.struct "SourceBreakpoint" [.float64 (.finite 0 0), .string "",
               .string "", .float64 (.finite 5 1), .string ""])], .nil, .nil, .bool true]),
           .string "setBreakpoints", .float64 (.finite 1 0), .string "request"])
      = .ok (.obj [("arguments", .obj [("breakpoints", .arr [.obj [("line", .num 10 0)]]),
            ("sourceModified", .bool true)]),
          ("command", .str "setBreakpoints"), ("seq", .num 1 0), ("type", .str "request")]) ∧
    unmarshal Protocol.package "SetBreakpointsRequest"
        (.obj [("arguments", .obj [("breakpoints", .arr [.obj [("line", .num 10 0)]]),
            ("sourceModified", .bool true)]),
          ("command", .str "setBreakpoints"), ("seq", .num 1 0), ("type", .str "request")])
      = .ok (.struct "SetBreakpointsRequest"
          [.ptr (.struct "SetBreakpointsArguments"
            [.slice [.ptr (.struct "SourceBreakpoint" [.float64 (.finite 0 0), .string "",
               .string "", .float64 (.finite 5 1), .string ""])], .nil, .nil, .bool true]),
           .string "setBreakpoints", .float64 (.finite 1 0), .string "request"]) := by
  obtain ⟨j, hj, h1, -⟩ := message_roundtrip Protocol.SetBreakpointsRequest (by decide)
    (by decide)
    (.struct "SetBreakpointsRequest"
      [.ptr (.struct "SetBreakpointsArguments"
        [.slice [.ptr (.struct "SourceBreakpoint" [.float64 (.finite 0 0), .string "",
           .string "", .float64 (.finite 5 1), .string ""])], .nil, .nil, .bool true]),
       .string "setBreakpoints", .float64 (.finite 1 0), .string "request"]) (by decide)
  have hJ : marshal Protocol.package
        (.struct "SetBreakpointsRequest"
          [.ptr (.struct "SetBreakpointsArguments"
            [.slice [.ptr (.struct "SourceBreakpoint" [.float64 (.finite 0 0), .string "",
               .string "", .float64 (.finite 5 1), .string ""])], .nil, .nil, .bool true]),
           .string "setBreakpoints", .float64 (.finite 1 0), .string "request"])
      = .ok (.obj [("arguments", .obj [("breakpoints", .arr [.obj [("line", .num 10 0)]]),
            ("sourceModified", .bool true)]),
          ("command", .str "setBreakpoints"), ("seq", .num 1 0), ("type", .str "request")]) := by
    decide
  rw [hJ] at hj
  cases hj
  exact ⟨hJ, h1 (by decide)⟩

/-! ## C2: the members of a serialised response -/

/-- C2, counterexample.  A failed response (`Success = false`) to request 1 serialises
without any `success` member. -/
theorem response_success_dropped :
    IsStruct Protocol.package Protocol.Response
      (.struct "Response" [.nil, .string "next", .string "cancelled", .float64 (.finite 1 0),
        .float64 (.finite 1 1), .bool false, .string "response"]) = true ∧
    marshal Protocol.package
      (.struct "Response" [.nil, .string "next", .string "cancelled", .float64 (.finite 1 0),
        .float64 (.finite 1 1), .bool false, .string "response"])
      = .ok (.obj [("command", .str "next"), ("message", .str "cancelled"),
          ("request_seq", .num 1 0), ("seq", .num 2 0), ("type", .str "response")]) ∧
    JSON.member (.obj [("command", .str "next"), ("message", .str "cancelled"),
          ("request_seq", .num 1 0), ("seq", .num 2 0), ("type", .str "response")]) "success"
      = none := by
  decide

/-- C2, amended.  For `Response` and every typed `*Response` struct, whenever a value
serialises, the object has the member `success` exactly when `Success` is true (and then
its value is `true`), the member `command` exactly when `Command` is not empty (and then
its value is that string), and the member `request_seq` exactly when `RequestSeq` is not
equal to zero (neither zero nor negative zero). -/
theorem response_members (d : StructDecl) (hd : d ∈ Protocol.package)
    (hs : hasSuffix d.name "Response" = true) (v : Value) (j : JSON)
    (hv : IsStruct Protocol.package d v = true) (hj : marshal Protocol.package v = .ok j) :
    ∃ (success : Bool) (command : String) (requestSeq : Float64),
      Value.field Protocol.package v "Success" = some (.bool success) ∧
      Value.field Protocol.package v "Command" = some (.string command) ∧
      Value.field Protocol.package v "RequestSeq" = some (.float64 requestSeq) ∧
      JSON.member j "success" = (if success = true then some (.bool true) else none) ∧
      JSON.member j "command" = (if command = "" then none else some (.str command)) ∧
      ((JSON.member j "request_seq").isSome = true ↔ requestSeq.eq Float64.zero = false) := by
  obtain ⟨t, hf⟩ := response_fields d hd hs
  have hfind := wellFormed_find protocol_wellFormed hd
  have hnd := wellFormed_nodup protocol_wellFormed hd
  cases v with
  | struct n vs =>
    simp only [IsStruct, Bool.and_eq_true, beq_iff_eq] at hv
    obtain ⟨hn, hty⟩ := hv
    subst hn
    rw [hf] at hty
    simp only [Protocol.Response, List.tail] at hty hf
    obtain ⟨vb, vs, rfl, -, hty⟩ := hasTypeFields_cons hty
    obtain ⟨vc, vs, rfl, hc, hty⟩ := hasTypeFields_cons hty
    obtain ⟨vm, vs, rfl, hm, hty⟩ := hasTypeFields_cons hty
    obtain ⟨vr, vs, rfl, hr, hty⟩ := hasTypeFields_cons hty
    obtain ⟨vq, vs, rfl, hq, hty⟩ := hasTypeFields_cons hty
    obtain ⟨vu, vs, rfl, hu, hty⟩ := hasTypeFields_cons hty
    obtain ⟨vt, vs, rfl, ht, hty⟩ := hasTypeFields_cons hty
    obtain rfl := hasTypeFields_nil hty
    obtain ⟨c, rfl⟩ := hasType_string hc
    obtain ⟨rs, rfl, -⟩ := hasType_float64 hr
    obtain ⟨b, rfl⟩ := hasType_bool hu
    rw [marshal, hfind] at hj
    simp only at hj
    split at hj
    · rename_i ms hms
      cases hj
      have look := fun i f v => marshalFields_lookup Protocol.package d.fields _ ms i f v hnd hms
      rw [hf] at look
      refine ⟨b, c, rs, ?_, ?_, ?_, ?_, ?_, ?_⟩
      · simp [Value.field, hfind, StructDecl.get, hf, indexWhere]
      · simp [Value.field, hfind, StructDecl.get, hf, indexWhere]
      · simp [Value.field, hfind, StructDecl.get, hf, indexWhere]
      · have := look 5 ⟨"Success", .bool, "success", true⟩ (.bool b) rfl rfl
        simp only [JSON.member]
        cases b
        · simpa [isEmptyValue] using this
        · simpa [isEmptyValue, marshal] using this
      · have := look 1 ⟨"Command", .string, "command", true⟩ (.string c) rfl rfl
        simp only [JSON.member]
        by_cases hc : c = ""
        · simpa [isEmptyValue, hc] using this
        · have hd' : c.data ≠ [] := fun e => hc (by cases c; simp_all)
          simpa [isEmptyValue, hc, hd', marshal] using this
      · have := look 3 ⟨"RequestSeq", .float64, "request_seq", true⟩ (.float64 rs) rfl rfl
        simp only [JSON.member]
        cases hz : rs.eq Float64.zero with
        | true =>
          simp only [isEmptyValue, hz, Bool.and_self, if_true] at this
          simp [this]
        | false =>
          simp only [isEmptyValue, hz, Bool.and_false, Bool.false_eq_true, if_false] at this
          obtain ⟨j', -, hj'⟩ := this
          simp [hj']
    · cases hj
  | _ => simp [IsStruct] at hv

/-- Instance of `response_members` at a successful `Response`. -/
theorem response_members_witness :
    ∃ (success : Bool) (command : String) (requestSeq : Float64),
      Value.field Protocol.package
        (.struct "Response" [.nil, .string "next", .string "", .float64 (.finite 1 0),
          .float64 (.finite 1 1), .bool true, .string "response"]) "Success"
        = some (.bool success) ∧
      Value.field Protocol.package
        (.struct "Response" [.nil, .string "next", .string "", .float64 (.finite 1 0),
          .float64 (.finite 1 1), .bool true, .string "response"]) "Command"
        = some (.string command) ∧
      Value.field Protocol.package
        (.struct "Response" [.nil, .string "next", .string "", .float64 (.finite 1 0),
          .float64 (.finite 1 1), .bool true, .string "response"]) "RequestSeq"
        = some (.float64 requestSeq) ∧
      JSON.member (.obj [("command", .str "next"), ("request_seq", .num 1 0), ("seq", .num 2 0),
          ("success", .bool true), ("type", .str "response")]) "success"
        = (if success = true then some (.bool true) else none) ∧
      JSON.member (.obj [("command", .str "next"), ("request_seq", .num 1 0), ("seq", .num 2 0),
          ("success", .bool true), ("type", .str "response")]) "command"
        = (if command = "" then none else some (.str command)) ∧
      ((JSON.member (.obj [("command", .str "next"), ("request_seq", .num 1 0),
          ("seq", .num 2 0), ("success", .bool true), ("type", .str "response")])
          "request_seq").isSome = true ↔ requestSeq.eq Float64.zero = false) :=
  response_members Protocol.Response (by decide) (by decide) _ _ (by decide) (by decide)

/-! ## C3: the body of an error response -/

/-- C3, the code at the failing input.  `ErrorResponse.Body` is a `*Body`, and `Body` has the
two members `allThreadsContinued` and `threadId` only.  Parsing a failed response whose body
carries an `error` message yields an empty `Body`, and serialising it again yields the body
`{}`: the message is lost. -/
theorem errorResponse_drops_error :
    Protocol.ErrorResponse.fields.head? = some ⟨"Body", .ptr "Body", "body", true⟩ ∧
    Protocol.Body.tags = ["allThreadsContinued", "threadId"] ∧
    unmarshal Protocol.package "ErrorResponse"
      (.obj [("seq", .num 2 0), ("type", .str "response"), ("request_seq", .num 1 0),
        ("success", .bool false), ("command", .str "launch"), ("message", .str "failed"),
        ("body", .obj [("error", .obj [("id", .num 7 0), ("format", .str "cannot launch"),
          ("showUser", .bool true)])])])
      = .ok (.struct "ErrorResponse" [.ptr (.struct "Body" [.bool false, .float64 (.finite 0 0)]),
          .string "launch", .string "failed", .float64 (.finite 1 0), .float64 (.finite 1 1),
          .bool false, .string "response"]) ∧
    marshal Protocol.package
      (.struct "ErrorResponse" [.ptr (.struct "Body" [.bool false, .float64 (.finite 0 0)]),
          .string "launch", .string "failed", .float64 (.finite 1 0), .float64 (.finite 1 1),
          .bool false, .string "response"])
      = .ok (.obj [("body", .obj []), ("command", .str "launch"), ("message", .str "failed"),
          ("request_seq", .num 1 0), ("seq", .num 2 0), ("type", .str "response")]) := by
  decide

/-! ## C4: the body of typed events and responses -/

/-- C4, the code at the failing input.  `ExitedEvent`, `SetBreakpointsResponse` and
`ContinuedEvent` all declare their body as the same `*Body`, whose members are
`allThreadsContinued` and `threadId`.  Parsing an `exited` event with `exitCode` 3 and a
`setBreakpoints` response with one breakpoint, and serialising the results, yields the body
`{}` both times. -/
theorem typed_bodies_drop_members :
    (Protocol.ExitedEvent.fields.head?.map (fun f => f.type) = some (.ptr "Body") ∧
     Protocol.SetBreakpointsResponse.fields.head?.map (fun f => f.type) = some (.ptr "Body") ∧
     Protocol.ContinuedEvent.fields.head?.map (fun f => f.type) = some (.ptr "Body") ∧
     Protocol.Body.tags = ["allThreadsContinued", "threadId"]) ∧
    (unmarshal Protocol.package "ExitedEvent"
      (.obj [("seq", .num 5 0), ("type", .str "event"), ("event", .str "exited"),
        ("body", .obj [("exitCode", .num 3 0)])])
      = .ok (.struct "ExitedEvent" [.ptr (.struct "Body" [.bool false, .float64 (.finite 0 0)]),
          .string "exited", .float64 (.finite 5 0), .string "event"]) ∧
     marshal Protocol.package
      (.struct "ExitedEvent" [.ptr (.struct "Body" [.bool false, .float64 (.finite 0 0)]),
          .string "exited", .float64 (.finite 5 0), .string "event"])
      = .ok (.obj [("body", .obj []), ("event", .str "exited"), ("seq", .num 5 0),
          ("type", .str "event")])) ∧
    (unmarshal Protocol.package "SetBreakpointsResponse"
      (.obj [("seq", .num 3 0), ("type", .str "response"), ("request_seq", .num 1 0),
        ("success", .bool true), ("command", .str "setBreakpoints"),
        ("body", .obj [("breakpoints", .arr [.obj [("verified", .bool true),
          ("line", .num 10 0)]])])])
      = .ok (.struct "SetBreakpointsResponse"
          [.ptr (.struct "Body" [.bool false, .float64 (.finite 0 0)]),
           .string "setBreakpoints", .string "", .float64 (.finite 1 0), .float64 (.finite 3 0),
           .bool true, .string "response"]) ∧
     marshal Protocol.package
      (.struct "SetBreakpointsResponse"
          [.ptr (.struct "Body" [.bool false, .float64 (.finite 0 0)]),
           .string "setBreakpoints", .string "", .float64 (.finite 1 0), .float64 (.finite 3 0),
           .bool true, .string "response"])
      = .ok (.obj [("body", .obj []), ("command", .str "setBreakpoints"),
          ("request_seq", .num 1 0), ("seq", .num 3 0), ("success", .bool true),
          ("type", .str "response")])) := by
  decide

/-! ## C5: unrecognised commands and events -/

set_option maxRecDepth 100000 in
/-- C5, counterexample.  A request with the unrecognised command `custom` whose payload holds
the integer `9007199254740993` parses, but the number is stored as the float64
`9007199254740992`, and the stored `Arguments` serialises to a payload that is not equal,
as a JSON value, to the original one. -/
theorem unknown_payload_altered :
    unmarshal Protocol.package "Request"
      (.obj [("seq", .num 1 0), ("type", .str "request"), ("command", .str "custom"),
        ("arguments", .obj [("id", .num 9007199254740993 0)])])
      = .ok (.struct "Request" [.iface (.map [("id", .iface (.float64 (.finite 1 53)))]),
          .string "custom", .float64 (.finite 1 0), .string "request"]) ∧
    marshal Protocol.package (.iface (.map [("id", .iface (.float64 (.finite 1 53)))]))
      = .ok (.obj [("id", .num 9007199254740992 0)]) ∧
    JSON.obj [("id", .num 9007199254740992 0)] ≠ JSON.obj [("id", .num 9007199254740993 0)] ∧
    JSON.canon (.obj [("id", .num 9007199254740993 0)])
      = .obj [("id", .num 9007199254740993 0)] ∧
    JSON.sameValue (.obj [("id", .num 9007199254740992 0)])
      (.obj [("id", .num 9007199254740993 0)]) = false := by
  decide

/-- C5, amended.  Command and event names are not checked at all.  Take a member list that
parses as the generic `Request` (resp. `Event`), a string `c` and a payload `p`, and add
`command` (resp. `event`) with value `c` and `arguments` (resp. `body`) with value `p` at
the end.  When every number of `p` is within the float64 range and `p` nests less than
`maxNestingDepth` deep, the result parses, holds `c` in `Command` (resp. `Event`) and the
other fields as before, and the untyped value stored in `Arguments` (resp. `Body`)
serialises to `p.stored`: `p` with the members of every object sorted by name, a repeated
name keeping its last occurrence, and every number written as the shortest literal of the
float64 nearest to it.  When `p` holds a number beyond the float64 range the result does
not parse, nor does it when `p` nests `maxNestingDepth` deep or deeper.  When every number
of `p` denotes the same number as the literal it comes back as, which is so for `0.1`,
`0.5` and every integer of magnitude at most `2 ^ 53`, the serialised value is equal, as a
JSON value, to the normal form of `p`. -/
theorem unknown_names_preserved (ms : List (String × JSON)) (vs : List Value) (c : String)
    (p : JSON) :
    (unmarshal Protocol.package "Request" (.obj ms) = .ok (.struct "Request" vs) →
      (∀ q, p.stored = some q → p.depth < maxNestingDepth →
        ∃ args, unmarshal Protocol.package "Request"
            (.obj (ms ++ [("command", .str c), ("arguments", p)]))
            = .ok (.struct "Request" ((vs.set 1 (.string c)).set 0 args))
          ∧ marshal Protocol.package args = .ok q) ∧
      (p.stored = none → p.depth < maxNestingDepth →
        unmarshal Protocol.package "Request"
            (.obj (ms ++ [("command", .str c), ("arguments", p)])) = .error .typeError) ∧
      (maxNestingDepth ≤ p.depth →
        unmarshal Protocol.package "Request"
            (.obj (ms ++ [("command", .str c), ("arguments", p)])) = .error .maxDepth)) ∧
    (unmarshal Protocol.package "Event" (.obj ms) = .ok (.struct "Event" vs) →
      (∀ q, p.stored = some q → p.depth < maxNestingDepth →
        ∃ body, unmarshal Protocol.package "Event"
            (.obj (ms ++ [("event", .str c), ("body", p)]))
            = .ok (.struct "Event" ((vs.set 1 (.string c)).set 0 body))
          ∧ marshal Protocol.package body = .ok q) ∧
      (p.stored = none → p.depth < maxNestingDepth →
        unmarshal Protocol.package "Event"
            (.obj (ms ++ [("event", .str c), ("body", p)])) = .error .typeError) ∧
      (maxNestingDepth ≤ p.depth →
        unmarshal Protocol.package "Event"
            (.obj (ms ++ [("event", .str c), ("body", p)])) = .error .maxDepth)) ∧
    (p.keepsNumbers = true → ∃ q, p.stored = some q ∧ q.sameValue p.canon = true) ∧
    (p.exactNumbers = true → p.keepsNumbers = true) := by
  have key : ∀ (d : StructDecl) (f0 f1 : Field),
      Protocol.package.find d.name = some d →
      d.fields.get? 0 = some f0 → d.fields.get? 1 = some f1 →
      f0.type = .iface → f1.type = .string →
      findField d.fields f0.tag = some 0 → findField d.fields f1.tag = some 1 →
      unmarshal Protocol.package d.name (.obj ms) = .ok (.struct d.name vs) →
      (∀ q, p.stored = some q → p.depth < maxNestingDepth →
        ∃ a, unmarshal Protocol.package d.name (.obj (ms ++ [(f1.tag, .str c), (f0.tag, p)]))
            = .ok (.struct d.name ((vs.set 1 (.string c)).set 0 a))
          ∧ marshal Protocol.package a = .ok q) ∧
      (p.stored = none → p.depth < maxNestingDepth →
        unmarshal Protocol.package d.name (.obj (ms ++ [(f1.tag, .str c), (f0.tag, p)]))
          = .error .typeError) ∧
      (maxNestingDepth ≤ p.depth →
        unmarshal Protocol.package d.name (.obj (ms ++ [(f1.tag, .str c), (f0.tag, p)]))
          = .error .maxDepth) := by
    intro d f0 f1 hfind h0 h1 t0 t1 hk0 hk1 h
    obtain ⟨hdepth, h⟩ := depth_of_unmarshal h
    have hdec := payload_decode Protocol.package d hfind f0 f1 h0 h1 t0 t1 hk0 hk1 ms vs c p h
    refine ⟨?_, ?_, ?_⟩
    · intro q hq hp
      obtain ⟨a, ha1, ha2⟩ := iface_stored Protocol.package p q hq
      refine ⟨a, ?_, ha2⟩
      rw [unmarshal_of_depth (by rw [depth_obj_payload]; exact Nat.max_le.mpr ⟨hdepth, hp⟩),
        hdec, ha1]
    · intro hn hp
      rw [unmarshal_of_depth (by rw [depth_obj_payload]; exact Nat.max_le.mpr ⟨hdepth, hp⟩),
        hdec, iface_range p hn]
    · intro hp
      exact unmarshal_too_deep (by rw [depth_obj_payload]; omega)
  refine ⟨?_, ?_, stored_sameValue p, exactNumbers_keeps p⟩
  · exact key Protocol.Request ⟨"Arguments", .iface, "arguments", true⟩
      ⟨"Command", .string, "command", true⟩ (by decide) rfl rfl rfl rfl (by decide) (by decide)
  · exact key Protocol.Event ⟨"Body", .iface, "body", true⟩
      ⟨"Event", .string, "event", true⟩ (by decide) rfl rfl rfl rfl (by decide) (by decide)

set_option maxRecDepth 100000 in
/-- Instance of `unknown_names_preserved` at the command `custom` with the payload
`{"b": 0.5, "a": 0.1, "n": 1e2, "a": 0.1}`, which comes back as
`{"a": 0.1, "b": 0.5, "n": 100}`, equal to it as a JSON value. -/
theorem unknown_names_preserved_witness :
    (∃ args, unmarshal Protocol.package "Request"
        (.obj ([("seq", .num 1 0), ("type", .str "request")]
          ++ [("command", .str "custom"),
            ("arguments", .obj [("b", .num 5 (-1)), ("a", .null), ("n", .num 1 2),
              ("a", .num 1 (-1))])]))
        = .ok (.struct "Request"
            (([Value.nil, .string "", .float64 (.finite 1 0), .string "request"].set 1
              (.string "custom")).set 0 args))
      ∧ marshal Protocol.package args
        = .ok (.obj [("a", .num 1 (-1)), ("b", .num 5 (-1)), ("n", .num 100 0)])) ∧
    JSON.keepsNumbers (.obj [("b", .num 5 (-1)), ("a", .null), ("n", .num 1 2),
        ("a", .num 1 (-1))]) = true ∧
    JSON.sameValue (.obj [("a", .num 1 (-1)), ("b", .num 5 (-1)), ("n", .num 100 0)])
      (JSON.canon (.obj [("b", .num 5 (-1)), ("a", .null), ("n", .num 1 2),
        ("a", .num 1 (-1))])) = true :=
  ⟨((unknown_names_preserved [("seq", .num 1 0), ("type", .str "request")]
      [.nil, .string "", .float64 (.finite 1 0), .string "request"] "custom"
      (.obj [("b", .num 5 (-1)), ("a", .null), ("n", .num 1 2), ("a", .num 1 (-1))])).1
        (by decide)).1 _ (by decide) (by decide),
    by decide, by decide⟩

/-! ## C6: the type discriminator -/

/-- C6, counterexample.  A payload whose `type` is none of `request`, `response`, `event`
parses without error, and the unknown type is stored in `Type`. -/
theorem unknown_type_parses :
    unmarshal Protocol.package "ProtocolMessage"
      (.obj [("seq", .num 1 0), ("type", .str "notification")])
      = .ok (.struct "ProtocolMessage" [.float64 (.finite 1 0), .string "notification"]) := by
  decide

/-- C6, amended.  Parsing does not inspect the discriminator.  For every struct of the
catalogue with a string field tagged `type` (`ProtocolMessage`, `Request`, `Response`,
`Event` and all typed variants), every member list that parses, and every string `t`,
whether or not it is `request`, `response` or `event`, the same members followed by the
member `type` with value `t` parse as well, and the result differs only in holding `t` in
the field `Type`.  The only parse errors are those of `UnmarshalError`. -/
theorem parse_stores_any_type (d : StructDecl) (hd : d ∈ Protocol.package) (i : Nat)
    (hi : findField d.fields "type" = some i)
    (hty : (d.fields.get? i).map (fun f => f.type) = some GoType.string)
    (ms : List (String × JSON)) (vs : List Value) (t : String)
    (h : unmarshal Protocol.package d.name (.obj ms) = .ok (.struct d.name vs)) :
    unmarshal Protocol.package d.name (.obj (ms ++ [("type", .str t)]))
      = .ok (.struct d.name (vs.set i (.string t))) := by
  have hfind := wellFormed_find protocol_wellFormed hd
  obtain ⟨hdepth, h⟩ := depth_of_unmarshal h
  rw [unmarshal_of_depth (by rw [depth_obj_snoc ms "type" (.str t) rfl]; exact hdepth)]
  rw [decodeDocument_obj _ d hfind] at h ⊢
  rw [decodeFields_append]
  cases hdec : decodeFields Protocol.package d.fields ms (d.fields.map (fun f => zeroValue f.type)) with
  | error err => rw [hdec] at h; cases h
  | ok mid =>
    rw [hdec] at h
    simp only [Except.ok.injEq, Value.struct.injEq, true_and] at h
    subst h
    have hlen := decodeFields_length _ _ _ _ _ hdec
    simp only [List.length_map] at hlen
    cases hf : d.fields.get? i with
    | none => rw [hf] at hty; simp at hty
    | some f =>
      rw [hf] at hty
      simp only [Option.map_some', Option.some.injEq] at hty
      have hlt : i < d.fields.length := by
        rw [List.get?_eq_getElem?] at hf
        exact (List.getElem?_eq_some_iff.mp hf).1
      obtain ⟨c, hc⟩ : ∃ c, mid.get? i = some c := by
        refine ⟨mid.get ⟨i, by omega⟩, ?_⟩
        simp [List.get?_eq_getElem?]
      obtain ⟨fname, ftype, ftag, fomit⟩ := f
      simp only at hty
      subst hty
      simp only [decodeFields, hi]
      rw [hf, hc]
      simp only [decode, decodeFields]

/-- Instance of `parse_stores_any_type` at `ProtocolMessage` with the type `notification`. -/
theorem parse_stores_any_type_witness :
    unmarshal Protocol.package "ProtocolMessage"
        (.obj ([("seq", .num 1 0)] ++ [("type", .str "notification")]))
      = .ok (.struct "ProtocolMessage"
          ([Value.float64 (.finite 1 0), .string ""].set 1 (.string "notification"))) :=
  parse_stores_any_type Protocol.ProtocolMessage (by decide) 1 (by decide) (by decide)
    [("seq", .num 1 0)] [.float64 (.finite 1 0), .string ""] "notification" (by decide)

/-! ## C7: envelope shape of the catalogue -/

/-- C7, counterexample.  In `adapter/adapter.go` the event types `InitializedEvent` and
`TerminatedEvent`, and the generic `Event` itself, declare the members `event`, `seq` and
`type` and no `body`, whereas `StoppedEvent` of the same file declares `body` as well: the
event types of the catalogue do not all declare the four members `seq`, `type`, `event`,
`body`. -/
theorem adapter_events_without_body :
    (Adapter.InitializedEvent ∈ Adapter.package ∧
      hasSuffix Adapter.InitializedEvent.name "Event" = true ∧
      Adapter.InitializedEvent.tags = ["event", "seq", "type"] ∧
      "body" ∉ Adapter.InitializedEvent.tags) ∧
    (Adapter.TerminatedEvent ∈ Adapter.package ∧
      hasSuffix Adapter.TerminatedEvent.name "Event" = true ∧
      Adapter.TerminatedEvent.tags = ["event", "seq", "type"] ∧
      "body" ∉ Adapter.TerminatedEvent.tags) ∧
    (Adapter.Event ∈ Adapter.package ∧
      Adapter.Event.tags = ["event", "seq", "type"] ∧
      "body" ∉ Adapter.Event.tags) ∧
    (Adapter.StoppedEvent ∈ Adapter.package ∧
      Adapter.StoppedEvent.tags = ["body", "event", "seq", "type"]) := by
  decide

set_option maxRecDepth 100000 in
/-- C7, amended.  In `protocol/dap.go` every struct whose name ends in `Request` declares
exactly the members `arguments`, `command`, `seq`, `type` of the generic `Request`, every
struct whose name ends in `Response` exactly the members `body`, `command`, `message`,
`request_seq`, `seq`, `success`, `type` of `Response`, and every struct whose name ends in
`Event` exactly the members `body`, `event`, `seq`, `type` of `Event`; a variant has the Go
names, tags, options and types of its generic type except for the type of `arguments` or
`body`.  In `adapter/adapter.go` no struct has a name ending in `Request`, and every
struct whose name ends in `Event` declares the fields `event`, `seq`, `type` of the
generic `Event` of that file: `Event`, `InitializedEvent` and `TerminatedEvent` declare
these three only, every other event type declares `body`, a pointer to `Body`, before
them.  No event type of either file declares `request_seq`. -/
theorem envelope_shape :
    (∀ d ∈ Protocol.package,
      (hasSuffix d.name "Request" = true →
        d.tags = ["arguments", "command", "seq", "type"]
          ∧ sameEnvelope Protocol.Request d "arguments" = true) ∧
      (hasSuffix d.name "Response" = true →
        d.tags = ["body", "command", "message", "request_seq", "seq", "success", "type"]
          ∧ sameEnvelope Protocol.Response d "body" = true) ∧
      (hasSuffix d.name "Event" = true →
        d.tags = ["body", "event", "seq", "type"]
          ∧ sameEnvelope Protocol.Event d "body" = true ∧ "request_seq" ∉ d.tags)) ∧
    (∀ d ∈ Adapter.package,
      hasSuffix d.name "Request" = false ∧
      (hasSuffix d.name "Event" = true →
        "request_seq" ∉ d.tags ∧
        ((d.name ∈ ["Event", "InitializedEvent", "TerminatedEvent"] ∧
            d.tags = ["event", "seq", "type"] ∧ d.fields = Adapter.Event.fields) ∨
          (d.name ∉ ["Event", "InitializedEvent", "TerminatedEvent"] ∧
            d.tags = ["body", "event", "seq", "type"] ∧
            d.fields = ⟨"Body", .ptr "Body", "body", true⟩ :: Adapter.Event.fields)))) := by
  decide

/-- Instance of `envelope_shape` at `StoppedEvent` of `protocol/dap.go` and at
`InitializedEvent` and `StoppedEvent` of `adapter/adapter.go`. -/
theorem envelope_shape_witness :
    (Protocol.StoppedEvent ∈ Protocol.package ∧
      hasSuffix Protocol.StoppedEvent.name "Event" = true ∧
      (Protocol.StoppedEvent.tags = ["body", "event", "seq", "type"]
        ∧ sameEnvelope Protocol.Event Protocol.StoppedEvent "body" = true
        ∧ "request_seq" ∉ Protocol.StoppedEvent.tags)) ∧
    (Adapter.InitializedEvent ∈ Adapter.package ∧
      hasSuffix Adapter.InitializedEvent.name "Event" = true ∧
      "request_seq" ∉ Adapter.InitializedEvent.tags) ∧
    (Adapter.StoppedEvent ∈ Adapter.package ∧
      hasSuffix Adapter.StoppedEvent.name "Event" = true ∧
      "request_seq" ∉ Adapter.StoppedEvent.tags) :=
  ⟨⟨by decide, by decide, (envelope_shape.1 Protocol.StoppedEvent (by decide)).2.2 (by decide)⟩,
    ⟨by decide, by decide,
      ((envelope_shape.2 Adapter.InitializedEvent (by decide)).2 (by decide)).1⟩,
    ⟨by decide, by decide,
      ((envelope_shape.2 Adapter.StoppedEvent (by decide)).2 (by decide)).1⟩⟩

/-! ## C8: the command of a typed request -/

/-- C8, counterexample.  The doc comment of `AttachRequest` names the command `attach`, yet
the zero value of `AttachRequest` is a value of the type whose `Command` is the empty
string, and it serialises to `{}`, without a `command` member. -/
theorem attach_zero_command :
    List.lookup "AttachRequest" Protocol.documentedCommands = some "attach" ∧
    IsStruct Protocol.package Protocol.AttachRequest (zeroStruct Protocol.AttachRequest) = true ∧
    Value.field Protocol.package (zeroStruct Protocol.AttachRequest) "Command"
      = some (.string "") ∧
    marshal Protocol.package (zeroStruct Protocol.AttachRequest) = .ok (.obj []) ∧
    JSON.member (.obj []) "command" = none := by
  decide

set_option maxRecDepth 100000 in
/-- C8, amended.  `Command` is an ordinary string field of every `*Request` struct.  The zero
value has `Command = ""` and serialises to `{}`.  Whenever a value serialises, the object
has the member `command` exactly when `Command` is not empty, and its value is then that
string; in particular a value whose `Command` holds the command `c` named in the doc
comment of its type serialises with the member `command` equal to `c`. -/
theorem request_command (d : StructDecl) (hd : d ∈ Protocol.package)
    (hs : hasSuffix d.name "Request" = true) :
    (IsStruct Protocol.package d (zeroStruct d) = true ∧
      Value.field Protocol.package (zeroStruct d) "Command" = some (.string "") ∧
      marshal Protocol.package (zeroStruct d) = .ok (.obj [])) ∧
    ∀ (v : Value) (j : JSON), IsStruct Protocol.package d v = true →
      marshal Protocol.package v = .ok j →
      ∃ command : String,
        Value.field Protocol.package v "Command" = some (.string command) ∧
        JSON.member j "command" = (if command = "" then none else some (.str command)) ∧
        (List.lookup d.name Protocol.documentedCommands = some command →
          JSON.member j "command" = some (.str command)) := by
  have zero : ∀ d ∈ Protocol.package, hasSuffix d.name "Request" = true →
      (IsStruct Protocol.package d (zeroStruct d) = true ∧
        Value.field Protocol.package (zeroStruct d) "Command" = some (.string "") ∧
        marshal Protocol.package (zeroStruct d) = .ok (.obj [])) := by
    decide
  have docs : ∀ p ∈ Protocol.documentedCommands, p.2 ≠ "" := by decide
  refine ⟨zero d hd hs, ?_⟩
  intro v j hv hj
  obtain ⟨t, hf⟩ := request_fields d hd hs
  have hfind := wellFormed_find protocol_wellFormed hd
  have hnd := wellFormed_nodup protocol_wellFormed hd
  cases v with
  | struct n vs =>
    simp only [IsStruct, Bool.and_eq_true, beq_iff_eq] at hv
    obtain ⟨hn, hty⟩ := hv
    subst hn
    rw [hf] at hty
    simp only [Protocol.Request, List.tail] at hty hf
    obtain ⟨va, vs, rfl, -, hty⟩ := hasTypeFields_cons hty
    obtain ⟨vc, vs, rfl, hc, hty⟩ := hasTypeFields_cons hty
    obtain ⟨vq, vs, rfl, hq, hty⟩ := hasTypeFields_cons hty
    obtain ⟨vt, vs, rfl, ht, hty⟩ := hasTypeFields_cons hty
    obtain rfl := hasTypeFields_nil hty
    obtain ⟨c, rfl⟩ := hasType_string hc
    rw [marshal, hfind] at hj
    simp only at hj
    split at hj
    · rename_i ms hms
      cases hj
      have look := fun i f v => marshalFields_lookup Protocol.package d.fields _ ms i f v hnd hms
      rw [hf] at look
      have hmem : JSON.member (.obj ms) "command" = (if c = "" then none else some (.str c)) := by
        have := look 1 ⟨"Command", .string, "command", true⟩ (.string c) rfl rfl
        simp only [JSON.member]
        by_cases hc : c = ""
        · simpa [isEmptyValue, hc] using this
        · have hd' : c.data ≠ [] := fun e => hc (by cases c; simp_all)
          simpa [isEmptyValue, hc, hd', marshal] using this
      refine ⟨c, ?_, hmem, ?_⟩
      · simp [Value.field, hfind, StructDecl.get, hf, indexWhere]
      · intro hdoc
        have hne : c ≠ "" := by
          exact docs _ (mem_of_lookup hdoc)
        rw [hmem, if_neg hne]
    · cases hj
  | _ => simp [IsStruct] at hv

/-- Instance of `request_command` at `AttachRequest` with `Command = "attach"`. -/
theorem request_command_witness :
    ∃ command : String,
      Value.field Protocol.package
        (.struct "AttachRequest" [.nil, .string "attach", .float64 (.finite 1 0),
          .string "request"]) "Command" = some (.string command) ∧
      JSON.member (.obj [("command", .str "attach"), ("seq", .num 1 0),
          ("type", .str "request")]) "command"
        = (if command = "" then none else some (.str command)) ∧
      (List.lookup Protocol.AttachRequest.name Protocol.documentedCommands = some command →
        JSON.member (.obj [("command", .str "attach"), ("seq", .num 1 0),
          ("type", .str "request")]) "command" = some (.str command)) :=
  (request_command Protocol.AttachRequest (by decide) (by decide)).2 _ _ (by decide) (by decide)

/-! ## C9: clearing breakpoints with an empty array -/

/-- C9, the code at the failing input.  For the three argument structs an empty, non-nil
`Breakpoints` slice is a value of the type, and it serialises to `{}`, exactly like the
value whose `Breakpoints` is nil: no `breakpoints` member is written. -/
theorem empty_breakpoints_dropped :
    (IsStruct Protocol.package Protocol.SetBreakpointsArguments
        (.struct "SetBreakpointsArguments" [.slice [], .nil, .nil, .bool false]) = true ∧
     marshal Protocol.package
        (.struct "SetBreakpointsArguments" [.slice [], .nil, .nil, .bool false])
        = .ok (.obj []) ∧
     marshal Protocol.package
        (.struct "SetBreakpointsArguments" [.nil, .nil, .nil, .bool false]) = .ok (.obj [])) ∧
    (IsStruct Protocol.package Protocol.SetFunctionBreakpointsArguments
        (.struct "SetFunctionBreakpointsArguments" [.slice []]) = true ∧
     marshal Protocol.package (.struct "SetFunctionBreakpointsArguments" [.slice []])
        = .ok (.obj []) ∧
     marshal Protocol.package (.struct "SetFunctionBreakpointsArguments" [.nil])
        = .ok (.obj [])) ∧
    (IsStruct Protocol.package Protocol.SetDataBreakpointsArguments
        (.struct "SetDataBreakpointsArguments" [.slice []]) = true ∧
     marshal Protocol.package (.struct "SetDataBreakpointsArguments" [.slice []])
        = .ok (.obj []) ∧
     marshal Protocol.package (.struct "SetDataBreakpointsArguments" [.nil])
        = .ok (.obj [])) := by
  decide

/-! ## C10: default of linesStartAt1 and columnsStartAt1 -/

/-- C10, the code at the failing input.  Parsing `initialize` arguments that contain neither
`linesStartAt1` nor `columnsStartAt1` yields `ColumnsStartAt1 = false` and
`LinesStartAt1 = false`. -/
theorem initialize_defaults_false :
    unmarshal Protocol.package "InitializeRequestArguments"
      (.obj [("clientID", .str "vscode"), ("adapterID", .str "go")])
      = .ok (.struct "InitializeRequestArguments" [.string "go", .string "vscode", .string "",
          .bool false, .bool false, .string "", .string "", .bool false, .bool false,
          .bool false, .bool false]) ∧
    Value.field Protocol.package
      (.struct "InitializeRequestArguments" [.string "go", .string "vscode", .string "",
          .bool false, .bool false, .string "", .string "", .bool false, .bool false,
          .bool false, .bool false]) "ColumnsStartAt1" = some (.bool false) ∧
    Value.field Protocol.package
      (.struct "InitializeRequestArguments" [.string "go", .string "vscode", .string "",
          .bool false, .bool false, .string "", .string "", .bool false, .bool false,
          .bool false, .bool false]) "LinesStartAt1" = some (.bool false) := by
  decide

/-! ## C11: additional attributes of launch and attach arguments -/

/-- C11, the code at the failing input.  `LaunchRequestArguments` declares `noDebug` and
`__restart` only and `AttachRequestArguments` declares `__restart` only.  Parsing a
`launch` request whose arguments carry `program` and `noDebug`, and an `attach` request
whose arguments carry `processId`, and serialising the results, yields the arguments
`{"noDebug": true}` and `{}`: the additional members are gone. -/
theorem launch_attributes_dropped :
    (Protocol.LaunchRequestArguments.tags = ["noDebug", "__restart"] ∧
     Protocol.AttachRequestArguments.tags = ["__restart"]) ∧
    (unmarshal Protocol.package "LaunchRequest"
      (.obj [("seq", .num 2 0), ("type", .str "request"), ("command", .str "launch"),
        ("arguments", .obj [("program", .str "/bin/app"), ("noDebug", .bool true)])])
      = .ok (.struct "LaunchRequest" [.ptr (.struct "LaunchRequestArguments" [.bool true, .nil]),
          .string "launch", .float64 (.finite 1 1), .string "request"]) ∧
     marshal Protocol.package
      (.struct "LaunchRequest" [.ptr (.struct "LaunchRequestArguments" [.bool true, .nil]),
          .string "launch", .float64 (.finite 1 1), .string "request"])
      = .ok (.obj [("arguments", .obj [("noDebug", .bool true)]), ("command", .str "launch"),
          ("seq", .num 2 0), ("type", .str "request")])) ∧
    (unmarshal Protocol.package "AttachRequest"
      (.obj [("seq", .num 2 0), ("type", .str "request"), ("command", .str "attach"),
        ("arguments", .obj [("processId", .num 42 0)])])
      = .ok (.struct "AttachRequest" [.ptr (.struct "AttachRequestArguments" [.nil]),
          .string "attach", .float64 (.finite 1 1), .string "request"]) ∧
     marshal Protocol.package
      (.struct "AttachRequest" [.ptr (.struct "AttachRequestArguments" [.nil]),
          .string "attach", .float64 (.finite 1 1), .string "request"])
      = .ok (.obj [("arguments", .obj []), ("command", .str "attach"),
          ("seq", .num 2 0), ("type", .str "request")])) := by
  decide

/-! ## C12: opaque data passed through the client -/

set_option maxRecDepth 100000 in
/-- C12, the code at the failing input.  Parsing a `Source` whose `adapterData` holds the
integer `9007199254740993` and serialising it yields `adapterData` with
`9007199254740992`; the same happens to `__restart` of `LaunchRequestArguments` and of
`AttachRequestArguments`.  A `Source` whose `adapterData` is `null` is serialised without
an `adapterData` member. -/
theorem opaque_data_altered :
    (unmarshal Protocol.package "Source"
      (.obj [("name", .str "main.go"), ("adapterData", .obj [("handle", .num 9007199254740993 0)])])
      = .ok (.struct "Source" [.iface (.map [("handle", .iface (.float64 (.finite 1 53)))]),
          .nil, .string "main.go", .string "", .string "", .string "", .float64 (.finite 0 0),
          .nil]) ∧
     marshal Protocol.package
      (.struct "Source" [.iface (.map [("handle", .iface (.float64 (.finite 1 53)))]),
          .nil, .string "main.go", .string "", .string "", .string "", .float64 (.finite 0 0),
          .nil])
      = .ok (.obj [("adapterData", .obj [("handle", .num 9007199254740992 0)]),
          ("name", .str "main.go")])) ∧
    (unmarshal Protocol.package "LaunchRequestArguments"
      (.obj [("__restart", .num 9007199254740993 0)])
      = .ok (.struct "LaunchRequestArguments" [.bool false, .iface (.float64 (.finite 1 53))]) ∧
     marshal Protocol.package
      (.struct "LaunchRequestArguments" [.bool false, .iface (.float64 (.finite 1 53))])
      = .ok (.obj [("__restart", .num 9007199254740992 0)])) ∧
    (unmarshal Protocol.package "AttachRequestArguments"
      (.obj [("__restart", .num 9007199254740993 0)])
      = .ok (.struct "AttachRequestArguments" [.iface (.float64 (.finite 1 53))]) ∧
     marshal Protocol.package
      (.struct "AttachRequestArguments" [.iface (.float64 (.finite 1 53))])
      = .ok (.obj [("__restart", .num 9007199254740992 0)])) ∧
    (unmarshal Protocol.package "Source" (.obj [("name", .str "main.go"), ("adapterData", .null)])
      = .ok (.struct "Source" [.nil, .nil, .string "main.go", .string "", .string "",
          .string "", .float64 (.finite 0 0), .nil]) ∧
     marshal Protocol.package
      (.struct "Source" [.nil, .nil, .string "main.go", .string "", .string "",
          .string "", .float64 (.finite 0 0), .nil])
      = .ok (.obj [("name", .str "main.go")])) := by
  decide

/-! ## C13: sequence numbers are float64 -/

/-- C13, counterexample.  `Seq`, `RequestSeq`, `RequestId` and the `_sequence` counter of
`ProtocolServer` are declared `float64`.  The integers `a = 9007199254740992` and
`b = 9007199254740993` satisfy `1 ≤ a < b ≤ 2 ^ 63 - 1`, yet `seq = a` and `seq = b` parse
to the same `Seq`, and so do `request_seq`, `requestId` and `_sequence`: the float64
nearest to `b = a + 1` is `a`. -/
theorem seq_conflated :
    ((1 : Int) ≤ 9007199254740992 ∧ (9007199254740992 : Int) < 9007199254740993 ∧
      (9007199254740993 : Int) ≤ 2 ^ 63 - 1) ∧
    Float64.ofInt (9007199254740992 + 1) = Float64.ofInt 9007199254740992 ∧
    (unmarshal Protocol.package "ProtocolMessage" (.obj [("seq", .num 9007199254740992 0)])
        = .ok (.struct "ProtocolMessage" [.float64 (.finite 1 53), .string ""]) ∧
     unmarshal Protocol.package "ProtocolMessage" (.obj [("seq", .num 9007199254740993 0)])
        = .ok (.struct "ProtocolMessage" [.float64 (.finite 1 53), .string ""])) ∧
    (unmarshal Protocol.package "Response" (.obj [("request_seq", .num 9007199254740992 0)])
      = unmarshal Protocol.package "Response" (.obj [("request_seq", .num 9007199254740993 0)])) ∧
    (unmarshal Protocol.package "CancelArguments" (.obj [("requestId", .num 9007199254740992 0)])
      = unmarshal Protocol.package "CancelArguments"
          (.obj [("requestId", .num 9007199254740993 0)])) ∧
    (unmarshal Adapter.package "ProtocolServer" (.obj [("_sequence", .num 9007199254740992 0)])
      = unmarshal Adapter.package "ProtocolServer"
          (.obj [("_sequence", .num 9007199254740993 0)])) := by
  decide

/-- C13, amended.  Sequence numbers are held in float64 fields.  For every two integers
`a` and `b` with `1 ≤ a < b ≤ 2 ^ 53`, `seq = a` and `seq = b` parse to two distinct
float64 values that are written back as `a` and as `b`, and the same two values are
stored for `request_seq` of a `Response`, for `requestId` of `CancelArguments` and for
`_sequence` of `ProtocolServer`. -/
theorem seq_distinct (a b : Int) (ha : 1 ≤ a) (hab : a < b) (hb : b ≤ 2 ^ 53) :
    ∃ fa fb : Float64, fa ≠ fb ∧ fa.toDecimal = some (a, 0) ∧ fb.toDecimal = some (b, 0) ∧
      (unmarshal Protocol.package "ProtocolMessage" (.obj [("seq", .num a 0)])
          = .ok (.struct "ProtocolMessage" [.float64 fa, .string ""]) ∧
       unmarshal Protocol.package "ProtocolMessage" (.obj [("seq", .num b 0)])
          = .ok (.struct "ProtocolMessage" [.float64 fb, .string ""])) ∧
      (unmarshal Protocol.package "Response" (.obj [("request_seq", .num a 0)])
          = .ok (.struct "Response" [.nil, .string "", .string "", .float64 fa,
              .float64 Float64.zero, .bool false, .string ""]) ∧
       unmarshal Protocol.package "Response" (.obj [("request_seq", .num b 0)])
          = .ok (.struct "Response" [.nil, .string "", .string "", .float64 fb,
              .float64 Float64.zero, .bool false, .string ""])) ∧
      (unmarshal Protocol.package "CancelArguments" (.obj [("requestId", .num a 0)])
          = .ok (.struct "CancelArguments" [.float64 fa]) ∧
       unmarshal Protocol.package "CancelArguments" (.obj [("requestId", .num b 0)])
          = .ok (.struct "CancelArguments" [.float64 fb])) ∧
      (unmarshal Adapter.package "ProtocolServer" (.obj [("_sequence", .num a 0)])
          = .ok (.struct "ProtocolServer" [.float64 Float64.zero, .nil, .nil, .nil, .nil,
              .nil, .nil, .float64 fa, .nil]) ∧
       unmarshal Adapter.package "ProtocolServer" (.obj [("_sequence", .num b 0)])
          = .ok (.struct "ProtocolServer" [.float64 Float64.zero, .nil, .nil, .nil, .nil,
              .nil, .nil, .float64 fb, .nil])) := by
  obtain ⟨fa, fb, h1, h2, hne, ta, tb⟩ :=
    ofInt_injOn (a := a) (b := b) (by omega) (by omega) (by omega)
  have pm := fun x fx => unmarshal_number Protocol.package Protocol.ProtocolMessage (by decide)
    "seq" 0 ⟨"Seq", .float64, "seq", true⟩ (by decide) (by decide) rfl x fx
  have rs := fun x fx => unmarshal_number Protocol.package Protocol.Response (by decide)
    "request_seq" 3 ⟨"RequestSeq", .float64, "request_seq", true⟩ (by decide) (by decide) rfl x fx
  have ca := fun x fx => unmarshal_number Protocol.package Protocol.CancelArguments (by decide)
    "requestId" 0 ⟨"RequestId", .float64, "requestId", true⟩ (by decide) (by decide) rfl x fx
  have ps := fun x fx => unmarshal_number Adapter.package Adapter.ProtocolServer (by decide)
    "_sequence" 7 ⟨"Sequence", .float64, "_sequence", true⟩ (by decide) (by decide) rfl x fx
  refine ⟨fa, fb, hne, ta, tb, ⟨pm a fa h1, pm b fb h2⟩, ⟨rs a fa h1, rs b fb h2⟩,
    ⟨ca a fa h1, ca b fb h2⟩, ⟨ps a fa h1, ps b fb h2⟩⟩

/-- Instance of `seq_distinct` at `a = 1` and `b = 2`. -/
theorem seq_distinct_witness :
    ∃ fa fb : Float64, fa ≠ fb ∧ fa.toDecimal = some (1, 0) ∧ fb.toDecimal = some (2, 0) ∧
      (unmarshal Protocol.package "ProtocolMessage" (.obj [("seq", .num 1 0)])
          = .ok (.struct "ProtocolMessage" [.float64 fa, .string ""]) ∧
       unmarshal Protocol.package "ProtocolMessage" (.obj [("seq", .num 2 0)])
          = .ok (.struct "ProtocolMessage" [.float64 fb, .string ""])) :=
  have ⟨fa, fb, h1, h2, h3, h4, _⟩ := seq_distinct 1 2 (by decide) (by decide) (by decide)
  ⟨fa, fb, h1, h2, h3, h4⟩

/-! ## C14: sequence numbers of one endpoint increase -/

/-- C14.  The first value `NextSeq` returns on a fresh endpoint is 1, and in every session
of a fresh engine the `seq` values of the messages the endpoint sent start at 1 and
strictly increase in the order of sending, so no two of them are equal. -/
theorem sent_seq_increasing (actions : List Action) :
    (NextSeq CorrelationTable.fresh).1 = 1 ∧
    (sentSeqs (SessionEngine.fresh.run actions).2).head?.getD 1 = 1 ∧
    List.Pairwise (fun a b => a < b) (sentSeqs (SessionEngine.fresh.run actions).2) ∧
    (sentSeqs (SessionEngine.fresh.run actions).2).Nodup := by
  obtain ⟨-, h2, h3⟩ := run_sent actions SessionEngine.fresh
  refine ⟨rfl, h3, h2, ?_⟩
  exact h2.imp (fun h => Nat.ne_of_lt h)

/-! ## C15: correlation of responses -/

/-- C15.  For every table and every `request_seq`: a pending entry has that `seq` exactly
when the table holds an entry under that key; `Resolve` then returns this entry and
removes it, the `seq` is no longer pending, and the entries with another `seq`, the
lookups under another key and the counter are as before.  When no pending entry has that
`seq`, `Resolve` fails with `UnknownRequestSeqError` and returns the table as it was, and
an engine that takes in such a response reports the error and keeps its state and its
table. -/
theorem resolve_correlates (t : CorrelationTable) (r : Nat) :
    ((∃ x ∈ t.pending, x.seq = r) ↔ ∃ e, t.entry r = some e) ∧
    (∀ e, t.entry r = some e →
      (e ∈ t.pending ∧ e.seq = r) ∧
      Resolve t r = (⟨t.next, t.pending.filter (fun x => x.seq != r)⟩, .ok e) ∧
      (Resolve t r).1.isPending r = false ∧
      e ∉ (Resolve t r).1.pending ∧
      (∀ x, x.seq ≠ r → (x ∈ (Resolve t r).1.pending ↔ x ∈ t.pending)) ∧
      (∀ s, s ≠ r → (Resolve t r).1.entry s = t.entry s)) ∧
    ((∀ x ∈ t.pending, x.seq ≠ r) →
      Resolve t r = (t, .error .unknownRequestSeqError) ∧
      ∀ e : SessionEngine, e.table = t →
        e.step (.receiveResponse r) = (e, .error .unknownRequestSeqError)) := by
  refine ⟨?_, ?_, ?_⟩
  · constructor
    · rintro ⟨x, hx, hr⟩
      cases he : t.entry r with
      | some e => exact ⟨e, rfl⟩
      | none => exact absurd hr ((entry_none_iff t r).mp he x hx)
    · rintro ⟨e, he⟩
      exact ⟨e, entry_some he⟩
  · intro e he
    have hres : Resolve t r = (⟨t.next, t.pending.filter (fun x => x.seq != r)⟩, .ok e) := by
      simp only [Resolve, he]
    refine ⟨entry_some he, hres, ?_, ?_, ?_, ?_⟩
    · rw [hres]
      simp [CorrelationTable.isPending]
    · rw [hres]
      simp [(entry_some he).2]
    · intro x hx
      rw [hres]
      simp [hx]
    · intro s hs
      rw [hres]
      exact find_filter_ne r s hs t.pending
  · intro hno
    have he := (entry_none_iff t r).mpr hno
    refine ⟨by simp only [Resolve, he], ?_⟩
    intro e ht
    subst ht
    simp only [SessionEngine.step, Resolve, he]

/-- Instance of `resolve_correlates` at a table where `seq` 5 and 6 are pending: the
response with `request_seq = 6` resolves to the entry of the request 6, and the response
with `request_seq = 999` is unknown. -/
theorem resolve_correlates_witness :
    (CorrelationTable.entry ⟨7, [⟨5, "stackTrace", false⟩, ⟨6, "threads", false⟩]⟩ 6
        = some ⟨6, "threads", false⟩ ∧
      Resolve ⟨7, [⟨5, "stackTrace", false⟩, ⟨6, "threads", false⟩]⟩ 6
        = (⟨7, [⟨5, "stackTrace", false⟩]⟩, .ok ⟨6, "threads", false⟩)) ∧
    ((∀ x ∈ [(⟨5, "stackTrace", false⟩ : PendingRequestEntry), ⟨6, "threads", false⟩],
        x.seq ≠ 999) ∧
      Resolve ⟨7, [⟨5, "stackTrace", false⟩, ⟨6, "threads", false⟩]⟩ 999
        = (⟨7, [⟨5, "stackTrace", false⟩, ⟨6, "threads", false⟩]⟩,
            .error .unknownRequestSeqError)) :=
  ⟨⟨by decide,
      ((resolve_correlates ⟨7, [⟨5, "stackTrace", false⟩, ⟨6, "threads", false⟩]⟩ 6).2.1
        ⟨6, "threads", false⟩ (by decide)).2.1⟩,
    ⟨by decide,
      ((resolve_correlates ⟨7, [⟨5, "stackTrace", false⟩, ⟨6, "threads", false⟩]⟩ 999).2.2
        (by decide)).1⟩⟩

/-! ## C16: requests before the handshake has completed -/

/-- C16.  Under the strict policy, an engine in `Uninitialized` or `Initializing` that is
asked to send or to take in a request whose command is not `initialize`, whatever `seq`
the request taken in carries, fails with `ProtocolSequenceError` and keeps its state, its
table and the requests it has to answer. -/
theorem request_before_handshake (e : SessionEngine) (c : String)
    (hs : e.state = .uninitialized ∨ e.state = .initializing) (hc : c ≠ "initialize") :
    e.step (.sendRequest c) = (e, .error .protocolSequenceError) ∧
    ∀ q, e.step (.receiveRequest q c) = (e, .error .protocolSequenceError) := by
  rcases hs with hs | hs <;> simp [SessionEngine.step, transition, hs, hc]

/-- Instance of `request_before_handshake` at the fresh engine and the command `launch`. -/
theorem request_before_handshake_witness :
    SessionEngine.fresh.step (.sendRequest "launch")
        = (SessionEngine.fresh, .error .protocolSequenceError) ∧
    SessionEngine.fresh.step (.receiveRequest 1 "launch")
        = (SessionEngine.fresh, .error .protocolSequenceError) :=
  ⟨(request_before_handshake SessionEngine.fresh "launch" (Or.inl rfl) (by decide)).1,
    (request_before_handshake SessionEngine.fresh "launch" (Or.inl rfl) (by decide)).2 1⟩

/-! ## C17: a single initialize request -/

/-- C17.  In every session of a fresh engine at most one `initialize` request passes.
Once one has passed, the engine is no longer `Uninitialized`, and asking it to send or to
take in another `initialize` request, whatever `seq` it carries, fails with
`AlreadyInitializedError` and leaves the engine, its state included, as it was. -/
theorem second_initialize_rejected (actions : List Action) :
    (SessionEngine.fresh.run actions).2.countP
        (fun d => decide (d.traffic = .request "initialize")) ≤ 1 ∧
    ((∃ d ∈ (SessionEngine.fresh.run actions).2, d.traffic = .request "initialize") →
      (SessionEngine.fresh.run actions).1.state ≠ .uninitialized ∧
      (SessionEngine.fresh.run actions).1.step (.sendRequest "initialize")
        = ((SessionEngine.fresh.run actions).1, .error .alreadyInitializedError) ∧
      ∀ q, (SessionEngine.fresh.run actions).1.step (.receiveRequest q "initialize")
        = ((SessionEngine.fresh.run actions).1, .error .alreadyInitializedError)) := by
  obtain ⟨-, h2, h3⟩ := run_initialized_once actions SessionEngine.fresh
  refine ⟨h3, fun h => ?_⟩
  have hne := h2 h
  exact ⟨hne, by simp [SessionEngine.step, transition, hne],
    by simp [SessionEngine.step, transition, hne]⟩

/-- Instance of `second_initialize_rejected` at the session that sends `initialize` and
takes in its response. -/
theorem second_initialize_rejected_witness :
    (∃ d ∈ (SessionEngine.fresh.run [.sendRequest "initialize", .receiveResponse 1]).2,
        d.traffic = .request "initialize") ∧
    (SessionEngine.fresh.run [.sendRequest "initialize", .receiveResponse 1]).1.state
        = .configuring ∧
    (SessionEngine.fresh.run [.sendRequest "initialize", .receiveResponse 1]).1.step
        (.sendRequest "initialize")
      = ((SessionEngine.fresh.run [.sendRequest "initialize", .receiveResponse 1]).1,
          .error .alreadyInitializedError) :=
  ⟨⟨⟨true, some 1, none, .request "initialize"⟩, by decide, rfl⟩, by decide,
    ((second_initialize_rejected [.sendRequest "initialize", .receiveResponse 1]).2
      ⟨⟨true, some 1, none, .request "initialize"⟩, by decide, rfl⟩).2.1⟩

/-! ## C18: cancellation is advisory -/

/-- C18.  For every table and every entry pending under the key `s`, `CancelPending s`
leaves the entry pending under `s` with the same `seq` and command and with the mark set;
the counter, the number of entries, the set of pending keys, the lookups under every other
key and the entries with another `seq` are as before; and a later `Resolve s` succeeds,
returns the marked entry and leaves the table that `Resolve s` leaves without the
cancellation. -/
theorem cancel_is_advisory (t : CorrelationTable) (s : Nat) (e : PendingRequestEntry)
    (h : t.entry s = some e) :
    (CancelPending t s).entry s = some ⟨e.seq, e.command, true⟩ ∧
    (CancelPending t s).isPending s = true ∧
    (CancelPending t s).next = t.next ∧
    (CancelPending t s).pending.length = t.pending.length ∧
    (∀ k, (CancelPending t s).isPending k = t.isPending k) ∧
    (∀ k, k ≠ s → (CancelPending t s).entry k = t.entry k) ∧
    (∀ x ∈ t.pending, x.seq ≠ s → x ∈ (CancelPending t s).pending) ∧
    Resolve (CancelPending t s) s = ((Resolve t s).1, .ok ⟨e.seq, e.command, true⟩) := by
  obtain ⟨hmem, hseq⟩ := entry_some h
  have hent : (CancelPending t s).entry s = some ⟨e.seq, e.command, true⟩ := by
    simp only [CancelPending, CorrelationTable.entry]
    rw [cancel_find]
    simp only [CorrelationTable.entry] at h
    rw [h]
    simp [hseq]
  have hany : ∀ k, (CancelPending t s).isPending k = t.isPending k := by
    intro k
    simp only [CancelPending, CorrelationTable.isPending]
    exact cancel_any s k t.pending
  refine ⟨hent, ?_, rfl, by simp [CancelPending], hany, ?_, ?_, ?_⟩
  · rw [hany, isPending_iff]
    exact ⟨e, hmem, hseq⟩
  · intro k hk
    simp only [CancelPending, CorrelationTable.entry]
    rw [cancel_find]
    cases hf : t.pending.find? (fun x => x.seq == k) with
    | none => rfl
    | some x =>
      have : x.seq = k := by simpa using List.find?_some hf
      have hx : x.seq ≠ s := by rw [this]; exact hk
      simp [hx]
  · intro x hx hne
    simp only [CancelPending, List.mem_map]
    exact ⟨x, hx, by simp [hne]⟩
  · simp only [Resolve, hent, h]
    simp only [CancelPending]
    rw [cancel_filter]

/-- Instance of `cancel_is_advisory` at a table where `seq` 5 and 6 are pending and the
request 5 is cancelled. -/
theorem cancel_is_advisory_witness :
    CorrelationTable.entry ⟨7, [⟨5, "stackTrace", false⟩, ⟨6, "threads", false⟩]⟩ 5
      = some ⟨5, "stackTrace", false⟩ ∧
    CancelPending ⟨7, [⟨5, "stackTrace", false⟩, ⟨6, "threads", false⟩]⟩ 5
      = ⟨7, [⟨5, "stackTrace", true⟩, ⟨6, "threads", false⟩]⟩ ∧
    Resolve (CancelPending ⟨7, [⟨5, "stackTrace", false⟩, ⟨6, "threads", false⟩]⟩ 5) 5
      = ((Resolve ⟨7, [⟨5, "stackTrace", false⟩, ⟨6, "threads", false⟩]⟩ 5).1,
          .ok ⟨5, "stackTrace", true⟩) :=
  ⟨by decide, by decide,
    (cancel_is_advisory ⟨7, [⟨5, "stackTrace", false⟩, ⟨6, "threads", false⟩]⟩ 5
      ⟨5, "stackTrace", false⟩ (by decide)).2.2.2.2.2.2.2⟩

/-! ## C19: the initialized event follows the initialize response -/

/-- C19.  In every session of a fresh engine, wherever the trace holds an `initialized`
event, the trace begins with the `initialize` request followed by the response to it, the
response with the command `initialize` whose `request_seq` is the `seq` of that request
and which travels in the opposite direction; both come before the event, and no other
`initialize` request is in the trace. -/
theorem initialized_after_response (actions : List Action) (pre post : List Delivered)
    (d : Delivered) (h : (SessionEngine.fresh.run actions).2 = pre ++ d :: post)
    (hd : d.traffic = .event "initialized") :
    ∃ q r rest s, pre = q :: r :: rest ∧
      q.traffic = .request "initialize" ∧ q.seq = some s ∧
      r.traffic = .response "initialize" ∧ r.requestSeq = some s ∧
      r.outbound = !q.outbound ∧
      ∀ x ∈ r :: rest ++ d :: post, x.traffic ≠ .request "initialize" := by
  have hone := (run_initialized_once actions SessionEngine.fresh).2.2
  rw [h] at hone
  rcases run_handshake actions SessionEngine.fresh ⟨rfl, rfl, rfl⟩ with h0 | ⟨q, s, hq, hs, h1⟩
  · rw [h0] at h
    cases pre <;> cases h
  · rcases h1 with h1 | ⟨r, rest, h2, hr, hrs, hro⟩
    · rw [h1] at h
      cases pre with
      | nil =>
        simp only [List.nil_append, List.cons.injEq] at h
        rw [← h.1, hq] at hd
        cases hd
      | cons p pre =>
        simp only [List.cons_append, List.cons.injEq] at h
        cases pre <;> simp at h
    · rw [h2] at h
      cases pre with
      | nil =>
        simp only [List.nil_append, List.cons.injEq] at h
        rw [← h.1, hq] at hd
        cases hd
      | cons p pre =>
        simp only [List.cons_append, List.cons.injEq] at h
        obtain ⟨rfl, h⟩ := h
        cases pre with
        | nil =>
          simp only [List.nil_append, List.cons.injEq] at h
          rw [← h.1, hr] at hd
          cases hd
        | cons p2 pre2 =>
          simp only [List.cons_append, List.cons.injEq] at h
          obtain ⟨rfl, h⟩ := h
          refine ⟨q, r, pre2, s, rfl, hq, hs, hr, hrs, hro, ?_⟩
          intro x hx hxq
          simp only [List.cons_append, List.countP_cons, hq, decide_True, if_true] at hone
          have hpos : 0 < List.countP (fun d => decide (d.traffic = .request "initialize"))
              (r :: (pre2 ++ d :: post)) :=
            List.countP_pos_iff.mpr ⟨x, by simpa using hx, by simpa using hxq⟩
          simp only [List.countP_cons] at hpos
          omega

/-- Instance of `initialized_after_response` at the session of a client that sends
`initialize`, asks to answer the request itself, which is refused, and takes in the
`initialized` event once before and once after the response to `initialize`: the early
event does not pass, the late one does.  The session of the adapter that takes in the
request, sends the response and then the event has the same shape. -/
theorem initialized_after_response_witness :
    (SessionEngine.fresh.run [.sendRequest "initialize", .sendResponse 1,
        .receiveEvent "initialized", .receiveResponse 1, .receiveEvent "initialized"]).2
      = [⟨true, some 1, none, .request "initialize"⟩,
          ⟨false, none, some 1, .response "initialize"⟩]
          ++ ⟨false, none, none, .event "initialized"⟩ :: [] ∧
    (SessionEngine.fresh.run [.receiveRequest 1 "initialize", .sendEvent "initialized",
        .sendResponse 1, .sendEvent "initialized"]).2
      = [⟨false, some 1, none, .request "initialize"⟩,
          ⟨true, some 1, some 1, .response "initialize"⟩,
          ⟨true, some 2, none, .event "initialized"⟩] ∧
    ∃ q r rest s,
      [(⟨true, some 1, none, .request "initialize"⟩ : Delivered),
          ⟨false, none, some 1, .response "initialize"⟩] = q :: r :: rest ∧
      q.traffic = .request "initialize" ∧ q.seq = some s ∧
      r.traffic = .response "initialize" ∧ r.requestSeq = some s ∧
      r.outbound = !q.outbound ∧
      ∀ x ∈ r :: rest ++ (⟨false, none, none, .event "initialized"⟩ : Delivered) :: [],
        x.traffic ≠ .request "initialize" :=
  ⟨by decide, by decide,
    initialized_after_response [.sendRequest "initialize", .sendResponse 1,
        .receiveEvent "initialized", .receiveResponse 1, .receiveEvent "initialized"]
      [⟨true, some 1, none, .request "initialize"⟩,
        ⟨false, none, some 1, .response "initialize"⟩] []
      ⟨false, none, none, .event "initialized"⟩ (by decide) rfl⟩

/-! ## C20: documented defaults of missing members -/

/-- C20, counterexample.  Member names are matched to fields without regard to letter
case.  The objects `{"label": "x", "LENGTH": 7}`, `{"filter": "f", "DEFAULT": true}` and
`{"names": [], "Negate": true}` have no member `length`, `default` and `negate`, yet they
parse to `Length = 7`, `Default = true` and `Negate = true`, and the same objects with the
member explicitly set to `0` (resp. `false`) parse to other values. -/
theorem folded_member_sets_default :
    (JSON.member (.obj [("label", .str "x"), ("LENGTH", .num 7 0)]) "length" = none ∧
      unmarshal Protocol.package "CompletionItem" (.obj [("label", .str "x"), ("LENGTH", .num 7 0)])
        = .ok (.struct "CompletionItem" [.string "x", .float64 (.finite 7 0), .string "",
            .float64 (.finite 0 0), .string "", .string ""]) ∧
      unmarshal Protocol.package "CompletionItem"
          (.obj [("label", .str "x"), ("LENGTH", .num 7 0), ("length", .num 0 0)])
        = .ok (.struct "CompletionItem" [.string "x", .float64 (.finite 0 0), .string "",
            .float64 (.finite 0 0), .string "", .string ""])) ∧
    (JSON.member (.obj [("filter", .str "f"), ("DEFAULT", .bool true)]) "default" = none ∧
      unmarshal Protocol.package "ExceptionBreakpointsFilter"
          (.obj [("filter", .str "f"), ("DEFAULT", .bool true)])
        = .ok (.struct "ExceptionBreakpointsFilter" [.bool true, .string "f", .string ""]) ∧
      unmarshal Protocol.package "ExceptionBreakpointsFilter"
          (.obj [("filter", .str "f"), ("DEFAULT", .bool true), ("default", .bool false)])
        = .ok (.struct "ExceptionBreakpointsFilter" [.bool false, .string "f", .string ""])) ∧
    (JSON.member (.obj [("names", .arr []), ("Negate", .bool true)]) "negate" = none ∧
      unmarshal Protocol.package "ExceptionPathSegment"
          (.obj [("names", .arr []), ("Negate", .bool true)])
        = .ok (.struct "ExceptionPathSegment" [.slice [], .bool true]) ∧
      unmarshal Protocol.package "ExceptionPathSegment"
          (.obj [("names", .arr []), ("Negate", .bool true), ("negate", .bool false)])
        = .ok (.struct "ExceptionPathSegment" [.slice [], .bool false])) := by
  decide

/-- C20, amended.  For an object none of whose member names equals `length` up to letter
case, parsing into `CompletionItem` gives the same result, success or error, as parsing
the object with a member `"length": 0` added at any place, and a successful parse has
`Length = 0`.  The same holds for `default` and `Default = false` of
`ExceptionBreakpointsFilter` and for `negate` and `Negate = false` of
`ExceptionPathSegment`. -/
theorem missing_member_default (ms1 ms2 : List (String × JSON)) :
    ((∀ m ∈ ms1 ++ ms2, foldName m.1 ≠ foldName "length") →
      unmarshal Protocol.package "CompletionItem" (.obj (ms1 ++ ("length", .num 0 0) :: ms2))
          = unmarshal Protocol.package "CompletionItem" (.obj (ms1 ++ ms2)) ∧
        ∀ v, unmarshal Protocol.package "CompletionItem" (.obj (ms1 ++ ms2)) = .ok v →
          Value.field Protocol.package v "Length" = some (.float64 Float64.zero)) ∧
    ((∀ m ∈ ms1 ++ ms2, foldName m.1 ≠ foldName "default") →
      unmarshal Protocol.package "ExceptionBreakpointsFilter"
            (.obj (ms1 ++ ("default", .bool false) :: ms2))
          = unmarshal Protocol.package "ExceptionBreakpointsFilter" (.obj (ms1 ++ ms2)) ∧
        ∀ v, unmarshal Protocol.package "ExceptionBreakpointsFilter" (.obj (ms1 ++ ms2)) = .ok v →
          Value.field Protocol.package v "Default" = some (.bool false)) ∧
    ((∀ m ∈ ms1 ++ ms2, foldName m.1 ≠ foldName "negate") →
      unmarshal Protocol.package "ExceptionPathSegment"
            (.obj (ms1 ++ ("negate", .bool false) :: ms2))
          = unmarshal Protocol.package "ExceptionPathSegment" (.obj (ms1 ++ ms2)) ∧
        ∀ v, unmarshal Protocol.package "ExceptionPathSegment" (.obj (ms1 ++ ms2)) = .ok v →
          Value.field Protocol.package v "Negate" = some (.bool false)) := by
  refine ⟨?_, ?_, ?_⟩
  · exact unmarshal_default Protocol.package Protocol.CompletionItem (by decide) 1
      ⟨"Length", .float64, "length", true⟩ (.num 0 0) (by decide) (by decide) (by decide)
      (fun c => by simp [decode, Float64.ofDecimal, zeroValue, Float64.zero]) rfl ms1 ms2
  · exact unmarshal_default Protocol.package Protocol.ExceptionBreakpointsFilter (by decide) 0
      ⟨"Default", .bool, "default", true⟩ (.bool false) (by decide) (by decide) (by decide)
      (fun c => by simp [decode, zeroValue]) rfl ms1 ms2
  · exact unmarshal_default Protocol.package Protocol.ExceptionPathSegment (by decide) 1
      ⟨"Negate", .bool, "negate", true⟩ (.bool false) (by decide) (by decide) (by decide)
      (fun c => by simp [decode, zeroValue]) rfl ms1 ms2

/-- Instance of `missing_member_default` at the object `{"label": "x", "start": 3}`, with
the member `length` added between its two members. -/
theorem missing_member_default_witness :
    (∀ m ∈ [("label", JSON.str "x")] ++ [("start", JSON.num 3 0)],
        foldName m.1 ≠ foldName "length") ∧
    unmarshal Protocol.package "CompletionItem"
        (.obj ([("label", .str "x")] ++ ("length", .num 0 0) :: [("start", .num 3 0)]))
      = unmarshal Protocol.package "CompletionItem"
          (.obj ([("label", .str "x")] ++ [("start", .num 3 0)])) ∧
    Value.field Protocol.package
        (.struct "CompletionItem" [.string "x", .float64 (.finite 0 0), .string "",
            .float64 (.finite 3 0), .string "", .string ""]) "Length"
      = some (.float64 Float64.zero) :=
  ⟨by decide,
    ((missing_member_default [("label", .str "x")] [("start", .num 3 0)]).1 (by decide)).1,
    ((missing_member_default [("label", .str "x")] [("start", .num 3 0)]).1 (by decide)).2 _
      (by decide)⟩

/-! ## C21: acknowledgement responses -/

/-- C21, counterexample.  Member names are matched to fields without regard to letter
case.  The response `{"seq": 3, "type": "response", "request_seq": 2, "success": true,
"command": "launch", "BODY": {"pid": 7}}` has no member `body`, yet parsing it into
`LaunchResponse` yields a value whose `Body` holds the object. -/
theorem folded_member_sets_body :
    "LaunchResponse" ∈ Protocol.acknowledgements ∧
    JSON.member (.obj [("seq", .num 3 0), ("type", .str "response"), ("request_seq", .num 2 0),
        ("success", .bool true), ("command", .str "launch"),
        ("BODY", .obj [("pid", .num 7 0)])]) "body" = none ∧
    unmarshal Protocol.package "LaunchResponse"
      (.obj [("seq", .num 3 0), ("type", .str "response"), ("request_seq", .num 2 0),
        ("success", .bool true), ("command", .str "launch"),
        ("BODY", .obj [("pid", .num 7 0)])])
      = .ok (.struct "LaunchResponse" [.iface (.map [("pid", .iface (.float64 (.finite 7 0)))]),
          .string "launch", .string "", .float64 (.finite 1 1), .float64 (.finite 3 0),
          .bool true, .string "response"]) ∧
    Value.field Protocol.package
      (.struct "LaunchResponse" [.iface (.map [("pid", .iface (.float64 (.finite 7 0)))]),
          .string "launch", .string "", .float64 (.finite 1 1), .float64 (.finite 3 0),
          .bool true, .string "response"]) "Body"
      = some (.iface (.map [("pid", .iface (.float64 (.finite 7 0)))])) := by
  decide

/-- C21, amended.  For every response type whose doc comment reads `This is just an
acknowledgement, so no body field is required`: `Body` is an `interface{}` tagged
`body,omitempty`; a value with `Body = nil` that serialises does so without a `body`
member; a value with `Body = nil` in which every number is finite and not negative zero,
every slice and map is nil or not empty serialises, and parsing the result gives the value
back; the empty object
parses to the zero value; and for every object none of whose member names equals `body`
up to letter case, parsing gives the same result as with a member `"body": null` added,
and a successful parse has `Body = nil`. -/
theorem acknowledgement_body (d : StructDecl) (hd : d ∈ Protocol.package)
    (ha : d.name ∈ Protocol.acknowledgements) :
    d.fields.get? 0 = some ⟨"Body", .iface, "body", true⟩ ∧
    (∀ (vs : List Value) (j : JSON),
      Value.field Protocol.package (.struct d.name vs) "Body" = some .nil →
      marshal Protocol.package (.struct d.name vs) = .ok j → JSON.member j "body" = none) ∧
    (∀ vs : List Value, RepStruct Protocol.package d (.struct d.name vs) = true →
      Value.field Protocol.package (.struct d.name vs) "Body" = some .nil →
      ∃ j, marshal Protocol.package (.struct d.name vs) = .ok j ∧
        JSON.member j "body" = none ∧
        unmarshal Protocol.package d.name j = .ok (.struct d.name vs)) ∧
    (unmarshal Protocol.package d.name (.obj []) = .ok (zeroStruct d) ∧
      Value.field Protocol.package (zeroStruct d) "Body" = some .nil) ∧
    (∀ ms1 ms2 : List (String × JSON),
      (∀ m ∈ ms1 ++ ms2, foldName m.1 ≠ foldName "body") →
      unmarshal Protocol.package d.name (.obj (ms1 ++ ("body", .null) :: ms2))
          = unmarshal Protocol.package d.name (.obj (ms1 ++ ms2)) ∧
        ∀ v, unmarshal Protocol.package d.name (.obj (ms1 ++ ms2)) = .ok v →
          Value.field Protocol.package v "Body" = some .nil) := by
  have hf := acknowledgement_fields d hd ha
  have hfind := wellFormed_find protocol_wellFormed hd
  have hnd := wellFormed_nodup protocol_wellFormed hd
  have h0 : d.fields.get? 0 = some ⟨"Body", .iface, "body", true⟩ := by rw [hf]; rfl
  have hk : findField d.fields "body" = some 0 := by rw [hf]; decide
  have hn : indexWhere (fun g => g.name == "Body") d.fields = some 0 := by rw [hf]; decide
  have hfield : ∀ vs : List Value,
      Value.field Protocol.package (.struct d.name vs) "Body" = vs.get? 0 := by
    intro vs
    simp only [Value.field, hfind, StructDecl.get, hn]
  have ser : ∀ (vs : List Value) (j : JSON),
      Value.field Protocol.package (.struct d.name vs) "Body" = some .nil →
      marshal Protocol.package (.struct d.name vs) = .ok j → JSON.member j "body" = none := by
    intro vs j hb hj
    rw [hfield] at hb
    simp only [marshal, hfind] at hj
    cases hms : marshalFields Protocol.package d.fields vs with
    | error err => rw [hms] at hj; cases hj
    | ok ms =>
      rw [hms] at hj
      cases hj
      have look := marshalFields_lookup Protocol.package d.fields vs ms 0
        ⟨"Body", .iface, "body", true⟩ .nil hnd hms
        (by simpa [List.get?_eq_getElem?] using h0) (by simpa [List.get?_eq_getElem?] using hb)
      simpa [isEmptyValue, JSON.member] using look
  refine ⟨h0, ser, ?_, ?_, ?_⟩
  · intro vs hr hb
    obtain ⟨j, hj, hu⟩ := struct_roundtrip Protocol.package protocol_wellFormed d hd _ hr
    refine ⟨j, hj, ser vs j hb hj, ?_⟩
    rw [unmarshal_of_depth, hu]
    rw [hfield] at hb
    simp only [RepStruct, beq_self_eq_true, Bool.true_and] at hr
    simp only [marshal, hfind] at hj
    cases hms : marshalFields Protocol.package d.fields vs with
    | error err => rw [hms] at hj; cases hj
    | ok ms =>
      rw [hms] at hj
      cases hj
      rw [hf] at hms hr
      cases vs with
      | nil => simp [RepFields] at hr
      | cons v vs =>
        simp only [List.get?_cons_zero, Option.some.injEq] at hb
        subst hb
        simp only [RepFields, Bool.and_eq_true] at hr
        simp only [marshalFields, isEmptyValue, Bool.and_self, if_true] at hms
        have := repFields_flat Protocol.package _ vs ms (by decide) hr.2 hms
        simp [JSON.depth, this, maxNestingDepth]
  · constructor
    · rw [unmarshal_obj Protocol.package d hfind _
        (by simp [JSON.depth, JSON.depthMembers, maxNestingDepth])]
      simp only [decodeFields, zeroStruct]
    · simp only [zeroStruct, hfield]
      rw [hf]
      rfl
  · intro ms1 ms2 hno
    exact unmarshal_default Protocol.package d hfind 0 ⟨"Body", .iface, "body", true⟩ .null h0 hk
      hn (fun c => by simp [decode, zeroValue]) rfl ms1 ms2 hno

/-- Instance of `acknowledgement_body` at `LaunchResponse` and the response
`{"seq": 3, "type": "response", "request_seq": 2, "success": true, "command": "launch"}`. -/
theorem acknowledgement_body_witness :
    (Protocol.LaunchResponse ∈ Protocol.package ∧
      Protocol.LaunchResponse.name ∈ Protocol.acknowledgements) ∧
    (∀ m ∈ [("seq", JSON.num 3 0), ("type", .str "response"), ("request_seq", .num 2 0),
        ("success", .bool true), ("command", .str "launch")] ++ [],
      foldName m.1 ≠ foldName "body") ∧
    unmarshal Protocol.package "LaunchResponse"
      (.obj ([("seq", .num 3 0), ("type", .str "response"), ("request_seq", .num 2 0),
        ("success", .bool true), ("command", .str "launch")] ++ []))
      = .ok (.struct "LaunchResponse" [.nil, .string "launch", .string "",
          .float64 (.finite 1 1), .float64 (.finite 3 0), .bool true, .string "response"]) ∧
    Value.field Protocol.package
      (.struct "LaunchResponse" [.nil, .string "launch", .string "",
          .float64 (.finite 1 1), .float64 (.finite 3 0), .bool true, .string "response"]) "Body"
      = some .nil :=
  ⟨⟨by decide, by decide⟩, by decide, by decide,
    ((acknowledgement_body Protocol.LaunchResponse (by decide) (by decide)).2.2.2.2
      [("seq", .num 3 0), ("type", .str "response"), ("request_seq", .num 2 0),
        ("success", .bool true), ("command", .str "launch")] [] (by decide)).2 _ (by decide)⟩

/-! ## C22: the mandatory attributes of a module -/

/-- C22, the code at the failing input.  The doc comment of `Module` calls `id` and `name`
mandatory, and both fields are tagged `omitempty`.  The `Module` with `Id = "m1"` and an
empty `Name` serialises to `{"id": "m1"}`, without a `name` member; the `Module` with
`Name = "libc"` and no `Id` serialises to `{"name": "libc"}`, without an `id` member; the
zero `Module` serialises to `{}`. -/
theorem module_members_dropped :
    (Protocol.Module.fields.get? 2 = some ⟨"Id", .iface, "id", true⟩ ∧
     Protocol.Module.fields.get? 5 = some ⟨"Name", .string, "name", true⟩) ∧
    (IsStruct Protocol.package Protocol.Module
        (.struct "Module" [.string "", .string "", .iface (.string "m1"), .bool false,
          .bool false, .string "", .string "", .string "", .string "", .string ""]) = true ∧
     marshal Protocol.package
        (.struct "Module" [.string "", .string "", .iface (.string "m1"), .bool false,
          .bool false, .string "", .string "", .string "", .string "", .string ""])
      = .ok (.obj [("id", .str "m1")]) ∧
     JSON.member (.obj [("id", .str "m1")]) "name" = none) ∧
    (IsStruct Protocol.package Protocol.Module
        (.struct "Module" [.string "", .string "", .nil, .bool false,
          .bool false, .string "libc", .string "", .string "", .string "", .string ""]) = true ∧
     marshal Protocol.package
        (.struct "Module" [.string "", .string "", .nil, .bool false,
          .bool false, .string "libc", .string "", .string "", .string "", .string ""])
      = .ok (.obj [("name", .str "libc")]) ∧
     JSON.member (.obj [("name", .str "libc")]) "id" = none) ∧
    marshal Protocol.package (zeroStruct Protocol.Module) = .ok (.obj []) := by
  decide

/-! ## C23: serialisation is deterministic -/

/-- C23, counterexample.  Zero and negative zero are equal numbers in Go, so a `Module`
whose `Id` holds `-0` and one whose `Id` holds `0` are structurally equal, and so are two
`module` events whose bodies hold these ids; yet the first of each pair serialises with
`"id": -0` and the second with `"id": 0`, two different documents. -/
theorem equal_zeros_serialise_differently :
    (deepEqual
        (.struct "Module" [.string "", .string "", .iface (.float64 .negZero), .bool false,
          .bool false, .string "", .string "", .string "", .string "", .string ""])
        (.struct "Module" [.string "", .string "", .iface (.float64 Float64.zero), .bool false,
          .bool false, .string "", .string "", .string "", .string "", .string ""]) = true ∧
      marshal Protocol.package
          (.struct "Module" [.string "", .string "", .iface (.float64 .negZero), .bool false,
            .bool false, .string "", .string "", .string "", .string "", .string ""])
        = .ok (.obj [("id", .negZero)]) ∧
      marshal Protocol.package
          (.struct "Module" [.string "", .string "", .iface (.float64 Float64.zero),
            .bool false, .bool false, .string "", .string "", .string "", .string "",
            .string ""])
        = .ok (.obj [("id", .num 0 0)]) ∧
      JSON.obj [("id", .negZero)] ≠ JSON.obj [("id", .num 0 0)]) ∧
    (deepEqual
        (.struct "Event" [.iface (.map [("module", .iface (.map
            [("id", .iface (.float64 .negZero))]))]),
          .string "module", .float64 (.finite 1 0), .string "event"])
        (.struct "Event" [.iface (.map [("module", .iface (.map
            [("id", .iface (.float64 Float64.zero))]))]),
          .string "module", .float64 (.finite 1 0), .string "event"]) = true ∧
      marshal Protocol.package
          (.struct "Event" [.iface (.map [("module", .iface (.map
              [("id", .iface (.float64 .negZero))]))]),
            .string "module", .float64 (.finite 1 0), .string "event"])
        = .ok (.obj [("body", .obj [("module", .obj [("id", .negZero)])]),
            ("event", .str "module"), ("seq", .num 1 0), ("type", .str "event")]) ∧
      marshal Protocol.package
          (.struct "Event" [.iface (.map [("module", .iface (.map
              [("id", .iface (.float64 Float64.zero))]))]),
            .string "module", .float64 (.finite 1 0), .string "event"])
        = .ok (.obj [("body", .obj [("module", .obj [("id", .num 0 0)])]),
            ("event", .str "module"), ("seq", .num 1 0), ("type", .str "event")])) := by
  decide

/-- C23, amended.  Serialising is a function of the value, and the order of what it writes
is fixed: the members of a struct come in the declared order of its fields and the entries
of a map in the order of their keys; two values that hold the same data, equal in every
field and in every number down to the sign of a zero, the entries of their maps possibly
held in another order, serialise to the same document. -/
theorem serialisation_deterministic (pkg : Package) :
    (∀ (n : String) (vs : List Value) (j : JSON), marshal pkg (.struct n vs) = .ok j →
      ∃ d ms, pkg.find n = some d ∧ j = .obj ms ∧ (ms.map Prod.fst).Sublist d.tags) ∧
    (∀ (kvs : List (String × Value)) (j : JSON), marshal pkg (.map kvs) = .ok j →
      ∃ ms, j = .obj ms ∧ keysSorted ms = true) ∧
    (∀ (v w : Value) (j : JSON), sameData v w → marshal pkg v = .ok j →
      marshal pkg w = .ok j) := by
  refine ⟨?_, ?_, ?_⟩
  · intro n vs j hj
    simp only [marshal] at hj
    cases hf : pkg.find n with
    | none => rw [hf] at hj; cases hj
    | some d =>
      rw [hf] at hj
      simp only at hj
      cases h1 : marshalFields pkg d.fields vs with
      | error err => rw [h1] at hj; cases hj
      | ok ms =>
        rw [h1] at hj
        simp only [Except.ok.injEq] at hj
        exact ⟨d, ms, rfl, hj.symm, marshalFields_sublist pkg d.fields vs ms h1⟩
  · intro kvs j hj
    simp only [marshal] at hj
    cases h1 : marshalEntries pkg kvs with
    | error err => rw [h1] at hj; cases hj
    | ok ms =>
      rw [h1] at hj
      simp only [Except.ok.injEq] at hj
      exact ⟨sortMembers ms, hj.symm, keysSorted_sortMembers ms⟩
  · intro v w j h hj
    exact sameData_marshal pkg v w h j hj

/-- Instance of `serialisation_deterministic` at two `RunInTerminalRequestArguments` whose
`env` holds the entries `HOME` and `PATH` in the two possible orders. -/
theorem serialisation_deterministic_witness :
    sameData
      (.struct "RunInTerminalRequestArguments" [.slice [.string "ls"], .string "/",
        .map [("PATH", .string "/bin"), ("HOME", .string "/root")], .string "", .string ""])
      (.struct "RunInTerminalRequestArguments" [.slice [.string "ls"], .string "/",
        .map [("HOME", .string "/root"), ("PATH", .string "/bin")], .string "", .string ""]) ∧
    marshal Protocol.package
      (.struct "RunInTerminalRequestArguments" [.slice [.string "ls"], .string "/",
        .map [("HOME", .string "/root"), ("PATH", .string "/bin")], .string "", .string ""])
      = .ok (.obj [("args", .arr [.str "ls"]), ("cwd", .str "/"),
          ("env", .obj [("HOME", .str "/root"), ("PATH", .str "/bin")])]) :=
  ⟨⟨rfl, ⟨⟨rfl, trivial⟩, rfl, ⟨List.Perm.swap _ _ _, by decide⟩, rfl, rfl, trivial⟩⟩,
    (serialisation_deterministic Protocol.package).2.2
      (.struct "RunInTerminalRequestArguments" [.slice [.string "ls"], .string "/",
        .map [("PATH", .string "/bin"), ("HOME", .string "/root")], .string "", .string ""])
      (.struct "RunInTerminalRequestArguments" [.slice [.string "ls"], .string "/",
        .map [("HOME", .string "/root"), ("PATH", .string "/bin")], .string "", .string ""])
      _ ⟨rfl, ⟨⟨rfl, trivial⟩, rfl, ⟨List.Perm.swap _ _ _, by decide⟩, rfl, rfl, trivial⟩⟩
      (by decide)⟩

/-! ## C24: every field is optional on the wire -/

/-- C24.  In every struct declaration of the protocol and of the adapter package every
field is tagged `omitempty`.  The zero value serialises to `{}`.  Whenever a value of the
type serialises, the object lacks the member named by the tag of a field exactly when the
field holds an empty value (false, 0, the empty string, nil, a slice or map of length 0),
and otherwise the member holds the serialised field.  Two values whose fields are
pairwise equal or both empty serialise alike. -/
theorem every_field_optional (pkg : Package)
    (hp : pkg = Protocol.package ∨ pkg = Adapter.package) (d : StructDecl) (hd : d ∈ pkg) :
    (∀ f ∈ d.fields, f.omitempty = true) ∧
    marshal pkg (zeroStruct d) = .ok (.obj []) ∧
    (∀ (vs : List Value) (j : JSON) (i : Nat) (f : Field) (v : Value),
      marshal pkg (.struct d.name vs) = .ok j → d.fields.get? i = some f →
      vs.get? i = some v →
      (JSON.member j f.tag = none ↔ isEmptyValue v = true) ∧
      (isEmptyValue v = false →
        ∃ x, marshal pkg v = .ok x ∧ JSON.member j f.tag = some x)) ∧
    (∀ vs ws : List Value,
      List.Forall₂ (fun v w => v = w ∨ (isEmptyValue v = true ∧ isEmptyValue w = true)) vs ws →
      marshal pkg (.struct d.name vs) = marshal pkg (.struct d.name ws)) := by
  have hwf : pkg.wellFormed = true := by
    rcases hp with rfl | rfl
    · exact protocol_wellFormed
    · exact adapter_wellFormed
  have hom : ∀ f ∈ d.fields, f.omitempty = true := by
    rcases hp with rfl | rfl
    · exact protocol_omitempty d hd
    · exact adapter_omitempty d hd
  have hzero : marshal pkg (zeroStruct d) = .ok (.obj []) := by
    rcases hp with rfl | rfl
    · exact protocol_zero d hd
    · exact adapter_zero d hd
  have hfind := wellFormed_find hwf hd
  have hnd := wellFormed_nodup hwf hd
  refine ⟨hom, hzero, ?_, ?_⟩
  · intro vs j i f v hj hf hv
    simp only [marshal, hfind] at hj
    cases hms : marshalFields pkg d.fields vs with
    | error err => rw [hms] at hj; cases hj
    | ok ms =>
      rw [hms] at hj
      cases hj
      have look := marshalFields_lookup pkg d.fields vs ms i f v hnd hms
        (by simpa [List.get?_eq_getElem?] using hf) (by simpa [List.get?_eq_getElem?] using hv)
      have hfo := hom f (List.get?_mem hf)
      simp only [hfo, Bool.true_and] at look
      simp only [JSON.member]
      cases he : isEmptyValue v with
      | true =>
        rw [he] at look
        simp only [if_true] at look
        exact ⟨⟨fun _ => rfl, fun _ => look⟩, fun h => (by cases h)⟩
      | false =>
        rw [he] at look
        simp only [Bool.false_eq_true, if_false] at look
        obtain ⟨x, hx1, hx2⟩ := look
        exact ⟨⟨fun h => (by rw [hx2] at h; cases h), fun h => (by cases h)⟩,
          fun _ => ⟨x, hx1, hx2⟩⟩
  · intro vs ws h
    simp only [marshal, hfind]
    rw [marshalFields_empty_congr pkg d.fields vs ws hom h]

/-- Instance of `every_field_optional` at `ContinueArguments`: with `threadId = 0` the
member is left out, with `threadId = 3` it is written. -/
theorem every_field_optional_witness :
    Protocol.ContinueArguments ∈ Protocol.package ∧
    marshal Protocol.package (zeroStruct Protocol.ContinueArguments) = .ok (.obj []) ∧
    (JSON.member (.obj [("threadId", .num 3 0)]) "threadId" = none
      ↔ isEmptyValue (.float64 (.finite 3 0)) = true) :=
  ⟨by decide,
    (every_field_optional Protocol.package (Or.inl rfl) Protocol.ContinueArguments
      (by decide)).2.1,
    ((every_field_optional Protocol.package (Or.inl rfl) Protocol.ContinueArguments
      (by decide)).2.2.1 [.float64 (.finite 3 0)] (.obj [("threadId", .num 3 0)]) 0
      ⟨"ThreadId", .float64, "threadId", true⟩ (.float64 (.finite 3 0))
      (by decide) (by decide) (by decide)).1⟩

/-! ## C25: member names are unambiguous -/

/-- C25.  In every struct declaration of the protocol and of the adapter package the
member names given by the tags are pairwise distinct, also after case folding.  Hence two
fields whose tags both equal a member name up to letter case are the same field, and
every member name that equals the tag of a field up to letter case is stored in that
field: no field is shadowed by another. -/
theorem member_names_unambiguous (pkg : Package)
    (hp : pkg = Protocol.package ∨ pkg = Adapter.package) (d : StructDecl) (hd : d ∈ pkg) :
    d.tags.Nodup ∧ (d.tags.map foldName).Nodup ∧
    (∀ (k : String) (i j : Nat) (f g : Field), d.fields.get? i = some f →
      d.fields.get? j = some g → foldName f.tag = foldName k → foldName g.tag = foldName k →
      i = j) ∧
    (∀ (i : Nat) (f : Field), d.fields.get? i = some f →
      ∀ k : String, foldName k = foldName f.tag → findField d.fields k = some i) := by
  have hfold : (d.tags.map foldName).Nodup := by
    rcases hp with rfl | rfl
    · exact protocol_foldNodup d hd
    · exact adapter_foldNodup d hd
  have hfold' : (d.fields.map (fun f => foldName f.tag)).Nodup := by
    simpa [StructDecl.tags, List.map_map, Function.comp] using hfold
  refine ⟨(List.Nodup.of_map _ hfold), hfold, ?_, ?_⟩
  · intro k i j f g hi hj hf hg
    exact nodup_map_index (fun f => foldName f.tag) d.fields i j f g hfold' hi hj
      (by simp only [hf, hg])
  · intro i f hf k hk
    exact findField_of_fold d.fields hfold i f hf k hk

/-- Instance of `member_names_unambiguous` at `Source` of the protocol package: the
member name `ADAPTERDATA` is stored in the field tagged `adapterData`. -/
theorem member_names_unambiguous_witness :
    Protocol.Source ∈ Protocol.package ∧
    Protocol.Source.fields.get? 0 = some ⟨"AdapterData", .iface, "adapterData", true⟩ ∧
    foldName "ADAPTERDATA" = foldName "adapterData" ∧
    findField Protocol.Source.fields "ADAPTERDATA" = some 0 :=
  ⟨by decide, by decide, by decide,
    (member_names_unambiguous Protocol.package (Or.inl rfl) Protocol.Source (by decide)).2.2.2
      0 ⟨"AdapterData", .iface, "adapterData", true⟩ (by decide) "ADAPTERDATA" (by decide)⟩

/-! ## C26: restricted round trip -/

/-- C26, counterexample.  `ProtocolMessage` has a number and a string field only, so its
values meet the conditions on lists, maps and untyped fields.  The values with
`Seq = NaN` and with `Seq = +Inf` are values of the type, and serialising them fails with
the error for unsupported values: there is no document to parse back.  The value with
`Seq = 1` and with the `Type` of the single byte `0xFF`, which is not valid UTF-8,
serialises with `"type": "\uFFFD"` and is parsed back with that `Type`, a different value.
A `Source` without untyped data whose `Sources` list holds a pointer to the `Source` itself
does not serialise either. -/
theorem restricted_roundtrip_fails :
    Protocol.ProtocolMessage.fields.map (fun f => f.type) = [.float64, .string] ∧
    (IsStruct Protocol.package Protocol.ProtocolMessage
        (.struct "ProtocolMessage" [.float64 .nan, .string "event"]) = true ∧
      marshal Protocol.package (.struct "ProtocolMessage" [.float64 .nan, .string "event"])
        = .error .unsupportedValue) ∧
    (IsStruct Protocol.package Protocol.ProtocolMessage
        (.struct "ProtocolMessage" [.float64 (.inf false), .string "event"]) = true ∧
      marshal Protocol.package
          (.struct "ProtocolMessage" [.float64 (.inf false), .string "event"])
        = .error .unsupportedValue) ∧
    (validUTF8 [0xFF] = false ∧
      marshal Protocol.package
          (.struct "ProtocolMessage" [.float64 (.finite 1 0), .bytes [0xFF]])
        = .ok (.obj [("seq", .num 1 0), ("type", .str "\uFFFD")]) ∧
      unmarshal Protocol.package "ProtocolMessage"
          (.obj [("seq", .num 1 0), ("type", .str "\uFFFD")])
        = .ok (.struct "ProtocolMessage" [.float64 (.finite 1 0), .string "\uFFFD"]) ∧
      Value.struct "ProtocolMessage" [.float64 (.finite 1 0), .string "\uFFFD"]
        ≠ .struct "ProtocolMessage" [.float64 (.finite 1 0), .bytes [0xFF]]) ∧
    marshal Protocol.package
        (.struct "Source" [.nil, .nil, .string "main.go", .string "", .string "", .string "",
          .float64 (.finite 0 0), .slice [.backref 0]])
      = .error .unsupportedValue := by
  decide

/-- C26, amended.  For every struct type of the protocol and of the adapter package and
every value `m` of it in which every string is valid UTF-8, no pointer leads back to a
struct that holds it, every number is finite and not negative zero, every slice and map is
nil or not empty and every `interface{}` is nil or holds a value of the form produced by
parsing JSON (these are the conditions of `RepStruct`): `m` serialises; when the document
nests at most `maxNestingDepth` deep, parsing it as the same type yields `m`, and when it
nests deeper, parsing refuses it.  Every value that parsing a document stores in an
`interface{}` is of that form. -/
theorem catalogue_roundtrip (pkg : Package)
    (hp : pkg = Protocol.package ∨ pkg = Adapter.package) (d : StructDecl) (hd : d ∈ pkg) :
    (∀ m : Value, RepStruct pkg d m = true →
      ∃ j, marshal pkg m = .ok j ∧
        (j.depth ≤ maxNestingDepth → unmarshal pkg d.name j = .ok m) ∧
        (maxNestingDepth < j.depth → unmarshal pkg d.name j = .error .maxDepth)) ∧
    (∀ (x : JSON) (w : Value), decodeIface x = .ok w → Rep pkg .iface w = true) := by
  have hwf : pkg.wellFormed = true := by
    rcases hp with rfl | rfl
    · exact protocol_wellFormed
    · exact adapter_wellFormed
  refine ⟨fun m hm => ?_, ?_⟩
  · obtain ⟨j, h1, h2⟩ := struct_roundtrip pkg hwf d hd m hm
    exact ⟨j, h1, fun h => by rw [unmarshal_of_depth h, h2], fun h => unmarshal_too_deep h⟩
  · intro x w hw
    have h := decodeIface_fromJSON x w hw
    cases w <;> simp_all [fromJSONIface, Rep]

/-- Instance of `catalogue_roundtrip` at a `Source` with a name, a path, a sub-source and
`adapterData` parsed from `{"handle": 12}`. -/
theorem catalogue_roundtrip_witness :
    decodeIface (.obj [("handle", .num 12 0)])
      = .ok (.iface (.map [("handle", .iface (.float64 (.finite 3 2)))])) ∧
    marshal Protocol.package
        (.struct "Source" [.iface (.map [("handle", .iface (.float64 (.finite 3 2)))]), .nil,
          .string "main.go", .string "", .string "/src/main.go", .string "",
          .float64 (.finite 0 0),
          .slice [.ptr (.struct "Source" [.nil, .nil, .string "gen.go", .string "",
            .string "", .string "", .float64 (.finite 7 0), .nil])]])
      = .ok (.obj [("adapterData", .obj [("handle", .num 12 0)]), ("name", .str "main.go"),
          ("path", .str "/src/main.go"),
          ("sources", .arr [.obj [("name", .str "gen.go"), ("sourceReference", .num 7 0)]])]) ∧
    unmarshal Protocol.package "Source"
        (.obj [("adapterData", .obj [("handle", .num 12 0)]), ("name", .str "main.go"),
          ("path", .str "/src/main.go"),
          ("sources", .arr [.obj [("name", .str "gen.go"), ("sourceReference", .num 7 0)]])])
      = .ok (.struct "Source" [.iface (.map [("handle", .iface (.float64 (.finite 3 2)))]),
          .nil, .string "main.go", .string "", .string "/src/main.go", .string "",
          .float64 (.finite 0 0),
          .slice [.ptr (.struct "Source" [.nil, .nil, .string "gen.go", .string "",
            .string "", .string "", .float64 (.finite 7 0), .nil])]]) := by
  obtain ⟨j, hj, h1, -⟩ :=
    (catalogue_roundtrip Protocol.package (Or.inl rfl) Protocol.Source (by decide)).1
      (.struct "Source" [.iface (.map [("handle", .iface (.float64 (.finite 3 2)))]), .nil,
        .string "main.go", .string "", .string "/src/main.go", .string "",
        .float64 (.finite 0 0),
        .slice [.ptr (.struct "Source" [.nil, .nil, .string "gen.go", .string "",
          .string "", .string "", .float64 (.finite 7 0), .nil])]]) (by decide)
  have hJ : marshal Protocol.package
        (.struct "Source" [.iface (.map [("handle", .iface (.float64 (.finite 3 2)))]), .nil,
          .string "main.go", .string "", .string "/src/main.go", .string "",
          .float64 (.finite 0 0),
          .slice [.ptr (.struct "Source" [.nil, .nil, .string "gen.go", .string "",
            .string "", .string "", .float64 (.finite 7 0), .nil])]])
      = .ok (.obj [("adapterData", .obj [("handle", .num 12 0)]), ("name", .str "main.go"),
          ("path", .str "/src/main.go"),
          ("sources", .arr [.obj [("name", .str "gen.go"), ("sourceReference", .num 7 0)]])]) := by
    decide
  rw [hJ] at hj
  cases hj
  exact ⟨by decide, hJ, h1 (by decide)⟩

end DAP
